import Mathlib

/-!
# RandomPlayerbotMgr: event store and phased bot admission

A shallow embedding of parts of `src/RandomPlayerbotMgr.cpp`:

* the TTL event store (`GetEventValue`, `GetEventData`, `SetEventValue`, the `reset`
  console command), as explicit state passing over the persisted table
  `playerbots_random_bots` and the in-memory `eventCache`;
* `AddRandomBots` with its `tryLoginBot` lambda and login phases 1-4;
* `AssignAccountTypes` over the map `currentAssignments`, with the size of the general
  pool computed in a 32-bit `int`;
* `UpdateAIInternal`, one scheduler tick, over a host that supplies `ProcessBot(uint32)`
  and the other collaborators;
* `ProcessBot(Player*)`, the per-bot decision step, with `Randomize`, `RandomizeFirst`,
  `Revive` and `Refresh`;
* `ProcessBot(uint32)`, `GetBots` and `OnPlayerLoginError`, which maintain `currentBots`;
* the handler loop of `HandlePlayerbotConsoleCommand` for the per-bot commands;
* `CheckBgQueue`, the aggregation of `BattlegroundData` and the minimum-instance-count
  policies.

Conventions.  `uint32` values are natural numbers; where the source truncates or can wrap
(`(uint32)time(nullptr)`, `uint32` products, sums and decrements) the model writes the
`% 2^32` explicitly.  `time_t` is a signed 64-bit integer and is modelled as an `Int`.
Every read of the wall clock, every outcome of a database commit and every random draw is
an explicit argument; one call of `AddRandomBots`, one tick and one decision step are each
taken at one clock value.  The host function `urand(min, max)` is an argument per call
site; its contract (a value in `[min, max]` when `min <= max`) is assumed where a theorem
needs it.  Database statements take effect in program order.  Event names are C strings
without an embedded NUL (all callers pass literals), so `event.c_str()` is the name itself.
A dereference of a null pointer makes the result of a model `none`.
-/

namespace RandomPlayerbotMgr

/-- Two to the power 32, the modulus of `uint32` arithmetic. -/
def U32 : Nat := 4294967296

/-! ## Data model -/

/-- Class `CachedEvent`: the four fields the source reads and writes
(`value`, `lastChangeTime`, `validIn`, `data`). -/
structure CachedEvent where
  value : Nat
  lastChangeTime : Nat
  validIn : Nat
  data : String
deriving DecidableEq, Repr

/-- Modelled from the spec: the declaration of `CachedEvent` (RandomPlayerbotMgr.h) is not
among the sources.  A default-constructed event, as `eventCache[bot][event]` creates for an
absent key, is the absent event: the spec has reads "defaulting to 0 if absent", so its
value is 0; the other fields are zero and the payload empty. -/
def CachedEvent.absent : CachedEvent := ⟨0, 0, 0, ""⟩

/-- One row of the persisted table `playerbots_random_bots`
`(owner, bot, time, validIn, event, value, data)`; `data` is nullable. -/
structure EventRow where
  owner : Nat
  bot : Nat
  time : Nat
  validIn : Nat
  event : String
  value : Nat
  data : Option String
deriving DecidableEq, Repr

/-- The inner map `std::map<std::string, CachedEvent>` of one bot, as an association list
without duplicate keys. -/
abbrev EventMap := List (String × CachedEvent)

/-- Lookup of a key (`map::find`). -/
def EventMap.get? (m : EventMap) (k : String) : Option CachedEvent :=
  match m with
  | [] => none
  | (k1, e) :: rest => if k1 = k then some e else EventMap.get? rest k

/-- Assignment `m[k] = e`: replaces the entry of `k`, or creates it. -/
def EventMap.set (m : EventMap) (k : String) (e : CachedEvent) : EventMap :=
  match m with
  | [] => [(k, e)]
  | (k1, e1) :: rest => if k1 = k then (k, e) :: rest else (k1, e1) :: EventMap.set rest k e

/-- The value of `m[k]` read through `operator[]`: the stored event, or a
default-constructed one. -/
def EventMap.at (m : EventMap) (k : String) : CachedEvent :=
  (m.get? k).getD CachedEvent.absent

/-- The event store: the persisted table and the in-memory cache
`eventCache : bot -> event name -> CachedEvent`.  A bot without an entry in the outer map is
a bot with an empty inner map (`eventCache[bot]` creates it empty). -/
structure Store where
  table : List EventRow
  eventCache : Nat → EventMap

/-- Replace the inner map of one bot. -/
def Store.setCache (s : Store) (bot : Nat) (m : EventMap) : Store :=
  { s with eventCache := fun b => if b = bot then m else s.eventCache b }

/-! ## Event store operations -/

/-- Statement `PLAYERBOTS_SEL_RANDOM_BOTS_BY_OWNER_AND_BOT` with owner 0: the rows of a
bot, in table order. -/
def selByOwnerAndBot (table : List EventRow) (bot : Nat) : List EventRow :=
  table.filter (fun r => decide (r.owner = 0 ∧ r.bot = bot))

/-- The event built from one fetched row (`fields[1..4]`); a NULL payload reads as the
empty string. -/
def rowEvent (r : EventRow) : CachedEvent :=
  ⟨r.value, r.time, r.validIn, r.data.getD ""⟩

/-- The `do ... while (result->NextRow())` loop of `GetEventValue`:
`eventCache[bot][eventName] = e` for each fetched row. -/
def loadRows (rows : List EventRow) (m : EventMap) : EventMap :=
  match rows with
  | [] => m
  | r :: rest => loadRows rest (m.set r.event (rowEvent r))

/-- First block of `GetEventValue`: "load all events at once on first event load", taken
when `eventCache[bot].empty()`. -/
def loadEvents (s : Store) (bot : Nat) : Store :=
  if (s.eventCache bot).isEmpty then
    s.setCache bot (loadRows (selByOwnerAndBot s.table bot) (s.eventCache bot))
  else s

/-- The expiry test `(time(0) - e.lastChangeTime) >= e.validIn`, a signed 64-bit
comparison. -/
def expired (now : Int) (e : CachedEvent) : Bool :=
  decide (now - (e.lastChangeTime : Int) ≥ (e.validIn : Int))

/-- The two keys that never expire. -/
def neverExpires (event : String) : Bool :=
  event == "specNo" || event == "specLink"

/-- The event `GetEventValue` leaves in the cache: its value is cleared when it is expired
and the key is not one of the two non-expiring keys. -/
def refreshed (now : Int) (event : String) (e : CachedEvent) : CachedEvent :=
  if expired now e && !neverExpires event then { e with value := 0 } else e

/-- `RandomPlayerbotMgr::GetEventValue(bot, event)` at wall-clock time `now`: the value
returned and the store afterwards. -/
def GetEventValue (s : Store) (now : Int) (bot : Nat) (event : String) : Nat × Store :=
  let s1 := loadEvents s bot
  let e := refreshed now event ((s1.eventCache bot).at event)
  (e.value, s1.setCache bot ((s1.eventCache bot).set event e))

/-- `RandomPlayerbotMgr::GetEventData(bot, event)`. -/
def GetEventData (s : Store) (now : Int) (bot : Nat) (event : String) : String × Store :=
  let r := GetEventValue s now bot event
  if r.1 ≠ 0 then (((r.2.eventCache bot).at event).data, r.2) else ("", r.2)

/-- The transaction of `SetEventValue` applied to the table: the delete statement
`PLAYERBOTS_DEL_RANDOM_BOTS_BY_OWNER_AND_EVENT (0, bot, event)`, then, when `value` is
non-zero, `PLAYERBOTS_INS_RANDOM_BOTS` with the game time truncated to `uint32` and a NULL
payload for the empty string. -/
def setTransaction (table : List EventRow) (gameTime : Int) (bot : Nat) (event : String)
    (value validIn : Nat) (data : String) : List EventRow :=
  let kept := table.filter (fun r => !decide (r.owner = 0 ∧ r.bot = bot ∧ r.event = event))
  if value ≠ 0 then
    kept ++ [⟨0, bot, (gameTime % (U32 : Int)).toNat, validIn, event, value,
              if data ≠ "" then some data else none⟩]
  else kept

/-- `RandomPlayerbotMgr::SetEventValue(bot, event, value, validIn, data)`.
`commitOk` says whether `CommitTransaction` made the transaction durable (the source does
not look at the outcome); `gameTime` is `GameTime::GetGameTime()` and `now` is
`time(nullptr)`. -/
def SetEventValue (s : Store) (commitOk : Bool) (gameTime now : Int) (bot : Nat)
    (event : String) (value validIn : Nat) (data : String) : Nat × Store :=
  let table1 := if commitOk then setTransaction s.table gameTime bot event value validIn data
                else s.table
  let e : CachedEvent := ⟨value, (now % (U32 : Int)).toNat, validIn, data⟩
  (value, { table := table1,
            eventCache := fun b => if b = bot then (s.eventCache bot).set event e
                                   else s.eventCache b })

/-- The outcome of `HandlePlayerbotConsoleCommand`: the returned flag and the store. -/
structure ConsoleResult where
  ok : Bool
  store : Store

/-- Modelled from the spec: statement `PLAYERBOTS_DEL_RANDOM_BOTS` is declared outside the
sources; "clears all persisted events" makes it the deletion of every row. -/
def delRandomBots (_table : List EventRow) : List EventRow := []

/-- `RandomPlayerbotMgr::HandlePlayerbotConsoleCommand`, the part that touches the event
store: the guards on `enabled` and on empty arguments, and the `reset` branch.  `args` is
`none` for a null pointer.  Every other command leaves the store to its own handler, which is
not modelled: the result is `none` there. -/
def HandlePlayerbotConsoleCommand (enabled : Bool) (s : Store) (args : Option String) :
    Option ConsoleResult :=
  if !enabled then some ⟨false, s⟩
  else match args with
    | none => some ⟨false, s⟩
    | some cmd =>
      if cmd = "" then some ⟨false, s⟩
      else if cmd = "reset" then
        some ⟨true, { table := delRandomBots s.table, eventCache := fun _ => [] }⟩
      else none

/-! ## AddRandomBots -/

/-- The local struct `CharacterInfo` of `AddRandomBots`. -/
structure CharacterInfo where
  guid : Nat
  rClass : Nat
  rRace : Nat
  accountId : Nat
deriving DecidableEq, Repr

/-- The class id `CLASS_DEATH_KNIGHT` (SharedDefines.h). -/
def CLASS_DEATH_KNIGHT : Nat := 6

/-- The fields of `sPlayerbotAIConfig` that `AddRandomBots` reads, all taken as `uint32`
(or `bool`) parameters: their declarations are outside the sources. -/
structure Config where
  randomBotsPerInterval : Nat
  randomBotAllianceRatio : Nat
  randomBotHordeRatio : Nat
  enablePeriodicOnlineOffline : Bool
  periodicOnlineOfflineRatio : Nat
  minRandomBotInWorldTime : Nat
  maxRandomBotInWorldTime : Nat
  permanantlyInWorldTime : Nat
  disableDeathKnightLogin : Bool

/-- What `AddRandomBots` asks of the host: `GetPlayerBot(guid)` being non-null, the rows
`(guid, class, race)` of statement `CHAR_SEL_CHARS_BY_ACCOUNT_ID` for an account,
`IsAlliance(race)`, and `RandomPlayerbotFactory::CalculateAvailableCharsPerAccount()`. -/
structure Host where
  playerBot : Nat → Bool
  charsByAccount : Nat → List (Nat × Nat × Nat)
  isAlliance : Nat → Bool
  availableCharsPerAccount : Int

/-- The environment of one call of `AddRandomBots`: the wall clock `time(...)` and the game
time (one call is taken at one clock value), whether the commit of `SetEventValue(bot,
event, ...)` is durable, the draw `urand(1, totalRatio)`, the two `std::shuffle`
permutations, and the draw `urand(minRandomBotInWorldTime, maxRandomBotInWorldTime)` made
when a character is admitted. -/
structure Env where
  now : Int
  gameTime : Int
  commitOk : Nat → String → Bool
  coin : Nat
  shuffleAccounts : List Nat → List Nat
  shuffleChars : List CharacterInfo → List CharacterInfo
  addTime : Nat → Nat

/-- The manager state `AddRandomBots` works on: the event store, `currentBots`,
`rndBotTypeAccounts` and the function-static `missingBotsTimer`. -/
structure Mgr where
  store : Store
  currentBots : List Nat
  rndBotTypeAccounts : List Nat
  missingBotsTimer : Int

/-- The decrement `x--` of a `uint32`. -/
def dec32 (x : Nat) : Nat := (x + U32 - 1) % U32

/-- The lambda `tryLoginBot` of `AddRandomBots`: the returned flag and the manager
afterwards.  The `||` chain is evaluated left to right and stops at the first true
operand. -/
def tryLoginBot (cfg : Config) (host : Host) (env : Env) (m : Mgr) (c : CharacterInfo) :
    Bool × Mgr :=
  let r1 := GetEventValue m.store env.now c.guid "add"
  if r1.1 ≠ 0 then (false, { m with store := r1.2 })
  else
    let r2 := GetEventValue r1.2 env.now c.guid "logout"
    if r2.1 ≠ 0 then (false, { m with store := r2.2 })
    else if host.playerBot c.guid ∨ c.guid ∈ m.currentBots ∨
        (cfg.disableDeathKnightLogin ∧ c.rClass = CLASS_DEATH_KNIGHT) then
      (false, { m with store := r2.2 })
    else
      let add_time := if cfg.enablePeriodicOnlineOffline then env.addTime c.guid
                      else cfg.permanantlyInWorldTime
      let s3 := (SetEventValue r2.2 (env.commitOk c.guid "add") env.gameTime env.now
                  c.guid "add" 1 add_time "").2
      let s4 := (SetEventValue s3 (env.commitOk c.guid "logout") env.gameTime env.now
                  c.guid "logout" 0 0 "").2
      (true, { m with store := s4, currentBots := m.currentBots ++ [c.guid] })

/-- One entry of the ghost trace of admissions: the character `tryLoginBot` returned true
for, with the manager and the two countdowns as they were at that call (before the
decrements). -/
structure Admission where
  mgr : Mgr
  maxAllowedBotCount : Nat
  allowedAllianceCount : Nat
  char : CharacterInfo

/-- The variables of the login phases: the two `uint32` countdowns and the manager.
`admitted` is a ghost trace, not program state: one entry for every call of `tryLoginBot`
that returned true, in order. -/
structure LoginLoop where
  maxAllowedBotCount : Nat
  allowedAllianceCount : Nat
  mgr : Mgr
  admitted : List Admission

/-- The loop of PHASE 1: Alliance characters while `allowedAllianceCount` is non-zero. -/
def phase1 (cfg : Config) (host : Host) (env : Env) :
    List CharacterInfo → LoginLoop → LoginLoop
  | [], st => st
  | c :: rest, st =>
    if st.allowedAllianceCount = 0 then st
    else
      let r := tryLoginBot cfg host env st.mgr c
      if r.1 then
        phase1 cfg host env rest
          { maxAllowedBotCount := dec32 st.maxAllowedBotCount,
            allowedAllianceCount := dec32 st.allowedAllianceCount,
            mgr := r.2,
            admitted := st.admitted ++
              [⟨st.mgr, st.maxAllowedBotCount, st.allowedAllianceCount, c⟩] }
      else phase1 cfg host env rest { st with mgr := r.2 }

/-- The loop shared by PHASE 2 (over the Horde characters) and PHASE 3 (over the Alliance
characters again): characters while `maxAllowedBotCount` is non-zero. -/
def phaseUpToMax (cfg : Config) (host : Host) (env : Env) :
    List CharacterInfo → LoginLoop → LoginLoop
  | [], st => st
  | c :: rest, st =>
    if st.maxAllowedBotCount = 0 then st
    else
      let r := tryLoginBot cfg host env st.mgr c
      if r.1 then
        phaseUpToMax cfg host env rest
          { st with maxAllowedBotCount := dec32 st.maxAllowedBotCount,
                    mgr := r.2,
                    admitted := st.admitted ++
                      [⟨st.mgr, st.maxAllowedBotCount, st.allowedAllianceCount, c⟩] }
      else phaseUpToMax cfg host env rest { st with mgr := r.2 }

/-- State at the entry of PHASE 1. -/
def loginStart (maxAllowedBotCount allowedAllianceCount : Nat) (m : Mgr) : LoginLoop :=
  ⟨maxAllowedBotCount, allowedAllianceCount, m, []⟩

/-- The capped shortfall: `maxAllowedBotCount -= currentBots.size()` and the `std::min`
with `randomBotsPerInterval` (taken when `currentBots.size() < maxAllowedBotCount`). -/
def shortfall (cfg : Config) (target : Nat) (m : Mgr) : Nat :=
  min cfg.randomBotsPerInterval ((target - m.currentBots.length) % U32)

/-- The sum `totalRatio`, a `uint32`. -/
def totalRatio (cfg : Config) : Nat :=
  (cfg.randomBotAllianceRatio + cfg.randomBotHordeRatio) % U32

/-- The Alliance quota `allowedAllianceCount`, with the weighted coin flip on the
remainder ("Fix #1082"); `coin` is the draw `urand(1, totalRatio)`. -/
def allianceQuota (cfg : Config) (coin n : Nat) : Nat :=
  let product := (n * cfg.randomBotAllianceRatio) % U32
  let allowed := product / totalRatio cfg
  let remainder := product % totalRatio cfg
  if remainder ≠ 0 ∧ coin ≤ remainder then (allowed + 1) % U32 else allowed

/-- The accounts whose characters are enumerated (`accountsToUse`).  With periodic
online/offline cycling the count is computed in `size_t` and stored in a `uint32`. -/
def accountsToUse (cfg : Config) (env : Env) (m : Mgr) : List Nat :=
  if cfg.enablePeriodicOnlineOffline then
    let accountsToUseCount :=
      (((m.rndBotTypeAccounts.length + cfg.periodicOnlineOfflineRatio + 2 ^ 64 - 1) % 2 ^ 64)
        / cfg.periodicOnlineOfflineRatio) % U32
    (env.shuffleAccounts m.rndBotTypeAccounts).take accountsToUseCount
  else m.rndBotTypeAccounts

/-- The characters of the selected accounts in account order (`allCharacters` before the
shuffle). -/
def charactersOf (host : Host) (accounts : List Nat) : List CharacterInfo :=
  accounts.flatMap (fun accountId =>
    (host.charsByAccount accountId).map (fun row => ⟨row.1, row.2.1, row.2.2, accountId⟩))

/-- The list `allCharacters` after "Shuffle for class balance". -/
def allCharacters (cfg : Config) (host : Host) (env : Env) (m : Mgr) : List CharacterInfo :=
  env.shuffleChars (charactersOf host (accountsToUse cfg env m))

/-- The list `allianceChars`. -/
def allianceChars (host : Host) (cs : List CharacterInfo) : List CharacterInfo :=
  cs.filter (fun c => host.isAlliance c.rRace)

/-- The list `hordeChars`. -/
def hordeChars (host : Host) (cs : List CharacterInfo) : List CharacterInfo :=
  cs.filter (fun c => !host.isAlliance c.rRace)

/-- The result of one call of `AddRandomBots`: the returned `currentBots.size()`, the
manager afterwards, the number `moreAccountsNeeded` of the "Can't log-in all the requested
bots" diagnostic when it is emitted, and (ghost) the variables at the end of PHASE 1,
PHASE 2 and PHASE 3 when the phases were run. -/
structure AddResult where
  ret : Nat
  mgr : Mgr
  diagnostic : Option Nat
  phases : Option (LoginLoop × LoginLoop × LoginLoop)

/-- PHASE 4 and the return, from the variables left by PHASE 3.  The result is `none` when
the diagnostic divides by a zero `divisor`. -/
def phase4 (host : Host) (env : Env) (p1 p2 p3 : LoginLoop) : Option AddResult :=
  let m := p3.mgr
  if p3.maxAllowedBotCount ≠ 0 then
    let timer := if m.missingBotsTimer = 0 then env.now else m.missingBotsTimer
    if env.now - timer ≥ 10 then
      let divisor := (host.availableCharsPerAccount % (U32 : Int)).toNat
      if divisor = 0 then none
      else
        some ⟨m.currentBots.length % U32, { m with missingBotsTimer := 0 },
              some (((p3.maxAllowedBotCount + divisor + U32 - 1) % U32) / divisor),
              some (p1, p2, p3)⟩
    else
      some ⟨m.currentBots.length % U32, { m with missingBotsTimer := timer }, none,
            some (p1, p2, p3)⟩
  else
    some ⟨m.currentBots.length % U32, { m with missingBotsTimer := 0 }, none,
          some (p1, p2, p3)⟩

/-- `RandomPlayerbotMgr::AddRandomBots()`.  The result is `none` where the source divides
by zero (`totalRatio`, `periodicOnlineOfflineRatio`, `divisor`). -/
def AddRandomBots (cfg : Config) (host : Host) (env : Env) (m : Mgr) : Option AddResult :=
  let r0 := GetEventValue m.store env.now 0 "bot_count"
  let m0 : Mgr := { m with store := r0.2 }
  if m0.currentBots.length < r0.1 then
    let n := shortfall cfg r0.1 m0
    if totalRatio cfg = 0 then none
    else if cfg.enablePeriodicOnlineOffline ∧ cfg.periodicOnlineOfflineRatio = 0 then none
    else
      let cs := allCharacters cfg host env m0
      let st := loginStart n (allianceQuota cfg env.coin n) m0
      let p1 := phase1 cfg host env (allianceChars host cs) st
      let p2 := phaseUpToMax cfg host env (hordeChars host cs) p1
      let p3 := phaseUpToMax cfg host env (allianceChars host cs) p2
      phase4 host env p1 p2 p3
  else
    some ⟨m0.currentBots.length % U32, { m0 with missingBotsTimer := 0 }, none, none⟩

/-- The event `GetEventValue(bot, event)` reads: `eventCache[bot][event]` after the load
block. -/
def cachedEvent (s : Store) (bot : Nat) (event : String) : CachedEvent :=
  ((loadEvents s bot).eventCache bot).at event

/-- The rows of the persisted table for `(owner 0, bot, event)`. -/
def rowsFor (table : List EventRow) (bot : Nat) (event : String) : List EventRow :=
  table.filter (fun r => decide (r.owner = 0 ∧ r.bot = bot ∧ r.event = event))

/-- The table invariant: at most one row per `(owner 0, bot, event)`. -/
def UniqueRows (table : List EventRow) : Prop :=
  ∀ bot event, (rowsFor table bot event).length ≤ 1

/-- The eligibility predicate of the spec, at a manager state and a clock value: no live
`add` event, no live `logout` event, not online, not in `currentBots`, and not a death
knight while `disableDeathKnightLogin` is set. -/
def eligible (cfg : Config) (host : Host) (now : Int) (m : Mgr) (c : CharacterInfo) : Prop :=
  (GetEventValue m.store now c.guid "add").1 = 0 ∧
  (GetEventValue m.store now c.guid "logout").1 = 0 ∧
  host.playerBot c.guid = false ∧
  c.guid ∉ m.currentBots ∧
  ¬ (cfg.disableDeathKnightLogin = true ∧ c.rClass = CLASS_DEATH_KNIGHT)

instance (cfg : Config) (host : Host) (now : Int) (m : Mgr) (c : CharacterInfo) :
    Decidable (eligible cfg host now m c) := by
  unfold eligible
  exact inferInstance

/-- The character ids of an admission trace, in order. -/
def admittedGuids (as : List Admission) : List Nat :=
  as.map (fun a => a.char.guid)

/-- Number of characters of a list that are eligible at manager state `m` and whose id is
not in `done`. -/
def eligibleCount (cfg : Config) (host : Host) (now : Int) (m : Mgr) (done : List Nat)
    (cs : List CharacterInfo) : Nat :=
  (cs.filter (fun c => decide (eligible cfg host now m c ∧ c.guid ∉ done))).length

/-- The invariant of the login loops relative to the manager `m` at the entry of PHASE 1:
`currentBots` is the entry list followed by the admitted ids, a character is eligible now
exactly when it was eligible at entry and has not been admitted since, and the other
manager fields are untouched. -/
def LoopInv (cfg : Config) (host : Host) (env : Env) (m : Mgr) (st : LoginLoop) : Prop :=
  st.mgr.currentBots = m.currentBots ++ admittedGuids st.admitted ∧
  (∀ c, eligible cfg host env.now st.mgr c ↔
    (eligible cfg host env.now m c ∧ c.guid ∉ admittedGuids st.admitted)) ∧
  st.mgr.rndBotTypeAccounts = m.rndBotTypeAccounts ∧
  st.mgr.missingBotsTimer = m.missingBotsTimer

/-- The target population `AddRandomBots` reads first:
`GetEventValue(0, "bot_count")`. -/
def botCountTarget (env : Env) (m : Mgr) : Nat :=
  (GetEventValue m.store env.now 0 "bot_count").1

/-- The manager after that first read. -/
def entryMgr (env : Env) (m : Mgr) : Mgr :=
  { m with store := (GetEventValue m.store env.now 0 "bot_count").2 }

/-- Number of Alliance characters in an admission trace. -/
def allianceAdmitted (host : Host) (as : List Admission) : Nat :=
  (as.filter (fun a => host.isAlliance a.char.rRace)).length

/-- Number of Horde characters in an admission trace. -/
def hordeAdmitted (host : Host) (as : List Admission) : Nat :=
  (as.filter (fun a => !host.isAlliance a.char.rRace)).length

/-- The Alliance share `N * A / (A + H)` of the spec, in unbounded arithmetic. -/
def allianceShare (cfg : Config) (n : Nat) : Nat :=
  n * cfg.randomBotAllianceRatio / (cfg.randomBotAllianceRatio + cfg.randomBotHordeRatio)

/-! ## Concrete inputs -/

/-- A host with one bot account (id 1) holding three characters: a human warrior (10),
a human death knight (11) and an orc warrior (12); nobody is online. -/
def sampleHost : Host :=
  ⟨fun _ => false,
   fun account => if account = 1 then [(10, 1, 1), (11, 6, 1), (12, 1, 2)] else [],
   fun race => race == 1, 10⟩

/-- A host with one bot account (id 1) holding three human characters 10, 11 and 12. -/
def humanHost : Host :=
  ⟨fun _ => false,
   fun account => if account = 1 then [(10, 1, 1), (11, 2, 1), (12, 4, 1)] else [],
   fun race => race == 1, 10⟩

/-- An environment at clock 1000 where commits succeed and the shuffles are the
identity. -/
def sampleEnv : Env :=
  ⟨1000, 1000, fun _ _ => true, 1, fun l => l, fun l => l, fun _ => 60⟩

/-- A manager with no active bot, account 1 in the general pool and the persisted, live
target `bot_count = target`. -/
def sampleMgr (target : Nat) : Mgr :=
  ⟨⟨[⟨0, 0, 900, 1000, "bot_count", target, none⟩], fun _ => []⟩, [], [1], 0⟩

/-- Ratio 1:1, rate cap 10, no periodic cycling, death knight login disabled. -/
def sampleConfig : Config := ⟨10, 1, 1, false, 1, 60, 120, 31104000, true⟩

/-- A configuration whose ratio sum wraps: `4294967295 + 2` is 1 in `uint32`; rate cap
`cap`. -/
def wrapConfig (cap : Nat) : Config := ⟨cap, 4294967295, 2, false, 1, 60, 120, 31104000, false⟩

/-- A configuration whose ratio sum wraps: `4294967294 + 3` is 1 in `uint32`; rate cap
`cap`. -/
def wrapConfig2 (cap : Nat) : Config := ⟨cap, 4294967294, 3, false, 1, 60, 120, 31104000, false⟩

/-- A host with one bot account (id 1) holding six human characters (ids 1 to 6) and six
orc characters (ids 11 to 16); nobody is online. -/
def balancedHost : Host :=
  ⟨fun _ => false,
   fun account => if account = 1 then
     [(1, 1, 1), (2, 2, 1), (3, 4, 1), (4, 5, 1), (5, 8, 1), (6, 9, 1),
      (11, 1, 2), (12, 3, 2), (13, 4, 2), (14, 7, 2), (15, 8, 2), (16, 9, 2)] else [],
   fun race => race == 1, 10⟩

/-- A manager whose population holds the 40 characters 1000 to 1039, with account 1 in the
general pool and the persisted, live target `bot_count = target`. -/
def populatedMgr (target : Nat) : Mgr :=
  ⟨⟨[⟨0, 0, 900, 1000, "bot_count", target, none⟩], fun _ => []⟩,
   (List.range 40).map (fun i => 1000 + i), [1], 0⟩

/-- A host with one bot account (id 1) holding two human characters (1, 2) and four orc
characters (11 to 14); nobody is online. -/
def hordeHeavyHost : Host :=
  ⟨fun _ => false,
   fun account => if account = 1 then
     [(1, 1, 1), (2, 2, 1), (11, 1, 2), (12, 3, 2), (13, 4, 2), (14, 7, 2)] else [],
   fun race => race == 1, 10⟩

/-- Ratio `2^30 : 2^30` (the ratio 1:1 written with large numbers), rate cap 4: the sum
`2^31` fits in a `uint32`, the product `4 * 2^30` does not. -/
def bigRatioConfig : Config :=
  ⟨4, 1073741824, 1073741824, false, 1, 60, 120, 31104000, false⟩

/-! ## AssignAccountTypes -/

/-- The fields of `sPlayerbotAIConfig` that `AssignAccountTypes` reads, taken as `uint32`
(or `bool`) parameters. -/
structure AccountConfig where
  maxRandomBots : Nat
  enablePeriodicOnlineOffline : Bool
  periodicOnlineOfflineRatio : Nat
  addClassAccountPoolSize : Nat

/-- The map `currentAssignments : std::map<uint32, uint8>`, as its keys in ascending order
and the role stored for each key.  The persisted table `playerbots_account_type`
`(account_id, account_type)`, whose key is `account_id`, is a map of the same kind: reading
all its rows into `currentAssignments` gives the table's content. -/
structure AccountMap where
  keys : List Nat
  role : Nat → Nat

/-- The entry of an account (`find`), if it has one. -/
def AccountMap.get? (m : AccountMap) (id : Nat) : Option Nat :=
  if id ∈ m.keys then some (m.role id) else none

/-- The value `currentAssignments[accountId]` reads: the stored role, 0 for an account
without an entry. -/
def AccountMap.roleOf (m : AccountMap) (id : Nat) : Nat :=
  if id ∈ m.keys then m.role id else 0

/-- The assignment `currentAssignments[accountId] = t`, creating the entry if needed. -/
def AccountMap.set (m : AccountMap) (id t : Nat) : AccountMap :=
  ⟨if id ∈ m.keys then m.keys else m.keys.orderedInsert (fun a b => a ≤ b) id,
   fun k => if k = id then t else m.role k⟩

/-- Number of entries with role `t` (the counting loop over `currentAssignments`). -/
def AccountMap.count (m : AccountMap) (t : Nat) : Nat :=
  (m.keys.filter (fun k => decide (m.role k = t))).length

/-- The accounts with role `t`, in ascending order (the loop that fills
`rndBotTypeAccounts` and `addClassTypeAccounts`). -/
def AccountMap.withRole (m : AccountMap) (t : Nat) : List Nat :=
  m.keys.filter (fun k => decide (m.role k = t))

/-- Conversion of an integer to a 32-bit `int` (two's complement). -/
def toInt32 (n : Int) : Int := (n + 2147483648) % 4294967296 - 2147483648

/-- Whether an integer is representable in a 32-bit `int`. -/
def inInt32 (n : Int) : Bool := decide (-2147483648 ≤ n ∧ n ≤ 2147483647)

/-- The block "Calculate needed RNDbot accounts": `neededRndBotAccounts`, computed in
`int`; `divisor` is `CalculateAvailableCharsPerAccount()`.  `maxBots *= ratio` multiplies
an `int` by a `uint32`, that is modulo `2^32`.  The result is `none` where the source has
undefined behaviour: an `int` overflow in `maxBots + divisor - 1`, or a division by zero
(or of `INT_MIN` by -1). -/
def neededRndBotAccounts (cfg : AccountConfig) (divisor : Int) : Option Nat :=
  if cfg.maxRandomBots > 0 then
    let maxBots : Int :=
      if cfg.enablePeriodicOnlineOffline then
        toInt32 (((cfg.maxRandomBots * cfg.periodicOnlineOfflineRatio) % U32 : Nat) : Int)
      else toInt32 (cfg.maxRandomBots : Int)
    if !inInt32 (maxBots + divisor) || !inInt32 (maxBots + divisor - 1) then none
    else if divisor = 0 then none
    else if maxBots + divisor - 1 = -2147483648 ∧ divisor = -1 then none
    else some ((Int.tdiv (maxBots + divisor - 1) divisor % (U32 : Int)).toNat)
  else some 0

/-- The loop "Mark ALL randombot accounts as unassigned if not already assigned": an
account without an entry gets the entry 0 (in the map and, by the `INSERT`, in the
table). -/
def markUnassigned (accounts : List Nat) (m : AccountMap) : AccountMap :=
  match accounts with
  | [] => m
  | id :: rest => markUnassigned rest (if id ∈ m.keys then m else m.set id 0)

/-- The two assignment loops: walk the accounts in the given order while
`assigned < toAssign`; an account whose role is 0 gets role `t` (in the map and, by the
`UPDATE`, in the table) and counts as assigned.  Returns `assigned` and the map. -/
def assignLoop (t : Nat) : List Nat → Nat → Nat → AccountMap → Nat × AccountMap
  | [], _, assigned, m => (assigned, m)
  | id :: rest, toAssign, assigned, m =>
    if assigned < toAssign then
      if m.roleOf id = 0 then assignLoop t rest toAssign (assigned + 1) (m.set id t)
      else assignLoop t rest toAssign assigned m
    else (assigned, m)

/-- The outcome of `AssignAccountTypes`: the final `currentAssignments` (which is also the
content of the table, every write to the map being paired with the statement that writes
the table), the two filtered lists, and the number of accounts missing in each of the two
"Not enough unassigned accounts" messages when emitted. -/
structure AssignResult where
  assignments : AccountMap
  rndBotTypeAccounts : List Nat
  addClassTypeAccounts : List Nat
  rndShortage : Option Nat
  addClassShortage : Option Nat

/-- `RandomPlayerbotMgr::AssignAccountTypes()`, from the list `allRandomBotAccounts` (the
ids of the bot accounts, ordered by id) and the table of existing assignments.  The loops
index the account list with a `uint32` and an `int`, and count in `uint32`: the list and the
table are taken to have fewer than `2^31` entries. -/
def AssignAccountTypes (cfg : AccountConfig) (divisor : Int) (allRandomBotAccounts : List Nat)
    (table : AccountMap) : Option AssignResult :=
  let m0 := markUnassigned allRandomBotAccounts table
  match neededRndBotAccounts cfg divisor with
  | none => none
  | some neededRnd =>
    let existingRnd := m0.count 1
    let existingAddClass := m0.count 2
    let r1 := if existingRnd < neededRnd then
                assignLoop 1 allRandomBotAccounts (neededRnd - existingRnd) 0 m0
              else (neededRnd - existingRnd, m0)
    let shortage1 := if existingRnd < neededRnd ∧ r1.1 < neededRnd - existingRnd then
                       some (neededRnd - existingRnd - r1.1) else none
    let neededAddClass := cfg.addClassAccountPoolSize
    let r2 := if existingAddClass < neededAddClass then
                assignLoop 2 allRandomBotAccounts.reverse (neededAddClass - existingAddClass)
                  0 r1.2
              else (neededAddClass - existingAddClass, r1.2)
    let shortage2 := if existingAddClass < neededAddClass ∧
                         r2.1 < neededAddClass - existingAddClass then
                       some (neededAddClass - existingAddClass - r2.1) else none
    some ⟨r2.2, r2.2.withRole 1, r2.2.withRole 2, shortage1, shortage2⟩

/-- The map after the block "Assign RNDbot accounts from lowest position if needed", from
the map `m0` left by the marking loop. -/
def afterRndAssign (neededRnd : Nat) (accounts : List Nat) (m0 : AccountMap) : AccountMap :=
  if m0.count 1 < neededRnd then (assignLoop 1 accounts (neededRnd - m0.count 1) 0 m0).2
  else m0

/-- The map after the block "Assign AddClass accounts from highest position if needed",
from the map `m1` left by the previous block; the existing class-coverage accounts were
counted on `m0`. -/
def afterAddClassAssign (neededAddClass : Nat) (accounts : List Nat) (m0 m1 : AccountMap) :
    AccountMap :=
  if m0.count 2 < neededAddClass then
    (assignLoop 2 accounts.reverse (neededAddClass - m0.count 2) 0 m1).2
  else m1

/-- The listed accounts that are Unassigned in the map `m` (role 0, or no entry yet), in
the order of the list. -/
def unassignedAccounts (accounts : List Nat) (m : AccountMap) : List Nat :=
  accounts.filter (fun id => decide (m.roleOf id = 0))

/-- The first `shortfall` Unassigned accounts of the list: for an id-sorted list, the
lowest-id ones (all of them if there are fewer). -/
def lowestUnassigned (shortfall : Nat) (accounts : List Nat) (m : AccountMap) : List Nat :=
  (unassignedAccounts accounts m).take shortfall

/-- The Unassigned accounts of the list that are not among the first `shortfall`. -/
def stillUnassigned (shortfall : Nat) (accounts : List Nat) (m : AccountMap) : List Nat :=
  (unassignedAccounts accounts m).drop shortfall

/-- The last `shortfall2` of the accounts still Unassigned once the first `shortfall1`
are taken, listed from the end: for an id-sorted list, the highest-id ones. -/
def highestStillUnassigned (shortfall1 shortfall2 : Nat) (accounts : List Nat)
    (m : AccountMap) : List Nat :=
  (stillUnassigned shortfall1 accounts m).reverse.take shortfall2

/-- The multiplier applied to `maxRandomBots`: `periodicOnlineOfflineRatio` when
`enablePeriodicOnlineOffline` is set, none (1) otherwise. -/
def onlineOfflineMultiplier (cfg : AccountConfig) : Nat :=
  if cfg.enablePeriodicOnlineOffline then cfg.periodicOnlineOfflineRatio else 1

/-- A table with accounts 1 to 6: account 2 already in the general pool, account 5 in the
class-coverage pool, the others unassigned or without a row. -/
def sampleTable : AccountMap :=
  ⟨[1, 2, 3, 5], fun id => if id = 2 then 1 else if id = 5 then 2 else 0⟩

/-- Target 20 bots, no periodic cycling, class-coverage pool of 2 accounts. -/
def sampleAccountConfig : AccountConfig := ⟨20, false, 1, 2⟩

/-! ## UpdateAIInternal -/

/-- The fields of `sPlayerbotAIConfig` that `UpdateAIInternal` reads beyond those of
`AddRandomBots`, taken as `uint32` (or `bool`) parameters. -/
structure TickConfig extends Config where
  randomBotAutologin : Bool
  enabled : Bool
  minRandomBots : Nat
  maxRandomBots : Nat
  randomBotCountChangeMinInterval : Nat
  randomBotCountChangeMaxInterval : Nat
  randomBotUpdateInterval : Nat
  disabledWithoutRealPlayer : Bool
  disabledWithoutRealPlayerLoginDelay : Nat
  disabledWithoutRealPlayerLogoutDelay : Nat

/-- The environment of one tick (taken at one clock value): the environment of
`AddRandomBots`, the value `urand(minRandomBots, maxRandomBots)` returns for its two
arguments, the value `urand(randomBotCountChangeMinInterval,
randomBotCountChangeMaxInterval)` returns for its two arguments, and the outcome of the
floating-point test `GameTime::GetUptime().count() < maxRandomBots * (0.11 + 0.4)`. -/
structure TickEnv where
  env : Env
  targetDraw : Nat → Nat → Nat
  intervalDraw : Nat → Nat → Nat
  uptimeBelowInit : Bool

/-- The contract of the host function `urand(min, max)` for one call site: with
`min <= max` the value returned lies in `[min, max]`. -/
def UrandContract (draw : Nat → Nat → Nat) : Prop :=
  ∀ lo hi, lo ≤ hi → lo ≤ draw lo hi ∧ draw lo hi ≤ hi

/-- What `UpdateAIInternal` asks of the rest of the program, over a state `σ` that holds
everything outside the manager fields of `Mgr` (the `playerBots` map, `botLoading`, the
sessions, the timers of the periodic checks): `GetPlayerBot(bot)` being non-null,
`playerBots.size()`, `sWorldSessionMgr->GetActiveAndQueuedSessionCount()`,
`botLoading.empty()`, the host data of `AddRandomBots`, `LogoutAllBots()`, the blocks of
the periodic checks (`CheckPlayers`, `CheckBgQueue`, `CheckLfgQueue`, `PrintStats`, each
behind its own timer, at the given clock value), and `ProcessBot(uint32)` at the given
value of `_isBotInitializing`.  None of them reads or writes `DelayLoginBotsTimer` or
`RealPlayerLastTimeSeen`. -/
structure TickHost (σ : Type) where
  getPlayerBot : σ → Nat → Bool
  playerBotsSize : σ → Nat
  activeAndQueuedSessionCount : σ → Nat
  botLoadingEmpty : σ → Bool
  addHost : σ → Host
  logoutAllBots : Mgr × σ → Mgr × σ
  periodicChecks : Int → Mgr × σ → Mgr × σ
  processBot : Bool → Nat → Mgr × σ → Bool × (Mgr × σ)

/-- The state of the scheduler between ticks: the manager fields, the rest of the program,
`_isBotInitializing`, `RealPlayerLastTimeSeen`, `DelayLoginBotsTimer` and the delay set by
`SetNextCheckDelay`. -/
structure Sched (σ : Type) where
  mgr : Mgr
  world : σ
  isBotInitializing : Bool
  RealPlayerLastTimeSeen : Int
  DelayLoginBotsTimer : Int
  nextCheckDelay : Nat

/-- The first block of `UpdateAIInternal`: the target population `maxAllowedBotCount` of
the tick and the store afterwards.  The persisted `bot_count` is read; if it is 0 (unset or
expired) or outside `[minRandomBots, maxRandomBots]` a new target is drawn and written with
a drawn validity window. -/
def chooseTarget (cfg : TickConfig) (te : TickEnv) (s : Store) : Nat × Store :=
  let r := GetEventValue s te.env.now 0 "bot_count"
  if r.1 = 0 ∨ (r.1 < cfg.minRandomBots ∨ r.1 > cfg.maxRandomBots) then
    let v := te.targetDraw cfg.minRandomBots cfg.maxRandomBots
    (v, (SetEventValue r.2 (te.env.commitOk 0 "bot_count") te.env.gameTime te.env.now 0
          "bot_count" v
          (te.intervalDraw cfg.randomBotCountChangeMinInterval
            cfg.randomBotCountChangeMaxInterval) "").2)
  else (r.1, r.2)

/-- Modelled from the spec: statement `PLAYERBOTS_SEL_RANDOM_BOTS_BY_OWNER_AND_EVENT` is
declared outside the sources; with owner 0 and event `add` it is taken as the bot ids of
the rows of that owner and event, in table order. -/
def selByOwnerAndEvent (table : List EventRow) (event : String) : List Nat :=
  (table.filter (fun r => decide (r.owner = 0 ∧ r.event = event))).map (fun r => r.bot)

/-- The `do ... while` loop of `GetBots` over the rows of the query. -/
def getBotsLoop (now : Int) (maxAllowedBotCount : Nat) : List Nat → Mgr → Mgr
  | [], m => m
  | bot :: rest, m =>
    let r := GetEventValue m.store now bot "add"
    let m1 : Mgr := { m with store := r.2,
                             currentBots := if r.1 ≠ 0 then m.currentBots ++ [bot]
                                            else m.currentBots }
    if m1.currentBots.length ≥ maxAllowedBotCount then m1
    else getBotsLoop now maxAllowedBotCount rest m1

/-- `RandomPlayerbotMgr::GetBots()`. -/
def GetBots (now : Int) (m : Mgr) : Mgr :=
  if m.currentBots ≠ [] then m
  else
    let r := GetEventValue m.store now 0 "bot_count"
    getBotsLoop now r.1 (selByOwnerAndEvent r.2.table "add") { m with store := r.2 }

/-- The loop "Update bots" over `availableBots`, from the given budget `updateBots`: the
budget left, the state afterwards, and the calls of `ProcessBot` with their results (a
trace, appended to `calls`).  A bot that is not online is skipped by `continue`; after a
call on an online bot the budget is decremented if the call returned true, and the loop
is left if the budget is then 0. -/
def updatePass {σ : Type} (h : TickHost σ) (init : Bool) :
    List Nat → Nat → Mgr × σ → List (Nat × Bool) → Nat × (Mgr × σ) × List (Nat × Bool)
  | [], updateBots, s, calls => (updateBots, s, calls)
  | bot :: rest, updateBots, s, calls =>
    if !h.getPlayerBot s.2 bot then updatePass h init rest updateBots s calls
    else
      let r := h.processBot init bot s
      let updateBots1 := if r.1 then dec32 updateBots else updateBots
      if updateBots1 = 0 then (updateBots1, r.2, calls ++ [(bot, r.1)])
      else updatePass h init rest updateBots1 r.2 (calls ++ [(bot, r.1)])

/-- The loop "Log in bots" over `availableBots`, from the given budget `loginBots`; as
`updatePass`, for the bots that are not online. -/
def loginPass {σ : Type} (h : TickHost σ) (init : Bool) :
    List Nat → Nat → Mgr × σ → List (Nat × Bool) → Nat × (Mgr × σ) × List (Nat × Bool)
  | [], loginBots, s, calls => (loginBots, s, calls)
  | bot :: rest, loginBots, s, calls =>
    if h.getPlayerBot s.2 bot then loginPass h init rest loginBots s calls
    else
      let r := h.processBot init bot s
      let loginBots1 := if r.1 then dec32 loginBots else loginBots
      if loginBots1 = 0 then (loginBots1, r.2, calls ++ [(bot, r.1)])
      else loginPass h init rest loginBots1 r.2 (calls ++ [(bot, r.1)])

/-- What one tick leaves: the scheduler state, and as a trace of the tick the target
`maxAllowedBotCount`, the result of `AddRandomBots` if it was invoked, the budgets
`updateBots`, `maxNewBots` and `loginBots` as computed before the passes, and the calls of
`ProcessBot` made by the update pass and by the login pass. -/
structure TickResult (σ : Type) where
  sched : Sched σ
  maxAllowedBotCount : Nat
  added : Option AddResult
  updateBots : Nat
  maxNewBots : Nat
  loginBots : Nat
  updateCalls : List (Nat × Bool)
  loginCalls : List (Nat × Bool)

/-- The block of `UpdateAIInternal` under `disabledWithoutRealPlayer`, before the call of
`AddRandomBots`: the flag `realPlayerIsLogged` and the state afterwards. -/
def trackRealPlayer {σ : Type} (cfg : TickConfig) (h : TickHost σ) (now : Int)
    (onlineBotCount : Nat) (s : Sched σ) : Bool × Sched σ :=
  if cfg.disabledWithoutRealPlayer then
    if h.activeAndQueuedSessionCount s.world > 0 then
      (true, { s with RealPlayerLastTimeSeen := now,
                      DelayLoginBotsTimer :=
                        if s.DelayLoginBotsTimer = 0 then
                          now + cfg.disabledWithoutRealPlayerLoginDelay
                        else s.DelayLoginBotsTimer })
    else
      let s1 : Sched σ := { s with DelayLoginBotsTimer := 0 }
      if s1.RealPlayerLastTimeSeen ≠ 0 ∧ onlineBotCount > 0 ∧
          now > s1.RealPlayerLastTimeSeen + cfg.disabledWithoutRealPlayerLogoutDelay then
        let w := h.logoutAllBots (s1.mgr, s1.world)
        (false, { s1 with mgr := w.1, world := w.2 })
      else (false, s1)
  else (false, s)

/-- The test `disabledWithoutRealPlayer == false || (realPlayerIsLogged &&
DelayLoginBotsTimer != 0 && time(nullptr) >= DelayLoginBotsTimer)`. -/
def admitting (cfg : TickConfig) (now : Int) (realPlayerIsLogged : Bool)
    (delayLoginBotsTimer : Int) : Bool :=
  cfg.disabledWithoutRealPlayer == false ||
    (realPlayerIsLogged && decide (delayLoginBotsTimer ≠ 0) &&
      decide (now ≥ delayLoginBotsTimer))

/-- The budget `updateBots = randomBotsPerInterval * onlineBotFocus / 100`, in `uint32`. -/
def updateBudget (cfg : TickConfig) (onlineBotFocus : Nat) : Nat :=
  cfg.randomBotsPerInterval * onlineBotFocus % U32 / 100

/-- The local `maxNewBots` of `UpdateAIInternal`. -/
def maxNewBotsOf (cfg : TickConfig) (now : Int) (realPlayerIsLogged : Bool)
    (delayLoginBotsTimer : Int) (onlineBotCount maxAllowedBotCount : Nat) : Nat :=
  if onlineBotCount < maxAllowedBotCount ∧
      admitting cfg now realPlayerIsLogged delayLoginBotsTimer = true then
    maxAllowedBotCount - onlineBotCount
  else 0

/-- The budget `loginBots = std::min(randomBotsPerInterval - updateBots, maxNewBots)`. -/
def loginBudget (cfg : TickConfig) (updateBots maxNewBots : Nat) : Nat :=
  min ((cfg.randomBotsPerInterval + U32 - updateBots) % U32) maxNewBots

/-- What the two passes leave: the state, whether the login pass was entered, and the calls
of `ProcessBot` of each pass. -/
structure PassResult (σ : Type) where
  state : Mgr × σ
  loginRan : Bool
  updateCalls : List (Nat × Bool)
  loginCalls : List (Nat × Bool)

/-- The block `if (!availableBots.empty())` of `UpdateAIInternal`: the update pass, then,
if `loginBots` is not 0 and `botLoading` is empty, the login pass with the budget
`std::min(loginBots + updateBots, maxNewBots)`. -/
def runPasses {σ : Type} (h : TickHost σ) (init : Bool) (availableBots : List Nat)
    (updateBots maxNewBots loginBots : Nat) (w : Mgr × σ) : PassResult σ :=
  if availableBots ≠ [] then
    let u := updatePass h init availableBots updateBots w []
    if loginBots ≠ 0 ∧ h.botLoadingEmpty u.2.1.2 = true then
      let loginBots1 := min ((loginBots + u.1) % U32) maxNewBots
      let l := loginPass h init availableBots loginBots1 u.2.1 []
      ⟨l.2.1, true, u.2.2, l.2.2⟩
    else ⟨u.2.1, false, u.2.2, []⟩
  else ⟨w, false, [], []⟩

/-- The part of `UpdateAIInternal` from the decision to call `AddRandomBots` on, at the
locals computed before it and the state `s3` left by the real-player block.  The result
is `none` where `AddRandomBots` is undefined. -/
def finishTick {σ : Type} (cfg : TickConfig) (h : TickHost σ) (te : TickEnv) (init : Bool)
    (maxAllowedBotCount : Nat) (availableBots : List Nat)
    (onlineBotCount onlineBotFocus : Nat) (realPlayerIsLogged : Bool) (s3 : Sched σ) :
    Option (TickResult σ) :=
  let now := te.env.now
  let availableBotCount := availableBots.length % U32
  let invoke : Bool :=
    if cfg.disabledWithoutRealPlayer then
      decide (availableBotCount < maxAllowedBotCount) &&
        admitting cfg now realPlayerIsLogged s3.DelayLoginBotsTimer
    else decide (availableBotCount < maxAllowedBotCount)
  let added : Option (Option AddResult) :=
    if invoke then
      (AddRandomBots cfg.toConfig (h.addHost s3.world) te.env s3.mgr).map some
    else some none
  match added with
  | none => none
  | some a =>
    let m4 := match a with
      | some r => r.mgr
      | none => s3.mgr
    let w5 := h.periodicChecks now (m4, s3.world)
    let updateBots := updateBudget cfg onlineBotFocus
    let maxNewBots := maxNewBotsOf cfg now realPlayerIsLogged s3.DelayLoginBotsTimer
      onlineBotCount maxAllowedBotCount
    let loginBots := loginBudget cfg updateBots maxNewBots
    let p := runPasses h init availableBots updateBots maxNewBots loginBots w5
    some ⟨{ s3 with mgr := p.state.1, world := p.state.2,
                    DelayLoginBotsTimer :=
                      if p.loginRan then 0 else s3.DelayLoginBotsTimer },
          maxAllowedBotCount, a, updateBots, maxNewBots, loginBots, p.updateCalls,
          p.loginCalls⟩

/-- `RandomPlayerbotMgr::UpdateAIInternal`, one scheduler tick.  The performance monitor
and the log calls are left out. -/
def UpdateAIInternal {σ : Type} (cfg : TickConfig) (h : TickHost σ) (te : TickEnv)
    (s : Sched σ) : Option (TickResult σ) :=
  if !cfg.randomBotAutologin || !cfg.enabled then some ⟨s, 0, none, 0, 0, 0, [], []⟩
  else
    let now := te.env.now
    let t := chooseTarget cfg te s.mgr.store
    let m1 := GetBots now { s.mgr with store := t.2 }
    let onlineBotCount := h.playerBotsSize s.world % U32
    let onlineBotFocus := if onlineBotCount < cfg.minRandomBots * 90 % U32 / 100 then 25 else 75
    let init := if s.isBotInitializing then te.uptimeBelowInit else false
    let updateIntervalTurboBoost := if init then 1 else cfg.randomBotUpdateInterval
    let s2 : Sched σ := { s with mgr := m1, isBotInitializing := init,
                                 nextCheckDelay :=
                                   updateIntervalTurboBoost * (onlineBotFocus + 25) * 10 % U32 }
    let g := trackRealPlayer cfg h now onlineBotCount s2
    finishTick cfg h te init t.1 m1.currentBots onlineBotCount onlineBotFocus g.1 g.2

/-- The value of `DelayLoginBotsTimer` that the tick compares the clock with when a real
session is present: the timer, armed at `now + disabledWithoutRealPlayerLoginDelay` if it
was 0. -/
def armedLoginTimer {σ : Type} (cfg : TickConfig) (now : Int) (s : Sched σ) : Int :=
  if s.DelayLoginBotsTimer = 0 then now + cfg.disabledWithoutRealPlayerLoginDelay
  else s.DelayLoginBotsTimer

/-- Number of calls of a pass in which `ProcessBot` returned true. -/
def processedCount (calls : List (Nat × Bool)) : Nat :=
  (calls.filter (fun c => c.2)).length

/-- A small world for examples: the bots online, the number of real sessions, and the
bots whose login is in progress. -/
structure SimWorld where
  online : List Nat
  sessions : Nat
  loading : List Nat

/-- A host over `SimWorld` in which `ProcessBot` always returns true and starts the login
of a bot that is not online. -/
def simHost : TickHost SimWorld :=
  { getPlayerBot := fun w bot => decide (bot ∈ w.online),
    playerBotsSize := fun w => w.online.length,
    activeAndQueuedSessionCount := fun w => w.sessions,
    botLoadingEmpty := fun w => w.loading.isEmpty,
    addHost := fun _ => sampleHost,
    logoutAllBots := fun x => (x.1, { x.2 with online := [] }),
    periodicChecks := fun _ x => x,
    processBot := fun _ bot x =>
      if bot ∈ x.2.online then (true, x)
      else (true, (x.1, { x.2 with loading := x.2.loading ++ [bot] })) }

/-- Draws that return the lower bound. -/
def sampleTickEnv : TickEnv := ⟨sampleEnv, fun lo _ => lo, fun lo _ => lo, false⟩

/-- Real-player gating on, target range `[50, 200]`, validity window range `[1800, 7200]`,
login delay 30 s. -/
def sampleTickConfig : TickConfig :=
  { toConfig := sampleConfig, randomBotAutologin := true, enabled := true,
    minRandomBots := 50, maxRandomBots := 200,
    randomBotCountChangeMinInterval := 1800, randomBotCountChangeMaxInterval := 7200,
    randomBotUpdateInterval := 20, disabledWithoutRealPlayer := true,
    disabledWithoutRealPlayerLoginDelay := 30, disabledWithoutRealPlayerLogoutDelay := 300 }

/-- As `sampleTickConfig`, with the bounds of the validity window inverted. -/
def invertedIntervalConfig : TickConfig :=
  { sampleTickConfig with randomBotCountChangeMinInterval := 10,
                          randomBotCountChangeMaxInterval := 5 }

/-- No gating, rate cap `randomBotsPerInterval = 1`, target range `[2, 2]`: the update
budget `1 * 75 / 100` is 0. -/
def zeroBudgetConfig : TickConfig :=
  { toConfig := ⟨1, 1, 1, false, 1, 60, 120, 31104000, true⟩, randomBotAutologin := true,
    enabled := true, minRandomBots := 2, maxRandomBots := 2,
    randomBotCountChangeMinInterval := 1800, randomBotCountChangeMaxInterval := 7200,
    randomBotUpdateInterval := 20, disabledWithoutRealPlayer := false,
    disabledWithoutRealPlayerLoginDelay := 30, disabledWithoutRealPlayerLogoutDelay := 300 }

/-- A scheduler state over `SimWorld`: the manager, the bots online, the number of real
sessions and the value of `DelayLoginBotsTimer`. -/
def simSched (m : Mgr) (online : List Nat) (sessions : Nat) (timer : Int) : Sched SimWorld :=
  ⟨m, ⟨online, sessions, []⟩, false, 0, timer, 0⟩

/-! ## ProcessBot(Player*) -/

/-- What the decision step reads of the group of a character: `group->isLFGGroup()` and
`IsRandomBot(group->GetLeader())`. -/
structure BotGroup where
  isLFGGroup : Bool
  leaderIsRandomBot : Bool
deriving DecidableEq, Repr

/-- What the decision step reads of a `Player`: the guid counter, level and class,
`InBattleground()`, `InBattlegroundQueue()`, `isDead()`, `GetGroup()`, whether
`GET_PLAYERBOT_AI(player)` is non-null, and the travel target of the AI: `none` for a null
target, otherwise whether its state is `TRAVEL_STATE_IDLE`. -/
structure Player where
  guid : Nat
  level : Nat
  rClass : Nat
  inBattleground : Bool
  inBattlegroundQueue : Bool
  isDead : Bool
  group : Option BotGroup
  hasAI : Bool
  travelTargetIdle : Option Bool
deriving DecidableEq, Repr

/-- The calls on the character made by the decision step, as a trace:
`RemoveFromGroup()`, `PlayerbotFactory(bot, level).Randomize(incremental)`,
`PlayerbotAI::Reset(true)`, the body of `Refresh`, and the teleports
`RandomTeleportForLevel` and `RandomTeleportGrindForLevel`. -/
inductive BotAction where
  | removeFromGroup
  | factoryRandomize (level : Nat) (incremental : Bool)
  | aiReset
  | refresh
  | teleportForLevel
  | teleportGrindForLevel
deriving DecidableEq, Repr

/-- The fields of `sPlayerbotAIConfig` and of the world configuration that the decision
step reads, taken as `uint32` (or `bool`) parameters; the two floating-point tests
`roll <= 100 * randomBotMaxLevelChance` and
`roll <= 100 * (randomBotMaxLevelChance + randomBotMinLevelChance)` are taken as
predicates on the roll. -/
structure BotConfig where
  minRandomBotReviveTime : Nat
  maxRandomBotReviveTime : Nat
  minRandomBotInWorldTime : Nat
  maxRandomBotInWorldTime : Nat
  minRandomBotRandomizeTime : Nat
  maxRandomBotRandomizeTime : Nat
  minRandomBotTeleportInterval : Nat
  maxRandomBotTeleportInterval : Nat
  randomBotUpdateInterval : Nat
  randomBotMinLevel : Nat
  randomBotMaxLevel : Nat
  randombotStartingLevel : Nat
  downgradeMaxLevelBot : Bool
  syncLevelWithPlayers : Bool
  disableRandomLevels : Bool
  maxPlayerLevel : Nat
  startHeroicPlayerLevel : Nat
  rollIsMaxLevel : Nat → Bool
  rollIsMinLevel : Nat → Bool

/-- The environment of one decision step (taken at one clock value): the clocks, the
outcome of the commits, the member `playersLevel`, and what each call of `urand` returns
for its two arguments, one function per call site: the revive delay, the randomize delay
of `ProcessBot`, the two delays and the level of `RandomizeFirst`, its roll
`urand(1, 100)`, the teleport delay, and the delay drawn by `ScheduleTeleport`. -/
structure BotEnv where
  now : Int
  gameTime : Int
  commitOk : Nat → String → Bool
  playersLevel : Nat
  reviveDraw : Nat → Nat → Nat
  randomizeDraw : Nat → Nat → Nat
  firstRandomizeDraw : Nat → Nat → Nat
  inWorldDraw : Nat → Nat → Nat
  levelDraw : Nat → Nat → Nat
  roll : Nat
  teleportDraw : Nat → Nat → Nat
  teleportDelayDraw : Nat → Nat → Nat

/-- What a step leaves: the returned flag (`true` for `void` functions), the store, the
character and the trace of the calls made on it. -/
structure BotStep where
  result : Bool
  store : Store
  player : Player
  actions : List BotAction

/-- `RandomPlayerbotMgr::ScheduleRandomize(bot, time)`. -/
def ScheduleRandomize (be : BotEnv) (s : Store) (bot time : Nat) : Store :=
  (SetEventValue s (be.commitOk bot "randomize") be.gameTime be.now bot "randomize" 1 time
    "").2

/-- `RandomPlayerbotMgr::ScheduleTeleport(bot, time)`. -/
def ScheduleTeleport (cfg : BotConfig) (be : BotEnv) (s : Store) (bot time : Nat) : Store :=
  let time1 :=
    if time = 0 then
      (60 + be.teleportDelayDraw cfg.randomBotUpdateInterval
        (cfg.randomBotUpdateInterval * 3 % U32)) % U32
    else time
  (SetEventValue s (be.commitOk bot "teleport") be.gameTime be.now bot "teleport" 1 time1
    "").2

/-- `RandomPlayerbotMgr::SetValue(bot, type, value)`. -/
def SetValue (cfg : BotConfig) (be : BotEnv) (s : Store) (bot : Nat) (type : String)
    (value : Nat) : Store :=
  (SetEventValue s (be.commitOk bot type) be.gameTime be.now bot type value
    cfg.maxRandomBotInWorldTime "").2

/-- Modelled from the spec: statement `PLAYERBOTS_UPD_RANDOM_BOTS` is declared outside the
sources; its parameters (a time, an event name, a bot id) and "two independent expirations
are scheduled" make it the update of the validity window of the rows of that event and
bot. -/
def updRandomBots (table : List EventRow) (validIn : Nat) (event : String) (bot : Nat) :
    List EventRow :=
  table.map (fun r => if r.event = event ∧ r.bot = bot then { r with validIn := validIn }
                      else r)

/-- `RandomPlayerbotMgr::Refresh(bot)`, on the fields read here: a dead character is
resurrected, and past the battleground guard the character leaves its group. -/
def Refresh (p : Player) : Player × List BotAction :=
  if !p.hasAI then (p, [])
  else
    let p1 : Player := if p.isDead then { p with isDead := false } else p
    if p1.inBattleground then (p1, [])
    else
      if p1.group.isSome then
        ({ p1 with group := none }, [BotAction.refresh, BotAction.removeFromGroup])
      else (p1, [BotAction.refresh])

/-- `RandomPlayerbotMgr::RandomTeleportForLevel(bot)`, as a trace. -/
def RandomTeleportForLevel (p : Player) : List BotAction :=
  if p.inBattleground then [] else [BotAction.teleportForLevel]

/-- `RandomPlayerbotMgr::RandomTeleportGrindForLevel(bot)`, as a trace. -/
def RandomTeleportGrindForLevel (p : Player) : List BotAction :=
  if p.inBattleground then [] else [BotAction.teleportGrindForLevel]

/-- `RandomPlayerbotMgr::Revive(player)`. -/
def Revive (be : BotEnv) (s : Store) (p : Player) : BotStep :=
  let s1 := (SetEventValue s (be.commitOk p.guid "dead") be.gameTime be.now p.guid "dead"
    0 0 "").2
  let s2 := (SetEventValue s1 (be.commitOk p.guid "revive") be.gameTime be.now p.guid
    "revive" 0 0 "").2
  let r := Refresh p
  ⟨true, s2, r.1, r.2 ++ RandomTeleportGrindForLevel r.1⟩

/-- The level chosen by `RandomizeFirst`. -/
def firstLevel (cfg : BotConfig) (be : BotEnv) (p : Player) : Nat :=
  let maxLevel0 := if cfg.randomBotMaxLevel > cfg.maxPlayerLevel then cfg.maxPlayerLevel
                   else cfg.randomBotMaxLevel
  let maxLevel1 := if cfg.syncLevelWithPlayers then
                     max cfg.randomBotMinLevel (min be.playersLevel cfg.maxPlayerLevel)
                   else maxLevel0
  let maxLevel := if p.rClass = CLASS_DEATH_KNIGHT then max maxLevel1 cfg.startHeroicPlayerLevel
                  else maxLevel1
  let minLevel := if p.rClass = CLASS_DEATH_KNIGHT then
                    max cfg.randomBotMinLevel cfg.startHeroicPlayerLevel
                  else cfg.randomBotMinLevel
  let level :=
    if cfg.downgradeMaxLevelBot ∧ p.level ≥ cfg.randomBotMaxLevel then
      if p.rClass = CLASS_DEATH_KNIGHT then cfg.startHeroicPlayerLevel
      else cfg.randomBotMinLevel
    else if cfg.rollIsMaxLevel be.roll then maxLevel
    else if cfg.rollIsMinLevel be.roll then minLevel
    else be.levelDraw minLevel maxLevel
  if cfg.disableRandomLevels then
    if p.rClass = CLASS_DEATH_KNIGHT then
      max cfg.randombotStartingLevel cfg.startHeroicPlayerLevel
    else cfg.randombotStartingLevel
  else level

/-- `RandomPlayerbotMgr::RandomizeFirst(bot)`.  The factory sets the level of the
character. -/
def RandomizeFirst (cfg : BotConfig) (be : BotEnv) (s : Store) (p : Player) : BotStep :=
  let level := firstLevel cfg be p
  let s1 := SetValue cfg be s p.guid "level" level
  let p1 : Player := { p with level := level }
  let randomTime := be.firstRandomizeDraw cfg.minRandomBotRandomizeTime
    cfg.maxRandomBotRandomizeTime
  let inworldTime := be.inWorldDraw cfg.minRandomBotInWorldTime cfg.maxRandomBotInWorldTime
  let s2 : Store := { s1 with table := updRandomBots s1.table randomTime "bot_delete" p.guid }
  let s3 : Store := { s2 with table := updRandomBots s2.table inworldTime "logout" p.guid }
  let a1 := if p1.hasAI then [BotAction.aiReset] else []
  let a2 := if p1.group.isSome then [BotAction.removeFromGroup] else []
  let p2 : Player := if p1.group.isSome then { p1 with group := none } else p1
  ⟨true, s3, p2,
    [BotAction.factoryRandomize level false] ++ a1 ++ a2 ++ RandomTeleportForLevel p2⟩

/-- `RandomPlayerbotMgr::Randomize(bot)`. -/
def Randomize (cfg : BotConfig) (be : BotEnv) (s : Store) (p : Player) : BotStep :=
  if p.inBattleground then ⟨true, s, p, []⟩
  else if p.level < 3 ∨ (p.level < 56 ∧ p.rClass = CLASS_DEATH_KNIGHT) then
    RandomizeFirst cfg be s p
  else if p.level < cfg.randomBotMaxLevel ∨ cfg.downgradeMaxLevelBot = false then
    ⟨true, s, p, [BotAction.factoryRandomize p.level true]⟩
  else RandomizeFirst cfg be s p

/-- The block "leave group if leader is rndbot" of `ProcessBot(Player*)`. -/
def leaveBotLedGroup (p : Player) : Player × List BotAction :=
  match p.group with
  | some g =>
    if !g.isLFGGroup && g.leaderIsRandomBot then
      ({ p with group := none }, [BotAction.removeFromGroup])
    else (p, [])
  | none => (p, [])

/-- The local `idleBot` of `ProcessBot(Player*)`: the character has an AI and its travel
target is null or in the idle state. -/
def idleBot (p : Player) : Bool :=
  p.hasAI && (match p.travelTargetIdle with
    | some idle => idle
    | none => true)

/-- `RandomPlayerbotMgr::ProcessBot(Player* player)`, the per-bot decision step (the
overload that takes the character; `ProcessBot(uint32)` is the one the tick calls). -/
def ProcessBotPlayer (cfg : BotConfig) (be : BotEnv) (s : Store) (player : Player) : BotStep :=
  let bot := player.guid
  if player.inBattleground then ⟨false, s, player, []⟩
  else if player.inBattlegroundQueue then ⟨false, s, player, []⟩
  else if player.isDead then
    let d := GetEventValue s be.now bot "dead"
    if d.1 = 0 then
      let randomTime := be.reviveDraw cfg.minRandomBotReviveTime cfg.maxRandomBotReviveTime
      let s1 := (SetEventValue d.2 (be.commitOk bot "dead") be.gameTime be.now bot "dead" 1
        cfg.maxRandomBotInWorldTime "").2
      let s2 := (SetEventValue s1 (be.commitOk bot "revive") be.gameTime be.now bot "revive"
        1 randomTime "").2
      ⟨false, s2, player, []⟩
    else
      let r := GetEventValue d.2 be.now bot "revive"
      if r.1 = 0 then Revive be r.2 player
      else ⟨false, r.2, player, []⟩
  else
    let g := leaveBotLedGroup player
    if idleBot g.1 then
      let rz := GetEventValue s be.now bot "randomize"
      if rz.1 = 0 then
        let z := Randomize cfg be rz.2 g.1
        let randomTime := be.randomizeDraw cfg.minRandomBotRandomizeTime
          cfg.maxRandomBotRandomizeTime
        ⟨true, ScheduleRandomize be z.store bot randomTime, z.player, g.2 ++ z.actions⟩
      else
        let t := GetEventValue rz.2 be.now bot "teleport"
        if t.1 = 0 then
          let f := Refresh g.1
          let a := RandomTeleportForLevel f.1
          let time := be.teleportDraw cfg.minRandomBotTeleportInterval
            cfg.maxRandomBotTeleportInterval
          ⟨true, ScheduleTeleport cfg be t.2 bot time, f.1, g.2 ++ f.2 ++ a⟩
        else ⟨false, t.2, g.1, g.2⟩
    else ⟨false, s, g.1, g.2⟩

/-- An idle, alive level-20 warrior (class 1) with guid 7, in no group, battleground or
queue. -/
def idlePlayer : Player := ⟨7, 20, 1, false, false, false, none, true, none⟩

/-- The store of the example scenario at clock 1000: bot 7 has `randomize` with TTL 0 and
`teleport` with TTL 120, both written at 990. -/
def scenarioStore : Store :=
  ⟨[⟨0, 7, 990, 0, "randomize", 1, none⟩, ⟨0, 7, 990, 120, "teleport", 1, none⟩],
    fun _ => []⟩

/-- Revive delay 60 to 300 s, in-world time 1 to 14 days, randomize delay 2 to 14 hours,
teleport interval 1 to 5 hours, levels 1 to 80. -/
def sampleBotConfig : BotConfig :=
  ⟨60, 300, 86400, 1209600, 7200, 50400, 3600, 18000, 20, 1, 80, 5, false, false, false, 80,
    55, fun roll => decide (roll ≤ 15), fun roll => decide (roll ≤ 30)⟩

/-- As `sampleBotConfig`, with `minRandomBotRandomizeTime = 0`. -/
def zeroRandomizeConfig : BotConfig :=
  { sampleBotConfig with minRandomBotRandomizeTime := 0 }

/-- Clock 1000, durable commits, draws that return the lower bound, roll 50. -/
def sampleBotEnv : BotEnv :=
  ⟨1000, 1000, fun _ _ => true, 80, fun lo _ => lo, fun lo _ => lo, fun lo _ => lo,
    fun lo _ => lo, fun lo _ => lo, 50, fun lo _ => lo, fun lo _ => lo⟩

/-- The store `s2` keeps what a read of `event` of `bot` saw at `s`: the cache of the bot
is loaded, its entry for the event is the event a read at `s` uses, and the rows of the
event are those of `s`. -/
def KeepsEvent (bot : Nat) (event : String) (s s2 : Store) : Prop :=
  (s2.eventCache bot).isEmpty = false ∧
  (s2.eventCache bot).at event = cachedEvent s bot event ∧
  rowsFor s2.table bot event = rowsFor s.table bot event

/-- The local `minLevel` of `RandomizeFirst` after the death-knight raise. -/
def firstMinLevel (cfg : BotConfig) (p : Player) : Nat :=
  if p.rClass = CLASS_DEATH_KNIGHT then max cfg.randomBotMinLevel cfg.startHeroicPlayerLevel
  else cfg.randomBotMinLevel

/-- The local `maxLevel` of `RandomizeFirst` after the cap by the world maximum, the level
sync and the death-knight raise. -/
def firstMaxLevel (cfg : BotConfig) (be : BotEnv) (p : Player) : Nat :=
  let maxLevel0 := if cfg.randomBotMaxLevel > cfg.maxPlayerLevel then cfg.maxPlayerLevel
                   else cfg.randomBotMaxLevel
  let maxLevel1 := if cfg.syncLevelWithPlayers then
                     max cfg.randomBotMinLevel (min be.playersLevel cfg.maxPlayerLevel)
                   else maxLevel0
  if p.rClass = CLASS_DEATH_KNIGHT then max maxLevel1 cfg.startHeroicPlayerLevel
  else maxLevel1

/-- The level of the roll branch of `RandomizeFirst`: the maximum, the minimum or a uniform
draw between them, by the roll `urand(1, 100)`. -/
def rolledLevel (cfg : BotConfig) (be : BotEnv) (p : Player) : Nat :=
  if cfg.rollIsMaxLevel be.roll then firstMaxLevel cfg be p
  else if cfg.rollIsMinLevel be.roll then firstMinLevel cfg p
  else be.levelDraw (firstMinLevel cfg p) (firstMaxLevel cfg be p)

/-- A value returned by `urand(min, max)` is not below `min`. -/
def UrandAtLeastMin (draw : Nat → Nat → Nat) : Prop :=
  ∀ lo hi, lo ≤ draw lo hi

/-- A level-60 death knight with guid 8, idle and alive. -/
def deathKnight : Player := ⟨8, 60, CLASS_DEATH_KNIGHT, false, false, false, none, true, none⟩

/-- The idle player of the example, dead. -/
def deadPlayer : Player := { idlePlayer with isDead := true }

/-- A store at clock 1000 in which bot 7 is marked dead (`dead` live until 2000) and its
`revive` delay, written at 900 with TTL 60, has expired. -/
def reviveStore : Store :=
  ⟨[⟨0, 7, 900, 1100, "dead", 1, none⟩, ⟨0, 7, 900, 60, "revive", 1, none⟩,
    ⟨0, 7, 990, 120, "teleport", 1, none⟩], fun _ => []⟩

/-- One call of `AddRandomBots` in a run of the server: the configuration, the host data
and the environment of the call, and the manager as the rest of the program left it.  The
field `missingBotsTimer` of `mgr` is not used: the function-static timer is written by
`AddRandomBots` only, and is threaded from call to call. -/
structure AddCall where
  cfg : Config
  host : Host
  env : Env
  mgr : Mgr

/-- A sequence of calls of `AddRandomBots`, from a value of the static `missingBotsTimer`:
each call with its result.  The run is `none` if a call is undefined. -/
def runAddCalls : List AddCall → Int → Option (List (AddCall × AddResult))
  | [], _ => some []
  | c :: rest, timer =>
    match AddRandomBots c.cfg c.host c.env { c.mgr with missingBotsTimer := timer } with
    | none => none
    | some r =>
      match runAddCalls rest r.mgr.missingBotsTimer with
      | none => none
      | some trace => some ((c, r) :: trace)

/-- Two calls at clocks 1000 and 1004 that cannot fill their quota of 5 (three candidates),
then one at 1012. -/
def starvedCalls : List AddCall :=
  [⟨sampleConfig, humanHost, sampleEnv, sampleMgr 5⟩,
   ⟨sampleConfig, humanHost, { sampleEnv with now := 1004 }, sampleMgr 5⟩,
   ⟨sampleConfig, humanHost, { sampleEnv with now := 1012 }, sampleMgr 5⟩]

/-! ## The per-bot console commands -/

/-- The member functions that `HandlePlayerbotConsoleCommand` registers as handlers. -/
inductive ConsoleAction where
  | RandomizeFirst
  | Clear
  | IncreaseLevel
  | Refresh
  | RandomTeleportForLevel
  | Revive
  | RandomTeleport
  | ChangeStrategy
deriving DecidableEq, Repr

/-- The assignment `handlers[key] = action` on the `std::map<std::string,
ConsoleCommandHandler>`, kept as an association list in ascending key order (the order in
which the map is iterated); keys compare as the sequences of their characters. -/
def handlersSet (m : List (String × ConsoleAction)) (key : String) (action : ConsoleAction) :
    List (String × ConsoleAction) :=
  match m with
  | [] => [(key, action)]
  | (k, a) :: rest =>
    if key = k then (key, action) :: rest
    else if key.data < k.data then (key, action) :: (k, a) :: rest
    else (k, a) :: handlersSet rest key action

/-- The map `handlers` after the registrations, in the order of the source
(`handlers["levelup"] = handlers["level"] = ...` assigns `level` first). -/
def consoleHandlers : List (String × ConsoleAction) :=
  handlersSet (handlersSet (handlersSet (handlersSet (handlersSet (handlersSet (handlersSet
    (handlersSet (handlersSet [] "init" ConsoleAction.RandomizeFirst)
      "clear" ConsoleAction.Clear)
      "level" ConsoleAction.IncreaseLevel)
      "levelup" ConsoleAction.IncreaseLevel)
      "refresh" ConsoleAction.Refresh)
      "teleport" ConsoleAction.RandomTeleportForLevel)
      "revive" ConsoleAction.Revive)
      "grind" ConsoleAction.RandomTeleport)
      "change_strategy" ConsoleAction.ChangeStrategy

/-- What the command asks of the host: the list `randomBotAccounts`, the result of the
query `SELECT guid FROM characters WHERE account = {} AND name like '{}'` for an account
and a name pattern, `IsInRandomAccountList` of the account of a character, and
`ObjectAccessor::FindPlayer(guid)` being non-null (taken as fixed while the command
runs). -/
structure ConsoleHost where
  randomBotAccounts : List Nat
  charactersLike : Nat → String → List Nat
  inRandomAccountList : Nat → Bool
  findPlayer : Nat → Bool

/-- `RandomPlayerbotMgr::IsRandomBot(ObjectGuid::LowType bot)`. -/
def IsRandomBot (inRandomAccountList : Nat → Bool) (currentBots : List Nat) (bot : Nat) :
    Bool :=
  if !inRandomAccountList bot then false
  else if bot ∈ currentBots then true
  else false

/-- What the handler loop of the command does: the key of the handler taken and its
action, the name pattern, the bots selected, the calls `(handler)(bot)` made, and the
value returned. -/
structure ConsoleDispatch where
  key : String
  action : ConsoleAction
  name : String
  botIds : List Nat
  applied : List (ConsoleAction × Nat)
  ok : Bool
deriving DecidableEq, Repr

/-- The body of the handler loop for the first handler whose key `cmd.find` locates at
position 0: the name pattern is `cmd.substr(1 + key.size())` when `cmd` is longer than the
key and one more character, else `%`.  A `std::string` is taken as the sequence of its
characters. -/
def dispatchTo (host : ConsoleHost) (currentBots : List Nat) (cmd : String) :
    List (String × ConsoleAction) → Option ConsoleDispatch
  | [] => none
  | (key, action) :: rest =>
    if !key.data.isPrefixOf cmd.data then dispatchTo host currentBots cmd rest
    else
      let name := if cmd.length > key.length + 1 then String.mk (cmd.data.drop (1 + key.length))
                  else "%"
      let botIds := host.randomBotAccounts.flatMap (fun account =>
        (host.charactersLike account name).filter (fun botId =>
          IsRandomBot host.inRandomAccountList currentBots botId && host.findPlayer botId))
      if botIds = [] then some ⟨key, action, name, botIds, [], false⟩
      else
        some ⟨key, action, name, botIds,
          (botIds.filter host.findPlayer).map (fun botId => (action, botId)), true⟩

/-- The handler loop of `HandlePlayerbotConsoleCommand`, reached by a command other than
`reset`, `stats`, `reload` and `update`; `none` when no handler is taken (the function then
returns true). -/
def perBotCommand (host : ConsoleHost) (currentBots : List Nat) (cmd : String) :
    Option ConsoleDispatch :=
  dispatchTo host currentBots cmd consoleHandlers

/-- One bot account with the online random bots 10 ("Bob") and 11 ("Bill"); the name
patterns "Bob", "Bill" and "%" select as SQL `LIKE` does, every other pattern selects
nothing. -/
def consoleHost : ConsoleHost :=
  ⟨[1],
   fun account name =>
     if account = 1 then
       (if name = "Bob" then [10] else if name = "Bill" then [11]
        else if name = "%" then [10, 11] else [])
     else [],
   fun _ => true, fun _ => true⟩

/-! ## ProcessBot(uint32) -/

/-- What `ProcessBot(uint32 bot)` reads of the host: `GetPlayerBot(botGUID)` (`none` for a
null pointer), `player->IsInWorld()`, `player->HasUnitState(UNIT_STATE_IN_FLIGHT)`,
`GET_PLAYERBOT_AI(player)->IsRealPlayer()`, `botAI->GetGroupMaster()` (`none` for null,
otherwise whether the AI of the master is null or a real player),
`IsInRandomAccountList` of the account of a character, and `_isBotInitializing`. -/
structure BotWorld where
  player : Option Player
  isInWorld : Bool
  inFlight : Bool
  isRealPlayer : Bool
  groupMaster : Option Bool
  inRandomAccountList : Nat → Bool
  isBotInitializing : Bool

/-- The environment of one call of `ProcessBot(uint32)`: that of the decision step, the
values of `static_cast<int>(randomBotUpdateInterval * c)` for the floating-point factors
0.4, 0.7 and 1.4, and what `urand` returns at the call sites of this function: the three
delays of the log-in branch and the delay of the next update.  (The result of
`urand(1, 2)` is overwritten before it is read.) -/
structure ProcessEnv extends BotEnv where
  times04 : Nat → Int
  times07 : Nat → Int
  times14 : Nat → Int
  loginUpdateDraw : Nat → Nat → Nat
  loginRandomizeDraw : Nat → Nat → Nat
  loginTeleportDraw : Nat → Nat → Nat
  updateDraw : Nat → Nat → Nat

/-- The calls `ProcessBot(uint32)` makes on the host, as a trace: `LogoutPlayerBot`,
`AddPlayerBot`, setting the AI value "random bot update", and the calls of the decision
step on the character. -/
inductive HostCall where
  | logoutPlayerBot (bot : Nat)
  | addPlayerBot (bot : Nat)
  | setRandomBotUpdate
  | onCharacter (a : BotAction)
deriving DecidableEq, Repr

/-- What a call of `ProcessBot(uint32)` leaves: the returned flag, the manager, the
character as the decision step left it, and the trace of host calls. -/
structure ProcessResult where
  result : Bool
  mgr : Mgr
  player : Option Player
  calls : List HostCall

/-- `RandomPlayerbotMgr::IsRandomBot(Player* bot)` for a non-null character. -/
def IsRandomBotPlayer (w : BotWorld) (currentBots : List Nat) (p : Player) : Bool :=
  if p.hasAI && w.isRealPlayer then false
  else IsRandomBot w.inRandomAccountList currentBots p.guid

/-- The erasure `currentBots.erase(std::remove(..., bot), currentBots.end())`, which is
also what `currentBots.remove(bot)` does: every occurrence of `bot` is taken out. -/
def eraseBot (currentBots : List Nat) (bot : Nat) : List Nat :=
  currentBots.filter (fun b => b ≠ bot)

/-- `RandomPlayerbotMgr::ProcessBot(uint32 bot)`, at one clock value.
`randomBotUpdateInterval * 0.5` is exact and `randomBotUpdateInterval * 2` is a `uint32`
product; an `int` of at least 5 passed to `urand` is that number. -/
def ProcessBot (cfg : BotConfig) (pe : ProcessEnv) (w : BotWorld) (m : Mgr) (bot : Nat) :
    ProcessResult :=
  let be := pe.toBotEnv
  let v := GetEventValue m.store be.now bot "add"
  let isValid := v.1
  if isValid = 0 then
    if w.player.isNone || w.player.any (fun p => p.group.isNone) then
      let s1 := (SetEventValue v.2 (be.commitOk bot "add") be.gameTime be.now bot "add" 0 0
        "").2
      ⟨false, { m with store := s1, currentBots := eraseBot m.currentBots bot }, w.player,
        if w.player.isSome then [HostCall.logoutPlayerBot bot] else []⟩
    else ⟨false, { m with store := v.2 }, w.player, []⟩
  else
    match w.player with
    | none =>
      let interval := if w.isBotInitializing then 1 else cfg.randomBotUpdateInterval
      let randomTime := pe.loginUpdateDraw (max 5 (Int.ofNat (interval / 2))).toNat
        (max 12 (toInt32 (Int.ofNat (interval * 2 % U32)))).toNat
      let s1 := (SetEventValue v.2 (be.commitOk bot "update") be.gameTime be.now bot "update"
        1 randomTime "").2
      let rz := GetEventValue s1 be.now bot "randomize"
      let s2 := if rz.1 = 0 then
                  ScheduleRandomize be rz.2 bot
                    (pe.loginRandomizeDraw 3 (max 4 (pe.times04 interval)).toNat)
                else rz.2
      let t := GetEventValue s2 be.now bot "teleport"
      let s3 := if t.1 = 0 then
                  ScheduleTeleport cfg be t.2 bot
                    (pe.loginTeleportDraw (max 7 (pe.times07 interval)).toNat
                      (max 14 (pe.times14 interval)).toNat)
                else t.2
      ⟨true, { m with store := s3 }, none, [HostCall.addPlayerBot bot]⟩
    | some player =>
      if !w.isInWorld then ⟨false, { m with store := v.2 }, some player, []⟩
      else if player.group.isSome || w.inFlight then
        ⟨false, { m with store := v.2 }, some player, []⟩
      else
        let u := GetEventValue v.2 be.now bot "update"
        if u.1 = 0 then
          let update1 := !(player.hasAI && !IsRandomBotPlayer w m.currentBots player)
          let update := if player.hasAI && player.group.isSome && w.groupMaster == some true
                        then false else update1
          let step := if update then ProcessBotPlayer cfg be u.2 player
                      else ⟨false, u.2, player, []⟩
          let randomTime := pe.updateDraw cfg.minRandomBotReviveTime
            cfg.maxRandomBotReviveTime
          let s1 := (SetEventValue step.store (be.commitOk bot "update") be.gameTime be.now
            bot "update" 1 randomTime "").2
          ⟨true, { m with store := s1 }, some step.player,
            (if player.hasAI then [HostCall.setRandomBotUpdate] else []) ++
              step.actions.map HostCall.onCharacter⟩
        else
          let l := GetEventValue u.2 be.now bot "logout"
          if l.1 = 0 ∧ isValid = 0 then
            let s1 := (SetEventValue l.2 (be.commitOk bot "logout") be.gameTime be.now bot
              "logout" 1
              (be.inWorldDraw cfg.minRandomBotInWorldTime cfg.maxRandomBotInWorldTime) "").2
            ⟨true, { m with store := s1, currentBots := eraseBot m.currentBots bot },
              some player, [HostCall.logoutPlayerBot bot]⟩
          else ⟨false, { m with store := l.2 }, some player, []⟩

/-- `RandomPlayerbotMgr::OnPlayerLoginError(bot)`. -/
def OnPlayerLoginError (commitOk : Bool) (gameTime now : Int) (m : Mgr) (bot : Nat) : Mgr :=
  { m with store := (SetEventValue m.store commitOk gameTime now bot "add" 0 0 "").2,
           currentBots := eraseBot m.currentBots bot }

/-- The four lifecycle states of a bot, by the two things `ProcessBot(uint32)` branches
on first: whether `GetEventValue(bot, "add")` is non-zero and whether
`GetPlayerBot(botGUID)` is non-null.  Offline: `add` unset and no character object. -/
def Offline (s : Store) (now : Int) (w : BotWorld) (bot : Nat) : Prop :=
  (GetEventValue s now bot "add").1 = 0 ∧ w.player = none

/-- LoggingIn: `add` set and no character object yet. -/
def LoggingIn (s : Store) (now : Int) (w : BotWorld) (bot : Nat) : Prop :=
  (GetEventValue s now bot "add").1 ≠ 0 ∧ w.player = none

/-- Active: `add` set and the character logged in. -/
def Active (s : Store) (now : Int) (w : BotWorld) (bot : Nat) : Prop :=
  (GetEventValue s now bot "add").1 ≠ 0 ∧ w.player ≠ none

/-- PendingLogout: `add` unset and the character still logged in. -/
def PendingLogout (s : Store) (now : Int) (w : BotWorld) (bot : Nat) : Prop :=
  (GetEventValue s now bot "add").1 = 0 ∧ w.player ≠ none

/-- The environment `sampleBotEnv` with exact products for the three factors and draws that
return the lower bound. -/
def sampleProcessEnv : ProcessEnv :=
  { sampleBotEnv with
    times04 := fun x => Int.ofNat (x * 2 / 5)
    times07 := fun x => Int.ofNat (x * 7 / 10)
    times14 := fun x => Int.ofNat (x * 7 / 5)
    loginUpdateDraw := fun lo _ => lo
    loginRandomizeDraw := fun lo _ => lo
    loginTeleportDraw := fun lo _ => lo
    updateDraw := fun lo _ => lo }

/-- The idle bot 7 is logged in, in the world and not in flight; its account is a bot
account. -/
def onlineWorld : BotWorld := ⟨some idlePlayer, true, false, false, none, fun _ => true, false⟩

/-- No character object for the bot. -/
def offlineWorld : BotWorld := ⟨none, false, false, false, none, fun _ => true, false⟩

/-- Bot 7 is in `currentBots`; its `add` event, written at clock 100 with TTL 500, has
expired at clock 1000, and it has no `logout` row. -/
def expiredAddMgr : Mgr :=
  ⟨⟨[⟨0, 7, 100, 500, "add", 1, none⟩, ⟨0, 9, 900, 5000, "add", 1, none⟩], fun _ => []⟩,
    [7, 9], [], 0⟩

/-- Bots 7 and 9 are in `currentBots`, both with a live `add` event at clock 1000. -/
def liveAddMgr : Mgr :=
  ⟨⟨[⟨0, 7, 900, 5000, "add", 1, none⟩, ⟨0, 9, 900, 5000, "add", 1, none⟩], fun _ => []⟩,
    [7, 9], [], 0⟩

/-- Nothing is loaded yet: `currentBots` is empty and the table holds the target
`bot_count = 5` and live `add` rows of the bots 7 and 9 (clock 1000). -/
def persistedMgr : Mgr :=
  ⟨⟨[⟨0, 0, 900, 1000, "bot_count", 5, none⟩, ⟨0, 7, 900, 5000, "add", 1, none⟩,
     ⟨0, 9, 900, 5000, "add", 1, none⟩], fun _ => []⟩, [], [1], 0⟩

/-! ## CheckBgQueue -/

/-- Modelled from the spec: the declaration of `BattlegroundInfo` (RandomPlayerbotMgr.h) is
not in the sources; the fields are those `CheckBgQueue` reads and writes, the counters are
taken as natural numbers and the instance-id vectors as lists. -/
structure BattlegroundInfo where
  minLevel : Nat
  maxLevel : Nat
  bgAlliancePlayerCount : Nat
  bgHordePlayerCount : Nat
  bgAllianceBotCount : Nat
  bgHordeBotCount : Nat
  ratedArenaPlayerCount : Nat
  skirmishArenaPlayerCount : Nat
  ratedArenaBotCount : Nat
  skirmishArenaBotCount : Nat
  bgInstanceCount : Nat
  ratedArenaInstanceCount : Nat
  skirmishArenaInstanceCount : Nat
  bgInstances : List Nat
  ratedArenaInstances : List Nat
  skirmishArenaInstances : List Nat
  activeBgQueue : Nat
  activeRatedArenaQueue : Nat
  activeSkirmishArenaQueue : Nat
deriving DecidableEq, Repr

/-- The value `BattlegroundInfo()`: every counter and flag 0, every vector empty. -/
def BattlegroundInfo.fresh : BattlegroundInfo :=
  ⟨0, 0, 0, 0, 0, 0, 0, 0, 0, 0, 0, 0, 0, [], [], [], 0, 0, 0⟩

/-- The member `BattlegroundData`, a map of maps indexed `[queueType][bracket]`: the entry
`operator[]` returns for each pair of keys (a fresh one where the map holds none). -/
abbrev BgData := Nat → Nat → BattlegroundInfo

/-- The assignment of an entry `BattlegroundData[queueType][bracket]`. -/
def BgData.set (d : BgData) (queueType bracket : Nat) (info : BattlegroundInfo) : BgData :=
  fun q b => if q = queueType ∧ b = bracket then info else d q b

/-- The enumerators of the core that `CheckBgQueue` names (their values are declared
outside the sources). -/
structure BgEnums where
  BG_BRACKET_ID_FIRST : Nat
  MAX_BATTLEGROUND_BRACKETS : Nat
  BATTLEGROUND_QUEUE_NONE : Nat
  BATTLEGROUND_QUEUE_AV : Nat
  BATTLEGROUND_QUEUE_WS : Nat
  BATTLEGROUND_QUEUE_AB : Nat
  BATTLEGROUND_QUEUE_EY : Nat
  BATTLEGROUND_QUEUE_IC : Nat
  BATTLEGROUND_QUEUE_2v2 : Nat
  BATTLEGROUND_QUEUE_3v3 : Nat
  BATTLEGROUND_QUEUE_5v5 : Nat
  MAX_BATTLEGROUND_QUEUE_TYPES : Nat

/-- The configuration `CheckBgQueue` reads; the bracket lists are the vectors returned by
`parseBrackets` for the configured strings. -/
structure BgConfig where
  randomBotAutoJoinBG : Bool
  randomBotAutoJoinArenaBracket : Nat
  randomBotAutoJoinBGRatedArena2v2Count : Nat
  randomBotAutoJoinBGRatedArena3v3Count : Nat
  randomBotAutoJoinBGRatedArena5v5Count : Nat
  randomBotAutoJoinBGICCount : Nat
  randomBotAutoJoinBGEYCount : Nat
  randomBotAutoJoinBGAVCount : Nat
  randomBotAutoJoinBGABCount : Nat
  randomBotAutoJoinBGWSCount : Nat
  icBrackets : List Nat
  eyBrackets : List Nat
  avBrackets : List Nat
  abBrackets : List Nat
  wsBrackets : List Nat

/-- What is read of a `Battleground*`: `GetStatus() == STATUS_WAIT_LEAVE`,
`GetInstanceID()` and `isRated()`. -/
structure BgObject where
  waitLeave : Bool
  instanceId : Nat
  isRated : Bool
deriving DecidableEq, Repr

/-- What is read of a `PvPDifficultyEntry`. -/
structure BracketEntry where
  bracketId : Nat
  minLevel : Nat
  maxLevel : Nat
deriving DecidableEq, Repr

/-- One of the `PLAYER_MAX_BATTLEGROUND_QUEUES` queue slots of a character:
`GetBattlegroundQueueTypeId(queueType)`, the result of `GetBattlegroundBracketByLevel` for
the map of that queue type and the level of the character (`none` for null),
`BGArenaType(queueTypeId)`, the flag `ginfo.IsRated` when `GetPlayerGroupInfoData`
succeeds, and `IsPlayerInvitedToRatedArena`. -/
structure QueueSlot where
  queueTypeId : Nat
  pvpDiff : Option BracketEntry
  arenaType : Nat
  groupInfoRated : Option Bool
  invitedToRatedArena : Bool
deriving DecidableEq, Repr

/-- What `CheckBgQueue` reads of a character: `InBattlegroundQueue()`, `GetBattleground()`
(`none` for null), `GetTeamId() == TEAM_ALLIANCE`, `InArena()`, `InBattleground()`,
`IsInvitedForBattlegroundInstance()`, `IsInWorld()`, `IsRandomBot(bot)` and the queue
slots. -/
structure BgCharacter where
  inBattlegroundQueue : Bool
  battleground : Option BgObject
  isAlliance : Bool
  inArena : Bool
  inBattleground : Bool
  invitedForInstance : Bool
  isInWorld : Bool
  isRandomBot : Bool
  slots : List QueueSlot
deriving DecidableEq, Repr

/-- The real players `players` and the entries of `playerBots` (`none` for a null
pointer). -/
structure BgWorld where
  players : List BgCharacter
  playerBots : List (Option BgCharacter)

/-- The manager state `CheckBgQueue` works on. -/
structure BgMgr where
  BgCheckTimer : Int
  BattlegroundData : BgData
  store : Store

/-- The two nested loops that assign `BattlegroundInfo()` to every declared pair. -/
def resetData (k : BgEnums) (d : BgData) : BgData :=
  fun q b =>
    if k.BG_BRACKET_ID_FIRST ≤ b ∧ b < k.MAX_BATTLEGROUND_BRACKETS ∧
        k.BATTLEGROUND_QUEUE_AV ≤ q ∧ q < k.MAX_BATTLEGROUND_QUEUE_TYPES then
      BattlegroundInfo.fresh
    else d q b

/-- The local `isRated` of a slot of an arena queue; `none` where `GetBattleground()` is
null and dereferenced. -/
def slotIsRated (c : BgCharacter) (sl : QueueSlot) : Option Bool :=
  let isRated := match sl.groupInfoRated with
    | some rated => rated
    | none => false
  if sl.invitedToRatedArena then some true
  else if c.inArena then
    match c.battleground with
    | none => none
    | some bg => some (if bg.isRated then true else isRated)
  else some isRated

/-- The instance id is pushed unless `std::find` locates it. -/
def pushInstance (instanceIds : List Nat) (instanceId : Nat) : List Nat :=
  if instanceId ∈ instanceIds then instanceIds else instanceIds ++ [instanceId]

/-- What the body of the slot loop over a real player does to the entry of the slot. -/
def playerSlotInfo (c : BgCharacter) (sl : QueueSlot) (diff : BracketEntry)
    (info : BattlegroundInfo) : Option BattlegroundInfo :=
  let i1 := { info with minLevel := diff.minLevel, maxLevel := diff.maxLevel }
  if sl.arenaType ≠ 0 then
    match slotIsRated c sl with
    | none => none
    | some isRated =>
      let i2 := if isRated then
                  { i1 with ratedArenaPlayerCount := i1.ratedArenaPlayerCount + 1 }
                else { i1 with skirmishArenaPlayerCount := i1.skirmishArenaPlayerCount + 1 }
      if !c.invitedForInstance && !c.inBattleground then
        (if isRated then some { i2 with activeRatedArenaQueue := 1 }
         else some { i2 with activeSkirmishArenaQueue := 1 })
      else some i2
  else
    let i2 := if c.isAlliance then
                { i1 with bgAlliancePlayerCount := i1.bgAlliancePlayerCount + 1 }
              else { i1 with bgHordePlayerCount := i1.bgHordePlayerCount + 1 }
    let i3 : Option BattlegroundInfo :=
      if c.inBattleground then
        match c.battleground with
        | none => none
        | some bg =>
          let instanceIds := pushInstance i2.bgInstances bg.instanceId
          some { i2 with bgInstances := instanceIds, bgInstanceCount := instanceIds.length }
      else some i2
    match i3 with
    | none => none
    | some i4 =>
      if !c.invitedForInstance && !c.inBattleground then some { i4 with activeBgQueue := 1 }
      else some i4

/-- What the body of the slot loop over a bot does to the entry of the slot. -/
def botSlotInfo (c : BgCharacter) (sl : QueueSlot) (diff : BracketEntry)
    (info : BattlegroundInfo) : Option BattlegroundInfo :=
  let i1 := { info with minLevel := diff.minLevel, maxLevel := diff.maxLevel }
  let i2 : Option BattlegroundInfo :=
    if sl.arenaType ≠ 0 then
      match slotIsRated c sl with
      | none => none
      | some isRated =>
        if isRated then some { i1 with ratedArenaBotCount := i1.ratedArenaBotCount + 1 }
        else some { i1 with skirmishArenaBotCount := i1.skirmishArenaBotCount + 1 }
    else if c.isAlliance then some { i1 with bgAllianceBotCount := i1.bgAllianceBotCount + 1 }
    else some { i1 with bgHordeBotCount := i1.bgHordeBotCount + 1 }
  match i2 with
  | none => none
  | some i3 =>
    if c.inBattleground then
      match c.battleground with
      | none => none
      | some bg =>
        if c.inArena then
          if bg.isRated then
            let instanceIds := pushInstance i3.ratedArenaInstances bg.instanceId
            some { i3 with ratedArenaInstances := instanceIds,
                           ratedArenaInstanceCount := instanceIds.length }
          else
            let instanceIds := pushInstance i3.skirmishArenaInstances bg.instanceId
            some { i3 with skirmishArenaInstances := instanceIds,
                           skirmishArenaInstanceCount := instanceIds.length }
        else
          let instanceIds := pushInstance i3.bgInstances bg.instanceId
          some { i3 with bgInstances := instanceIds, bgInstanceCount := instanceIds.length }
    else some i3

/-- One pass of the slot loop: a slot with `BATTLEGROUND_QUEUE_NONE` or without bracket is
skipped, otherwise the entry `[queueTypeId][bracketId]` is updated. -/
def slotStep (k : BgEnums)
    (body : QueueSlot → BracketEntry → BattlegroundInfo → Option BattlegroundInfo)
    (d : BgData) (sl : QueueSlot) : Option BgData :=
  if sl.queueTypeId = k.BATTLEGROUND_QUEUE_NONE then some d
  else
    match sl.pvpDiff with
    | none => some d
    | some diff =>
      match body sl diff (d sl.queueTypeId diff.bracketId) with
      | none => none
      | some info => some (d.set sl.queueTypeId diff.bracketId info)

/-- A loop whose body may be undefined. -/
def loopOver {α : Type} (step : BgData → α → Option BgData) : List α → BgData → Option BgData
  | [], d => some d
  | x :: rest, d =>
    match step d x with
    | none => none
    | some d1 => loopOver step rest d1

/-- The body of the loop over the real players. -/
def playerStep (k : BgEnums) (d : BgData) (c : BgCharacter) : Option BgData :=
  if !c.inBattlegroundQueue then some d
  else if c.battleground.any (fun bg => bg.waitLeave) then some d
  else loopOver (slotStep k (playerSlotInfo c)) c.slots d

/-- The body of the loop over `playerBots`. -/
def botStep (k : BgEnums) (d : BgData) (bot : Option BgCharacter) : Option BgData :=
  match bot with
  | none => some d
  | some c =>
    if !c.inBattlegroundQueue || !c.isInWorld || !c.isRandomBot then some d
    else if c.battleground.any (fun bg => bg.waitLeave) then some d
    else loopOver (slotStep k (botSlotInfo c)) c.slots d

/-- The aggregation: the reset and the two loops. -/
def aggregate (k : BgEnums) (w : BgWorld) (d : BgData) : Option BgData :=
  match loopOver (playerStep k) w.players (resetData k d) with
  | none => none
  | some d1 => loopOver (botStep k) w.playerBots d1

/-- The lambda `updateRatedArenaInstanceCount`. -/
def updateRatedArenaInstanceCount (d : BgData) (queueType bracket minCount : Nat) : BgData :=
  if (d queueType bracket).activeRatedArenaQueue = 0 ∧
      (d queueType bracket).ratedArenaInstanceCount < minCount ∧
      (d queueType bracket).ratedArenaInstances.length < minCount then
    d.set queueType bracket { d queueType bracket with activeRatedArenaQueue := 1 }
  else d

/-- The lambda `updateBGInstanceCount`: the loop over the brackets. -/
def updateBGInstanceCount (queueType minCount : Nat) : List Nat → BgData → BgData
  | [], d => d
  | bracket :: rest, d =>
    updateBGInstanceCount queueType minCount rest
      (if (d queueType bracket).activeBgQueue = 0 ∧
          (d queueType bracket).bgInstanceCount < minCount ∧
          (d queueType bracket).bgInstances.length < minCount then
        d.set queueType bracket { d queueType bracket with activeBgQueue := 1 }
      else d)

/-- The block run when auto-join is enabled and all bots are online: the three calls of
`updateRatedArenaInstanceCount`, then the five of `updateBGInstanceCount`. -/
def autoJoinQueues (k : BgEnums) (cfg : BgConfig) (d : BgData) : BgData :=
  let d1 := updateRatedArenaInstanceCount d k.BATTLEGROUND_QUEUE_2v2
    cfg.randomBotAutoJoinArenaBracket cfg.randomBotAutoJoinBGRatedArena2v2Count
  let d2 := updateRatedArenaInstanceCount d1 k.BATTLEGROUND_QUEUE_3v3
    cfg.randomBotAutoJoinArenaBracket cfg.randomBotAutoJoinBGRatedArena3v3Count
  let d3 := updateRatedArenaInstanceCount d2 k.BATTLEGROUND_QUEUE_5v5
    cfg.randomBotAutoJoinArenaBracket cfg.randomBotAutoJoinBGRatedArena5v5Count
  let d4 := updateBGInstanceCount k.BATTLEGROUND_QUEUE_IC cfg.randomBotAutoJoinBGICCount
    cfg.icBrackets d3
  let d5 := updateBGInstanceCount k.BATTLEGROUND_QUEUE_EY cfg.randomBotAutoJoinBGEYCount
    cfg.eyBrackets d4
  let d6 := updateBGInstanceCount k.BATTLEGROUND_QUEUE_AV cfg.randomBotAutoJoinBGAVCount
    cfg.avBrackets d5
  let d7 := updateBGInstanceCount k.BATTLEGROUND_QUEUE_AB cfg.randomBotAutoJoinBGABCount
    cfg.abBrackets d6
  updateBGInstanceCount k.BATTLEGROUND_QUEUE_WS cfg.randomBotAutoJoinBGWSCount
    cfg.wsBrackets d7

/-- `RandomPlayerbotMgr::CheckBgQueue()` at one clock value; `none` where a null
`GetBattleground()` is dereferenced.  (`LogBattlegroundInfo` only logs.) -/
def CheckBgQueue (k : BgEnums) (cfg : BgConfig) (w : BgWorld) (now : Int) (m : BgMgr) :
    Option BgMgr :=
  if m.BgCheckTimer = 0 then some { m with BgCheckTimer := now }
  else if now < m.BgCheckTimer then some m
  else
    match aggregate k w m.BattlegroundData with
    | none => none
    | some agg =>
      if cfg.randomBotAutoJoinBG then
        let r := GetEventValue m.store now 0 "bot_count"
        if w.playerBots.length ≥ r.1 then some ⟨now, autoJoinQueues k cfg agg, r.2⟩
        else some ⟨now, agg, r.2⟩
      else some ⟨now, agg, m.store⟩

/-- The five minimum-instance-count policies of the block, in the order of the calls:
queue type, floor and brackets. -/
def bgPolicies (k : BgEnums) (cfg : BgConfig) : List (Nat × Nat × List Nat) :=
  [(k.BATTLEGROUND_QUEUE_IC, cfg.randomBotAutoJoinBGICCount, cfg.icBrackets),
   (k.BATTLEGROUND_QUEUE_EY, cfg.randomBotAutoJoinBGEYCount, cfg.eyBrackets),
   (k.BATTLEGROUND_QUEUE_AV, cfg.randomBotAutoJoinBGAVCount, cfg.avBrackets),
   (k.BATTLEGROUND_QUEUE_AB, cfg.randomBotAutoJoinBGABCount, cfg.abBrackets),
   (k.BATTLEGROUND_QUEUE_WS, cfg.randomBotAutoJoinBGWSCount, cfg.wsBrackets)]

/-- The entry with `activeBgQueue` set by the test of `updateBGInstanceCount`. -/
def flagged (info : BattlegroundInfo) (minCount : Nat) : BattlegroundInfo :=
  if info.activeBgQueue = 0 ∧ info.bgInstanceCount < minCount ∧
      info.bgInstances.length < minCount then
    { info with activeBgQueue := 1 }
  else info

/-- In every entry the instance count is the size of the instance vector. -/
def CountsInstances (d : BgData) : Prop :=
  ∀ q b, (d q b).bgInstanceCount = (d q b).bgInstances.length

/-- A character that is in a battleground or an arena has a battleground object. -/
def hasBattleground (c : BgCharacter) : Bool :=
  (!c.inBattleground && !c.inArena) || c.battleground.isSome

/-- No null `GetBattleground()` is dereferenced by the aggregation. -/
def noNullBattleground (w : BgWorld) : Bool :=
  w.players.all hasBattleground &&
    w.playerBots.all (fun bot => match bot with
      | none => true
      | some c => hasBattleground c)

/-- Queue types 1 to 10 with the five battlegrounds and three arenas named by
`CheckBgQueue`, 16 brackets. -/
def sampleEnums : BgEnums := ⟨0, 16, 0, 1, 2, 3, 4, 6, 8, 9, 10, 11⟩

/-- Auto-join on; floor 2 for Warsong Gulch in bracket 3, floor 1 for Arathi Basin in
bracket 3, no other bracket configured. -/
def sampleBgConfig : BgConfig :=
  ⟨true, 14, 0, 0, 0, 0, 0, 0, 1, 2, [], [], [], [3], [3]⟩

/-- A random bot of level 30 to 39 in the battleground instance `instanceId` of the queue
type `queueTypeId`. -/
def botInBattleground (queueTypeId instanceId : Nat) : BgCharacter :=
  ⟨true, some ⟨false, instanceId, false⟩, true, false, true, false, true, true,
    [⟨queueTypeId, some ⟨3, 30, 39⟩, 0, none, false⟩, ⟨0, none, 0, none, false⟩]⟩

/-- No real player; two bots in the Warsong Gulch instance 77 and one in the Arathi Basin
instance 78. -/
def sampleBgWorld : BgWorld :=
  ⟨[], [some (botInBattleground 2 77), some (botInBattleground 2 77),
        some (botInBattleground 3 78)]⟩

/-- The timer was set at clock 900, every entry is fresh, and the persisted target is
`bot_count = 3`. -/
def sampleBgMgr : BgMgr :=
  ⟨900, fun _ _ => BattlegroundInfo.fresh,
    ⟨[⟨0, 0, 900, 1000, "bot_count", 3, none⟩], fun _ => []⟩⟩

/-! ## Lemmas on the inner map -/

theorem EventMap.get?_set (m : EventMap) (k : String) (e : CachedEvent) (k2 : String) :
    EventMap.get? (EventMap.set m k e) k2 = if k = k2 then some e else EventMap.get? m k2 := by
  induction m with
  | nil => simp [EventMap.set, EventMap.get?]
  | cons p rest ih =>
    obtain ⟨k1, e1⟩ := p
    by_cases h1 : k1 = k
    · subst h1
      by_cases h2 : k1 = k2 <;> simp [EventMap.set, EventMap.get?, h2]
    · by_cases h2 : k1 = k2
      · subst h2
        have : ¬ k = k1 := fun h => h1 h.symm
        simp [EventMap.set, EventMap.get?, h1, this]
      · simp [EventMap.set, EventMap.get?, h1, h2, ih]

theorem EventMap.at_set (m : EventMap) (k : String) (e : CachedEvent) (k2 : String) :
    EventMap.at (EventMap.set m k e) k2 = if k = k2 then e else EventMap.at m k2 := by
  unfold EventMap.at
  rw [EventMap.get?_set]
  split <;> rfl

theorem EventMap.set_isEmpty (m : EventMap) (k : String) (e : CachedEvent) :
    (EventMap.set m k e).isEmpty = false := by
  cases m with
  | nil => rfl
  | cons p rest =>
    obtain ⟨k1, e1⟩ := p
    by_cases h1 : k1 = k <;> simp [EventMap.set, h1]

/-! ## Lemmas on the event store -/

theorem refreshed_data (now : Int) (event : String) (e : CachedEvent) :
    (refreshed now event e).data = e.data := by
  unfold refreshed
  split <;> rfl

theorem refreshed_idem (now : Int) (event : String) (e : CachedEvent) :
    refreshed now event (refreshed now event e) = refreshed now event e := by
  unfold refreshed
  by_cases h : (expired now e && !neverExpires event) = true
  · simp only [h, if_true]
    have : expired now { e with value := 0 } = expired now e := rfl
    simp [this, h]
  · simp [h]

theorem refreshed_value_zero (now : Int) (event : String) (e : CachedEvent)
    (h : e.value = 0) : (refreshed now event e).value = 0 := by
  unfold refreshed
  split <;> simp [h]

theorem GetEventValue_fst (s : Store) (now : Int) (bot : Nat) (event : String) :
    (GetEventValue s now bot event).1 = (refreshed now event (cachedEvent s bot event)).value :=
  rfl

theorem GetEventValue_cache_self (s : Store) (now : Int) (bot : Nat) (event : String) :
    (GetEventValue s now bot event).2.eventCache bot
      = EventMap.set ((loadEvents s bot).eventCache bot) event
          (refreshed now event (cachedEvent s bot event)) := by
  simp [GetEventValue, Store.setCache, cachedEvent]

theorem GetEventValue_cache_other (s : Store) (now : Int) (bot : Nat) (event : String)
    (b : Nat) (h : b ≠ bot) :
    (GetEventValue s now bot event).2.eventCache b = s.eventCache b := by
  simp only [GetEventValue, Store.setCache, h, if_false]
  unfold loadEvents
  split
  · simp [Store.setCache, h]
  · rfl

theorem GetEventValue_table (s : Store) (now : Int) (bot : Nat) (event : String) :
    (GetEventValue s now bot event).2.table = s.table := by
  simp only [GetEventValue, Store.setCache]
  unfold loadEvents
  split <;> rfl

theorem loadEvents_of_nonempty (s : Store) (bot : Nat)
    (h : (s.eventCache bot).isEmpty = false) : loadEvents s bot = s := by
  simp [loadEvents, h]

/-- After a read of `(bot, event)`, the event read for `(bot, event2)` is the refreshed
event when `event2 = event`, and the event a first read would have seen otherwise. -/
theorem cachedEvent_after_get (s : Store) (now : Int) (bot : Nat) (event event2 : String) :
    cachedEvent (GetEventValue s now bot event).2 bot event2
      = if event = event2 then refreshed now event (cachedEvent s bot event)
        else cachedEvent s bot event2 := by
  have hne : ((GetEventValue s now bot event).2.eventCache bot).isEmpty = false := by
    rw [GetEventValue_cache_self]; exact EventMap.set_isEmpty _ _ _
  unfold cachedEvent
  rw [loadEvents_of_nonempty _ _ hne, GetEventValue_cache_self, EventMap.at_set]
  rfl

theorem cachedEvent_congr (s1 s2 : Store) (bot : Nat) (event : String)
    (hc : s1.eventCache bot = s2.eventCache bot)
    (ht : selByOwnerAndBot s1.table bot = selByOwnerAndBot s2.table bot) :
    cachedEvent s1 bot event = cachedEvent s2 bot event := by
  unfold cachedEvent loadEvents
  rw [hc, ht]
  split <;> simp [Store.setCache, hc]

/-- A read does not change what any later read at the same clock value returns. -/
theorem GetEventValue_after_get (s : Store) (now : Int) (b : Nat) (k : String) (b2 : Nat)
    (k2 : String) :
    (GetEventValue (GetEventValue s now b k).2 now b2 k2).1 = (GetEventValue s now b2 k2).1 := by
  rw [GetEventValue_fst, GetEventValue_fst]
  by_cases hb : b2 = b
  · subst hb
    rw [cachedEvent_after_get]
    by_cases hk : k = k2
    · subst hk
      simp [refreshed_idem]
    · simp [hk]
  · rw [cachedEvent_congr _ s b2 k2 (GetEventValue_cache_other s now b k b2 hb)
      (by rw [GetEventValue_table])]

theorem selByOwnerAndBot_setTransaction (table : List EventRow) (gameTime : Int) (bot : Nat)
    (event : String) (value validIn : Nat) (data : String) (b2 : Nat) (h : b2 ≠ bot) :
    selByOwnerAndBot (setTransaction table gameTime bot event value validIn data) b2
      = selByOwnerAndBot table b2 := by
  have hkept : selByOwnerAndBot (table.filter
      (fun r => !decide (r.owner = 0 ∧ r.bot = bot ∧ r.event = event))) b2
      = selByOwnerAndBot table b2 := by
    unfold selByOwnerAndBot
    rw [List.filter_filter]
    apply List.filter_congr
    intro r _
    by_cases h1 : r.owner = 0 ∧ r.bot = b2
    · obtain ⟨h0, hb⟩ := h1
      have : ¬ r.bot = bot := fun hh => h (hb ▸ hh)
      simp [h0, hb, h]
    · simp only [h1, decide_False, Bool.false_and]
  unfold setTransaction
  split
  · unfold selByOwnerAndBot at hkept ⊢
    rw [List.filter_append, hkept]
    have : ¬ bot = b2 := fun hh => h hh.symm
    simp [this]
  · exact hkept

/-- A write to one bot does not change what a read of another bot returns. -/
theorem GetEventValue_after_set_other (s : Store) (commitOk : Bool) (gameTime t0 : Int)
    (b : Nat) (k : String) (v ttl : Nat) (d : String) (now : Int) (b2 : Nat) (k2 : String)
    (h : b2 ≠ b) :
    (GetEventValue (SetEventValue s commitOk gameTime t0 b k v ttl d).2 now b2 k2).1
      = (GetEventValue s now b2 k2).1 := by
  rw [GetEventValue_fst, GetEventValue_fst]
  rw [cachedEvent_congr _ s b2 k2]
  · simp [SetEventValue, h]
  · cases commitOk
    · simp [SetEventValue]
    · simp only [SetEventValue, if_true]
      exact selByOwnerAndBot_setTransaction _ _ _ _ _ _ _ _ h

/-! ## Event store: expiry, zero writes, reset -/

/-- C1: for every store, bot and key other than "specNo" and "specLink", if the cached
event `e` of `(bot, key)` (whatever its value) has `now - e.lastChangeTime >= e.validIn`,
then `GetEventValue(bot, key)` at time `now` returns 0. -/
theorem GetEventValue_expired (s : Store) (now : Int) (bot : Nat) (event : String)
    (e : CachedEvent) (hNo : event ≠ "specNo") (hLink : event ≠ "specLink")
    (he : cachedEvent s bot event = e)
    (hexp : now - (e.lastChangeTime : Int) ≥ (e.validIn : Int)) :
    (GetEventValue s now bot event).1 = 0 := by
  rw [GetEventValue_fst, he]
  have h1 : expired now e = true := by simp [expired, hexp]
  have h2 : neverExpires event = false := by simp [neverExpires, hNo, hLink]
  simp [refreshed, h1, h2]

theorem GetEventValue_expired_witness :
    (GetEventValue ⟨[⟨0, 1, 100, 50, "add", 7, none⟩], fun _ => []⟩ 150 1 "add").1 = 0 :=
  GetEventValue_expired ⟨[⟨0, 1, 100, 50, "add", 7, none⟩], fun _ => []⟩ 150 1 "add"
    ⟨7, 100, 50, ""⟩ (by decide) (by decide) (by decide) (by decide)

theorem cachedEvent_after_set (s : Store) (commitOk : Bool) (gameTime t0 : Int) (bot : Nat)
    (event : String) (value validIn : Nat) (data : String) :
    cachedEvent (SetEventValue s commitOk gameTime t0 bot event value validIn data).2 bot event
      = ⟨value, (t0 % (U32 : Int)).toNat, validIn, data⟩ := by
  have hne : ((SetEventValue s commitOk gameTime t0 bot event value validIn data).2.eventCache
      bot).isEmpty = false := by
    simp [SetEventValue, EventMap.set_isEmpty]
  unfold cachedEvent
  rw [loadEvents_of_nonempty _ _ hne]
  simp [SetEventValue, EventMap.at_set]

/-- C2: for every bot, every key (the non-expiring keys included), every ttl and payload,
whatever the commit outcome and the clock: `SetEventValue(bot, key, 0, ttl, payload)`
followed by `GetEventValue(bot, key)` returns 0, at the time of the write and at every
other time. -/
theorem GetEventValue_after_zero_write (s : Store) (commitOk : Bool) (gameTime t0 now : Int)
    (bot : Nat) (event : String) (ttl : Nat) (payload : String) :
    (GetEventValue (SetEventValue s commitOk gameTime t0 bot event 0 ttl payload).2
      now bot event).1 = 0 := by
  rw [GetEventValue_fst, cachedEvent_after_set]
  exact refreshed_value_zero _ _ _ rfl

/-- C3: with playerbots enabled, the console command "reset" succeeds and leaves the
persisted event table empty and the cache of every bot empty, and afterwards
`GetEventValue` returns 0 for every bot, every key and at every time. -/
theorem reset_clears_events (s : Store) :
    ∃ r, HandlePlayerbotConsoleCommand true s (some "reset") = some r ∧ r.ok = true ∧
      r.store.table = [] ∧ (∀ bot, r.store.eventCache bot = []) ∧
      ∀ (now : Int) (bot : Nat) (event : String),
        (GetEventValue r.store now bot event).1 = 0 := by
  refine ⟨⟨true, { table := delRandomBots s.table, eventCache := fun _ => [] }⟩, ?_, rfl, rfl,
    fun _ => rfl, ?_⟩
  · simp [HandlePlayerbotConsoleCommand]
  · intro now bot event
    rw [GetEventValue_fst]
    apply refreshed_value_zero
    simp [cachedEvent, loadEvents, Store.setCache, selByOwnerAndBot, delRandomBots, loadRows,
      EventMap.at, EventMap.get?, CachedEvent.absent]

/-- C4 (the code at the failing input): the table holds the live row
`(0, bot 7, "logout", value 1)` and the cache is empty; a first read of "logout" returns 1,
but after `SetEventValue(7, "add", 1, 500)` as the first operation on the bot the row is
still in the table and `GetEventValue(7, "logout")` returns 0: the write made the bot's
cache non-empty, so the load block was skipped. -/
theorem GetEventValue_misses_row_after_set :
    (GetEventValue ⟨[⟨0, 7, 100, 1000, "logout", 1, none⟩], fun _ => []⟩ 100 7 "logout").1 = 1 ∧
    (⟨0, 7, 100, 1000, "logout", 1, none⟩ : EventRow) ∈
      (SetEventValue ⟨[⟨0, 7, 100, 1000, "logout", 1, none⟩], fun _ => []⟩ true 100 100 7
        "add" 1 500 "").2.table ∧
    (GetEventValue
      (SetEventValue ⟨[⟨0, 7, 100, 1000, "logout", 1, none⟩], fun _ => []⟩ true 100 100 7
        "add" 1 500 "").2 100 7 "logout").1 = 0 := by
  decide

/-! ## Event store: the persisted table -/

theorem rowsFor_filter_ne (table : List EventRow) (bot : Nat) (event : String) (b : Nat)
    (k : String) (h : ¬ (b = bot ∧ k = event)) :
    rowsFor (table.filter
        (fun r => !decide (r.owner = 0 ∧ r.bot = bot ∧ r.event = event))) b k
      = rowsFor table b k := by
  unfold rowsFor
  rw [List.filter_filter]
  apply List.filter_congr
  intro r _
  by_cases h1 : r.owner = 0 ∧ r.bot = b ∧ r.event = k
  · obtain ⟨h0, hb, hk⟩ := h1
    have : ¬ (r.bot = bot ∧ r.event = event) := fun hh => h ⟨hb ▸ hh.1, hk ▸ hh.2⟩
    simp [h0, hb, hk]
    exact not_and_or.mp h
  · simp only [h1, decide_False, Bool.false_and]

theorem rowsFor_filter_self (table : List EventRow) (bot : Nat) (event : String) :
    rowsFor (table.filter
        (fun r => !decide (r.owner = 0 ∧ r.bot = bot ∧ r.event = event))) bot event = [] := by
  unfold rowsFor
  rw [List.filter_filter, List.filter_eq_nil_iff]
  intro r _
  by_cases h1 : r.owner = 0 ∧ r.bot = bot ∧ r.event = event <;> simp [h1]

/-- C5: after a committed `SetEventValue(bot, key, v, ttl, payload)` the rows of the table
for `(0, bot, key)` are exactly one row carrying `v` and `ttl` (and the truncated game time
and the payload) when `v != 0` and none when `v == 0`; every other row (any other bot, key
or owner) is kept, in order; and a table with at most one row per `(0, bot, key)` stays
so. -/
theorem SetEventValue_table (s : Store) (gameTime now : Int) (bot : Nat) (event : String)
    (v ttl : Nat) (payload : String) :
    rowsFor (SetEventValue s true gameTime now bot event v ttl payload).2.table bot event
        = (if v ≠ 0 then
            [⟨0, bot, (gameTime % (U32 : Int)).toNat, ttl, event, v,
              if payload ≠ "" then some payload else none⟩]
          else []) ∧
    (SetEventValue s true gameTime now bot event v ttl payload).2.table.filter
        (fun r => !decide (r.owner = 0 ∧ r.bot = bot ∧ r.event = event))
      = s.table.filter (fun r => !decide (r.owner = 0 ∧ r.bot = bot ∧ r.event = event)) ∧
    (∀ b k, ¬ (b = bot ∧ k = event) →
      rowsFor (SetEventValue s true gameTime now bot event v ttl payload).2.table b k
        = rowsFor s.table b k) ∧
    (UniqueRows s.table →
      UniqueRows (SetEventValue s true gameTime now bot event v ttl payload).2.table) := by
  have hself : rowsFor (SetEventValue s true gameTime now bot event v ttl payload).2.table
      bot event = (if v ≠ 0 then
            [⟨0, bot, (gameTime % (U32 : Int)).toNat, ttl, event, v,
              if payload ≠ "" then some payload else none⟩]
          else []) := by
    by_cases hv : v = 0
    · simp only [SetEventValue, setTransaction, hv, if_true, ne_eq, not_true_eq_false, if_false]
      exact rowsFor_filter_self _ _ _
    · simp only [SetEventValue, setTransaction, hv, if_true, ne_eq, not_false_eq_true]
      have := rowsFor_filter_self s.table bot event
      unfold rowsFor at this ⊢
      rw [List.filter_append, this]
      simp
  have hother : ∀ b k, ¬ (b = bot ∧ k = event) →
      rowsFor (SetEventValue s true gameTime now bot event v ttl payload).2.table b k
        = rowsFor s.table b k := by
    intro b k hbk
    by_cases hv : v = 0
    · simp only [SetEventValue, setTransaction, hv, if_true, ne_eq, not_true_eq_false, if_false]
      exact rowsFor_filter_ne _ _ _ _ _ hbk
    · simp only [SetEventValue, setTransaction, hv, if_true, ne_eq, not_false_eq_true]
      have := rowsFor_filter_ne s.table bot event b k hbk
      unfold rowsFor at this ⊢
      rw [List.filter_append, this]
      have hbk2 : ¬ (bot = b ∧ event = k) := fun hh => hbk ⟨hh.1.symm, hh.2.symm⟩
      simp [hbk2]
  refine ⟨hself, ?_, hother, ?_⟩
  · by_cases hv : v = 0
    · simp [SetEventValue, setTransaction, hv]
    · simp [SetEventValue, setTransaction, hv, List.filter_append]
  · intro huniq b k
    by_cases hbk : b = bot ∧ k = event
    · obtain ⟨hb, hk⟩ := hbk
      subst hb; subst hk
      rw [hself]
      split <;> simp
    · rw [hother b k hbk]
      exact huniq b k

theorem SetEventValue_table_witness :
    rowsFor (SetEventValue ⟨[⟨0, 1, 5, 9, "add", 3, none⟩, ⟨0, 2, 5, 9, "add", 3, none⟩],
        fun _ => []⟩ true 70 70 1 "add" 4 60 "").2.table 1 "add"
      = [⟨0, 1, 70, 60, "add", 4, none⟩] := by
  have h := (SetEventValue_table ⟨[⟨0, 1, 5, 9, "add", 3, none⟩, ⟨0, 2, 5, 9, "add", 3, none⟩],
        fun _ => []⟩ 70 70 1 "add" 4 60 "").1
  simpa [U32] using h

/-! ## Event store: payload and commit failure -/

/-- C7 (counterexample): on an empty store, `SetEventValue(1, "add", 1, 60)` whose commit
fails leaves the table as it was but changes the cache entry of `(1, "add")`. -/
theorem SetEventValue_failed_commit_changes_cache :
    (SetEventValue ⟨[], fun _ => []⟩ false 100 100 1 "add" 1 60 "").2.table = [] ∧
    ((SetEventValue ⟨[], fun _ => []⟩ false 100 100 1 "add" 1 60 "").2.eventCache 1).at "add"
      ≠ ((⟨[], fun _ => []⟩ : Store).eventCache 1).at "add" := by
  decide

/-- C7 (amended): `SetEventValue` writes the cache entry of `(bot, key)` after the commit
call whatever its outcome: the entry becomes `(value, (uint32) now, validIn, payload)`,
every other cache entry is as before, and a failed commit leaves the table unchanged. -/
theorem SetEventValue_cache_any_commit (s : Store) (commitOk : Bool) (gameTime now : Int)
    (bot : Nat) (event : String) (v ttl : Nat) (payload : String) :
    ((SetEventValue s commitOk gameTime now bot event v ttl payload).2.eventCache bot).at event
        = ⟨v, (now % (U32 : Int)).toNat, ttl, payload⟩ ∧
    (∀ b k, ¬ (b = bot ∧ k = event) →
      ((SetEventValue s commitOk gameTime now bot event v ttl payload).2.eventCache b).at k
        = (s.eventCache b).at k) ∧
    (commitOk = false →
      (SetEventValue s commitOk gameTime now bot event v ttl payload).2.table = s.table) := by
  refine ⟨?_, ?_, ?_⟩
  · simp [SetEventValue, EventMap.at_set]
  · intro b k hbk
    by_cases hb : b = bot
    · subst hb
      have hk : ¬ event = k := fun h => hbk ⟨rfl, h.symm⟩
      simp [SetEventValue, EventMap.at_set, hk]
    · simp [SetEventValue, hb]
  · intro h
    simp [SetEventValue, h]

theorem SetEventValue_cache_any_commit_witness :
    (SetEventValue ⟨[], fun _ => []⟩ false 100 100 1 "add" 1 60 "").2.table = [] :=
  (SetEventValue_cache_any_commit ⟨[], fun _ => []⟩ false 100 100 1 "add" 1 60 "").2.2 rfl

/-! ## tryLoginBot -/

theorem eligible_congr (cfg : Config) (host : Host) (now : Int) (m1 m2 : Mgr)
    (c : CharacterInfo)
    (hs : ∀ k, (GetEventValue m1.store now c.guid k).1 = (GetEventValue m2.store now c.guid k).1)
    (hc : c.guid ∈ m1.currentBots ↔ c.guid ∈ m2.currentBots) :
    eligible cfg host now m1 c ↔ eligible cfg host now m2 c := by
  unfold eligible
  rw [hs "add", hs "logout", hc]

/-- The lambda returns true exactly for a character eligible at the call. -/
theorem tryLoginBot_true_iff (cfg : Config) (host : Host) (env : Env) (m : Mgr)
    (c : CharacterInfo) :
    (tryLoginBot cfg host env m c).1 = true ↔ eligible cfg host env.now m c := by
  have h2 := GetEventValue_after_get m.store env.now c.guid "add" c.guid "logout"
  unfold tryLoginBot eligible
  by_cases ha : (GetEventValue m.store env.now c.guid "add").1 = 0
  · by_cases hl : (GetEventValue m.store env.now c.guid "logout").1 = 0
    · have hl2 := hl
      rw [← h2] at hl2
      by_cases hp : host.playerBot c.guid = true
      · simp [ha, hl2, hp]
      · by_cases hcb : c.guid ∈ m.currentBots
        · simp [ha, hl2, hcb]
        · by_cases hdk : cfg.disableDeathKnightLogin = true ∧ c.rClass = CLASS_DEATH_KNIGHT
          · simp [ha, hl2, hl, hcb, hdk]
          · simp only [ha, hl2, hl, hp, hcb, hdk]
            simp
    · have hl2 := hl
      rw [← h2] at hl2
      simp [ha, hl2, hl]
  · simp [ha]

/-- A rejected character: `currentBots` is untouched and every later read at the same
clock value returns what it returned before. -/
theorem tryLoginBot_rejected (cfg : Config) (host : Host) (env : Env) (m : Mgr)
    (c : CharacterInfo) (h : (tryLoginBot cfg host env m c).1 = false) :
    (tryLoginBot cfg host env m c).2.currentBots = m.currentBots ∧
    (tryLoginBot cfg host env m c).2.rndBotTypeAccounts = m.rndBotTypeAccounts ∧
    (tryLoginBot cfg host env m c).2.missingBotsTimer = m.missingBotsTimer ∧
    ∀ b k, (GetEventValue (tryLoginBot cfg host env m c).2.store env.now b k).1
      = (GetEventValue m.store env.now b k).1 := by
  unfold tryLoginBot at h ⊢
  by_cases ha : (GetEventValue m.store env.now c.guid "add").1 = 0
  · by_cases hl : (GetEventValue (GetEventValue m.store env.now c.guid "add").2 env.now
        c.guid "logout").1 = 0
    · by_cases hc : host.playerBot c.guid = true ∨ c.guid ∈ m.currentBots ∨
          (cfg.disableDeathKnightLogin = true ∧ c.rClass = CLASS_DEATH_KNIGHT)
      · simp only [ha, hl, hc, ne_eq, not_true_eq_false, if_false, if_true]
        refine ⟨trivial, trivial, trivial, fun b k => ?_⟩
        simp only [GetEventValue_after_get]
      · simp [ha, hl, hc] at h
    · simp only [ha, hl, ne_eq, not_true_eq_false, not_false_eq_true, if_false, if_true]
      refine ⟨trivial, trivial, trivial, fun b k => ?_⟩
      simp only [GetEventValue_after_get]
  · simp only [ha, ne_eq, not_false_eq_true, if_true]
    refine ⟨trivial, trivial, trivial, fun b k => ?_⟩
    simp only [GetEventValue_after_get]

/-- An admitted character: its id is appended to `currentBots`, and every later read of
another bot at the same clock value returns what it returned before. -/
theorem tryLoginBot_admitted (cfg : Config) (host : Host) (env : Env) (m : Mgr)
    (c : CharacterInfo) (h : (tryLoginBot cfg host env m c).1 = true) :
    (tryLoginBot cfg host env m c).2.currentBots = m.currentBots ++ [c.guid] ∧
    (tryLoginBot cfg host env m c).2.rndBotTypeAccounts = m.rndBotTypeAccounts ∧
    (tryLoginBot cfg host env m c).2.missingBotsTimer = m.missingBotsTimer ∧
    ∀ b k, b ≠ c.guid →
      (GetEventValue (tryLoginBot cfg host env m c).2.store env.now b k).1
        = (GetEventValue m.store env.now b k).1 := by
  unfold tryLoginBot at h ⊢
  by_cases ha : (GetEventValue m.store env.now c.guid "add").1 = 0
  · by_cases hl : (GetEventValue (GetEventValue m.store env.now c.guid "add").2 env.now
        c.guid "logout").1 = 0
    · by_cases hc : host.playerBot c.guid = true ∨ c.guid ∈ m.currentBots ∨
          (cfg.disableDeathKnightLogin = true ∧ c.rClass = CLASS_DEATH_KNIGHT)
      · simp [ha, hl, hc] at h
      · simp only [ha, hl, hc, ne_eq, not_true_eq_false, if_false]
        refine ⟨trivial, trivial, trivial, fun b k hb => ?_⟩
        simp only [GetEventValue_after_set_other _ _ _ _ _ _ _ _ _ _ _ _ hb,
          GetEventValue_after_get]
    · simp [ha, hl] at h
  · simp [ha] at h

theorem eligible_after_rejected (cfg : Config) (host : Host) (env : Env) (m : Mgr)
    (c : CharacterInfo) (h : (tryLoginBot cfg host env m c).1 = false) (c2 : CharacterInfo) :
    eligible cfg host env.now (tryLoginBot cfg host env m c).2 c2
      ↔ eligible cfg host env.now m c2 := by
  obtain ⟨hcb, _, _, hs⟩ := tryLoginBot_rejected cfg host env m c h
  exact eligible_congr cfg host env.now _ _ c2 (fun k => hs c2.guid k) (by rw [hcb])

theorem eligible_after_admitted (cfg : Config) (host : Host) (env : Env) (m : Mgr)
    (c : CharacterInfo) (h : (tryLoginBot cfg host env m c).1 = true) (c2 : CharacterInfo) :
    eligible cfg host env.now (tryLoginBot cfg host env m c).2 c2
      ↔ (eligible cfg host env.now m c2 ∧ c2.guid ≠ c.guid) := by
  obtain ⟨hcb, _, _, hs⟩ := tryLoginBot_admitted cfg host env m c h
  by_cases hg : c2.guid = c.guid
  · constructor
    · intro he
      exact absurd (by rw [hcb, hg]; simp) he.2.2.2.1
    · intro he
      exact absurd hg he.2
  · rw [eligible_congr cfg host env.now _ m c2 (fun k => hs c2.guid k hg)
      (by rw [hcb]; simp [hg])]
    simp [hg]

/-! ## The login loops -/

theorem dec32_of_pos (x : Nat) (h0 : x ≠ 0) (h : x < U32) : dec32 x = x - 1 := by
  unfold dec32 U32 at *
  omega

theorem min_succ_step (k x n : Nat) (hk : k ≠ 0) (h : n = min (k - 1) x) :
    n + 1 = min k (1 + x) := by
  omega

theorem count_succ_step (a n x : Nat) (h : a + n = x) : 0 + a + (n + 1) = 1 + x := by
  omega

theorem eligibleCount_cons (cfg : Config) (host : Host) (now : Int) (m : Mgr)
    (done : List Nat) (c : CharacterInfo) (rest : List CharacterInfo) :
    eligibleCount cfg host now m done (c :: rest)
      = (if eligible cfg host now m c ∧ c.guid ∉ done then 1 else 0)
        + eligibleCount cfg host now m done rest := by
  unfold eligibleCount
  rw [List.filter_cons]
  by_cases h : eligible cfg host now m c ∧ c.guid ∉ done
  · rw [if_pos (decide_eq_true h), if_pos h, List.length_cons]
    omega
  · rw [if_neg (by simpa using h), if_neg h]
    omega

theorem eligibleCount_congr_done (cfg : Config) (host : Host) (now : Int) (m : Mgr)
    (done1 done2 : List Nat) (cs : List CharacterInfo)
    (h : ∀ c ∈ cs, (c.guid ∈ done1 ↔ c.guid ∈ done2)) :
    eligibleCount cfg host now m done1 cs = eligibleCount cfg host now m done2 cs := by
  unfold eligibleCount
  congr 1
  apply List.filter_congr
  intro c hc
  simp [h c hc]

theorem admittedGuids_append (xs ys : List Admission) :
    admittedGuids (xs ++ ys) = admittedGuids xs ++ admittedGuids ys := by
  simp [admittedGuids]

theorem LoopInv_rejected (cfg : Config) (host : Host) (env : Env) (m : Mgr) (st : LoginLoop)
    (c : CharacterInfo) (hinv : LoopInv cfg host env m st)
    (h : (tryLoginBot cfg host env st.mgr c).1 = false) :
    LoopInv cfg host env m { st with mgr := (tryLoginBot cfg host env st.mgr c).2 } := by
  obtain ⟨hcb, hel, hacc, htm⟩ := hinv
  obtain ⟨h1, h2, h3, _⟩ := tryLoginBot_rejected cfg host env st.mgr c h
  refine ⟨by simpa [h1] using hcb, fun c2 => ?_, by simpa [h2] using hacc,
    by simpa [h3] using htm⟩
  simp only
  rw [eligible_after_rejected cfg host env st.mgr c h c2]
  exact hel c2

theorem LoopInv_admitted (cfg : Config) (host : Host) (env : Env) (m : Mgr) (st : LoginLoop)
    (c : CharacterInfo) (hinv : LoopInv cfg host env m st)
    (h : (tryLoginBot cfg host env st.mgr c).1 = true) (k1 k2 : Nat) :
    LoopInv cfg host env m
      { maxAllowedBotCount := k1, allowedAllianceCount := k2,
        mgr := (tryLoginBot cfg host env st.mgr c).2,
        admitted := st.admitted ++
          [⟨st.mgr, st.maxAllowedBotCount, st.allowedAllianceCount, c⟩] } := by
  obtain ⟨hcb, hel, hacc, htm⟩ := hinv
  obtain ⟨h1, h2, h3, _⟩ := tryLoginBot_admitted cfg host env st.mgr c h
  refine ⟨?_, fun c2 => ?_, by simpa [h2] using hacc, by simpa [h3] using htm⟩
  · simp only [h1, hcb, admittedGuids_append]
    simp [admittedGuids]
  · simp only
    rw [eligible_after_admitted cfg host env st.mgr c h c2, hel c2, admittedGuids_append]
    simp [admittedGuids, and_assoc]

/-- The loop of PHASES 2 and 3 from a state satisfying the invariant and with
`maxAllowedBotCount < 2^32`: the countdown goes down by exactly the number of admissions,
every admitted character is a character of the list, eligible at its admission and taken
with a positive countdown; over characters with distinct ids the number of admissions is
`min(maxAllowedBotCount, eligible characters left in the list)`. -/
theorem phaseUpToMax_spec (cfg : Config) (host : Host) (env : Env) (m : Mgr) :
    ∀ (l : List CharacterInfo) (st : LoginLoop),
      st.maxAllowedBotCount < U32 →
      LoopInv cfg host env m st →
      ∃ new : List Admission,
        (phaseUpToMax cfg host env l st).admitted = st.admitted ++ new ∧
        (phaseUpToMax cfg host env l st).maxAllowedBotCount + new.length
          = st.maxAllowedBotCount ∧
        (phaseUpToMax cfg host env l st).allowedAllianceCount = st.allowedAllianceCount ∧
        (∀ a ∈ new, a.char ∈ l ∧ 0 < a.maxAllowedBotCount ∧
          eligible cfg host env.now a.mgr a.char) ∧
        LoopInv cfg host env m (phaseUpToMax cfg host env l st) ∧
        ((l.map (fun c => c.guid)).Nodup →
          new.length = min st.maxAllowedBotCount
            (eligibleCount cfg host env.now m (admittedGuids st.admitted) l) ∧
          eligibleCount cfg host env.now m
              (admittedGuids (phaseUpToMax cfg host env l st).admitted) l + new.length
            = eligibleCount cfg host env.now m (admittedGuids st.admitted) l) := by
  intro l
  induction l with
  | nil =>
    intro st _ hinv
    exact ⟨[], by simp [phaseUpToMax], by simp [phaseUpToMax], by simp [phaseUpToMax], by simp,
      by simpa [phaseUpToMax] using hinv, fun _ => ⟨by simp [eligibleCount], by simp [phaseUpToMax]⟩⟩
  | cons c rest ih =>
    intro st hmax hinv
    by_cases h0 : st.maxAllowedBotCount = 0
    · have hstep : phaseUpToMax cfg host env (c :: rest) st = st := by
        simp [phaseUpToMax, h0]
      rw [hstep]
      exact ⟨[], by simp, by simp, rfl, by simp, hinv, fun _ => ⟨by simp [h0], by simp⟩⟩
    · have hm0 : st.maxAllowedBotCount ≠ 0 := h0
      by_cases ht : (tryLoginBot cfg host env st.mgr c).1 = true
      · have hstep : phaseUpToMax cfg host env (c :: rest) st
            = phaseUpToMax cfg host env rest
                { maxAllowedBotCount := dec32 st.maxAllowedBotCount,
                  allowedAllianceCount := st.allowedAllianceCount,
                  mgr := (tryLoginBot cfg host env st.mgr c).2,
                  admitted := st.admitted ++
                    [⟨st.mgr, st.maxAllowedBotCount, st.allowedAllianceCount, c⟩] } := by
          simp [phaseUpToMax, h0, ht]
        have hdec := dec32_of_pos st.maxAllowedBotCount hm0 hmax
        have helig := (tryLoginBot_true_iff cfg host env st.mgr c).mp ht
        have heligm := (hinv.2.1 c).mp helig
        obtain ⟨new2, h1, h2, h3, h5, h7, hcount⟩ :=
          ih _ (by simp only [hdec]; omega)
            (LoopInv_admitted cfg host env m st c hinv ht (dec32 st.maxAllowedBotCount)
              (st.allowedAllianceCount))
        have hcnt := eligibleCount_cons cfg host env.now m (admittedGuids st.admitted) c rest
        rw [if_pos heligm] at hcnt
        rw [hstep]
        simp only at h1 h2 h3
        refine ⟨⟨st.mgr, st.maxAllowedBotCount, st.allowedAllianceCount, c⟩ :: new2, ?_, ?_,
          ?_, ?_, h7, ?_⟩
        · rw [h1]; simp
        · rw [List.length_cons]
          omega
        · exact h3
        · intro a ha
          rcases List.mem_cons.mp ha with rfl | ha2
          · exact ⟨List.mem_cons_self _ _, Nat.pos_of_ne_zero hm0, helig⟩
          · obtain ⟨q1, q2, q3⟩ := h5 a ha2
            exact ⟨List.mem_cons_of_mem _ q1, q2, q3⟩
        · intro hnd
          rw [List.map_cons, List.nodup_cons] at hnd
          obtain ⟨hcnot, hnd2⟩ := hnd
          obtain ⟨h4, h6⟩ := hcount hnd2
          simp only at h4 h6
          have hX : eligibleCount cfg host env.now m
              (admittedGuids (st.admitted ++
                [⟨st.mgr, st.maxAllowedBotCount, st.allowedAllianceCount, c⟩])) rest
              = eligibleCount cfg host env.now m (admittedGuids st.admitted) rest := by
            apply eligibleCount_congr_done
            intro c2 hc2
            have hne : c2.guid ≠ c.guid := by
              intro he
              exact hcnot (he ▸ List.mem_map_of_mem (fun c => c.guid) hc2)
            simp [admittedGuids_append, admittedGuids, hne]
          have hcR := eligibleCount_cons cfg host env.now m
            (admittedGuids (phaseUpToMax cfg host env rest
                { maxAllowedBotCount := dec32 st.maxAllowedBotCount,
                  allowedAllianceCount := st.allowedAllianceCount,
                  mgr := (tryLoginBot cfg host env st.mgr c).2,
                  admitted := st.admitted ++
                    [⟨st.mgr, st.maxAllowedBotCount, st.allowedAllianceCount, c⟩] }).admitted)
            c rest
          have hin : ¬ (eligible cfg host env.now m c ∧ c.guid ∉ admittedGuids
              (phaseUpToMax cfg host env rest
                { maxAllowedBotCount := dec32 st.maxAllowedBotCount,
                  allowedAllianceCount := st.allowedAllianceCount,
                  mgr := (tryLoginBot cfg host env st.mgr c).2,
                  admitted := st.admitted ++
                    [⟨st.mgr, st.maxAllowedBotCount, st.allowedAllianceCount, c⟩] }).admitted) :=
            by
            rw [h1]
            simp [admittedGuids_append, admittedGuids]
          rw [if_neg hin] at hcR
          rw [hX] at h4 h6
          constructor
          · rw [hcnt, List.length_cons]
            rw [hdec] at h4
            exact min_succ_step _ _ _ hm0 h4
          · rw [hcR, hcnt, List.length_cons]
            exact count_succ_step _ _ _ h6
      · have htf : (tryLoginBot cfg host env st.mgr c).1 = false := by
          simpa using ht
        have hstep : phaseUpToMax cfg host env (c :: rest) st
            = phaseUpToMax cfg host env rest
                { st with mgr := (tryLoginBot cfg host env st.mgr c).2 } := by
          simp [phaseUpToMax, h0, htf]
        have hnel : ¬ eligible cfg host env.now st.mgr c := fun he =>
          ht ((tryLoginBot_true_iff cfg host env st.mgr c).mpr he)
        have hnelm : ¬ (eligible cfg host env.now m c ∧ c.guid ∉ admittedGuids st.admitted) :=
          fun he => hnel ((hinv.2.1 c).mpr he)
        obtain ⟨new2, h1, h2, h3, h5, h7, hcount⟩ :=
          ih { st with mgr := (tryLoginBot cfg host env st.mgr c).2 } hmax
            (LoopInv_rejected cfg host env m st c hinv htf)
        have hcnt := eligibleCount_cons cfg host env.now m (admittedGuids st.admitted) c rest
        rw [if_neg hnelm] at hcnt
        rw [hstep]
        simp only at h1 h2 h3
        refine ⟨new2, h1, h2, h3, ?_, h7, ?_⟩
        · intro a ha
          obtain ⟨q1, q2, q3⟩ := h5 a ha
          exact ⟨List.mem_cons_of_mem _ q1, q2, q3⟩
        · intro hnd
          rw [List.map_cons, List.nodup_cons] at hnd
          obtain ⟨h4, h6⟩ := hcount hnd.2
          simp only at h4 h6
          have hcR := eligibleCount_cons cfg host env.now m
            (admittedGuids (phaseUpToMax cfg host env rest
                { st with mgr := (tryLoginBot cfg host env st.mgr c).2 }).admitted) c rest
          have hin : ¬ (eligible cfg host env.now m c ∧ c.guid ∉ admittedGuids
              (phaseUpToMax cfg host env rest
                { st with mgr := (tryLoginBot cfg host env st.mgr c).2 }).admitted) := by
            rw [h1]
            intro he
            apply hnelm
            refine ⟨he.1, fun hmem => he.2 ?_⟩
            rw [admittedGuids_append]
            exact List.mem_append_left _ hmem
          rw [if_neg hin] at hcR
          constructor
          · rw [hcnt, h4, Nat.zero_add]
          · rw [hcR, hcnt, Nat.zero_add, Nat.zero_add]
            exact h6

/-- The loop of PHASE 1 from a state satisfying the invariant and with
`allowedAllianceCount <= maxAllowedBotCount < 2^32`: both countdowns go down by exactly the
number of admissions, every admitted character is a character of the list, eligible at its
admission and taken with both countdowns positive; over characters with distinct ids the
number of admissions is `min(allowedAllianceCount, eligible characters left in the list)`. -/
theorem phase1_spec (cfg : Config) (host : Host) (env : Env) (m : Mgr) :
    ∀ (l : List CharacterInfo) (st : LoginLoop),
      st.maxAllowedBotCount < U32 →
      st.allowedAllianceCount ≤ st.maxAllowedBotCount →
      LoopInv cfg host env m st →
      ∃ new : List Admission,
        (phase1 cfg host env l st).admitted = st.admitted ++ new ∧
        (phase1 cfg host env l st).maxAllowedBotCount + new.length
          = st.maxAllowedBotCount ∧
        (phase1 cfg host env l st).allowedAllianceCount + new.length
          = st.allowedAllianceCount ∧
        (∀ a ∈ new, a.char ∈ l ∧ 0 < a.maxAllowedBotCount ∧ 0 < a.allowedAllianceCount ∧
          eligible cfg host env.now a.mgr a.char) ∧
        LoopInv cfg host env m (phase1 cfg host env l st) ∧
        ((l.map (fun c => c.guid)).Nodup →
          new.length = min st.allowedAllianceCount
            (eligibleCount cfg host env.now m (admittedGuids st.admitted) l) ∧
          eligibleCount cfg host env.now m
              (admittedGuids (phase1 cfg host env l st).admitted) l + new.length
            = eligibleCount cfg host env.now m (admittedGuids st.admitted) l) := by
  intro l
  induction l with
  | nil =>
    intro st _ _ hinv
    exact ⟨[], by simp [phase1], by simp [phase1], by simp [phase1], by simp,
      by simpa [phase1] using hinv, fun _ => ⟨by simp [eligibleCount], by simp [phase1]⟩⟩
  | cons c rest ih =>
    intro st hmax hle hinv
    by_cases h0 : st.allowedAllianceCount = 0
    · have hstep : phase1 cfg host env (c :: rest) st = st := by
        simp [phase1, h0]
      rw [hstep]
      exact ⟨[], by simp, by simp, by simp, by simp, hinv, fun _ => ⟨by simp [h0], by simp⟩⟩
    · have hm0 : st.maxAllowedBotCount ≠ 0 := by omega
      by_cases ht : (tryLoginBot cfg host env st.mgr c).1 = true
      · have hstep : phase1 cfg host env (c :: rest) st
            = phase1 cfg host env rest
                { maxAllowedBotCount := dec32 st.maxAllowedBotCount,
                  allowedAllianceCount := dec32 st.allowedAllianceCount,
                  mgr := (tryLoginBot cfg host env st.mgr c).2,
                  admitted := st.admitted ++
                    [⟨st.mgr, st.maxAllowedBotCount, st.allowedAllianceCount, c⟩] } := by
          simp [phase1, h0, ht]
        have hdec := dec32_of_pos st.maxAllowedBotCount hm0 hmax
        have hdec2 := dec32_of_pos st.allowedAllianceCount h0 (by omega)
        have helig := (tryLoginBot_true_iff cfg host env st.mgr c).mp ht
        have heligm := (hinv.2.1 c).mp helig
        obtain ⟨new2, h1, h2, h3, h5, h7, hcount⟩ :=
          ih _ (by simp only [hdec]; omega) (by simp only [hdec, hdec2]; omega)
            (LoopInv_admitted cfg host env m st c hinv ht (dec32 st.maxAllowedBotCount)
              (dec32 st.allowedAllianceCount))
        have hcnt := eligibleCount_cons cfg host env.now m (admittedGuids st.admitted) c rest
        rw [if_pos heligm] at hcnt
        rw [hstep]
        simp only at h1 h2 h3
        refine ⟨⟨st.mgr, st.maxAllowedBotCount, st.allowedAllianceCount, c⟩ :: new2, ?_, ?_,
          ?_, ?_, h7, ?_⟩
        · rw [h1]; simp
        · rw [List.length_cons]
          omega
        · rw [List.length_cons]
          omega
        · intro a ha
          rcases List.mem_cons.mp ha with rfl | ha2
          · exact ⟨List.mem_cons_self _ _, Nat.pos_of_ne_zero hm0, Nat.pos_of_ne_zero h0, helig⟩
          · obtain ⟨q1, q2, q3, q4⟩ := h5 a ha2
            exact ⟨List.mem_cons_of_mem _ q1, q2, q3, q4⟩
        · intro hnd
          rw [List.map_cons, List.nodup_cons] at hnd
          obtain ⟨hcnot, hnd2⟩ := hnd
          obtain ⟨h4, h6⟩ := hcount hnd2
          simp only at h4 h6
          have hX : eligibleCount cfg host env.now m
              (admittedGuids (st.admitted ++
                [⟨st.mgr, st.maxAllowedBotCount, st.allowedAllianceCount, c⟩])) rest
              = eligibleCount cfg host env.now m (admittedGuids st.admitted) rest := by
            apply eligibleCount_congr_done
            intro c2 hc2
            have hne : c2.guid ≠ c.guid := by
              intro he
              exact hcnot (he ▸ List.mem_map_of_mem (fun c => c.guid) hc2)
            simp [admittedGuids_append, admittedGuids, hne]
          have hcR := eligibleCount_cons cfg host env.now m
            (admittedGuids (phase1 cfg host env rest
                { maxAllowedBotCount := dec32 st.maxAllowedBotCount,
                  allowedAllianceCount := dec32 st.allowedAllianceCount,
                  mgr := (tryLoginBot cfg host env st.mgr c).2,
                  admitted := st.admitted ++
                    [⟨st.mgr, st.maxAllowedBotCount, st.allowedAllianceCount, c⟩] }).admitted)
            c rest
          have hin : ¬ (eligible cfg host env.now m c ∧ c.guid ∉ admittedGuids
              (phase1 cfg host env rest
                { maxAllowedBotCount := dec32 st.maxAllowedBotCount,
                  allowedAllianceCount := dec32 st.allowedAllianceCount,
                  mgr := (tryLoginBot cfg host env st.mgr c).2,
                  admitted := st.admitted ++
                    [⟨st.mgr, st.maxAllowedBotCount, st.allowedAllianceCount, c⟩] }).admitted) :=
            by
            rw [h1]
            simp [admittedGuids_append, admittedGuids]
          rw [if_neg hin] at hcR
          rw [hX] at h4 h6
          constructor
          · rw [hcnt, List.length_cons]
            rw [hdec2] at h4
            exact min_succ_step _ _ _ h0 h4
          · rw [hcR, hcnt, List.length_cons]
            exact count_succ_step _ _ _ h6
      · have htf : (tryLoginBot cfg host env st.mgr c).1 = false := by
          simpa using ht
        have hstep : phase1 cfg host env (c :: rest) st
            = phase1 cfg host env rest
                { st with mgr := (tryLoginBot cfg host env st.mgr c).2 } := by
          simp [phase1, h0, htf]
        have hnel : ¬ eligible cfg host env.now st.mgr c := fun he =>
          ht ((tryLoginBot_true_iff cfg host env st.mgr c).mpr he)
        have hnelm : ¬ (eligible cfg host env.now m c ∧ c.guid ∉ admittedGuids st.admitted) :=
          fun he => hnel ((hinv.2.1 c).mpr he)
        obtain ⟨new2, h1, h2, h3, h5, h7, hcount⟩ :=
          ih { st with mgr := (tryLoginBot cfg host env st.mgr c).2 } hmax hle
            (LoopInv_rejected cfg host env m st c hinv htf)
        have hcnt := eligibleCount_cons cfg host env.now m (admittedGuids st.admitted) c rest
        rw [if_neg hnelm] at hcnt
        rw [hstep]
        simp only at h1 h2 h3
        refine ⟨new2, h1, h2, h3, ?_, h7, ?_⟩
        · intro a ha
          obtain ⟨q1, q2, q3, q4⟩ := h5 a ha
          exact ⟨List.mem_cons_of_mem _ q1, q2, q3, q4⟩
        · intro hnd
          rw [List.map_cons, List.nodup_cons] at hnd
          obtain ⟨h4, h6⟩ := hcount hnd.2
          simp only at h4 h6
          have hcR := eligibleCount_cons cfg host env.now m
            (admittedGuids (phase1 cfg host env rest
                { st with mgr := (tryLoginBot cfg host env st.mgr c).2 }).admitted) c rest
          have hin : ¬ (eligible cfg host env.now m c ∧ c.guid ∉ admittedGuids
              (phase1 cfg host env rest
                { st with mgr := (tryLoginBot cfg host env st.mgr c).2 }).admitted) := by
            rw [h1]
            intro he
            apply hnelm
            refine ⟨he.1, fun hmem => he.2 ?_⟩
            rw [admittedGuids_append]
            exact List.mem_append_left _ hmem
          rw [if_neg hin] at hcR
          constructor
          · rw [hcnt, h4, Nat.zero_add]
          · rw [hcR, hcnt, Nat.zero_add, Nat.zero_add]
            exact h6

/-- Whatever the countdowns: the loop only appends admissions, each of a character of the
list that was eligible at its admission, made in a manager whose `currentBots` extends the
entry list, and it keeps the loop invariant. -/
theorem phase1_basic (cfg : Config) (host : Host) (env : Env) (m : Mgr) :
    ∀ (l : List CharacterInfo) (st : LoginLoop),
      LoopInv cfg host env m st →
      ∃ new : List Admission,
        (phase1 cfg host env l st).admitted = st.admitted ++ new ∧
        (∀ a ∈ new, a.char ∈ l ∧ eligible cfg host env.now a.mgr a.char ∧
          ∀ g ∈ m.currentBots, g ∈ a.mgr.currentBots) ∧
        LoopInv cfg host env m (phase1 cfg host env l st) := by
  intro l
  induction l with
  | nil =>
    intro st hinv
    exact ⟨[], by simp [phase1], by simp, by simpa [phase1] using hinv⟩
  | cons c rest ih =>
    intro st hinv
    by_cases h0 : st.allowedAllianceCount = 0
    · have hstep : phase1 cfg host env (c :: rest) st = st := by
        simp [phase1, h0]
      rw [hstep]
      exact ⟨[], by simp, by simp, hinv⟩
    · by_cases ht : (tryLoginBot cfg host env st.mgr c).1 = true
      · have hstep : phase1 cfg host env (c :: rest) st
            = phase1 cfg host env rest
              { maxAllowedBotCount := dec32 st.maxAllowedBotCount,
                allowedAllianceCount := dec32 st.allowedAllianceCount,
                mgr := (tryLoginBot cfg host env st.mgr c).2,
                admitted := st.admitted ++
                  [⟨st.mgr, st.maxAllowedBotCount, st.allowedAllianceCount, c⟩] } := by
          simp [phase1, h0, ht]
        have helig := (tryLoginBot_true_iff cfg host env st.mgr c).mp ht
        obtain ⟨new2, h1, h5, h7⟩ :=
          ih _ (LoopInv_admitted cfg host env m st c hinv ht (dec32 st.maxAllowedBotCount)
              (dec32 st.allowedAllianceCount))
        rw [hstep]
        simp only at h1
        refine ⟨⟨st.mgr, st.maxAllowedBotCount, st.allowedAllianceCount, c⟩ :: new2, ?_, ?_, h7⟩
        · rw [h1]; simp
        · intro a ha
          rcases List.mem_cons.mp ha with rfl | ha2
          · refine ⟨List.mem_cons_self _ _, helig, fun g hg => ?_⟩
            simp only
            rw [hinv.1]
            exact List.mem_append_left _ hg
          · obtain ⟨q1, q2, q3⟩ := h5 a ha2
            exact ⟨List.mem_cons_of_mem _ q1, q2, q3⟩
      · have htf : (tryLoginBot cfg host env st.mgr c).1 = false := by
          simpa using ht
        have hstep : phase1 cfg host env (c :: rest) st
            = phase1 cfg host env rest
                { st with mgr := (tryLoginBot cfg host env st.mgr c).2 } := by
          simp [phase1, h0, htf]
        obtain ⟨new2, h1, h5, h7⟩ :=
          ih { st with mgr := (tryLoginBot cfg host env st.mgr c).2 }
            (LoopInv_rejected cfg host env m st c hinv htf)
        rw [hstep]
        simp only at h1
        refine ⟨new2, h1, ?_, h7⟩
        intro a ha
        obtain ⟨q1, q2, q3⟩ := h5 a ha
        exact ⟨List.mem_cons_of_mem _ q1, q2, q3⟩

/-- Whatever the countdowns: the loop only appends admissions, each of a character of the
list that was eligible at its admission, made in a manager whose `currentBots` extends the
entry list, and it keeps the loop invariant. -/
theorem phaseUpToMax_basic (cfg : Config) (host : Host) (env : Env) (m : Mgr) :
    ∀ (l : List CharacterInfo) (st : LoginLoop),
      LoopInv cfg host env m st →
      ∃ new : List Admission,
        (phaseUpToMax cfg host env l st).admitted = st.admitted ++ new ∧
        (∀ a ∈ new, a.char ∈ l ∧ eligible cfg host env.now a.mgr a.char ∧
          ∀ g ∈ m.currentBots, g ∈ a.mgr.currentBots) ∧
        LoopInv cfg host env m (phaseUpToMax cfg host env l st) := by
  intro l
  induction l with
  | nil =>
    intro st hinv
    exact ⟨[], by simp [phaseUpToMax], by simp, by simpa [phaseUpToMax] using hinv⟩
  | cons c rest ih =>
    intro st hinv
    by_cases h0 : st.maxAllowedBotCount = 0
    · have hstep : phaseUpToMax cfg host env (c :: rest) st = st := by
        simp [phaseUpToMax, h0]
      rw [hstep]
      exact ⟨[], by simp, by simp, hinv⟩
    · by_cases ht : (tryLoginBot cfg host env st.mgr c).1 = true
      · have hstep : phaseUpToMax cfg host env (c :: rest) st
            = phaseUpToMax cfg host env rest
              { maxAllowedBotCount := dec32 st.maxAllowedBotCount,
                allowedAllianceCount := st.allowedAllianceCount,
                mgr := (tryLoginBot cfg host env st.mgr c).2,
                admitted := st.admitted ++
                  [⟨st.mgr, st.maxAllowedBotCount, st.allowedAllianceCount, c⟩] } := by
          simp [phaseUpToMax, h0, ht]
        have helig := (tryLoginBot_true_iff cfg host env st.mgr c).mp ht
        obtain ⟨new2, h1, h5, h7⟩ :=
          ih _ (LoopInv_admitted cfg host env m st c hinv ht (dec32 st.maxAllowedBotCount)
              (st.allowedAllianceCount))
        rw [hstep]
        simp only at h1
        refine ⟨⟨st.mgr, st.maxAllowedBotCount, st.allowedAllianceCount, c⟩ :: new2, ?_, ?_, h7⟩
        · rw [h1]; simp
        · intro a ha
          rcases List.mem_cons.mp ha with rfl | ha2
          · refine ⟨List.mem_cons_self _ _, helig, fun g hg => ?_⟩
            simp only
            rw [hinv.1]
            exact List.mem_append_left _ hg
          · obtain ⟨q1, q2, q3⟩ := h5 a ha2
            exact ⟨List.mem_cons_of_mem _ q1, q2, q3⟩
      · have htf : (tryLoginBot cfg host env st.mgr c).1 = false := by
          simpa using ht
        have hstep : phaseUpToMax cfg host env (c :: rest) st
            = phaseUpToMax cfg host env rest
                { st with mgr := (tryLoginBot cfg host env st.mgr c).2 } := by
          simp [phaseUpToMax, h0, htf]
        obtain ⟨new2, h1, h5, h7⟩ :=
          ih { st with mgr := (tryLoginBot cfg host env st.mgr c).2 }
            (LoopInv_rejected cfg host env m st c hinv htf)
        rw [hstep]
        simp only at h1
        refine ⟨new2, h1, ?_, h7⟩
        intro a ha
        obtain ⟨q1, q2, q3⟩ := h5 a ha
        exact ⟨List.mem_cons_of_mem _ q1, q2, q3⟩

/-! ## The quota and the three phases together -/

theorem LoopInv_start (cfg : Config) (host : Host) (env : Env) (m : Mgr) (n quota : Nat) :
    LoopInv cfg host env m (loginStart n quota m) := by
  refine ⟨by simp [loginStart, admittedGuids], fun c => ?_, rfl, rfl⟩
  simp [loginStart, admittedGuids]

/-- When the sum of the two ratios is positive and does not wrap, the Alliance quota is at
most the total quota, for every coin draw (and even if the product `n * A` wraps). -/
theorem allianceQuota_le (cfg : Config) (coin n : Nat)
    (hpos : 0 < cfg.randomBotAllianceRatio + cfg.randomBotHordeRatio)
    (hwrap : cfg.randomBotAllianceRatio + cfg.randomBotHordeRatio < U32) :
    allianceQuota cfg coin n ≤ n := by
  have htot : totalRatio cfg = cfg.randomBotAllianceRatio + cfg.randomBotHordeRatio := by
    unfold totalRatio
    exact Nat.mod_eq_of_lt hwrap
  have hprod : (n * cfg.randomBotAllianceRatio) % U32 ≤ n * totalRatio cfg := by
    rw [htot]
    calc (n * cfg.randomBotAllianceRatio) % U32
        ≤ n * cfg.randomBotAllianceRatio := Nat.mod_le _ _
      _ ≤ n * (cfg.randomBotAllianceRatio + cfg.randomBotHordeRatio) :=
          Nat.mul_le_mul_left _ (Nat.le_add_right _ _)
  have htpos : 0 < totalRatio cfg := by rw [htot]; exact hpos
  have hdiv : (n * cfg.randomBotAllianceRatio) % U32 / totalRatio cfg ≤ n := by
    apply Nat.div_le_of_le_mul
    rw [Nat.mul_comm (totalRatio cfg) n]
    exact hprod
  unfold allianceQuota
  simp only
  split
  · rename_i hrem
    have hlt : (n * cfg.randomBotAllianceRatio) % U32 / totalRatio cfg < n := by
      rw [Nat.div_lt_iff_lt_mul htpos]
      rcases Nat.lt_or_ge ((n * cfg.randomBotAllianceRatio) % U32) (n * totalRatio cfg)
        with h | h
      · exact h
      · have heq : (n * cfg.randomBotAllianceRatio) % U32 = n * totalRatio cfg :=
          Nat.le_antisymm hprod h
        exact absurd (by rw [heq]; exact Nat.mul_mod_left _ _) hrem.1
    exact Nat.le_trans (Nat.mod_le _ _) hlt
  · exact hdiv

theorem phases_total (n q ea eh a1 h a3 m1 m2 r : Nat)
    (h1 : a1 = min q ea) (hm1 : m1 + a1 = n) (h2 : h = min m1 eh) (hm2 : m2 + h = m1)
    (hr : r + a1 = ea) (h3 : a3 = min m2 r) :
    a1 + h + a3 = min n (ea + eh) := by
  omega

theorem eligibleCount_append (cfg : Config) (host : Host) (now : Int) (m : Mgr)
    (done : List Nat) (xs ys : List CharacterInfo) :
    eligibleCount cfg host now m done (xs ++ ys)
      = eligibleCount cfg host now m done xs + eligibleCount cfg host now m done ys := by
  simp [eligibleCount, List.filter_append]

theorem admittedGuids_mem_of_chars (new : List Admission) (l : List CharacterInfo)
    (h : ∀ a ∈ new, a.char ∈ l) (g : Nat) (hg : g ∈ admittedGuids new) :
    g ∈ l.map (fun c => c.guid) := by
  unfold admittedGuids at hg
  rw [List.mem_map] at hg
  obtain ⟨a, ha, rfl⟩ := hg
  exact List.mem_map_of_mem (fun c => c.guid) (h a ha)

/-- PHASES 1 to 3 from the entry state, with a total quota `n < 2^32` and an Alliance quota
`quota <= n`: at the end of every phase the countdown is `n` minus the number admitted so
far (no decrement is applied to a zero countdown), and over candidates with distinct ids
the three phases admit `min(n, eligible candidates)` characters. -/
theorem phases_spec (cfg : Config) (host : Host) (env : Env) (m : Mgr) (n quota : Nat)
    (alliance horde : List CharacterInfo) (p1 p2 p3 : LoginLoop)
    (hn : n < U32) (hq : quota ≤ n)
    (hp1 : p1 = phase1 cfg host env alliance (loginStart n quota m))
    (hp2 : p2 = phaseUpToMax cfg host env horde p1)
    (hp3 : p3 = phaseUpToMax cfg host env alliance p2) :
    p1.maxAllowedBotCount + p1.admitted.length = n ∧
    p1.allowedAllianceCount + p1.admitted.length = quota ∧
    p2.maxAllowedBotCount + p2.admitted.length = n ∧
    p3.maxAllowedBotCount + p3.admitted.length = n ∧
    (∀ a ∈ p3.admitted, 0 < a.maxAllowedBotCount) ∧
    (((alliance ++ horde).map (fun c => c.guid)).Nodup →
      p3.admitted.length = min n (eligibleCount cfg host env.now m [] (alliance ++ horde))) := by
  obtain ⟨new1, a1, a2, a3, a4, a5, a6⟩ :=
    phase1_spec cfg host env m alliance (loginStart n quota m) hn hq
      (LoopInv_start cfg host env m n quota)
  rw [← hp1] at a1 a2 a3 a5 a6
  simp only [loginStart, List.nil_append] at a1 a2 a3 a6
  obtain ⟨new2, b1, b2, b3, b4, b5, b6⟩ :=
    phaseUpToMax_spec cfg host env m horde p1 (by omega) a5
  rw [← hp2] at b1 b2 b3 b5 b6
  obtain ⟨new3, c1, c2, c3, c4, c5, c6⟩ :=
    phaseUpToMax_spec cfg host env m alliance p2 (by omega) b5
  rw [← hp3] at c1 c2 c3 c5 c6
  have hl2 : p2.admitted.length = new1.length + new2.length := by rw [b1, a1]; simp
  have hl3 : p3.admitted.length = new1.length + new2.length + new3.length := by
    rw [c1, b1, a1]; simp only [List.length_append]
  have hl1 : p1.admitted.length = new1.length := by rw [a1]
  refine ⟨by omega, by omega, by omega, by omega, ?_, ?_⟩
  · intro a ha
    rw [c1, b1, a1] at ha
    rcases List.mem_append.mp ha with h | h
    · rcases List.mem_append.mp h with h | h
      · exact (a4 a h).2.1
      · exact (b4 a h).2.1
    · exact (c4 a h).2.1
  · intro hnd
    rw [List.map_append, List.nodup_append] at hnd
    obtain ⟨hndA, hndH, hdisj⟩ := hnd
    obtain ⟨a7, a8⟩ := a6 hndA
    obtain ⟨b7, b8⟩ := b6 hndH
    obtain ⟨c7, c8⟩ := c6 hndA
    rw [admittedGuids] at a8
    have hEH : eligibleCount cfg host env.now m (admittedGuids p1.admitted) horde
        = eligibleCount cfg host env.now m [] horde := by
      apply eligibleCount_congr_done
      intro c hc
      constructor
      · intro hg
        rw [a1] at hg
        exact absurd (List.mem_map_of_mem (fun c => c.guid) hc)
          (fun hh => hdisj (admittedGuids_mem_of_chars new1 alliance
            (fun a ha => (a4 a ha).1) _ hg) hh)
      · intro hg
        exact absurd hg (List.not_mem_nil _)
    have hEA : eligibleCount cfg host env.now m (admittedGuids p2.admitted) alliance
        = eligibleCount cfg host env.now m (admittedGuids p1.admitted) alliance := by
      apply eligibleCount_congr_done
      intro c hc
      rw [b1, admittedGuids_append, List.mem_append]
      constructor
      · intro hg
        rcases hg with hg | hg
        · exact hg
        · exact absurd (admittedGuids_mem_of_chars new2 horde (fun a ha => (b4 a ha).1) _ hg)
            (fun hh => hdisj (List.mem_map_of_mem (fun c => c.guid) hc) hh)
      · intro hg
        exact Or.inl hg
    rw [hEH] at b7
    rw [hEA] at c7
    rw [hl3, eligibleCount_append]
    have a8b : eligibleCount cfg host env.now m (admittedGuids p1.admitted) alliance
        + new1.length = eligibleCount cfg host env.now m [] alliance := by
      simpa [admittedGuids] using a8
    exact phases_total n quota _ _ _ _ _ _ _ _ a7 a2 b7 (by omega) a8b c7

/-! ## AddRandomBots as a whole -/

theorem phase4_some (host : Host) (env : Env) (p1 p2 p3 : LoginLoop) (r : AddResult)
    (h : phase4 host env p1 p2 p3 = some r) :
    r.phases = some (p1, p2, p3) ∧ r.mgr.currentBots = p3.mgr.currentBots ∧
    r.mgr.store = p3.mgr.store ∧ r.ret = p3.mgr.currentBots.length % U32 := by
  unfold phase4 at h
  by_cases h1 : p3.maxAllowedBotCount ≠ 0
  · rw [if_pos h1] at h
    by_cases h2 : env.now - (if p3.mgr.missingBotsTimer = 0 then env.now
        else p3.mgr.missingBotsTimer) ≥ 10
    · simp only [h2, if_true] at h
      by_cases h3 : (host.availableCharsPerAccount % (U32 : Int)).toNat = 0
      · rw [if_pos h3] at h
        exact absurd h (by simp)
      · rw [if_neg h3] at h
        cases h
        exact ⟨rfl, rfl, rfl, rfl⟩
    · simp only [h2, if_false] at h
      cases h
      exact ⟨rfl, rfl, rfl, rfl⟩
  · rw [if_neg h1] at h
    cases h
    exact ⟨rfl, rfl, rfl, rfl⟩

theorem phase4_defined (host : Host) (env : Env) (p1 p2 p3 : LoginLoop)
    (hdiv : (host.availableCharsPerAccount % (U32 : Int)).toNat ≠ 0) :
    ∃ r, phase4 host env p1 p2 p3 = some r := by
  unfold phase4
  by_cases h1 : p3.maxAllowedBotCount ≠ 0
  · rw [if_pos h1]
    by_cases h2 : env.now - (if p3.mgr.missingBotsTimer = 0 then env.now
        else p3.mgr.missingBotsTimer) ≥ 10
    · simp only [h2, if_true]
      rw [if_neg hdiv]
      exact ⟨_, rfl⟩
    · simp only [h2, if_false]
      exact ⟨_, rfl⟩
  · rw [if_neg h1]
    exact ⟨_, rfl⟩

/-- What a call that ran the phases did: the population was below the target, and the
ghost `phases` are the three loops run from the entry state. -/
theorem AddRandomBots_phases (cfg : Config) (host : Host) (env : Env) (m : Mgr)
    (r : AddResult) (p1 p2 p3 : LoginLoop)
    (h : AddRandomBots cfg host env m = some r) (hp : r.phases = some (p1, p2, p3)) :
    m.currentBots.length < botCountTarget env m ∧
    p1 = phase1 cfg host env (allianceChars host (allCharacters cfg host env m))
          (loginStart (shortfall cfg (botCountTarget env m) m)
            (allianceQuota cfg env.coin (shortfall cfg (botCountTarget env m) m))
            (entryMgr env m)) ∧
    p2 = phaseUpToMax cfg host env (hordeChars host (allCharacters cfg host env m)) p1 ∧
    p3 = phaseUpToMax cfg host env (allianceChars host (allCharacters cfg host env m)) p2 ∧
    r.mgr.currentBots = p3.mgr.currentBots := by
  unfold AddRandomBots at h
  simp only at h
  split at h
  · rename_i hlt
    split at h
    · exact absurd h (by simp)
    · split at h
      · exact absurd h (by simp)
      · obtain ⟨q1, q2, _, _⟩ := phase4_some _ _ _ _ _ _ h
        rw [hp] at q1
        simp only [Option.some.injEq, Prod.mk.injEq] at q1
        obtain ⟨e1, e2, e3⟩ := q1
        subst e1; subst e2; subst e3
        exact ⟨hlt, rfl, rfl, rfl, q2⟩
  · cases h
    exact absurd hp (by simp)

/-- A call that did not run the phases leaves `currentBots` as it was. -/
theorem AddRandomBots_no_phases (cfg : Config) (host : Host) (env : Env) (m : Mgr)
    (r : AddResult) (h : AddRandomBots cfg host env m = some r) (hp : r.phases = none) :
    r.mgr.currentBots = m.currentBots := by
  unfold AddRandomBots at h
  simp only at h
  split at h
  · split at h
    · exact absurd h (by simp)
    · split at h
      · exact absurd h (by simp)
      · obtain ⟨q1, _, _, _⟩ := phase4_some _ _ _ _ _ _ h
        rw [hp] at q1
        exact absurd q1 (by simp)
  · cases h
    rfl

/-- The call is defined (divides by no zero) when `totalRatio` is non-zero, the periodic
ratio is non-zero whenever periodic cycling is enabled, and `divisor` is non-zero. -/
theorem AddRandomBots_defined (cfg : Config) (host : Host) (env : Env) (m : Mgr)
    (htot : totalRatio cfg ≠ 0)
    (hper : cfg.enablePeriodicOnlineOffline = true → cfg.periodicOnlineOfflineRatio ≠ 0)
    (hdiv : (host.availableCharsPerAccount % (U32 : Int)).toNat ≠ 0) :
    ∃ r, AddRandomBots cfg host env m = some r := by
  have hper2 : ¬ (cfg.enablePeriodicOnlineOffline = true ∧ cfg.periodicOnlineOfflineRatio = 0) :=
    fun hh => hper hh.1 hh.2
  unfold AddRandomBots
  by_cases hlt : m.currentBots.length < (GetEventValue m.store env.now 0 "bot_count").1
  · simp only [hlt, if_true, htot, if_false, hper2]
    exact phase4_defined _ _ _ _ _ hdiv
  · simp only [hlt, if_false]
    exact ⟨_, rfl⟩

theorem eligible_entryMgr (cfg : Config) (host : Host) (env : Env) (m : Mgr)
    (c : CharacterInfo) :
    eligible cfg host env.now (entryMgr env m) c ↔ eligible cfg host env.now m c := by
  apply eligible_congr
  · intro k
    exact GetEventValue_after_get m.store env.now 0 "bot_count" c.guid k
  · rfl

theorem eligibleCount_entryMgr (cfg : Config) (host : Host) (env : Env) (m : Mgr)
    (done : List Nat) (cs : List CharacterInfo) :
    eligibleCount cfg host env.now (entryMgr env m) done cs
      = eligibleCount cfg host env.now m done cs := by
  unfold eligibleCount
  congr 1
  apply List.filter_congr
  intro c _
  simp [eligible_entryMgr]

theorem eligibleCount_partition (cfg : Config) (host : Host) (now : Int) (m : Mgr)
    (done : List Nat) (q : CharacterInfo → Bool) (cs : List CharacterInfo) :
    eligibleCount cfg host now m done (cs.filter q)
        + eligibleCount cfg host now m done (cs.filter (fun c => !q c))
      = eligibleCount cfg host now m done cs := by
  induction cs with
  | nil => simp [eligibleCount]
  | cons c rest ih =>
    rw [eligibleCount_cons, ← ih]
    by_cases hq : q c = true
    · simp only [List.filter_cons, hq, Bool.not_true, Bool.false_eq_true, if_true, if_false,
        eligibleCount_cons]
      omega
    · have hq2 : q c = false := by simpa using hq
      simp only [List.filter_cons, hq2, Bool.not_false, Bool.false_eq_true, if_true, if_false,
        eligibleCount_cons]
      omega

/-- The three phases from the entry state, whatever the quotas: `currentBots` at the end is
the entry list followed by the admitted ids, and every admission was of a character
eligible at that moment, in a manager whose `currentBots` contains the entry list. -/
theorem phases_trace (cfg : Config) (host : Host) (env : Env) (m : Mgr) (n quota : Nat)
    (alliance horde : List CharacterInfo) (p1 p2 p3 : LoginLoop)
    (hp1 : p1 = phase1 cfg host env alliance (loginStart n quota m))
    (hp2 : p2 = phaseUpToMax cfg host env horde p1)
    (hp3 : p3 = phaseUpToMax cfg host env alliance p2) :
    p3.mgr.currentBots = m.currentBots ++ admittedGuids p3.admitted ∧
    ∀ a ∈ p3.admitted, eligible cfg host env.now a.mgr a.char ∧
      ∀ g ∈ m.currentBots, g ∈ a.mgr.currentBots := by
  obtain ⟨new1, a1, a2, a3⟩ :=
    phase1_basic cfg host env m alliance (loginStart n quota m)
      (LoopInv_start cfg host env m n quota)
  rw [← hp1] at a1 a3
  simp only [loginStart, List.nil_append] at a1
  obtain ⟨new2, b1, b2, b3⟩ := phaseUpToMax_basic cfg host env m horde p1 a3
  rw [← hp2] at b1 b3
  obtain ⟨new3, c1, c2, c3⟩ := phaseUpToMax_basic cfg host env m alliance p2 b3
  rw [← hp3] at c1 c3
  refine ⟨c3.1, fun a ha => ?_⟩
  rw [c1, b1, a1] at ha
  rcases List.mem_append.mp ha with h | h
  · rcases List.mem_append.mp h with h | h
    · exact (a2 a h).2
    · exact (b2 a h).2
  · exact (c2 a h).2

theorem shortfall_lt (cfg : Config) (target : Nat) (m : Mgr) : shortfall cfg target m < U32 := by
  unfold shortfall
  exact Nat.lt_of_le_of_lt (Nat.min_le_right _ _) (Nat.mod_lt _ (by decide))

theorem shortfall_le (cfg : Config) (target : Nat) (m : Mgr) :
    shortfall cfg target m
      ≤ min cfg.randomBotsPerInterval (target - m.currentBots.length) := by
  unfold shortfall
  have := Nat.mod_le (target - m.currentBots.length) U32
  omega

/-! ## AddRandomBots: who is admitted, and how many -/

/-- C8: in one call of `AddRandomBots`, `currentBots` only grows by the admitted
characters, and every admitted character satisfied the eligibility predicate in the manager
state of its admission (no live `add`, no live `logout`, not online, not in `currentBots`,
not a death knight under the ban); in particular it was neither in `currentBots` then nor
at the start of the call, and it is no death knight while the ban is set. -/
theorem AddRandomBots_admits_eligible (cfg : Config) (host : Host) (env : Env) (m : Mgr)
    (r : AddResult) (h : AddRandomBots cfg host env m = some r) :
    (r.phases = none → r.mgr.currentBots = m.currentBots) ∧
    ∀ p1 p2 p3, r.phases = some (p1, p2, p3) →
      r.mgr.currentBots = m.currentBots ++ admittedGuids p3.admitted ∧
      ∀ a ∈ p3.admitted,
        eligible cfg host env.now a.mgr a.char ∧
        a.char.guid ∉ a.mgr.currentBots ∧
        a.char.guid ∉ m.currentBots ∧
        ¬ (cfg.disableDeathKnightLogin = true ∧ a.char.rClass = CLASS_DEATH_KNIGHT) := by
  refine ⟨fun hp => AddRandomBots_no_phases cfg host env m r h hp, fun p1 p2 p3 hp => ?_⟩
  obtain ⟨_, e1, e2, e3, e4⟩ := AddRandomBots_phases cfg host env m r p1 p2 p3 h hp
  obtain ⟨t1, t2⟩ := phases_trace cfg host env (entryMgr env m) _ _ _ _ p1 p2 p3 e1 e2 e3
  refine ⟨by rw [e4, t1]; rfl, fun a ha => ?_⟩
  obtain ⟨q1, q2⟩ := t2 a ha
  exact ⟨q1, q1.2.2.2.1, fun hg => q1.2.2.2.1 (q2 _ hg), q1.2.2.2.2⟩

theorem AddRandomBots_admits_eligible_witness :
    ∃ r, AddRandomBots sampleConfig sampleHost sampleEnv (sampleMgr 5) = some r ∧
      r.mgr.currentBots = [10, 12] ∧
      ∀ p1 p2 p3, r.phases = some (p1, p2, p3) →
        r.mgr.currentBots = (sampleMgr 5).currentBots ++ admittedGuids p3.admitted ∧
        ∀ a ∈ p3.admitted,
          eligible sampleConfig sampleHost sampleEnv.now a.mgr a.char ∧
          a.char.guid ∉ a.mgr.currentBots ∧
          a.char.guid ∉ (sampleMgr 5).currentBots ∧
          ¬ (sampleConfig.disableDeathKnightLogin = true ∧
              a.char.rClass = CLASS_DEATH_KNIGHT) :=
  ⟨_, rfl, rfl,
    (AddRandomBots_admits_eligible sampleConfig sampleHost sampleEnv (sampleMgr 5) _ rfl).2⟩

/-- C9 (counterexample): ratios `4294967295` and `2` have a positive sum, which wraps to
`totalRatio = 1`; with rate cap 1, target 1 and no active bot the bound is
`min(1, 1 - 0) = 1`, but the Alliance quota is `4294967295`, PHASE 1 admits both eligible
Alliance characters and the countdown wraps from 0 to `4294967295`. -/
theorem AddRandomBots_wrap_exceeds_cap :
    0 < (wrapConfig 1).randomBotAllianceRatio + (wrapConfig 1).randomBotHordeRatio ∧
    min (wrapConfig 1).randomBotsPerInterval
        (botCountTarget sampleEnv (sampleMgr 1) - (sampleMgr 1).currentBots.length) = 1 ∧
    (AddRandomBots (wrapConfig 1) humanHost sampleEnv (sampleMgr 1)).map
        (fun r => r.mgr.currentBots) = some [10, 11, 12] ∧
    (AddRandomBots (wrapConfig 1) humanHost sampleEnv (sampleMgr 1)).map
        (fun r => r.phases.map (fun p => p.1.maxAllowedBotCount)) = some (some 4294967294) := by
  decide

/-- C9 (amended): for every state and configuration whose ratio sum is positive and does
not wrap (`0 < A + H < 2^32`): the call is defined when it divides by no zero; it admits at
most `min(randomBotsPerInterval, target - |currentBots|)` characters; and at the end of
each phase the countdown equals the capped shortfall minus the number admitted so far, every
admission having found the countdown positive (no wrap below zero). -/
theorem AddRandomBots_admitted_le (cfg : Config) (host : Host) (env : Env) (m : Mgr)
    (hpos : 0 < cfg.randomBotAllianceRatio + cfg.randomBotHordeRatio)
    (hwrap : cfg.randomBotAllianceRatio + cfg.randomBotHordeRatio < U32) :
    ((cfg.enablePeriodicOnlineOffline = true → cfg.periodicOnlineOfflineRatio ≠ 0) →
      (host.availableCharsPerAccount % (U32 : Int)).toNat ≠ 0 →
      ∃ r, AddRandomBots cfg host env m = some r) ∧
    ∀ r, AddRandomBots cfg host env m = some r →
      m.currentBots.length ≤ r.mgr.currentBots.length ∧
      r.mgr.currentBots.length - m.currentBots.length
        ≤ min cfg.randomBotsPerInterval (botCountTarget env m - m.currentBots.length) ∧
      ∀ p1 p2 p3, r.phases = some (p1, p2, p3) →
        r.mgr.currentBots.length = m.currentBots.length + p3.admitted.length ∧
        p1.maxAllowedBotCount + p1.admitted.length
          = shortfall cfg (botCountTarget env m) m ∧
        p2.maxAllowedBotCount + p2.admitted.length
          = shortfall cfg (botCountTarget env m) m ∧
        p3.maxAllowedBotCount + p3.admitted.length
          = shortfall cfg (botCountTarget env m) m ∧
        ∀ a ∈ p3.admitted, 0 < a.maxAllowedBotCount := by
  have htot : totalRatio cfg ≠ 0 := by
    unfold totalRatio
    rw [Nat.mod_eq_of_lt hwrap]
    omega
  refine ⟨fun hper hdiv => AddRandomBots_defined cfg host env m htot hper hdiv, fun r h => ?_⟩
  have key : ∀ p1 p2 p3, r.phases = some (p1, p2, p3) →
      r.mgr.currentBots.length = m.currentBots.length + p3.admitted.length ∧
      p1.maxAllowedBotCount + p1.admitted.length = shortfall cfg (botCountTarget env m) m ∧
      p2.maxAllowedBotCount + p2.admitted.length = shortfall cfg (botCountTarget env m) m ∧
      p3.maxAllowedBotCount + p3.admitted.length = shortfall cfg (botCountTarget env m) m ∧
      ∀ a ∈ p3.admitted, 0 < a.maxAllowedBotCount := by
    intro p1 p2 p3 hp
    obtain ⟨_, e1, e2, e3, e4⟩ := AddRandomBots_phases cfg host env m r p1 p2 p3 h hp
    obtain ⟨t1, _⟩ := phases_trace cfg host env (entryMgr env m) _ _ _ _ p1 p2 p3 e1 e2 e3
    obtain ⟨s1, _, s3, s4, s5, _⟩ :=
      phases_spec cfg host env (entryMgr env m) _ _ _ _ p1 p2 p3
        (shortfall_lt cfg (botCountTarget env m) m)
        (allianceQuota_le cfg env.coin _ hpos hwrap) e1 e2 e3
    refine ⟨?_, s1, s3, s4, s5⟩
    rw [e4, t1]
    simp [admittedGuids, entryMgr]
  cases hph : r.phases with
  | none =>
    have := AddRandomBots_no_phases cfg host env m r h hph
    refine ⟨by rw [this], by rw [this]; simp, fun p1 p2 p3 hp => absurd hp (by simp)⟩
  | some ps =>
    obtain ⟨p1, p2, p3⟩ := ps
    obtain ⟨k1, _, _, k4, _⟩ := key p1 p2 p3 hph
    have hle := shortfall_le cfg (botCountTarget env m) m
    refine ⟨by omega, by omega, fun q1 q2 q3 hq => ?_⟩
    simp only [Option.some.injEq, Prod.mk.injEq] at hq
    obtain ⟨rfl, rfl, rfl⟩ := hq
    exact key _ _ _ hph

theorem AddRandomBots_admitted_le_witness :
    ∃ r, AddRandomBots sampleConfig sampleHost sampleEnv (sampleMgr 1) = some r ∧
      r.mgr.currentBots.length - (sampleMgr 1).currentBots.length
        ≤ min sampleConfig.randomBotsPerInterval
            (botCountTarget sampleEnv (sampleMgr 1) - (sampleMgr 1).currentBots.length) :=
  ⟨_, rfl,
    ((AddRandomBots_admitted_le sampleConfig sampleHost sampleEnv (sampleMgr 1) (by decide)
      (by decide)).2 _ rfl).2.1⟩

theorem admitted_faction_split (host : Host) (as : List Admission) :
    allianceAdmitted host as + hordeAdmitted host as = as.length := by
  unfold allianceAdmitted hordeAdmitted
  induction as with
  | nil => rfl
  | cons a rest ih =>
    by_cases hq : host.isAlliance a.char.rRace = true
    · simp only [List.filter_cons, hq, Bool.not_true, Bool.false_eq_true, if_true, if_false,
        List.length_cons]
      omega
    · have hq2 : host.isAlliance a.char.rRace = false := by simpa using hq
      simp only [List.filter_cons, hq2, Bool.not_false, Bool.false_eq_true, if_true, if_false,
        List.length_cons]
      omega

theorem faction_lists_nodup (host : Host) (cs : List CharacterInfo)
    (hnd : (cs.map (fun c => c.guid)).Nodup) :
    ((allianceChars host cs ++ hordeChars host cs).map (fun c => c.guid)).Nodup := by
  have hperm : (allianceChars host cs ++ hordeChars host cs).Perm cs := by
    unfold allianceChars hordeChars
    exact List.filter_append_perm _ cs
  exact (hperm.map (fun c => c.guid)).nodup_iff.mpr hnd

theorem AddRandomBots_runs_phases (cfg : Config) (host : Host) (env : Env) (m : Mgr)
    (r : AddResult) (h : AddRandomBots cfg host env m = some r)
    (hlt : m.currentBots.length < botCountTarget env m) :
    ∃ p1 p2 p3, r.phases = some (p1, p2, p3) := by
  unfold AddRandomBots at h
  unfold botCountTarget at hlt
  simp only [hlt, if_true] at h
  split at h
  · exact absurd h (by simp)
  · split at h
    · exact absurd h (by simp)
    · exact ⟨_, _, _, (phase4_some _ _ _ _ _ _ h).1⟩

/-- C10 (counterexample): three candidates with distinct ids, all eligible, capped
shortfall `N = 2`; the ratios `4294967294` and `3` wrap to `totalRatio = 1`, the Alliance
quota is `4294967292`, and the phases admit 3 characters instead of `min(2, 3) = 2`. -/
theorem AddRandomBots_wrap_admits_more :
    ((allCharacters (wrapConfig2 2) humanHost sampleEnv (sampleMgr 2)).map
        (fun c => c.guid)).Nodup ∧
    shortfall (wrapConfig2 2) (botCountTarget sampleEnv (sampleMgr 2)) (sampleMgr 2) = 2 ∧
    eligibleCount (wrapConfig2 2) humanHost sampleEnv.now (sampleMgr 2) []
        (allCharacters (wrapConfig2 2) humanHost sampleEnv (sampleMgr 2)) = 3 ∧
    (AddRandomBots (wrapConfig2 2) humanHost sampleEnv (sampleMgr 2)).map
        (fun r => r.phases.map (fun p =>
          allianceAdmitted humanHost p.2.2.admitted + hordeAdmitted humanHost p.2.2.admitted))
      = some (some 3) := by
  decide

/-- C10 (amended): for every configuration whose ratio sum is positive and does not wrap
(`0 < A + H < 2^32`) and every candidate list with distinct character ids: a call below
the target that divides by no zero runs the three phases, and they end with
(Alliance admitted) + (Horde admitted) `= min(N, eligible candidates)`, where `N` is the
shortfall capped at `randomBotsPerInterval` and eligibility is evaluated in the manager
state before the call; that many ids are appended to `currentBots`. -/
theorem AddRandomBots_admits_min (cfg : Config) (host : Host) (env : Env) (m : Mgr)
    (hpos : 0 < cfg.randomBotAllianceRatio + cfg.randomBotHordeRatio)
    (hwrap : cfg.randomBotAllianceRatio + cfg.randomBotHordeRatio < U32)
    (hnd : ((allCharacters cfg host env m).map (fun c => c.guid)).Nodup) :
    (m.currentBots.length < botCountTarget env m →
      (cfg.enablePeriodicOnlineOffline = true → cfg.periodicOnlineOfflineRatio ≠ 0) →
      (host.availableCharsPerAccount % (U32 : Int)).toNat ≠ 0 →
      ∃ r p1 p2 p3, AddRandomBots cfg host env m = some r ∧ r.phases = some (p1, p2, p3)) ∧
    ∀ r p1 p2 p3, AddRandomBots cfg host env m = some r → r.phases = some (p1, p2, p3) →
      allianceAdmitted host p3.admitted + hordeAdmitted host p3.admitted
        = min (shortfall cfg (botCountTarget env m) m)
            (eligibleCount cfg host env.now m [] (allCharacters cfg host env m)) ∧
      r.mgr.currentBots.length = m.currentBots.length
        + (allianceAdmitted host p3.admitted + hordeAdmitted host p3.admitted) := by
  have htot : totalRatio cfg ≠ 0 := by
    unfold totalRatio
    rw [Nat.mod_eq_of_lt hwrap]
    omega
  constructor
  · intro hlt hper hdiv
    obtain ⟨r, hr⟩ := AddRandomBots_defined cfg host env m htot hper hdiv
    obtain ⟨p1, p2, p3, hp⟩ := AddRandomBots_runs_phases cfg host env m r hr hlt
    exact ⟨r, p1, p2, p3, hr, hp⟩
  · intro r p1 p2 p3 h hp
    obtain ⟨_, e1, e2, e3, e4⟩ := AddRandomBots_phases cfg host env m r p1 p2 p3 h hp
    obtain ⟨t1, _⟩ := phases_trace cfg host env (entryMgr env m) _ _ _ _ p1 p2 p3 e1 e2 e3
    obtain ⟨_, _, _, _, _, s6⟩ :=
      phases_spec cfg host env (entryMgr env m) _ _ _ _ p1 p2 p3
        (shortfall_lt cfg (botCountTarget env m) m)
        (allianceQuota_le cfg env.coin _ hpos hwrap) e1 e2 e3
    have hcount := s6 (faction_lists_nodup host _ hnd)
    rw [eligibleCount_append, eligibleCount_entryMgr, eligibleCount_entryMgr] at hcount
    unfold allianceChars hordeChars at hcount
    rw [eligibleCount_partition] at hcount
    rw [admitted_faction_split]
    refine ⟨hcount, ?_⟩
    rw [e4, t1]
    simp [admittedGuids, entryMgr]

theorem AddRandomBots_admits_min_witness :
    ∃ r p1 p2 p3, AddRandomBots sampleConfig sampleHost sampleEnv (sampleMgr 5) = some r ∧
      r.phases = some (p1, p2, p3) ∧
      allianceAdmitted sampleHost p3.admitted + hordeAdmitted sampleHost p3.admitted
        = min (shortfall sampleConfig (botCountTarget sampleEnv (sampleMgr 5)) (sampleMgr 5))
            (eligibleCount sampleConfig sampleHost sampleEnv.now (sampleMgr 5) []
              (allCharacters sampleConfig sampleHost sampleEnv (sampleMgr 5))) :=
  ⟨_, _, _, _, rfl, rfl,
    ((AddRandomBots_admits_min sampleConfig sampleHost sampleEnv (sampleMgr 5) (by decide)
      (by decide) (by decide)).2 _ _ _ _ rfl rfl).1⟩

theorem split_arith (n q ea eh a1 h a3 : Nat) (hq : q ≤ n) (hA : q ≤ ea) (hH : n - q ≤ eh)
    (h1 : a1 = min q ea) (h2 : h = min (n - a1) eh) (h3 : a3 = min (n - a1 - h) (ea - a1)) :
    a1 + 0 + a3 = q ∧ 0 + h + 0 = n - q ∧ a1 + h + a3 = n := by
  omega

theorem phase4_ret_of_some (cfg : Config) (host : Host) (env : Env) (m : Mgr)
    (r : AddResult) (p1 p2 p3 : LoginLoop)
    (h : AddRandomBots cfg host env m = some r) (hp : r.phases = some (p1, p2, p3)) :
    r.ret = p3.mgr.currentBots.length % U32 := by
  unfold AddRandomBots at h
  simp only at h
  split at h
  · split at h
    · exact absurd h (by simp)
    · split at h
      · exact absurd h (by simp)
      · obtain ⟨q1, _, _, q4⟩ := phase4_some _ _ _ _ _ _ h
        rw [hp] at q1
        simp only [Option.some.injEq, Prod.mk.injEq] at q1
        obtain ⟨_, _, e3⟩ := q1
        subst e3
        exact q4
  · cases h
    exact absurd hp (by simp)

/-! ## AddRandomBots: the split between the factions -/

/-- The three phases over candidates with distinct ids, by phase: PHASE 1 admits
`min(quota, eligible Alliance)` Alliance characters, PHASE 2 `min(rest of n, eligible Horde)`
Horde characters, PHASE 3 fills up from the Alliance characters left. -/
theorem phases_split (cfg : Config) (host : Host) (env : Env) (m : Mgr) (n quota : Nat)
    (alliance horde : List CharacterInfo) (p1 p2 p3 : LoginLoop)
    (hn : n < U32) (hq : quota ≤ n)
    (hp1 : p1 = phase1 cfg host env alliance (loginStart n quota m))
    (hp2 : p2 = phaseUpToMax cfg host env horde p1)
    (hp3 : p3 = phaseUpToMax cfg host env alliance p2)
    (hnd : ((alliance ++ horde).map (fun c => c.guid)).Nodup) :
    ∃ new1 new2 new3 : List Admission,
      p3.admitted = new1 ++ new2 ++ new3 ∧
      (∀ a ∈ new1, a.char ∈ alliance) ∧ (∀ a ∈ new2, a.char ∈ horde) ∧
      (∀ a ∈ new3, a.char ∈ alliance) ∧
      new1.length = min quota (eligibleCount cfg host env.now m [] alliance) ∧
      new2.length = min (n - new1.length) (eligibleCount cfg host env.now m [] horde) ∧
      new3.length = min (n - new1.length - new2.length)
        (eligibleCount cfg host env.now m [] alliance - new1.length) := by
  obtain ⟨new1, a1, a2, a3, a4, a5, a6⟩ :=
    phase1_spec cfg host env m alliance (loginStart n quota m) hn hq
      (LoopInv_start cfg host env m n quota)
  rw [← hp1] at a1 a2 a3 a5 a6
  simp only [loginStart, List.nil_append] at a1 a2 a3 a6
  obtain ⟨new2, b1, b2, b3, b4, b5, b6⟩ :=
    phaseUpToMax_spec cfg host env m horde p1 (by omega) a5
  rw [← hp2] at b1 b2 b3 b5 b6
  obtain ⟨new3, c1, c2, c3, c4, c5, c6⟩ :=
    phaseUpToMax_spec cfg host env m alliance p2 (by omega) b5
  rw [← hp3] at c1 c2 c3 c5 c6
  rw [List.map_append, List.nodup_append] at hnd
  obtain ⟨hndA, hndH, hdisj⟩ := hnd
  obtain ⟨a7, a8⟩ := a6 hndA
  obtain ⟨b7, b8⟩ := b6 hndH
  obtain ⟨c7, c8⟩ := c6 hndA
  have hEH : eligibleCount cfg host env.now m (admittedGuids p1.admitted) horde
      = eligibleCount cfg host env.now m [] horde := by
    apply eligibleCount_congr_done
    intro c hc
    constructor
    · intro hg
      rw [a1] at hg
      exact absurd (List.mem_map_of_mem (fun c => c.guid) hc)
        (fun hh => hdisj (admittedGuids_mem_of_chars new1 alliance
          (fun a ha => (a4 a ha).1) _ hg) hh)
    · intro hg
      exact absurd hg (List.not_mem_nil _)
  have hEA : eligibleCount cfg host env.now m (admittedGuids p2.admitted) alliance
      = eligibleCount cfg host env.now m (admittedGuids p1.admitted) alliance := by
    apply eligibleCount_congr_done
    intro c hc
    rw [b1, admittedGuids_append, List.mem_append]
    constructor
    · intro hg
      rcases hg with hg | hg
      · exact hg
      · exact absurd (admittedGuids_mem_of_chars new2 horde (fun a ha => (b4 a ha).1) _ hg)
          (fun hh => hdisj (List.mem_map_of_mem (fun c => c.guid) hc) hh)
    · intro hg
      exact Or.inl hg
  rw [hEH] at b7
  rw [hEA] at c7
  have a8b : eligibleCount cfg host env.now m (admittedGuids p1.admitted) alliance
      + new1.length = eligibleCount cfg host env.now m [] alliance := by
    simpa [admittedGuids] using a8
  have a7b : new1.length = min quota (eligibleCount cfg host env.now m [] alliance) := by
    simpa [admittedGuids] using a7
  refine ⟨new1, new2, new3, by rw [c1, b1, a1], fun a ha => (a4 a ha).1,
    fun a ha => (b4 a ha).1, fun a ha => (c4 a ha).1, a7b, ?_, ?_⟩
  · have : p1.maxAllowedBotCount = n - new1.length := by omega
    rw [← this]
    exact b7
  · have h1 : p2.maxAllowedBotCount = n - new1.length - new2.length := by omega
    have h2 : eligibleCount cfg host env.now m (admittedGuids p1.admitted) alliance
        = eligibleCount cfg host env.now m [] alliance - new1.length := by omega
    rw [← h1, ← h2]
    exact c7

theorem faction_counts_append (host : Host) (xs ys : List Admission) :
    allianceAdmitted host (xs ++ ys) = allianceAdmitted host xs + allianceAdmitted host ys ∧
    hordeAdmitted host (xs ++ ys) = hordeAdmitted host xs + hordeAdmitted host ys := by
  simp [allianceAdmitted, hordeAdmitted, List.filter_append]

theorem faction_counts_alliance (host : Host) (cs : List CharacterInfo) (as : List Admission)
    (h : ∀ a ∈ as, a.char ∈ allianceChars host cs) :
    allianceAdmitted host as = as.length ∧ hordeAdmitted host as = 0 := by
  have hall : ∀ a ∈ as, host.isAlliance a.char.rRace = true := by
    intro a ha
    have := h a ha
    unfold allianceChars at this
    exact (List.mem_filter.mp this).2
  unfold allianceAdmitted hordeAdmitted
  constructor
  · rw [List.filter_eq_self.mpr hall]
  · rw [List.length_eq_zero, List.filter_eq_nil_iff]
    intro a ha
    simp [hall a ha]

theorem faction_counts_horde (host : Host) (cs : List CharacterInfo) (as : List Admission)
    (h : ∀ a ∈ as, a.char ∈ hordeChars host cs) :
    allianceAdmitted host as = 0 ∧ hordeAdmitted host as = as.length := by
  have hall : ∀ a ∈ as, (!host.isAlliance a.char.rRace) = true := by
    intro a ha
    have := h a ha
    unfold hordeChars at this
    exact (List.mem_filter.mp this).2
  unfold allianceAdmitted hordeAdmitted
  constructor
  · rw [List.length_eq_zero, List.filter_eq_nil_iff]
    intro a ha
    have := hall a ha
    simpa using this
  · rw [List.filter_eq_self.mpr hall]

/-- Without a wrap of the sum or of the product, and with `N * A` divisible by `A + H`,
the Alliance quota is `N * A / (A + H)` whatever the coin. -/
theorem allianceQuota_exact (cfg : Config) (coin n : Nat)
    (hwrap : cfg.randomBotAllianceRatio + cfg.randomBotHordeRatio < U32)
    (hprod : n * cfg.randomBotAllianceRatio < U32)
    (hdiv : (cfg.randomBotAllianceRatio + cfg.randomBotHordeRatio)
      ∣ n * cfg.randomBotAllianceRatio) :
    allianceQuota cfg coin n
      = n * cfg.randomBotAllianceRatio
          / (cfg.randomBotAllianceRatio + cfg.randomBotHordeRatio) := by
  have htot : totalRatio cfg = cfg.randomBotAllianceRatio + cfg.randomBotHordeRatio := by
    unfold totalRatio
    exact Nat.mod_eq_of_lt hwrap
  unfold allianceQuota
  simp only [htot, Nat.mod_eq_of_lt hprod, Nat.mod_eq_zero_of_dvd hdiv]
  simp

/-- C11 (counterexample): ratio `2^30 : 2^30`, `N = 4`: `N * A = 2^32` is divisible by
`A + H = 2^31` with quotient 2, and each faction has at least 2 eligible characters (2
Alliance, 4 Horde); but the `uint32` product wraps to 0, the Alliance quota is 0, and the
pass admits 0 Alliance and 4 Horde characters instead of 2 and 2. -/
theorem AddRandomBots_product_wrap_split :
    (bigRatioConfig.randomBotAllianceRatio + bigRatioConfig.randomBotHordeRatio)
      ∣ shortfall bigRatioConfig (botCountTarget sampleEnv (sampleMgr 4)) (sampleMgr 4)
          * bigRatioConfig.randomBotAllianceRatio ∧
    shortfall bigRatioConfig (botCountTarget sampleEnv (sampleMgr 4)) (sampleMgr 4) = 4 ∧
    allianceShare bigRatioConfig 4 = 2 ∧
    2 ≤ eligibleCount bigRatioConfig hordeHeavyHost sampleEnv.now (sampleMgr 4) []
      (allianceChars hordeHeavyHost
        (allCharacters bigRatioConfig hordeHeavyHost sampleEnv (sampleMgr 4))) ∧
    4 - 2 ≤ eligibleCount bigRatioConfig hordeHeavyHost sampleEnv.now (sampleMgr 4) []
      (hordeChars hordeHeavyHost
        (allCharacters bigRatioConfig hordeHeavyHost sampleEnv (sampleMgr 4))) ∧
    (AddRandomBots bigRatioConfig hordeHeavyHost sampleEnv (sampleMgr 4)).map
        (fun r => r.phases.map (fun p =>
          (allianceAdmitted hordeHeavyHost p.2.2.admitted,
            hordeAdmitted hordeHeavyHost p.2.2.admitted)))
      = some (some (0, 4)) := by
  decide

/-- C11 (amended): when neither the sum `A + H` nor the product `N * A` wraps
(`0 < A + H < 2^32`, `N * A < 2^32`), `N * A` is divisible by `A + H`, the candidates have
distinct ids and each faction has at least its quota of eligible characters, one pass of
`AddRandomBots` (below the target, dividing by no zero) runs its phases and admits exactly
`N * A / (A + H)` Alliance and `N - N * A / (A + H)` Horde characters; the returned
population count is the previous count plus `N`. -/
theorem AddRandomBots_exact_split (cfg : Config) (host : Host) (env : Env) (m : Mgr)
    (hpos : 0 < cfg.randomBotAllianceRatio + cfg.randomBotHordeRatio)
    (hwrap : cfg.randomBotAllianceRatio + cfg.randomBotHordeRatio < U32)
    (hprod : shortfall cfg (botCountTarget env m) m * cfg.randomBotAllianceRatio < U32)
    (hdiv : (cfg.randomBotAllianceRatio + cfg.randomBotHordeRatio)
      ∣ shortfall cfg (botCountTarget env m) m * cfg.randomBotAllianceRatio)
    (hnd : ((allCharacters cfg host env m).map (fun c => c.guid)).Nodup)
    (hA : allianceShare cfg (shortfall cfg (botCountTarget env m) m)
      ≤ eligibleCount cfg host env.now m []
          (allianceChars host (allCharacters cfg host env m)))
    (hH : shortfall cfg (botCountTarget env m) m
        - allianceShare cfg (shortfall cfg (botCountTarget env m) m)
      ≤ eligibleCount cfg host env.now m []
          (hordeChars host (allCharacters cfg host env m))) :
    (m.currentBots.length < botCountTarget env m →
      (cfg.enablePeriodicOnlineOffline = true → cfg.periodicOnlineOfflineRatio ≠ 0) →
      (host.availableCharsPerAccount % (U32 : Int)).toNat ≠ 0 →
      ∃ r p1 p2 p3, AddRandomBots cfg host env m = some r ∧ r.phases = some (p1, p2, p3)) ∧
    ∀ r p1 p2 p3, AddRandomBots cfg host env m = some r → r.phases = some (p1, p2, p3) →
      allianceAdmitted host p3.admitted
        = allianceShare cfg (shortfall cfg (botCountTarget env m) m) ∧
      hordeAdmitted host p3.admitted
        = shortfall cfg (botCountTarget env m) m
          - allianceShare cfg (shortfall cfg (botCountTarget env m) m) ∧
      r.ret = (m.currentBots.length + shortfall cfg (botCountTarget env m) m) % U32 := by
  have htot : totalRatio cfg ≠ 0 := by
    unfold totalRatio
    rw [Nat.mod_eq_of_lt hwrap]
    omega
  constructor
  · intro hlt hper hdivisor
    obtain ⟨r, hr⟩ := AddRandomBots_defined cfg host env m htot hper hdivisor
    obtain ⟨p1, p2, p3, hp⟩ := AddRandomBots_runs_phases cfg host env m r hr hlt
    exact ⟨r, p1, p2, p3, hr, hp⟩
  · intro r p1 p2 p3 h hp
    obtain ⟨_, e1, e2, e3, e4⟩ := AddRandomBots_phases cfg host env m r p1 p2 p3 h hp
    have hq := allianceQuota_exact cfg env.coin _ hwrap hprod hdiv
    have hqle := allianceQuota_le cfg env.coin (shortfall cfg (botCountTarget env m) m)
      hpos hwrap
    obtain ⟨t1, _⟩ := phases_trace cfg host env (entryMgr env m) _ _ _ _ p1 p2 p3 e1 e2 e3
    obtain ⟨new1, new2, new3, s1, s2, s3, s4, s5, s6, s7⟩ :=
      phases_split cfg host env (entryMgr env m) _ _ _ _ p1 p2 p3
        (shortfall_lt cfg (botCountTarget env m) m) hqle e1 e2 e3
        (faction_lists_nodup host _ hnd)
    rw [eligibleCount_entryMgr] at s5 s6 s7
    rw [hq] at s5 hqle
    obtain ⟨f1, f2⟩ := faction_counts_alliance host _ new1 s2
    obtain ⟨g1, g2⟩ := faction_counts_horde host _ new2 s3
    obtain ⟨k1, k2⟩ := faction_counts_alliance host _ new3 s4
    have hret := (phase4_ret_of_some cfg host env m r p1 p2 p3 h hp)
    have hlen : p3.admitted.length = new1.length + new2.length + new3.length := by
      rw [s1]; simp only [List.length_append]
    have hcb : p3.mgr.currentBots.length = m.currentBots.length + p3.admitted.length := by
      rw [t1]
      simp only [List.length_append, admittedGuids, List.length_map]
      rfl
    obtain ⟨x1, x2, x3⟩ := split_arith _ _ _ _ _ _ _ hqle hA hH s5 s6 s7
    rw [s1, (faction_counts_append host _ _).1, (faction_counts_append host _ _).1,
      (faction_counts_append host _ _).2, (faction_counts_append host _ _).2,
      f1, f2, g1, g2, k1, k2, hret, hcb, hlen, x3]
    exact ⟨x1, x2, rfl⟩

theorem AddRandomBots_exact_split_witness :
    ∃ r p1 p2 p3,
      AddRandomBots sampleConfig balancedHost sampleEnv (populatedMgr 100) = some r ∧
      r.phases = some (p1, p2, p3) ∧
      allianceAdmitted balancedHost p3.admitted = 5 ∧
      hordeAdmitted balancedHost p3.admitted = 5 ∧
      r.ret = 50 :=
  have h := (AddRandomBots_exact_split sampleConfig balancedHost sampleEnv (populatedMgr 100)
    (by decide) (by decide) (by decide) (by decide) (by decide) (by decide) (by decide)).2
      _ _ _ _ rfl rfl
  ⟨_, _, _, _, rfl, rfl, h.1.trans (by decide), h.2.1.trans (by decide),
    h.2.2.trans (by decide)⟩


/-! ## The account map -/

theorem AccountMap.mem_keys_set (m : AccountMap) (id t k : Nat) :
    k ∈ (m.set id t).keys ↔ k = id ∨ k ∈ m.keys := by
  unfold AccountMap.set
  by_cases h : id ∈ m.keys
  · simp only [h, if_true]
    constructor
    · exact Or.inr
    · rintro (rfl | hk)
      · exact h
      · exact hk
  · simp only [h, if_false]
    exact List.mem_orderedInsert _

theorem AccountMap.set_keys_of_mem (m : AccountMap) (id t : Nat) (h : id ∈ m.keys) :
    (m.set id t).keys = m.keys := by
  simp [AccountMap.set, h]

theorem AccountMap.nodup_set (m : AccountMap) (id t : Nat) (h : m.keys.Nodup) :
    (m.set id t).keys.Nodup := by
  unfold AccountMap.set
  by_cases hid : id ∈ m.keys
  · simpa [hid] using h
  · simp only [hid, if_false]
    exact (List.perm_orderedInsert _ id m.keys).nodup_iff.mpr (List.nodup_cons.mpr ⟨hid, h⟩)

theorem AccountMap.roleOf_set (m : AccountMap) (id t k : Nat) :
    (m.set id t).roleOf k = if k = id then t else m.roleOf k := by
  unfold AccountMap.roleOf
  by_cases hk : k = id
  · subst hk
    have : k ∈ (m.set k t).keys := (AccountMap.mem_keys_set m k t k).mpr (Or.inl rfl)
    simp only [this, if_true]
    simp [AccountMap.set]
  · have hmem : k ∈ (m.set id t).keys ↔ k ∈ m.keys := by
      rw [AccountMap.mem_keys_set]
      simp [hk]
    simp only [hmem, hk, if_false]
    simp [AccountMap.set, hk]

theorem AccountMap.get?_eq (m : AccountMap) (id : Nat) :
    m.get? id = if id ∈ m.keys then some (m.roleOf id) else none := by
  unfold AccountMap.get? AccountMap.roleOf
  split <;> rfl

theorem AccountMap.count_eq (m : AccountMap) (t : Nat) :
    m.count t = (m.keys.filter (fun k => decide (m.roleOf k = t))).length := by
  unfold AccountMap.count
  congr 1
  apply List.filter_congr
  intro k hk
  simp [AccountMap.roleOf, hk]

/-- Changing the role of one key of a duplicate-free key list from a role other than `t`
to `t` raises the number of keys with role `t` by one. -/
theorem filter_role_update_gain (keys : List Nat) (role : Nat → Nat) (id t : Nat)
    (hid : id ∈ keys) (hnd : keys.Nodup) (hold : role id ≠ t) :
    (keys.filter (fun k => decide ((if k = id then t else role k) = t))).length
      = (keys.filter (fun k => decide (role k = t))).length + 1 := by
  induction keys with
  | nil => exact absurd hid (List.not_mem_nil _)
  | cons a rest ih =>
    rw [List.nodup_cons] at hnd
    by_cases ha : a = id
    · subst ha
      have hrest : rest.filter (fun k => decide ((if k = a then t else role k) = t))
          = rest.filter (fun k => decide (role k = t)) := by
        apply List.filter_congr
        intro k hk
        have : k ≠ a := fun hh => hnd.1 (hh ▸ hk)
        simp [this]
      rw [List.filter_cons_of_pos (by simp), List.filter_cons_of_neg (by simpa using hold),
        hrest, List.length_cons]
    · have hid2 : id ∈ rest := by
        rcases List.mem_cons.mp hid with h | h
        · exact absurd h.symm ha
        · exact h
      have := ih hid2 hnd.2
      by_cases hr : role a = t
      · rw [List.filter_cons_of_pos (by simp [ha, hr]), List.filter_cons_of_pos (by simp [hr]),
          List.length_cons, List.length_cons, this]
      · rw [List.filter_cons_of_neg (by simp [ha, hr]), List.filter_cons_of_neg (by simp [hr]),
          this]

/-- Changing the role of one key between two roles other than `t2` leaves the number of
keys with role `t2` as it was. -/
theorem filter_role_update_same (keys : List Nat) (role : Nat → Nat) (id t t2 : Nat)
    (hold : role id ≠ t2) (hnew : t ≠ t2) :
    keys.filter (fun k => decide ((if k = id then t else role k) = t2))
      = keys.filter (fun k => decide (role k = t2)) := by
  apply List.filter_congr
  intro k _
  by_cases hk : k = id
  · subst hk
    simp [hold, hnew]
  · simp [hk]

theorem AccountMap.count_set_gain (m : AccountMap) (id t : Nat) (hid : id ∈ m.keys)
    (hnd : m.keys.Nodup) (hold : m.role id ≠ t) :
    (m.set id t).count t = m.count t + 1 := by
  unfold AccountMap.count
  rw [AccountMap.set_keys_of_mem m id t hid]
  exact filter_role_update_gain m.keys m.role id t hid hnd hold

theorem AccountMap.count_set_same (m : AccountMap) (id t t2 : Nat) (hid : id ∈ m.keys)
    (hold : m.role id ≠ t2) (hnew : t ≠ t2) :
    (m.set id t).count t2 = m.count t2 := by
  unfold AccountMap.count
  rw [AccountMap.set_keys_of_mem m id t hid]
  exact congrArg List.length (filter_role_update_same m.keys m.role id t t2 hold hnew)

/-- A new entry with role 0 does not change the number of entries with a non-zero role. -/
theorem AccountMap.count_set_new (m : AccountMap) (id t2 : Nat) (hid : id ∉ m.keys)
    (h2 : t2 ≠ 0) : (m.set id 0).count t2 = m.count t2 := by
  unfold AccountMap.count AccountMap.set
  simp only [hid, if_false]
  have hperm := (List.perm_orderedInsert (fun a b => a ≤ b) id m.keys).filter
    (fun k => decide ((if k = id then 0 else m.role k) = t2))
  rw [hperm.length_eq]
  have hne : ¬ (0 = t2) := fun h => h2 h.symm
  rw [List.filter_cons_of_neg (by simp [hne])]
  congr 1
  apply List.filter_congr
  intro k hk
  have : k ≠ id := fun hh => hid (hh ▸ hk)
  simp [this]

/-! ## The loops of AssignAccountTypes -/

theorem markUnassigned_roleOf (accounts : List Nat) :
    ∀ (m : AccountMap) (k : Nat), (markUnassigned accounts m).roleOf k = m.roleOf k := by
  induction accounts with
  | nil => intro m k; rfl
  | cons id rest ih =>
    intro m k
    unfold markUnassigned
    rw [ih]
    by_cases h : id ∈ m.keys
    · simp [h]
    · simp only [h, if_false]
      rw [AccountMap.roleOf_set]
      by_cases hk : k = id
      · subst hk
        simp [AccountMap.roleOf, h]
      · simp [hk]

theorem markUnassigned_keys (accounts : List Nat) :
    ∀ (m : AccountMap) (k : Nat),
      k ∈ (markUnassigned accounts m).keys ↔ k ∈ accounts ∨ k ∈ m.keys := by
  induction accounts with
  | nil => intro m k; simp [markUnassigned]
  | cons id rest ih =>
    intro m k
    unfold markUnassigned
    rw [ih]
    by_cases h : id ∈ m.keys
    · simp only [h, if_true, List.mem_cons]
      constructor
      · rintro (h1 | h1)
        · exact Or.inl (Or.inr h1)
        · exact Or.inr h1
      · rintro ((rfl | h1) | h1)
        · exact Or.inr h
        · exact Or.inl h1
        · exact Or.inr h1
    · simp only [h, if_false, AccountMap.mem_keys_set, List.mem_cons]
      tauto

theorem markUnassigned_nodup (accounts : List Nat) :
    ∀ (m : AccountMap), m.keys.Nodup → (markUnassigned accounts m).keys.Nodup := by
  induction accounts with
  | nil => intro m h; exact h
  | cons id rest ih =>
    intro m h
    unfold markUnassigned
    apply ih
    by_cases hid : id ∈ m.keys
    · simpa [hid] using h
    · simp only [hid, if_false]
      exact AccountMap.nodup_set m id 0 h

theorem markUnassigned_count (accounts : List Nat) (t : Nat) (ht : t ≠ 0) :
    ∀ (m : AccountMap), (markUnassigned accounts m).count t = m.count t := by
  induction accounts with
  | nil => intro m; rfl
  | cons id rest ih =>
    intro m
    unfold markUnassigned
    rw [ih]
    by_cases hid : id ∈ m.keys
    · simp [hid]
    · simp only [hid, if_false]
      exact AccountMap.count_set_new m id t hid ht

theorem markUnassigned_noop (accounts : List Nat) :
    ∀ (m : AccountMap), (∀ id ∈ accounts, id ∈ m.keys) → markUnassigned accounts m = m := by
  induction accounts with
  | nil => intro m _; rfl
  | cons id rest ih =>
    intro m h
    unfold markUnassigned
    have hid : id ∈ m.keys := h id (List.mem_cons_self _ _)
    simp only [hid, if_true]
    exact ih m (fun k hk => h k (List.mem_cons_of_mem _ hk))

theorem assignLoop_keys (t : Nat) (l : List Nat) :
    ∀ (toAssign assigned : Nat) (m : AccountMap), (∀ id ∈ l, id ∈ m.keys) →
      (assignLoop t l toAssign assigned m).2.keys = m.keys := by
  induction l with
  | nil => intro n a m _; rfl
  | cons id rest ih =>
    intro n a m h
    have hid : id ∈ m.keys := h id (List.mem_cons_self _ _)
    have hrest : ∀ k ∈ rest, k ∈ m.keys := fun k hk => h k (List.mem_cons_of_mem _ hk)
    unfold assignLoop
    by_cases ha : a < n
    · by_cases hr : m.roleOf id = 0
      · simp only [ha, hr, if_true]
        rw [ih _ _ _ (by rw [AccountMap.set_keys_of_mem m id t hid]; exact hrest),
          AccountMap.set_keys_of_mem m id t hid]
      · simp only [ha, hr, if_true, if_false]
        exact ih _ _ _ hrest
    · simp [ha]

/-- A loop changes a role only from 0 to `t`. -/
theorem assignLoop_roles (t : Nat) (ht : t ≠ 0) (l : List Nat) :
    ∀ (toAssign assigned : Nat) (m : AccountMap) (k : Nat),
      (assignLoop t l toAssign assigned m).2.roleOf k = m.roleOf k ∨
      (m.roleOf k = 0 ∧ (assignLoop t l toAssign assigned m).2.roleOf k = t) := by
  induction l with
  | nil => intro n a m k; exact Or.inl rfl
  | cons id rest ih =>
    intro n a m k
    unfold assignLoop
    by_cases ha : a < n
    · by_cases hr : m.roleOf id = 0
      · simp only [ha, hr, if_true]
        rcases ih n (a + 1) (m.set id t) k with h | h
        · rw [h, AccountMap.roleOf_set]
          by_cases hk : k = id
          · subst hk
            simp [hr]
          · simp [hk]
        · rw [AccountMap.roleOf_set] at h
          by_cases hk : k = id
          · subst hk
            simp only [if_true] at h
            exact absurd h.1 ht
          · simp only [hk, if_false] at h
            exact Or.inr h
      · simp only [ha, hr, if_true, if_false]
        exact ih n a m k
    · simp only [ha, if_false]
      exact Or.inl trivial

/-- A loop stops with its quota met or with no unassigned account left in its list. -/
theorem assignLoop_post (t : Nat) (ht : t ≠ 0) (l : List Nat) :
    ∀ (toAssign assigned : Nat) (m : AccountMap), assigned ≤ toAssign →
      (assignLoop t l toAssign assigned m).1 = toAssign ∨
      ∀ id ∈ l, (assignLoop t l toAssign assigned m).2.roleOf id ≠ 0 := by
  induction l with
  | nil => intro n a m _; exact Or.inr (fun id hid => absurd hid (List.not_mem_nil _))
  | cons id rest ih =>
    intro n a m hle
    unfold assignLoop
    by_cases ha : a < n
    · by_cases hr : m.roleOf id = 0
      · simp only [ha, hr, if_true]
        rcases ih n (a + 1) (m.set id t) (by omega) with h | h
        · exact Or.inl h
        · refine Or.inr (fun k hk => ?_)
          rcases List.mem_cons.mp hk with rfl | hk2
          · rcases assignLoop_roles t ht rest n (a + 1) (m.set k t) k with h2 | h2
            · rw [h2, AccountMap.roleOf_set]
              simpa using ht
            · rw [h2.2]
              exact ht
          · exact h k hk2
      · simp only [ha, hr, if_true, if_false]
        rcases ih n a m hle with h | h
        · exact Or.inl h
        · refine Or.inr (fun k hk => ?_)
          rcases List.mem_cons.mp hk with rfl | hk2
          · rcases assignLoop_roles t ht rest n a m k with h2 | h2
            · rw [h2]
              exact hr
            · exact absurd h2.1 hr
          · exact h k hk2
    · simp only [ha, if_false]
      exact Or.inl (by omega)

/-- A loop over accounts none of which is unassigned changes nothing. -/
theorem assignLoop_noop (t : Nat) (l : List Nat) :
    ∀ (toAssign assigned : Nat) (m : AccountMap), (∀ id ∈ l, m.roleOf id ≠ 0) →
      assignLoop t l toAssign assigned m = (assigned, m) := by
  induction l with
  | nil => intro n a m _; rfl
  | cons id rest ih =>
    intro n a m h
    unfold assignLoop
    have hr : ¬ m.roleOf id = 0 := h id (List.mem_cons_self _ _)
    by_cases ha : a < n
    · simp only [ha, hr, if_true, if_false]
      exact ih n a m (fun k hk => h k (List.mem_cons_of_mem _ hk))
    · simp [ha]

/-- The number of entries with role `t` grows by the number of accounts a loop assigned;
the number of entries with another non-zero role does not change. -/
theorem assignLoop_count (t : Nat) (ht : t ≠ 0) (l : List Nat) :
    ∀ (toAssign assigned : Nat) (m : AccountMap), (∀ id ∈ l, id ∈ m.keys) → m.keys.Nodup →
      (assignLoop t l toAssign assigned m).2.count t + assigned
          = m.count t + (assignLoop t l toAssign assigned m).1 ∧
      ∀ t2, t2 ≠ 0 → t2 ≠ t → (assignLoop t l toAssign assigned m).2.count t2 = m.count t2 := by
  induction l with
  | nil => intro n a m _ _; exact ⟨rfl, fun _ _ _ => rfl⟩
  | cons id rest ih =>
    intro n a m h hnd
    have hid : id ∈ m.keys := h id (List.mem_cons_self _ _)
    have hrest : ∀ k ∈ rest, k ∈ m.keys := fun k hk => h k (List.mem_cons_of_mem _ hk)
    unfold assignLoop
    by_cases ha : a < n
    · by_cases hr : m.roleOf id = 0
      · simp only [ha, hr, if_true]
        have hrole : m.role id = 0 := by simpa [AccountMap.roleOf, hid] using hr
        obtain ⟨c1, c2⟩ := ih n (a + 1) (m.set id t)
          (by rw [AccountMap.set_keys_of_mem m id t hid]; exact hrest)
          (AccountMap.nodup_set m id t hnd)
        have g := AccountMap.count_set_gain m id t hid hnd (by rw [hrole]; exact fun hh => ht hh.symm)
        refine ⟨by omega, fun t2 h2 h3 => ?_⟩
        rw [c2 t2 h2 h3]
        exact AccountMap.count_set_same m id t t2 hid (by rw [hrole]; exact fun hh => h2 hh.symm)
          (fun hh => h3 hh.symm)
      · simp only [ha, hr, if_true, if_false]
        exact ih n a m hrest hnd
    · simp only [ha, if_false]
      exact ⟨trivial, fun _ _ _ => trivial⟩

/-! ## AssignAccountTypes as a whole -/

theorem AssignAccountTypes_some (cfg : AccountConfig) (divisor : Int) (accounts : List Nat)
    (table : AccountMap) (r : AssignResult)
    (h : AssignAccountTypes cfg divisor accounts table = some r) :
    ∃ neededRnd, neededRndBotAccounts cfg divisor = some neededRnd ∧
      r.assignments = afterAddClassAssign cfg.addClassAccountPoolSize accounts
        (markUnassigned accounts table)
        (afterRndAssign neededRnd accounts (markUnassigned accounts table)) ∧
      r.rndBotTypeAccounts = r.assignments.withRole 1 ∧
      r.addClassTypeAccounts = r.assignments.withRole 2 := by
  unfold AssignAccountTypes at h
  cases hn : neededRndBotAccounts cfg divisor with
  | none => simp [hn] at h
  | some neededRnd =>
    simp only [hn, Option.some.injEq] at h
    refine ⟨neededRnd, rfl, ?_⟩
    subst h
    unfold afterAddClassAssign afterRndAssign
    refine ⟨?_, rfl, rfl⟩
    by_cases c1 : (markUnassigned accounts table).count 1 < neededRnd <;>
      by_cases c2 : (markUnassigned accounts table).count 2 < cfg.addClassAccountPoolSize <;>
      simp [c1, c2]

theorem AssignAccountTypes_defined (cfg : AccountConfig) (divisor : Int) (accounts : List Nat)
    (table : AccountMap) (h : neededRndBotAccounts cfg divisor ≠ none) :
    ∃ r, AssignAccountTypes cfg divisor accounts table = some r := by
  unfold AssignAccountTypes
  cases hn : neededRndBotAccounts cfg divisor with
  | none => exact absurd hn h
  | some neededRnd => exact ⟨_, rfl⟩

theorem afterRndAssign_keys (neededRnd : Nat) (accounts : List Nat) (m0 : AccountMap)
    (h : ∀ id ∈ accounts, id ∈ m0.keys) :
    (afterRndAssign neededRnd accounts m0).keys = m0.keys := by
  unfold afterRndAssign
  split
  · exact assignLoop_keys 1 accounts _ _ m0 h
  · rfl

theorem afterRndAssign_roles (neededRnd : Nat) (accounts : List Nat) (m0 : AccountMap)
    (k : Nat) :
    (afterRndAssign neededRnd accounts m0).roleOf k = m0.roleOf k ∨
    (m0.roleOf k = 0 ∧ (afterRndAssign neededRnd accounts m0).roleOf k = 1) := by
  unfold afterRndAssign
  split
  · exact assignLoop_roles 1 (by decide) accounts _ _ m0 k
  · exact Or.inl rfl

theorem afterAddClassAssign_keys (pool : Nat) (accounts : List Nat) (m0 m1 : AccountMap)
    (h : ∀ id ∈ accounts, id ∈ m1.keys) :
    (afterAddClassAssign pool accounts m0 m1).keys = m1.keys := by
  unfold afterAddClassAssign
  split
  · exact assignLoop_keys 2 accounts.reverse _ _ m1 (fun id hid => h id (List.mem_reverse.mp hid))
  · rfl

theorem afterAddClassAssign_roles (pool : Nat) (accounts : List Nat) (m0 m1 : AccountMap)
    (k : Nat) :
    (afterAddClassAssign pool accounts m0 m1).roleOf k = m1.roleOf k ∨
    (m1.roleOf k = 0 ∧ (afterAddClassAssign pool accounts m0 m1).roleOf k = 2) := by
  unfold afterAddClassAssign
  split
  · exact assignLoop_roles 2 (by decide) accounts.reverse _ _ m1 k
  · exact Or.inl rfl

/-- The keys of the final map are the keys of the table and the listed accounts; the role
of an account is its role in the table (0 without a row) or, if that was 0, 1 or 2. -/
theorem AssignAccountTypes_keys_roles (cfg : AccountConfig) (divisor : Int)
    (accounts : List Nat) (table : AccountMap) (r : AssignResult)
    (h : AssignAccountTypes cfg divisor accounts table = some r) :
    (∀ k, k ∈ r.assignments.keys ↔ k ∈ accounts ∨ k ∈ table.keys) ∧
    ∀ k, r.assignments.roleOf k = table.roleOf k ∨
      (table.roleOf k = 0 ∧ (r.assignments.roleOf k = 1 ∨ r.assignments.roleOf k = 2)) := by
  obtain ⟨neededRnd, _, e, _, _⟩ := AssignAccountTypes_some cfg divisor accounts table r h
  have hk0 : ∀ id ∈ accounts, id ∈ (markUnassigned accounts table).keys :=
    fun id hid => (markUnassigned_keys accounts table id).mpr (Or.inl hid)
  have hk1 := afterRndAssign_keys neededRnd accounts _ hk0
  have hk2 := afterAddClassAssign_keys cfg.addClassAccountPoolSize accounts
    (markUnassigned accounts table) _ (by rw [hk1]; exact hk0)
  constructor
  · intro k
    rw [e, hk2, hk1]
    exact markUnassigned_keys accounts table k
  · intro k
    have r0 := markUnassigned_roleOf accounts table k
    rcases afterRndAssign_roles neededRnd accounts (markUnassigned accounts table) k
      with r1 | r1 <;>
    rcases afterAddClassAssign_roles cfg.addClassAccountPoolSize accounts
      (markUnassigned accounts table)
      (afterRndAssign neededRnd accounts (markUnassigned accounts table)) k with r2 | r2
    · left; rw [e, r2, r1, r0]
    · right
      rw [r1, r0] at r2
      exact ⟨r2.1, Or.inr (by rw [e]; exact r2.2)⟩
    · right
      rw [r0] at r1
      exact ⟨r1.1, Or.inl (by rw [e, r2]; exact r1.2)⟩
    · exact absurd (r1.2 ▸ r2.1) (by decide)

theorem loop_fill_arith (c c0 r n : Nat) (h : c + 0 = c0 + r) (hr : r = n - c0)
    (hlt : c0 < n) : n ≤ c := by
  omega

/-- After the general-pool block either the pool has its target size or no listed account
is Unassigned; the number of class-coverage accounts is unchanged. -/
theorem afterRndAssign_fix (neededRnd : Nat) (accounts : List Nat) (m0 : AccountMap)
    (hsub : ∀ id ∈ accounts, id ∈ m0.keys) (hnd : m0.keys.Nodup) :
    (neededRnd ≤ (afterRndAssign neededRnd accounts m0).count 1 ∨
      ∀ id ∈ accounts, (afterRndAssign neededRnd accounts m0).roleOf id ≠ 0) ∧
    (afterRndAssign neededRnd accounts m0).count 2 = m0.count 2 := by
  unfold afterRndAssign
  by_cases c : m0.count 1 < neededRnd
  · rw [if_pos c]
    have hc := assignLoop_count 1 (by decide) accounts (neededRnd - m0.count 1) 0 m0 hsub hnd
    refine ⟨?_, hc.2 2 (by decide) (by decide)⟩
    rcases assignLoop_post 1 (by decide) accounts (neededRnd - m0.count 1) 0 m0
      (Nat.zero_le _) with hp | hp
    · exact Or.inl (loop_fill_arith _ _ _ _ hc.1 hp c)
    · exact Or.inr hp
  · rw [if_neg c]
    exact ⟨Or.inl (Nat.le_of_not_lt c), rfl⟩

/-- After the class-coverage block either that pool has its target size or no listed
account is Unassigned; the number of general-pool accounts is unchanged. -/
theorem afterAddClassAssign_fix (pool : Nat) (accounts : List Nat) (m0 m1 : AccountMap)
    (hsub : ∀ id ∈ accounts, id ∈ m1.keys) (hnd : m1.keys.Nodup)
    (hc2 : m1.count 2 = m0.count 2) :
    (pool ≤ (afterAddClassAssign pool accounts m0 m1).count 2 ∨
      ∀ id ∈ accounts, (afterAddClassAssign pool accounts m0 m1).roleOf id ≠ 0) ∧
    (afterAddClassAssign pool accounts m0 m1).count 1 = m1.count 1 := by
  unfold afterAddClassAssign
  by_cases c : m0.count 2 < pool
  · rw [if_pos c]
    have hsub2 : ∀ id ∈ accounts.reverse, id ∈ m1.keys :=
      fun id hid => hsub id (List.mem_reverse.mp hid)
    have hc := assignLoop_count 2 (by decide) accounts.reverse (pool - m0.count 2) 0 m1
      hsub2 hnd
    refine ⟨?_, hc.2 1 (by decide) (by decide)⟩
    rcases assignLoop_post 2 (by decide) accounts.reverse (pool - m0.count 2) 0 m1
      (Nat.zero_le _) with hp | hp
    · exact Or.inl (loop_fill_arith _ _ _ _ (hc2 ▸ hc.1) hp c)
    · exact Or.inr (fun id hid => hp id (List.mem_reverse.mpr hid))
  · rw [if_neg c]
    exact ⟨Or.inl (hc2 ▸ Nat.le_of_not_lt c), rfl⟩

theorem afterRndAssign_stable (neededRnd : Nat) (accounts : List Nat) (m : AccountMap)
    (h : neededRnd ≤ m.count 1 ∨ ∀ id ∈ accounts, m.roleOf id ≠ 0) :
    afterRndAssign neededRnd accounts m = m := by
  unfold afterRndAssign
  by_cases c : m.count 1 < neededRnd
  · rw [if_pos c]
    rcases h with h | h
    · exact absurd h (Nat.not_le_of_lt c)
    · rw [assignLoop_noop 1 accounts _ _ m h]
  · rw [if_neg c]

theorem afterAddClassAssign_stable (pool : Nat) (accounts : List Nat) (m : AccountMap)
    (h : pool ≤ m.count 2 ∨ ∀ id ∈ accounts, m.roleOf id ≠ 0) :
    afterAddClassAssign pool accounts m m = m := by
  unfold afterAddClassAssign
  by_cases c : m.count 2 < pool
  · rw [if_pos c]
    rcases h with h | h
    · exact absurd h (Nat.not_le_of_lt c)
    · rw [assignLoop_noop 2 accounts.reverse _ _ m
        (fun id hid => h id (List.mem_reverse.mp hid))]
  · rw [if_neg c]

/-- The result of a defined call, written with the three stages. -/
theorem AssignAccountTypes_eq (cfg : AccountConfig) (divisor : Int) (accounts : List Nat)
    (table : AccountMap) (neededRnd : Nat)
    (hn : neededRndBotAccounts cfg divisor = some neededRnd) :
    ∃ r, AssignAccountTypes cfg divisor accounts table = some r ∧
      r.assignments = afterAddClassAssign cfg.addClassAccountPoolSize accounts
        (markUnassigned accounts table)
        (afterRndAssign neededRnd accounts (markUnassigned accounts table)) ∧
      r.rndBotTypeAccounts = r.assignments.withRole 1 ∧
      r.addClassTypeAccounts = r.assignments.withRole 2 := by
  obtain ⟨r, hr⟩ := AssignAccountTypes_defined cfg divisor accounts table
    (by rw [hn]; exact Option.noConfusion)
  obtain ⟨n2, hn2, e⟩ := AssignAccountTypes_some cfg divisor accounts table r hr
  rw [hn, Option.some.injEq] at hn2
  subst hn2
  exact ⟨r, hr, e⟩

/-- C12: for every account list (id-sorted or not), every table keyed by account id and a
fixed configuration, `AssignAccountTypes` is idempotent: a second call on the map left by
the first is defined and leaves the same map and the same two filtered account lists. -/
theorem AssignAccountTypes_idempotent (cfg : AccountConfig) (divisor : Int)
    (accounts : List Nat) (table : AccountMap) (hnd : table.keys.Nodup) (r1 : AssignResult)
    (h1 : AssignAccountTypes cfg divisor accounts table = some r1) :
    ∃ r2, AssignAccountTypes cfg divisor accounts r1.assignments = some r2 ∧
      r2.assignments = r1.assignments ∧
      r2.rndBotTypeAccounts = r1.rndBotTypeAccounts ∧
      r2.addClassTypeAccounts = r1.addClassTypeAccounts := by
  obtain ⟨neededRnd, hn, e, e1, e2⟩ := AssignAccountTypes_some cfg divisor accounts table r1 h1
  have hk0 : ∀ id ∈ accounts, id ∈ (markUnassigned accounts table).keys :=
    fun id hid => (markUnassigned_keys accounts table id).mpr (Or.inl hid)
  have hnd0 := markUnassigned_nodup accounts table hnd
  have hk1 := afterRndAssign_keys neededRnd accounts _ hk0
  have f1 := afterRndAssign_fix neededRnd accounts _ hk0 hnd0
  have hsub1 : ∀ id ∈ accounts,
      id ∈ (afterRndAssign neededRnd accounts (markUnassigned accounts table)).keys := by
    rw [hk1]; exact hk0
  have hk2 := afterAddClassAssign_keys cfg.addClassAccountPoolSize accounts
    (markUnassigned accounts table) _ hsub1
  have f2 := afterAddClassAssign_fix cfg.addClassAccountPoolSize accounts
    (markUnassigned accounts table) _ hsub1 (by rw [hk1]; exact hnd0) f1.2
  rw [← e] at f2 hk2
  have hsub2 : ∀ id ∈ accounts, id ∈ r1.assignments.keys := by
    rw [hk2]; exact hsub1
  have g1 : neededRnd ≤ r1.assignments.count 1 ∨
      ∀ id ∈ accounts, r1.assignments.roleOf id ≠ 0 := by
    rcases f1.1 with h | h
    · exact Or.inl (f2.2 ▸ h)
    · right
      intro id hid h0
      rcases afterAddClassAssign_roles cfg.addClassAccountPoolSize accounts
        (markUnassigned accounts table)
        (afterRndAssign neededRnd accounts (markUnassigned accounts table)) id with r | r
      · rw [← e, h0] at r
        exact h id hid r.symm
      · exact h id hid r.1
  obtain ⟨r2, hr2, a, b, c⟩ := AssignAccountTypes_eq cfg divisor accounts r1.assignments
    neededRnd hn
  rw [markUnassigned_noop accounts r1.assignments hsub2,
    afterRndAssign_stable neededRnd accounts r1.assignments g1,
    afterAddClassAssign_stable cfg.addClassAccountPoolSize accounts r1.assignments f2.1] at a
  exact ⟨r2, hr2, a, by rw [b, e1, a], by rw [c, e2, a]⟩

theorem AssignAccountTypes_idempotent_witness :
    ∃ r1, AssignAccountTypes sampleAccountConfig 10 [1, 2, 3, 4, 5, 6] sampleTable = some r1 ∧
      r1.rndBotTypeAccounts = [1, 2] ∧ r1.addClassTypeAccounts = [5, 6] ∧
      ∃ r2, AssignAccountTypes sampleAccountConfig 10 [1, 2, 3, 4, 5, 6] r1.assignments
          = some r2 ∧
        r2.assignments = r1.assignments ∧
        r2.rndBotTypeAccounts = r1.rndBotTypeAccounts ∧
        r2.addClassTypeAccounts = r1.addClassTypeAccounts :=
  ⟨_, rfl, by decide, by decide,
    AssignAccountTypes_idempotent sampleAccountConfig 10 [1, 2, 3, 4, 5, 6] sampleTable
      (by decide) _ rfl⟩

/-- C13: for every configuration, account list and table, `AssignAccountTypes` (defined
whenever the pool size computation is) never demotes: an account with a non-zero role in the
table, in particular role 1 or 2, has the same role afterwards, and the only changes of role
are from Unassigned (0, or no row yet) to 1 and to 2. -/
theorem AssignAccountTypes_never_demotes (cfg : AccountConfig) (divisor : Int)
    (accounts : List Nat) (table : AccountMap) :
    (neededRndBotAccounts cfg divisor ≠ none →
      ∃ r, AssignAccountTypes cfg divisor accounts table = some r) ∧
    ∀ r, AssignAccountTypes cfg divisor accounts table = some r →
      (∀ id t, table.get? id = some t → t ≠ 0 → r.assignments.get? id = some t) ∧
      (∀ id, r.assignments.roleOf id ≠ table.roleOf id →
        table.roleOf id = 0 ∧ (r.assignments.roleOf id = 1 ∨ r.assignments.roleOf id = 2)) := by
  refine ⟨AssignAccountTypes_defined cfg divisor accounts table, fun r h => ?_⟩
  obtain ⟨hkeys, hroles⟩ := AssignAccountTypes_keys_roles cfg divisor accounts table r h
  constructor
  · intro id t hget ht
    rw [AccountMap.get?_eq] at hget ⊢
    by_cases hid : id ∈ table.keys
    · simp only [hid, if_true, Option.some.injEq] at hget
      have hin : id ∈ r.assignments.keys := (hkeys id).mpr (Or.inr hid)
      simp only [hin, if_true, Option.some.injEq]
      rcases hroles id with h1 | h1
      · rw [h1, hget]
      · exact absurd (hget ▸ h1.1) ht
    · simp [hid] at hget
  · intro id hne
    rcases hroles id with h1 | h1
    · exact absurd h1 hne
    · exact h1

theorem AssignAccountTypes_never_demotes_witness :
    ∃ r, AssignAccountTypes sampleAccountConfig 10 [1, 2, 3, 4, 5, 6] sampleTable = some r ∧
      r.assignments.get? 2 = some 1 ∧ r.assignments.get? 5 = some 2 :=
  ⟨_, rfl,
    ((AssignAccountTypes_never_demotes sampleAccountConfig 10 [1, 2, 3, 4, 5, 6]
      sampleTable).2 _ rfl).1 2 1 (by decide) (by decide),
    ((AssignAccountTypes_never_demotes sampleAccountConfig 10 [1, 2, 3, 4, 5, 6]
      sampleTable).2 _ rfl).1 5 2 (by decide) (by decide)⟩

/-- C14 (counterexample): with `MaxRandomBots = 0` and `AddClassAccountPoolSize = 0`,
account 2 (type 1) and account 5 (type 2) keep their types, and the filtered lists still
hold them; nothing is set back to type 0. -/
theorem AssignAccountTypes_keeps_types_at_zero :
    (AssignAccountTypes ⟨0, false, 1, 0⟩ 10 [1, 2, 3, 4, 5, 6] sampleTable).map
        (fun r => (r.assignments.get? 2, r.assignments.get? 5, r.rndBotTypeAccounts,
          r.addClassTypeAccounts))
      = some (some 1, some 2, [2], [5]) := by
  decide

theorem AccountMap.mem_withRole (m : AccountMap) (id t : Nat) (ht : t ≠ 0) :
    id ∈ m.withRole t ↔ m.roleOf id = t := by
  unfold AccountMap.withRole AccountMap.roleOf
  rw [List.mem_filter]
  by_cases h : id ∈ m.keys
  · simp [h]
  · simp only [h, false_and, if_false, false_iff]
    intro e
    exact ht e.symm

theorem AccountMap.get?_eq_some (m : AccountMap) (id t : Nat) (ht : t ≠ 0) :
    m.get? id = some t ↔ m.roleOf id = t := by
  unfold AccountMap.get? AccountMap.roleOf
  by_cases h : id ∈ m.keys
  · simp [h]
  · rw [if_neg h, if_neg h]
    exact ⟨fun e => Option.noConfusion e, fun e => absurd e.symm ht⟩

theorem neededRndBotAccounts_zero (cfg : AccountConfig) (divisor : Int)
    (h : cfg.maxRandomBots = 0) : neededRndBotAccounts cfg divisor = some 0 := by
  unfold neededRndBotAccounts
  rw [if_neg (by rw [h]; exact Nat.lt_irrefl 0)]

theorem afterAddClassAssign_zero (accounts : List Nat) (m0 m1 : AccountMap) :
    afterAddClassAssign 0 accounts m0 m1 = m1 := by
  unfold afterAddClassAssign
  rw [if_neg (Nat.not_lt_zero _)]

/-- C14 (amended): type 1 and type 2 assignments are permanent, also when `MaxRandomBots`
or `AddClassAccountPoolSize` is 0.  With `MaxRandomBots = 0` the call is defined, and an
account has type 1 afterwards exactly when it had type 1 in the table: none is promoted to
type 1 and none is set back to type 0; `rndBotTypeAccounts` holds exactly the type-1
accounts of the table.  With `AddClassAccountPoolSize = 0` the same holds of type 2 and
`addClassTypeAccounts`. -/
theorem AssignAccountTypes_zero_setting_keeps (cfg : AccountConfig) (divisor : Int)
    (accounts : List Nat) (table : AccountMap) :
    (cfg.maxRandomBots = 0 →
      ∃ r, AssignAccountTypes cfg divisor accounts table = some r ∧
        (∀ id, r.assignments.roleOf id = 1 ↔ table.roleOf id = 1) ∧
        (∀ id, id ∈ r.rndBotTypeAccounts ↔ table.get? id = some 1)) ∧
    (cfg.addClassAccountPoolSize = 0 →
      ∀ r, AssignAccountTypes cfg divisor accounts table = some r →
        (∀ id, r.assignments.roleOf id = 2 ↔ table.roleOf id = 2) ∧
        (∀ id, id ∈ r.addClassTypeAccounts ↔ table.get? id = some 2)) := by
  refine ⟨fun hmax => ?_, fun hpool r hr => ?_⟩
  · obtain ⟨r, hr, e, e1, _⟩ := AssignAccountTypes_eq cfg divisor accounts table 0
      (neededRndBotAccounts_zero cfg divisor hmax)
    rw [afterRndAssign_stable 0 accounts _ (Or.inl (Nat.zero_le _))] at e
    have hrole : ∀ id, r.assignments.roleOf id = 1 ↔ table.roleOf id = 1 := by
      intro id
      have r0 := markUnassigned_roleOf accounts table id
      rcases afterAddClassAssign_roles cfg.addClassAccountPoolSize accounts
        (markUnassigned accounts table) (markUnassigned accounts table) id with h | h
      · rw [e, h, r0]
      · rw [r0] at h
        rw [e, h.2, h.1]
        exact ⟨fun x => absurd x (by decide), fun x => absurd x (by decide)⟩
    refine ⟨r, hr, hrole, fun id => ?_⟩
    rw [e1, AccountMap.mem_withRole _ _ _ (by decide),
      AccountMap.get?_eq_some _ _ _ (by decide)]
    exact hrole id
  · obtain ⟨neededRnd, _, e, _, e2⟩ := AssignAccountTypes_some cfg divisor accounts table r hr
    rw [hpool, afterAddClassAssign_zero] at e
    have hrole : ∀ id, r.assignments.roleOf id = 2 ↔ table.roleOf id = 2 := by
      intro id
      have r0 := markUnassigned_roleOf accounts table id
      rcases afterRndAssign_roles neededRnd accounts (markUnassigned accounts table) id
        with h | h
      · rw [e, h, r0]
      · rw [r0] at h
        rw [e, h.2, h.1]
        exact ⟨fun x => absurd x (by decide), fun x => absurd x (by decide)⟩
    refine ⟨hrole, fun id => ?_⟩
    rw [e2, AccountMap.mem_withRole _ _ _ (by decide),
      AccountMap.get?_eq_some _ _ _ (by decide)]
    exact hrole id

theorem AssignAccountTypes_zero_setting_keeps_witness :
    ∃ r, AssignAccountTypes ⟨0, false, 1, 0⟩ 10 [1, 2, 3, 4, 5, 6] sampleTable = some r ∧
      (∀ id, r.assignments.roleOf id = 1 ↔ sampleTable.roleOf id = 1) ∧
      (∀ id, id ∈ r.rndBotTypeAccounts ↔ sampleTable.get? id = some 1) :=
  (AssignAccountTypes_zero_setting_keeps ⟨0, false, 1, 0⟩ 10 [1, 2, 3, 4, 5, 6]
    sampleTable).1 rfl

/-! ## Which accounts the loops promote -/

theorem filter_not_mem_take (l : List Nat) (hnd : l.Nodup) :
    ∀ n, l.filter (fun x => decide (x ∉ l.take n)) = l.drop n := by
  induction l with
  | nil => intro n; simp
  | cons a rest ih =>
    intro n
    cases n with
    | zero => simp
    | succ n =>
      have ha : a ∉ rest := (List.nodup_cons.mp hnd).1
      rw [List.take_succ_cons, List.drop_succ_cons, List.filter_cons]
      simp only [List.mem_cons, true_or, not_true_eq_false, decide_False, Bool.false_eq_true,
        if_false]
      rw [← ih (List.nodup_cons.mp hnd).2 n]
      apply List.filter_congr
      intro x hx
      have hxa : x ≠ a := fun e => ha (e ▸ hx)
      simp [hxa]

theorem take_sub_succ (U : List Nat) (id n a : Nat) (h : a < n) :
    (id :: U).take (n - a) = id :: U.take (n - (a + 1)) := by
  have e : n - a = (n - (a + 1)) + 1 := by omega
  rw [e, List.take_succ_cons]

theorem take_sub_eq_nil (U : List Nat) (n a : Nat) (h : ¬ a < n) : U.take (n - a) = [] := by
  have e : n - a = 0 := by omega
  rw [e, List.take_zero]

/-- The roles after the loop: the first `toAssign - assigned` accounts of the list (in
the order of the list) that had role 0 have role `t`, all others keep their role. -/
theorem assignLoop_strong (t : Nat) (l : List Nat) :
    ∀ (toAssign assigned : Nat) (m : AccountMap) (k : Nat), l.Nodup →
      (assignLoop t l toAssign assigned m).2.roleOf k =
        if k ∈ (l.filter (fun id => decide (m.roleOf id = 0))).take (toAssign - assigned)
        then t else m.roleOf k := by
  induction l with
  | nil => intro n a m k _; simp [assignLoop]
  | cons id rest ih =>
    intro n a m k hnd
    have hid : id ∉ rest := (List.nodup_cons.mp hnd).1
    unfold assignLoop
    by_cases ha : a < n
    · by_cases hr : m.roleOf id = 0
      · simp only [ha, hr, if_true]
        rw [ih n (a + 1) (m.set id t) k (List.nodup_cons.mp hnd).2]
        have hf : rest.filter (fun x => decide ((m.set id t).roleOf x = 0))
            = rest.filter (fun x => decide (m.roleOf x = 0)) := by
          apply List.filter_congr
          intro x hx
          have hxa : x ≠ id := fun e => hid (e ▸ hx)
          rw [AccountMap.roleOf_set, if_neg hxa]
        rw [hf, List.filter_cons]
        simp only [hr, decide_True, if_true]
        rw [take_sub_succ _ id n a ha, AccountMap.roleOf_set]
        by_cases hk : k = id
        · subst hk
          simp
        · simp [hk]
      · simp only [ha, hr, if_true, if_false]
        rw [ih n a m k (List.nodup_cons.mp hnd).2, List.filter_cons]
        simp only [hr, decide_False, Bool.false_eq_true, if_false]
    · simp only [ha, if_false]
      rw [take_sub_eq_nil _ n a ha]
      simp

theorem afterRndAssign_strong (neededRnd : Nat) (accounts : List Nat) (m0 : AccountMap)
    (hnd : accounts.Nodup) (k : Nat) :
    (afterRndAssign neededRnd accounts m0).roleOf k =
      if k ∈ lowestUnassigned (neededRnd - m0.count 1) accounts m0 then 1
      else m0.roleOf k := by
  unfold afterRndAssign lowestUnassigned unassignedAccounts
  by_cases c : m0.count 1 < neededRnd
  · rw [if_pos c, assignLoop_strong 1 accounts _ 0 m0 k hnd, Nat.sub_zero]
  · rw [if_neg c, take_sub_eq_nil _ _ _ c]
    simp

theorem afterAddClassAssign_strong (pool : Nat) (accounts : List Nat) (m0 m1 : AccountMap)
    (hnd : accounts.Nodup) (k : Nat) :
    (afterAddClassAssign pool accounts m0 m1).roleOf k =
      if k ∈ (unassignedAccounts accounts m1).reverse.take (pool - m0.count 2) then 2
      else m1.roleOf k := by
  unfold afterAddClassAssign unassignedAccounts
  by_cases c : m0.count 2 < pool
  · rw [if_pos c, assignLoop_strong 2 accounts.reverse _ 0 m1 k (List.nodup_reverse.mpr hnd),
      Nat.sub_zero, List.filter_reverse]
  · rw [if_neg c, take_sub_eq_nil _ _ _ c]
    simp

/-- The accounts still Unassigned after the general-pool block. -/
theorem unassigned_afterRndAssign (neededRnd : Nat) (accounts : List Nat) (m0 : AccountMap)
    (hnd : accounts.Nodup) :
    unassignedAccounts accounts (afterRndAssign neededRnd accounts m0)
      = stillUnassigned (neededRnd - m0.count 1) accounts m0 := by
  unfold stillUnassigned
  rw [← filter_not_mem_take (unassignedAccounts accounts m0) (hnd.filter _)]
  unfold unassignedAccounts
  rw [List.filter_filter]
  apply List.filter_congr
  intro x _
  rw [afterRndAssign_strong neededRnd accounts m0 hnd x]
  unfold lowestUnassigned unassignedAccounts
  by_cases hx : x ∈ (accounts.filter (fun id => decide (m0.roleOf id = 0))).take
      (neededRnd - m0.count 1)
  · simp [hx]
  · simp [hx]

theorem unassignedAccounts_congr (accounts : List Nat) (m1 m2 : AccountMap)
    (h : ∀ k, m1.roleOf k = m2.roleOf k) :
    unassignedAccounts accounts m1 = unassignedAccounts accounts m2 := by
  unfold unassignedAccounts
  apply List.filter_congr
  intro x _
  rw [h x]

theorem take_before_rest (R : Nat → Nat → Prop) (l : List Nat) (h : l.Pairwise R) (n : Nat) :
    ∀ a ∈ l.take n, ∀ b ∈ l, b ∉ l.take n → R a b := by
  intro a ha b hb hnb
  have e := List.take_append_drop n l
  rw [← e] at h hb
  rcases List.mem_append.mp hb with hb1 | hb1
  · exact absurd hb1 hnb
  · exact (List.pairwise_append.mp h).2.2 a ha b hb1

theorem take_drop_disjoint (l : List Nat) (hnd : l.Nodup) (n : Nat) (x : Nat)
    (h1 : x ∈ l.take n) (h2 : x ∈ l.drop n) : False := by
  have e := List.take_append_drop n l
  rw [← e] at hnd
  exact (List.nodup_append.mp hnd).2.2 h1 h2

/-- C15: for every id-sorted list of bot accounts, the accounts that `AssignAccountTypes`
newly promotes to the general pool (role 1) are exactly the `k` lowest-id Unassigned
accounts of the list, `k` the smaller of the general-pool shortfall and the number of
Unassigned accounts; the accounts it newly promotes to the class-coverage pool (role 2) are
exactly the highest-id accounts among those still Unassigned after the first block, as many
as the class-coverage shortfall allows. -/
theorem AssignAccountTypes_promotes_in_order (cfg : AccountConfig) (divisor : Int)
    (accounts : List Nat) (table : AccountMap) (neededRnd : Nat) (r : AssignResult)
    (hsorted : accounts.Sorted (fun a b => a < b))
    (hn : neededRndBotAccounts cfg divisor = some neededRnd)
    (h : AssignAccountTypes cfg divisor accounts table = some r) :
    (∀ id, (table.roleOf id ≠ 1 ∧ r.assignments.roleOf id = 1) ↔
      id ∈ lowestUnassigned (neededRnd - table.count 1) accounts table) ∧
    (∀ id, (table.roleOf id ≠ 2 ∧ r.assignments.roleOf id = 2) ↔
      id ∈ highestStillUnassigned (neededRnd - table.count 1)
        (cfg.addClassAccountPoolSize - table.count 2) accounts table) ∧
    (lowestUnassigned (neededRnd - table.count 1) accounts table).length
      = min (neededRnd - table.count 1) (unassignedAccounts accounts table).length ∧
    (∀ a ∈ lowestUnassigned (neededRnd - table.count 1) accounts table,
      a ∈ unassignedAccounts accounts table ∧
      ∀ b ∈ unassignedAccounts accounts table,
        b ∉ lowestUnassigned (neededRnd - table.count 1) accounts table → a < b) ∧
    stillUnassigned (neededRnd - table.count 1) accounts table
      = unassignedAccounts accounts
          (afterRndAssign neededRnd accounts (markUnassigned accounts table)) ∧
    (highestStillUnassigned (neededRnd - table.count 1)
        (cfg.addClassAccountPoolSize - table.count 2) accounts table).length
      = min (cfg.addClassAccountPoolSize - table.count 2)
          (stillUnassigned (neededRnd - table.count 1) accounts table).length ∧
    (∀ a ∈ highestStillUnassigned (neededRnd - table.count 1)
        (cfg.addClassAccountPoolSize - table.count 2) accounts table,
      a ∈ stillUnassigned (neededRnd - table.count 1) accounts table ∧
      ∀ b ∈ stillUnassigned (neededRnd - table.count 1) accounts table,
        b ∉ highestStillUnassigned (neededRnd - table.count 1)
          (cfg.addClassAccountPoolSize - table.count 2) accounts table → b < a) := by
  have hnd : accounts.Nodup := hsorted.imp (fun hab => Nat.ne_of_lt hab)
  obtain ⟨n2, hn2, e, _, _⟩ := AssignAccountTypes_some cfg divisor accounts table r h
  rw [hn, Option.some.injEq] at hn2
  subst hn2
  have hr0 := markUnassigned_roleOf accounts table
  have hc1 := markUnassigned_count accounts 1 (by decide) table
  have hc2 := markUnassigned_count accounts 2 (by decide) table
  have hU := unassignedAccounts_congr accounts _ _ hr0
  have hS := unassigned_afterRndAssign neededRnd accounts (markUnassigned accounts table) hnd
  have hUs : (unassignedAccounts accounts table).Sorted (fun a b => a < b) :=
    List.Pairwise.filter _ hsorted
  have hUnd : (unassignedAccounts accounts table).Nodup :=
    hUs.imp (fun hab => Nat.ne_of_lt hab)
  have role1 : ∀ k, (afterRndAssign neededRnd accounts (markUnassigned accounts table)).roleOf k
      = if k ∈ lowestUnassigned (neededRnd - table.count 1) accounts table then 1
        else table.roleOf k := by
    intro k
    rw [afterRndAssign_strong neededRnd accounts _ hnd k, hc1, hr0]
    unfold lowestUnassigned
    rw [hU]
  have hS2 : unassignedAccounts accounts
      (afterRndAssign neededRnd accounts (markUnassigned accounts table))
      = stillUnassigned (neededRnd - table.count 1) accounts table := by
    rw [hS, hc1]
    unfold stillUnassigned
    rw [hU]
  have role2 : ∀ k, r.assignments.roleOf k
      = if k ∈ highestStillUnassigned (neededRnd - table.count 1)
          (cfg.addClassAccountPoolSize - table.count 2) accounts table then 2
        else if k ∈ lowestUnassigned (neededRnd - table.count 1) accounts table then 1
        else table.roleOf k := by
    intro k
    rw [e, afterAddClassAssign_strong _ accounts _ _ hnd k, hc2, hS2, role1 k]
    rfl
  have hlowU : ∀ a ∈ lowestUnassigned (neededRnd - table.count 1) accounts table,
      table.roleOf a = 0 := by
    intro a ha
    have := List.mem_of_mem_take ha
    unfold unassignedAccounts at this
    simpa using (List.mem_filter.mp this).2
  have hhighS : ∀ a ∈ highestStillUnassigned (neededRnd - table.count 1)
      (cfg.addClassAccountPoolSize - table.count 2) accounts table,
      a ∈ stillUnassigned (neededRnd - table.count 1) accounts table :=
    fun a ha => List.mem_reverse.mp (List.mem_of_mem_take ha)
  have hhighU : ∀ a ∈ highestStillUnassigned (neededRnd - table.count 1)
      (cfg.addClassAccountPoolSize - table.count 2) accounts table, table.roleOf a = 0 := by
    intro a ha
    have := List.mem_of_mem_drop (hhighS a ha)
    unfold unassignedAccounts at this
    simpa using (List.mem_filter.mp this).2
  refine ⟨?_, ?_, ?_, ?_, hS2.symm, ?_, ?_⟩
  · intro id
    rw [role2 id]
    constructor
    · rintro ⟨h1, h2⟩
      by_cases hh : id ∈ highestStillUnassigned (neededRnd - table.count 1)
          (cfg.addClassAccountPoolSize - table.count 2) accounts table
      · rw [if_pos hh] at h2
        exact absurd h2 (by decide)
      · rw [if_neg hh] at h2
        by_cases hl : id ∈ lowestUnassigned (neededRnd - table.count 1) accounts table
        · exact hl
        · rw [if_neg hl] at h2
          exact absurd h2 h1
    · intro hl
      have hh : id ∉ highestStillUnassigned (neededRnd - table.count 1)
          (cfg.addClassAccountPoolSize - table.count 2) accounts table :=
        fun hh => take_drop_disjoint _ hUnd _ id hl (hhighS id hh)
      rw [if_neg hh, if_pos hl, hlowU id hl]
      exact ⟨by decide, rfl⟩
  · intro id
    rw [role2 id]
    constructor
    · rintro ⟨h1, h2⟩
      by_cases hh : id ∈ highestStillUnassigned (neededRnd - table.count 1)
          (cfg.addClassAccountPoolSize - table.count 2) accounts table
      · exact hh
      · rw [if_neg hh] at h2
        by_cases hl : id ∈ lowestUnassigned (neededRnd - table.count 1) accounts table
        · rw [if_pos hl] at h2
          exact absurd h2 (by decide)
        · rw [if_neg hl] at h2
          exact absurd h2 h1
    · intro hh
      rw [if_pos hh, hhighU id hh]
      exact ⟨by decide, rfl⟩
  · unfold lowestUnassigned
    rw [List.length_take]
  · intro a ha
    exact ⟨List.mem_of_mem_take ha, take_before_rest _ _ hUs _ a ha⟩
  · unfold highestStillUnassigned
    rw [List.length_take, List.length_reverse]
  · intro a ha
    refine ⟨hhighS a ha, fun b hb hnb => ?_⟩
    have hSs : (stillUnassigned (neededRnd - table.count 1) accounts table).reverse.Pairwise
        (fun a b => b < a) :=
      List.pairwise_reverse.mpr (List.Pairwise.sublist (List.drop_sublist _ _) hUs)
    exact take_before_rest _ _ hSs _ a ha b (List.mem_reverse.mpr hb) hnb

theorem AssignAccountTypes_promotes_in_order_witness :
    ∃ r, AssignAccountTypes sampleAccountConfig 10 [1, 2, 3, 4, 5, 6] sampleTable = some r ∧
      unassignedAccounts [1, 2, 3, 4, 5, 6] sampleTable = [1, 3, 4, 6] ∧
      lowestUnassigned (2 - sampleTable.count 1) [1, 2, 3, 4, 5, 6] sampleTable = [1] ∧
      highestStillUnassigned (2 - sampleTable.count 1)
        (sampleAccountConfig.addClassAccountPoolSize - sampleTable.count 2)
        [1, 2, 3, 4, 5, 6] sampleTable = [6] ∧
      ∀ id, (sampleTable.roleOf id ≠ 1 ∧ r.assignments.roleOf id = 1) ↔
        id ∈ lowestUnassigned (2 - sampleTable.count 1) [1, 2, 3, 4, 5, 6] sampleTable :=
  ⟨_, rfl, by decide, by decide, by decide,
    (AssignAccountTypes_promotes_in_order sampleAccountConfig 10 [1, 2, 3, 4, 5, 6]
      sampleTable 2 _ (by decide) (by decide) rfl).1⟩

/-! ## The size of the general pool -/

theorem toInt32_of_small (n : Nat) (h : n < 2147483648) :
    toInt32 ((n % U32 : Nat) : Int) = (n : Int) := by
  have e : n % U32 = n := Nat.mod_eq_of_lt (by unfold U32; omega)
  rw [e]
  unfold toInt32
  omega

theorem ceil_quotient_value (x c : Nat) (hx : x + c - 1 ≤ 2147483647) :
    (Int.tdiv ((x : Int) + (c : Int) - 1) (c : Int) % (U32 : Int)).toNat = (x + c - 1) / c := by
  by_cases hc : c = 0
  · subst hc
    simp
  · have e : (x : Int) + (c : Int) - 1 = ((x + c - 1 : Nat) : Int) := by omega
    have hq : (x + c - 1) / c < U32 :=
      Nat.lt_of_le_of_lt (Nat.div_le_self _ _) (by unfold U32; omega)
    rw [e, ← Int.ofNat_tdiv]
    have e2 : ((((x + c - 1) / c : Nat) : Int)) % (U32 : Int)
        = (((x + c - 1) / c % U32 : Nat) : Int) := by
      norm_cast
    rw [e2, Nat.mod_eq_of_lt hq, Int.toNat_ofNat]

theorem ceil_quotient_spec (x c : Nat) (hc : 0 < c) :
    x ≤ (x + c - 1) / c * c ∧ ∀ k, x ≤ k * c → (x + c - 1) / c ≤ k := by
  constructor
  · by_contra hlt
    have h1 : ((x + c - 1) / c + 1) * c ≤ x + c - 1 := by
      rw [Nat.succ_mul]
      omega
    have h2 := (Nat.le_div_iff_mul_le hc).mpr h1
    omega
  · intro k hk
    have h1 : x + c - 1 < (k + 1) * c := by
      rw [Nat.succ_mul]
      omega
    have h2 := (Nat.div_lt_iff_lt_mul hc).mpr h1
    omega

theorem neededRndBotAccounts_value (cfg : AccountConfig) (c : Nat)
    (hmax : 0 < cfg.maxRandomBots) (hc : 0 < c)
    (hfit : cfg.maxRandomBots * onlineOfflineMultiplier cfg + c ≤ 2147483647) :
    neededRndBotAccounts cfg (c : Int)
      = some ((cfg.maxRandomBots * onlineOfflineMultiplier cfg + c - 1) / c) := by
  have hsmall : cfg.maxRandomBots * onlineOfflineMultiplier cfg < 2147483648 := by omega
  have hmaxBots : (if cfg.enablePeriodicOnlineOffline then
        toInt32 (((cfg.maxRandomBots * cfg.periodicOnlineOfflineRatio) % U32 : Nat) : Int)
      else toInt32 (cfg.maxRandomBots : Int))
      = ((cfg.maxRandomBots * onlineOfflineMultiplier cfg : Nat) : Int) := by
    unfold onlineOfflineMultiplier at hsmall ⊢
    by_cases hp : cfg.enablePeriodicOnlineOffline = true
    · rw [if_pos hp] at hsmall ⊢
      rw [if_pos hp]
      exact toInt32_of_small _ hsmall
    · rw [if_neg hp] at hsmall ⊢
      rw [if_neg hp, Nat.mul_one]
      rw [Nat.mul_one] at hsmall
      unfold toInt32
      omega
  unfold neededRndBotAccounts
  rw [if_pos hmax]
  simp only [hmaxBots]
  have h1 : inInt32 (((cfg.maxRandomBots * onlineOfflineMultiplier cfg : Nat) : Int) + (c : Int))
      = true := by
    unfold inInt32
    rw [decide_eq_true_eq]
    omega
  have h2 : inInt32 (((cfg.maxRandomBots * onlineOfflineMultiplier cfg : Nat) : Int) + (c : Int)
      - 1) = true := by
    unfold inInt32
    rw [decide_eq_true_eq]
    omega
  have h3 : ¬ ((c : Int) = 0) := by omega
  have h4 : ¬ (((cfg.maxRandomBots * onlineOfflineMultiplier cfg : Nat) : Int) + (c : Int) - 1
      = -2147483648 ∧ (c : Int) = -1) := by omega
  rw [h1, h2]
  simp only [Bool.not_true, Bool.or_self, Bool.false_eq_true, if_false]
  rw [if_neg h3, if_neg h4, ceil_quotient_value _ _ (Nat.le_trans (Nat.sub_le _ _) hfit)]

/-- C16 (counterexample): with `maxRandomBots = 3000000000`, no periodic cycling and 10
characters per account the computed target is 4165470568, although
`3000000000 <= 300000000 * 10`: the target is not the ceiling of the quotient. -/
theorem neededRndBotAccounts_not_ceil :
    neededRndBotAccounts ⟨3000000000, false, 1, 0⟩ 10 = some 4165470568 ∧
    3000000000 * onlineOfflineMultiplier ⟨3000000000, false, 1, 0⟩ ≤ 300000000 * 10 ∧
    ¬ (4165470568 ≤ 300000000) := by
  decide

/-- C16 (amended): when `maxRandomBots` is 0 the general-pool target is 0; for
`maxRandomBots > 0`, a positive multiplier and `charactersPerAccount > 0` such that
`maxRandomBots * multiplier + charactersPerAccount` fits a 32-bit `int`, the target is
`ceil(maxRandomBots * multiplier / charactersPerAccount)`: the least `n` with
`maxRandomBots * multiplier <= n * charactersPerAccount`. -/
theorem neededRndBotAccounts_ceil (cfg : AccountConfig) (divisor : Int)
    (charactersPerAccount : Nat) :
    (cfg.maxRandomBots = 0 → neededRndBotAccounts cfg divisor = some 0) ∧
    (0 < cfg.maxRandomBots → 0 < onlineOfflineMultiplier cfg → 0 < charactersPerAccount →
      cfg.maxRandomBots * onlineOfflineMultiplier cfg + charactersPerAccount ≤ 2147483647 →
      ∃ n, neededRndBotAccounts cfg (charactersPerAccount : Int) = some n ∧
        cfg.maxRandomBots * onlineOfflineMultiplier cfg ≤ n * charactersPerAccount ∧
        ∀ k, cfg.maxRandomBots * onlineOfflineMultiplier cfg ≤ k * charactersPerAccount →
          n ≤ k) := by
  constructor
  · intro h0
    unfold neededRndBotAccounts
    rw [h0]
    rfl
  · intro hmax _ hc hfit
    exact ⟨_, neededRndBotAccounts_value cfg charactersPerAccount hmax hc hfit,
      ceil_quotient_spec _ _ hc⟩

theorem neededRndBotAccounts_ceil_witness :
    neededRndBotAccounts ⟨0, true, 2, 0⟩ 10 = some 0 ∧
    ∃ n, neededRndBotAccounts ⟨25, true, 2, 0⟩ ((10 : Nat) : Int) = some n ∧
      25 * onlineOfflineMultiplier ⟨25, true, 2, 0⟩ ≤ n * 10 ∧
      ∀ k, 25 * onlineOfflineMultiplier ⟨25, true, 2, 0⟩ ≤ k * 10 → n ≤ k :=
  ⟨(neededRndBotAccounts_ceil ⟨0, true, 2, 0⟩ 10 10).1 rfl,
    (neededRndBotAccounts_ceil ⟨25, true, 2, 0⟩ 10 10).2 (by decide) (by decide) (by decide)
      (by decide)⟩

/-! ## The scheduler tick -/

theorem finishTick_target {σ : Type} (cfg : TickConfig) (h : TickHost σ) (te : TickEnv)
    (init : Bool) (maxAllowedBotCount : Nat) (availableBots : List Nat)
    (onlineBotCount onlineBotFocus : Nat) (realPlayerIsLogged : Bool) (s3 : Sched σ)
    (r : TickResult σ)
    (hr : finishTick cfg h te init maxAllowedBotCount availableBots onlineBotCount
      onlineBotFocus realPlayerIsLogged s3 = some r) :
    r.maxAllowedBotCount = maxAllowedBotCount := by
  unfold finishTick at hr
  dsimp only at hr
  split at hr
  · exact Option.noConfusion hr
  · rw [Option.some.injEq] at hr
    rw [← hr]

theorem UpdateAIInternal_target {σ : Type} (cfg : TickConfig) (h : TickHost σ) (te : TickEnv)
    (s : Sched σ) (r : TickResult σ) (hauto : cfg.randomBotAutologin = true)
    (hen : cfg.enabled = true) (hr : UpdateAIInternal cfg h te s = some r) :
    r.maxAllowedBotCount = (chooseTarget cfg te s.mgr.store).1 := by
  unfold UpdateAIInternal at hr
  have hc : ¬ ((!cfg.randomBotAutologin || !cfg.enabled) = true) := by
    rw [hauto, hen]
    decide
  rw [if_neg hc] at hr
  exact finishTick_target _ _ _ _ _ _ _ _ _ _ _ hr

/-- C17 (counterexample): with the bounds of the validity window inverted (minimum 10,
maximum 5) and no persisted `bot_count`, the tick writes `bot_count` with the window the
draw returns (10 here), which is not in `[10, 5]`: no window is. -/
theorem chooseTarget_window_inverted_bounds :
    invertedIntervalConfig.minRandomBots ≤ invertedIntervalConfig.maxRandomBots ∧
    (cachedEvent (chooseTarget invertedIntervalConfig sampleTickEnv ⟨[], fun _ => []⟩).2 0
      "bot_count").validIn = 10 ∧
    ¬ (invertedIntervalConfig.randomBotCountChangeMinInterval ≤ 10 ∧
        10 ≤ invertedIntervalConfig.randomBotCountChangeMaxInterval) := by
  decide

/-- C17 (amended): given `minRandomBots <= maxRandomBots` and
`randomBotCountChangeMinInterval <= randomBotCountChangeMaxInterval` (and `urand` returning
a value in the range it is given), the target population of a tick lies in
`[minRandomBots, maxRandomBots]` and is the target the tick uses; if the persisted
`bot_count` reads 0 (unset or expired) or is outside the range, the target is written
through `SetEventValue` with a validity window in the interval range; if it is live and
inside the range it is the target, and the store is the one the read leaves: nothing is
written and the table is unchanged. -/
theorem chooseTarget_in_range {σ : Type} (cfg : TickConfig) (h : TickHost σ) (te : TickEnv)
    (s : Sched σ) (hbots : cfg.minRandomBots ≤ cfg.maxRandomBots)
    (hwin : cfg.randomBotCountChangeMinInterval ≤ cfg.randomBotCountChangeMaxInterval)
    (ht : UrandContract te.targetDraw) (hi : UrandContract te.intervalDraw) :
    (cfg.minRandomBots ≤ (chooseTarget cfg te s.mgr.store).1 ∧
      (chooseTarget cfg te s.mgr.store).1 ≤ cfg.maxRandomBots) ∧
    (∀ r, cfg.randomBotAutologin = true → cfg.enabled = true →
      UpdateAIInternal cfg h te s = some r →
      r.maxAllowedBotCount = (chooseTarget cfg te s.mgr.store).1) ∧
    (((GetEventValue s.mgr.store te.env.now 0 "bot_count").1 = 0 ∨
        ((GetEventValue s.mgr.store te.env.now 0 "bot_count").1 < cfg.minRandomBots ∨
         (GetEventValue s.mgr.store te.env.now 0 "bot_count").1 > cfg.maxRandomBots)) →
      ∃ w, cfg.randomBotCountChangeMinInterval ≤ w ∧
        w ≤ cfg.randomBotCountChangeMaxInterval ∧
        (chooseTarget cfg te s.mgr.store).2
          = (SetEventValue (GetEventValue s.mgr.store te.env.now 0 "bot_count").2
              (te.env.commitOk 0 "bot_count") te.env.gameTime te.env.now 0 "bot_count"
              (chooseTarget cfg te s.mgr.store).1 w "").2) ∧
    (¬ ((GetEventValue s.mgr.store te.env.now 0 "bot_count").1 = 0 ∨
        ((GetEventValue s.mgr.store te.env.now 0 "bot_count").1 < cfg.minRandomBots ∨
         (GetEventValue s.mgr.store te.env.now 0 "bot_count").1 > cfg.maxRandomBots)) →
      (chooseTarget cfg te s.mgr.store).1
          = (GetEventValue s.mgr.store te.env.now 0 "bot_count").1 ∧
        (chooseTarget cfg te s.mgr.store).2
          = (GetEventValue s.mgr.store te.env.now 0 "bot_count").2 ∧
        (chooseTarget cfg te s.mgr.store).2.table = s.mgr.store.table) := by
  refine ⟨?_, fun r ha he hr => UpdateAIInternal_target cfg h te s r ha he hr, ?_, ?_⟩
  · unfold chooseTarget
    by_cases c : (GetEventValue s.mgr.store te.env.now 0 "bot_count").1 = 0 ∨
        ((GetEventValue s.mgr.store te.env.now 0 "bot_count").1 < cfg.minRandomBots ∨
         (GetEventValue s.mgr.store te.env.now 0 "bot_count").1 > cfg.maxRandomBots)
    · simp only [c, if_true]
      exact ht _ _ hbots
    · simp only [c, if_false]
      exact ⟨Nat.le_of_not_lt (fun x => c (Or.inr (Or.inl x))),
        Nat.le_of_not_lt (fun x => c (Or.inr (Or.inr x)))⟩
  · intro c
    unfold chooseTarget
    simp only [c, if_true]
    exact ⟨_, (hi _ _ hwin).1, (hi _ _ hwin).2, rfl⟩
  · intro c
    unfold chooseTarget
    simp only [c, if_false]
    exact ⟨trivial, trivial, GetEventValue_table _ _ _ _⟩

theorem chooseTarget_in_range_witness :
    (50 ≤ (chooseTarget sampleTickConfig sampleTickEnv (sampleMgr 100).store).1 ∧
      (chooseTarget sampleTickConfig sampleTickEnv (sampleMgr 100).store).1 ≤ 200) ∧
    (chooseTarget sampleTickConfig sampleTickEnv (sampleMgr 100).store).1 = 100 ∧
    (50 ≤ (chooseTarget sampleTickConfig sampleTickEnv (sampleMgr 20).store).1 ∧
      (chooseTarget sampleTickConfig sampleTickEnv (sampleMgr 20).store).1 ≤ 200) :=
  ⟨(chooseTarget_in_range sampleTickConfig simHost sampleTickEnv
      (simSched (sampleMgr 100) [] 0 0) (by decide) (by decide)
      (fun _ _ hle => ⟨Nat.le_refl _, hle⟩) (fun _ _ hle => ⟨Nat.le_refl _, hle⟩)).1,
    by decide,
    (chooseTarget_in_range sampleTickConfig simHost sampleTickEnv
      (simSched (sampleMgr 20) [] 0 0) (by decide) (by decide)
      (fun _ _ hle => ⟨Nat.le_refl _, hle⟩) (fun _ _ hle => ⟨Nat.le_refl _, hle⟩)).1⟩

theorem processedCount_append (a b : List (Nat × Bool)) :
    processedCount (a ++ b) = processedCount a + processedCount b := by
  unfold processedCount
  rw [List.filter_append, List.length_append]

theorem budget_step_true (p b : Nat) (hb : 0 < b) : p + 1 + (b - 1) = p + b := by
  omega

/-- With a budget that is not 0, the update pass spends one unit per call of `ProcessBot`
that returns true: the calls that returned true and the budget left add up to the budget
given. -/
theorem updatePass_budget {σ : Type} (h : TickHost σ) (init : Bool) (l : List Nat) :
    ∀ (updateBots : Nat) (s : Mgr × σ) (calls : List (Nat × Bool)),
      0 < updateBots → updateBots < U32 →
      processedCount (updatePass h init l updateBots s calls).2.2
          + (updatePass h init l updateBots s calls).1
        = processedCount calls + updateBots := by
  induction l with
  | nil => intro b s calls _ _; rfl
  | cons bot rest ih =>
    intro b s calls hb hlt
    unfold updatePass
    by_cases hp : h.getPlayerBot s.2 bot = true
    · simp only [hp, Bool.not_true, Bool.false_eq_true, if_false]
      by_cases hr : (h.processBot init bot s).1 = true
      · simp only [hr, if_true]
        rw [dec32_of_pos b (Nat.pos_iff_ne_zero.mp hb) hlt]
        by_cases h0 : b - 1 = 0
        · simp only [h0, if_true]
          rw [processedCount_append]
          have e : processedCount [(bot, true)] = 1 := rfl
          rw [e, Nat.add_zero]
          have := budget_step_true (processedCount calls) b hb
          rw [h0, Nat.add_zero] at this
          exact this
        · simp only [h0, if_false]
          rw [ih (b - 1) _ _ (Nat.pos_of_ne_zero h0) (Nat.lt_of_le_of_lt (Nat.sub_le _ _) hlt),
            processedCount_append]
          have e : processedCount [(bot, true)] = 1 := rfl
          rw [e]
          exact budget_step_true (processedCount calls) b hb
      · have hr2 : (h.processBot init bot s).1 = false := by
          cases hx : (h.processBot init bot s).1
          · rfl
          · exact absurd hx hr
        simp only [hr2, Bool.false_eq_true, if_false]
        rw [if_neg (Nat.pos_iff_ne_zero.mp hb), ih b _ _ hb hlt, processedCount_append]
        have e : processedCount [(bot, false)] = 0 := rfl
        rw [e, Nat.add_zero]
    · have hp2 : h.getPlayerBot s.2 bot = false := by
        cases hx : h.getPlayerBot s.2 bot
        · rfl
        · exact absurd hx hp
      simp only [hp2, Bool.not_false, if_true]
      exact ih b s calls hb hlt

/-- C18 (the code at the failing input): with `randomBotsPerInterval = 1` the budget
`updateBots` is 0, and the update pass over the two online bots 1 and 2 calls `ProcessBot`
on both, each call returning true: 2 bots are advanced with a budget of 0. -/
theorem UpdateAIInternal_zero_budget_not_capped :
    (UpdateAIInternal zeroBudgetConfig simHost sampleTickEnv
        (simSched { sampleMgr 2 with currentBots := [1, 2] } [1, 2] 0 0)).map
      (fun r => (r.updateBots, r.updateCalls, processedCount r.updateCalls))
      = some (0, [(1, true), (2, true)], 2) := by
  decide

theorem admitting_trackRealPlayer {σ : Type} (cfg : TickConfig) (h : TickHost σ) (now : Int)
    (onlineBotCount : Nat) (s : Sched σ) (hgate : cfg.disabledWithoutRealPlayer = true)
    (hwait : h.activeAndQueuedSessionCount s.world = 0 ∨ now < armedLoginTimer cfg now s) :
    admitting cfg now (trackRealPlayer cfg h now onlineBotCount s).1
      (trackRealPlayer cfg h now onlineBotCount s).2.DelayLoginBotsTimer = false := by
  unfold trackRealPlayer admitting
  rw [hgate]
  by_cases hs : h.activeAndQueuedSessionCount s.world > 0
  · have hlt : now < armedLoginTimer cfg now s := by
      rcases hwait with h0 | h1
      · exact absurd h0 (Nat.pos_iff_ne_zero.mp hs)
      · exact h1
    unfold armedLoginTimer at hlt
    have hd : decide (now ≥ (if s.DelayLoginBotsTimer = 0 then
        now + (cfg.disabledWithoutRealPlayerLoginDelay : Int) else s.DelayLoginBotsTimer))
        = false := by
      rw [decide_eq_false_iff_not]
      exact Int.not_le.mpr hlt
    simp only [hs, if_true, hd, Bool.and_false, Bool.or_false]
    rfl
  · simp only [hs, if_true, if_false]
    split <;> rfl

theorem runPasses_no_login {σ : Type} (h : TickHost σ) (init : Bool) (availableBots : List Nat)
    (updateBots maxNewBots : Nat) (w : Mgr × σ) :
    (runPasses h init availableBots updateBots maxNewBots 0 w).loginCalls = [] := by
  unfold runPasses
  by_cases ha : availableBots ≠ []
  · simp [ha]
  · simp [ha]

theorem finishTick_gate_closed {σ : Type} (cfg : TickConfig) (h : TickHost σ) (te : TickEnv)
    (init : Bool) (maxAllowedBotCount : Nat) (availableBots : List Nat)
    (onlineBotCount onlineBotFocus : Nat) (realPlayerIsLogged : Bool) (s3 : Sched σ)
    (hgate : cfg.disabledWithoutRealPlayer = true)
    (hadm : admitting cfg te.env.now realPlayerIsLogged s3.DelayLoginBotsTimer = false) :
    ∃ r, finishTick cfg h te init maxAllowedBotCount availableBots onlineBotCount
        onlineBotFocus realPlayerIsLogged s3 = some r ∧
      r.added = none ∧ r.maxNewBots = 0 ∧ r.loginBots = 0 ∧ r.loginCalls = [] := by
  have hm : maxNewBotsOf cfg te.env.now realPlayerIsLogged s3.DelayLoginBotsTimer
      onlineBotCount maxAllowedBotCount = 0 := by
    unfold maxNewBotsOf
    rw [hadm]
    simp
  have hl : ∀ u, loginBudget cfg u 0 = 0 := by
    intro u
    unfold loginBudget
    exact Nat.min_zero _
  unfold finishTick
  simp only [hgate, hadm, Bool.and_false, if_true, Bool.false_eq_true, if_false, hm, hl]
  exact ⟨_, rfl, rfl, rfl, rfl, runPasses_no_login _ _ _ _ _ _⟩

/-- C19: with `disabledWithoutRealPlayer` set, in every tick in which no real session is
active or queued, or in which the clock is still before `DelayLoginBotsTimer` (armed at the
first detected session), the tick completes with `AddRandomBots` not invoked, `maxNewBots`
and the login budget `loginBots` equal to 0, and no call of `ProcessBot` in the login
pass. -/
theorem UpdateAIInternal_gate_closed {σ : Type} (cfg : TickConfig) (h : TickHost σ)
    (te : TickEnv) (s : Sched σ) (hgate : cfg.disabledWithoutRealPlayer = true)
    (hwait : h.activeAndQueuedSessionCount s.world = 0 ∨
      te.env.now < armedLoginTimer cfg te.env.now s) :
    ∃ r, UpdateAIInternal cfg h te s = some r ∧
      r.added = none ∧ r.maxNewBots = 0 ∧ r.loginBots = 0 ∧ r.loginCalls = [] := by
  unfold UpdateAIInternal
  by_cases hc : (!cfg.randomBotAutologin || !cfg.enabled) = true
  · rw [if_pos hc]
    exact ⟨_, rfl, rfl, rfl, rfl, rfl⟩
  · rw [if_neg hc]
    exact finishTick_gate_closed cfg h te _ _ _ _ _ _ _ hgate
      (admitting_trackRealPlayer cfg h te.env.now _ _ hgate hwait)

theorem UpdateAIInternal_gate_closed_witness :
    ∃ r, UpdateAIInternal sampleTickConfig simHost sampleTickEnv
        (simSched (populatedMgr 100) [] 1 0) = some r ∧
      r.added = none ∧ r.maxNewBots = 0 ∧ r.loginBots = 0 ∧ r.loginCalls = [] :=
  UpdateAIInternal_gate_closed sampleTickConfig simHost sampleTickEnv
    (simSched (populatedMgr 100) [] 1 0) rfl (Or.inr (by decide))

/-! ## The per-bot decision step -/

theorem KeepsEvent_get (bot : Nat) (event event2 : String) (s : Store) (now : Int)
    (h : event2 ≠ event) : KeepsEvent bot event s (GetEventValue s now bot event2).2 := by
  refine ⟨?_, ?_, ?_⟩
  · rw [GetEventValue_cache_self]
    exact EventMap.set_isEmpty _ _ _
  · rw [GetEventValue_cache_self, EventMap.at_set, if_neg h]
    rfl
  · rw [GetEventValue_table]

theorem rowsFor_append (t1 t2 : List EventRow) (bot : Nat) (event : String) :
    rowsFor (t1 ++ t2) bot event = rowsFor t1 bot event ++ rowsFor t2 bot event := by
  unfold rowsFor
  rw [List.filter_append]

theorem rowsFor_setTransaction_other (table : List EventRow) (gameTime : Int) (bot : Nat)
    (event2 : String) (value validIn : Nat) (data : String) (event : String)
    (h : event2 ≠ event) :
    rowsFor (setTransaction table gameTime bot event2 value validIn data) bot event
      = rowsFor table bot event := by
  have hne : ¬ (bot = bot ∧ event = event2) := fun x => h x.2.symm
  unfold setTransaction
  by_cases hv : value ≠ 0
  · rw [if_pos hv, rowsFor_append, rowsFor_filter_ne _ _ _ _ _ hne]
    have e : rowsFor [(⟨0, bot, (gameTime % (U32 : Int)).toNat, validIn, event2, value,
        if data ≠ "" then some data else none⟩ : EventRow)] bot event = [] := by
      unfold rowsFor
      rw [List.filter_cons]
      simp [h]
    rw [e, List.append_nil]
  · rw [if_neg hv]
    exact rowsFor_filter_ne _ _ _ _ _ hne

theorem KeepsEvent_set (bot : Nat) (event event2 : String) (s s1 : Store) (commitOk : Bool)
    (gameTime now : Int) (value validIn : Nat) (data : String) (h : event2 ≠ event)
    (hk : KeepsEvent bot event s s1) :
    KeepsEvent bot event s
      (SetEventValue s1 commitOk gameTime now bot event2 value validIn data).2 := by
  obtain ⟨_, h2, h3⟩ := hk
  unfold SetEventValue
  refine ⟨?_, ?_, ?_⟩
  · simp only [if_true]
    exact EventMap.set_isEmpty _ _ _
  · simp only [if_true]
    rw [EventMap.at_set, if_neg h]
    exact h2
  · cases commitOk
    · exact h3
    · simp only [if_true]
      rw [rowsFor_setTransaction_other _ _ _ _ _ _ _ _ h]
      exact h3

theorem rowsFor_updRandomBots_other (table : List EventRow) (validIn : Nat)
    (event2 : String) (b bot : Nat) (event : String) (h : event2 ≠ event) :
    rowsFor (updRandomBots table validIn event2 b) bot event = rowsFor table bot event := by
  unfold rowsFor updRandomBots
  induction table with
  | nil => rfl
  | cons r rest ih =>
    rw [List.map_cons, List.filter_cons, List.filter_cons, ih]
    by_cases c : r.event = event2 ∧ r.bot = b
    · have hr : r.event ≠ event := fun x => h (c.1 ▸ x)
      simp [c, hr, h]
    · simp only [c, if_false]

theorem KeepsEvent_upd (bot : Nat) (event event2 : String) (s s1 : Store) (validIn b : Nat)
    (h : event2 ≠ event) (hk : KeepsEvent bot event s s1) :
    KeepsEvent bot event s { s1 with table := updRandomBots s1.table validIn event2 b } := by
  obtain ⟨h1, h2, h3⟩ := hk
  refine ⟨h1, h2, ?_⟩
  show rowsFor (updRandomBots s1.table validIn event2 b) bot event = _
  rw [rowsFor_updRandomBots_other _ _ _ _ _ _ h]
  exact h3

theorem KeepsEvent_final (bot : Nat) (event : String) (s s1 : Store)
    (hk : KeepsEvent bot event s s1) :
    cachedEvent s1 bot event = cachedEvent s bot event ∧
    rowsFor s1.table bot event = rowsFor s.table bot event := by
  obtain ⟨h1, h2, h3⟩ := hk
  refine ⟨?_, h3⟩
  unfold cachedEvent at h2 ⊢
  rw [loadEvents_of_nonempty s1 bot h1]
  exact h2

theorem RandomizeFirst_spec (cfg : BotConfig) (be : BotEnv) (s s1 : Store) (p : Player)
    (hk : KeepsEvent p.guid "teleport" s s1) :
    KeepsEvent p.guid "teleport" s (RandomizeFirst cfg be s1 p).store ∧
    BotAction.factoryRandomize (firstLevel cfg be p) false
      ∈ (RandomizeFirst cfg be s1 p).actions ∧
    BotAction.refresh ∉ (RandomizeFirst cfg be s1 p).actions := by
  unfold RandomizeFirst
  refine ⟨?_, ?_, ?_⟩
  · exact KeepsEvent_upd _ _ _ _ _ _ _ (by decide)
      (KeepsEvent_upd _ _ _ _ _ _ _ (by decide)
        (KeepsEvent_set _ _ _ _ _ _ _ _ _ _ _ (by decide) hk))
  · simp
  · unfold RandomTeleportForLevel
    simp only [List.mem_append, List.mem_singleton, not_or]
    refine ⟨⟨⟨fun x => BotAction.noConfusion x, ?_⟩, ?_⟩, ?_⟩
    · split
      · simp
      · simp
    · split
      · simp
      · simp
    · split
      · simp
      · simp

theorem Randomize_spec (cfg : BotConfig) (be : BotEnv) (s s1 : Store) (p : Player)
    (hbg : p.inBattleground = false) (hk : KeepsEvent p.guid "teleport" s s1) :
    KeepsEvent p.guid "teleport" s (Randomize cfg be s1 p).store ∧
    (∃ level incremental,
      BotAction.factoryRandomize level incremental ∈ (Randomize cfg be s1 p).actions) ∧
    BotAction.refresh ∉ (Randomize cfg be s1 p).actions := by
  have hf := RandomizeFirst_spec cfg be s s1 p hk
  unfold Randomize
  rw [hbg]
  simp only [Bool.false_eq_true, if_false]
  by_cases c1 : p.level < 3 ∨ (p.level < 56 ∧ p.rClass = CLASS_DEATH_KNIGHT)
  · rw [if_pos c1]
    exact ⟨hf.1, ⟨_, _, hf.2.1⟩, hf.2.2⟩
  · rw [if_neg c1]
    by_cases c2 : p.level < cfg.randomBotMaxLevel ∨ cfg.downgradeMaxLevelBot = false
    · rw [if_pos c2]
      exact ⟨hk, ⟨p.level, true, List.mem_singleton.mpr rfl⟩, by simp⟩
    · rw [if_neg c2]
      exact ⟨hf.1, ⟨_, _, hf.2.1⟩, hf.2.2⟩

theorem leaveBotLedGroup_spec (p : Player) :
    (leaveBotLedGroup p).1.guid = p.guid ∧
    (leaveBotLedGroup p).1.inBattleground = p.inBattleground ∧
    idleBot (leaveBotLedGroup p).1 = idleBot p ∧
    BotAction.refresh ∉ (leaveBotLedGroup p).2 := by
  unfold leaveBotLedGroup
  cases hg : p.group with
  | none => simp
  | some g =>
    simp only
    split
    · refine ⟨rfl, rfl, rfl, ?_⟩
      simp
    · simp

/-- C20 (counterexamples): an alive bot with no travel target and an expired `randomize`
event that is in a battleground queue gets no randomization (the step returns false with
no action); and with `minRandomBotRandomizeTime = 0` the step reschedules `randomize` with
TTL 0. -/
theorem ProcessBotPlayer_skips_or_zero_ttl :
    (idleBot { idlePlayer with inBattlegroundQueue := true } = true ∧
      (GetEventValue scenarioStore 1000 7 "randomize").1 = 0 ∧
      (ProcessBotPlayer sampleBotConfig sampleBotEnv scenarioStore
        { idlePlayer with inBattlegroundQueue := true }).result = false ∧
      (ProcessBotPlayer sampleBotConfig sampleBotEnv scenarioStore
        { idlePlayer with inBattlegroundQueue := true }).actions = []) ∧
    ((ProcessBotPlayer zeroRandomizeConfig sampleBotEnv scenarioStore idlePlayer).result = true ∧
      (cachedEvent (ProcessBotPlayer zeroRandomizeConfig sampleBotEnv scenarioStore idlePlayer).store
        7 "randomize").validIn = 0) := by
  decide

/-- C20 (amended): for every alive bot that is in no battleground and no battleground
queue, is idle (has an AI whose travel target is null or idle) and whose `randomize` event
reads 0 (expired or unset), the decision step returns true, runs the factory
randomization and no `Refresh`, leaves the cached `teleport` event and the `teleport` rows
as they were, and writes `randomize = 1` with the TTL
`urand(minRandomBotRandomizeTime, maxRandomBotRandomizeTime)`, which is greater than 0
when `0 < minRandomBotRandomizeTime <= maxRandomBotRandomizeTime`. -/
theorem ProcessBotPlayer_randomizes (cfg : BotConfig) (be : BotEnv) (s : Store) (p : Player)
    (hbg : p.inBattleground = false) (hq : p.inBattlegroundQueue = false)
    (halive : p.isDead = false) (hidle : idleBot p = true)
    (hexp : (GetEventValue s be.now p.guid "randomize").1 = 0) :
    (ProcessBotPlayer cfg be s p).result = true ∧
    (∃ level incremental,
      BotAction.factoryRandomize level incremental ∈ (ProcessBotPlayer cfg be s p).actions) ∧
    BotAction.refresh ∉ (ProcessBotPlayer cfg be s p).actions ∧
    cachedEvent (ProcessBotPlayer cfg be s p).store p.guid "teleport"
      = cachedEvent s p.guid "teleport" ∧
    rowsFor (ProcessBotPlayer cfg be s p).store.table p.guid "teleport"
      = rowsFor s.table p.guid "teleport" ∧
    cachedEvent (ProcessBotPlayer cfg be s p).store p.guid "randomize"
      = ⟨1, (be.now % (U32 : Int)).toNat,
          be.randomizeDraw cfg.minRandomBotRandomizeTime cfg.maxRandomBotRandomizeTime, ""⟩ ∧
    (UrandContract be.randomizeDraw → 0 < cfg.minRandomBotRandomizeTime →
      cfg.minRandomBotRandomizeTime ≤ cfg.maxRandomBotRandomizeTime →
      0 < be.randomizeDraw cfg.minRandomBotRandomizeTime cfg.maxRandomBotRandomizeTime) := by
  obtain ⟨lg, lb, li, la⟩ := leaveBotLedGroup_spec p
  have hk0 : KeepsEvent p.guid "teleport" s (GetEventValue s be.now p.guid "randomize").2 :=
    KeepsEvent_get _ _ _ _ _ (by decide)
  have hz := Randomize_spec cfg be s (GetEventValue s be.now p.guid "randomize").2
    (leaveBotLedGroup p).1 (by rw [lb]; exact hbg) (by rw [lg]; exact hk0)
  rw [lg] at hz
  have hfin := KeepsEvent_final _ _ _ _
    (KeepsEvent_set p.guid "teleport" "randomize" s _ (be.commitOk p.guid "randomize")
      be.gameTime be.now 1
      (be.randomizeDraw cfg.minRandomBotRandomizeTime cfg.maxRandomBotRandomizeTime) ""
      (by decide) hz.1)
  have hstep : ProcessBotPlayer cfg be s p
      = ⟨true,
          ScheduleRandomize be
            (Randomize cfg be (GetEventValue s be.now p.guid "randomize").2
              (leaveBotLedGroup p).1).store p.guid
            (be.randomizeDraw cfg.minRandomBotRandomizeTime cfg.maxRandomBotRandomizeTime),
          (Randomize cfg be (GetEventValue s be.now p.guid "randomize").2
            (leaveBotLedGroup p).1).player,
          (leaveBotLedGroup p).2 ++
            (Randomize cfg be (GetEventValue s be.now p.guid "randomize").2
              (leaveBotLedGroup p).1).actions⟩ := by
    unfold ProcessBotPlayer
    simp only [hbg, hq, halive, li, hidle, hexp, Bool.false_eq_true, if_false, if_true]
  rw [hstep]
  refine ⟨rfl, ?_, ?_, hfin.1, hfin.2, ?_, ?_⟩
  · obtain ⟨level, incremental, hm⟩ := hz.2.1
    exact ⟨level, incremental, List.mem_append.mpr (Or.inr hm)⟩
  · intro hm
    rcases List.mem_append.mp hm with h1 | h1
    · exact la h1
    · exact hz.2.2 h1
  · exact cachedEvent_after_set _ _ _ _ _ _ _ _ _
  · intro hc hpos hle
    exact Nat.lt_of_lt_of_le hpos (hc _ _ hle).1

theorem ProcessBotPlayer_randomizes_witness :
    (ProcessBotPlayer sampleBotConfig sampleBotEnv scenarioStore idlePlayer).result = true ∧
    (∃ level incremental, BotAction.factoryRandomize level incremental
      ∈ (ProcessBotPlayer sampleBotConfig sampleBotEnv scenarioStore idlePlayer).actions) ∧
    BotAction.refresh ∉ (ProcessBotPlayer sampleBotConfig sampleBotEnv scenarioStore idlePlayer).actions ∧
    cachedEvent (ProcessBotPlayer sampleBotConfig sampleBotEnv scenarioStore idlePlayer).store 7
        "teleport"
      = cachedEvent scenarioStore 7 "teleport" ∧
    rowsFor (ProcessBotPlayer sampleBotConfig sampleBotEnv scenarioStore idlePlayer).store.table 7
        "teleport"
      = rowsFor scenarioStore.table 7 "teleport" ∧
    cachedEvent (ProcessBotPlayer sampleBotConfig sampleBotEnv scenarioStore idlePlayer).store 7
        "randomize"
      = ⟨1, 1000, 7200, ""⟩ ∧
    (UrandContract sampleBotEnv.randomizeDraw → 0 < 7200 → 7200 ≤ 50400 →
      0 < sampleBotEnv.randomizeDraw 7200 50400) :=
  ProcessBotPlayer_randomizes sampleBotConfig sampleBotEnv scenarioStore idlePlayer rfl rfl rfl rfl
    (by decide)

/-! ## The weighted coin flip of the Alliance quota -/

theorem quota_succ_fits (q t r p : Nat) (h : q * t + r = p) (ht : 0 < t) (hr : r ≠ 0)
    (hp : p < 4294967296) : (q + 1) % 4294967296 = q + 1 := by
  have h1 : q ≤ q * t := Nat.le_mul_of_pos_right q ht
  apply Nat.mod_eq_of_lt
  omega

/-- The quota as a function of the coin, when neither the ratio sum nor the product wraps:
the floor of the quotient, plus one when the coin is at most the remainder. -/
theorem allianceQuota_value (cfg : Config) (coin n : Nat)
    (hpos : 0 < cfg.randomBotAllianceRatio + cfg.randomBotHordeRatio)
    (hwrap : cfg.randomBotAllianceRatio + cfg.randomBotHordeRatio < U32)
    (hprod : n * cfg.randomBotAllianceRatio < U32) (hcoin : 1 ≤ coin) :
    allianceQuota cfg coin n
      = n * cfg.randomBotAllianceRatio
          / (cfg.randomBotAllianceRatio + cfg.randomBotHordeRatio)
        + (if coin ≤ n * cfg.randomBotAllianceRatio
            % (cfg.randomBotAllianceRatio + cfg.randomBotHordeRatio) then 1 else 0) := by
  have htot : totalRatio cfg = cfg.randomBotAllianceRatio + cfg.randomBotHordeRatio := by
    unfold totalRatio
    exact Nat.mod_eq_of_lt hwrap
  unfold allianceQuota
  simp only [htot, Nat.mod_eq_of_lt hprod]
  by_cases hc : coin ≤ n * cfg.randomBotAllianceRatio
      % (cfg.randomBotAllianceRatio + cfg.randomBotHordeRatio)
  · have hr : n * cfg.randomBotAllianceRatio
        % (cfg.randomBotAllianceRatio + cfg.randomBotHordeRatio) ≠ 0 := by omega
    rw [if_pos ⟨hr, hc⟩, if_pos hc]
    have hfit := quota_succ_fits _ _ _ _
      (Nat.div_add_mod' (n * cfg.randomBotAllianceRatio)
        (cfg.randomBotAllianceRatio + cfg.randomBotHordeRatio)) hpos hr hprod
    unfold U32
    exact hfit
  · rw [if_neg (fun x => hc x.2), if_neg hc, Nat.add_zero]

theorem Icc_filter_le (t r : Nat) (h : r ≤ t) :
    (Finset.Icc 1 t).filter (fun coin => coin ≤ r) = Finset.Icc 1 r := by
  ext x
  simp only [Finset.mem_filter, Finset.mem_Icc]
  omega

/-- C26 (counterexample): ratios `4294967295` and `2` have a positive sum and, with
`N = 1`, a product `N * A` that fits 32 bits; the sum wraps to `totalRatio = 1` and the
quota is `4294967295`, which exceeds `N` and is neither `floor(N*A/(A+H)) = 0` nor 1. -/
theorem allianceQuota_sum_wrap :
    0 < (wrapConfig 1).randomBotAllianceRatio + (wrapConfig 1).randomBotHordeRatio ∧
    1 * (wrapConfig 1).randomBotAllianceRatio < U32 ∧
    allianceQuota (wrapConfig 1) 1 1 = 4294967295 ∧
    1 * (wrapConfig 1).randomBotAllianceRatio
      / ((wrapConfig 1).randomBotAllianceRatio + (wrapConfig 1).randomBotHordeRatio) = 0 := by
  decide

/-- C26 (amended): for every shortfall `N` and ratios `A`, `H` with `0 < A + H < 2^32` and
`N * A < 2^32`, the Alliance quota is `floor(N*A/(A+H))` or that plus one for every draw
`1 <= coin <= A + H`, never exceeds `N`, exactly `N*A mod (A+H)` of the `A + H` draws yield
the plus-one, and the quotas of the `A + H` draws add up to `N * A`, so that their mean is
`N*A/(A+H)`. -/
theorem allianceQuota_distribution (cfg : Config) (n : Nat)
    (hpos : 0 < cfg.randomBotAllianceRatio + cfg.randomBotHordeRatio)
    (hwrap : cfg.randomBotAllianceRatio + cfg.randomBotHordeRatio < U32)
    (hprod : n * cfg.randomBotAllianceRatio < U32) :
    (∀ coin, 1 ≤ coin →
      (allianceQuota cfg coin n
          = n * cfg.randomBotAllianceRatio
              / (cfg.randomBotAllianceRatio + cfg.randomBotHordeRatio) ∨
        allianceQuota cfg coin n
          = n * cfg.randomBotAllianceRatio
              / (cfg.randomBotAllianceRatio + cfg.randomBotHordeRatio) + 1) ∧
      allianceQuota cfg coin n ≤ n) ∧
    ((Finset.Icc 1 (cfg.randomBotAllianceRatio + cfg.randomBotHordeRatio)).filter
        (fun coin => allianceQuota cfg coin n
          = n * cfg.randomBotAllianceRatio
              / (cfg.randomBotAllianceRatio + cfg.randomBotHordeRatio) + 1)).card
      = n * cfg.randomBotAllianceRatio
          % (cfg.randomBotAllianceRatio + cfg.randomBotHordeRatio) ∧
    (Finset.Icc 1 (cfg.randomBotAllianceRatio + cfg.randomBotHordeRatio)).sum
        (fun coin => allianceQuota cfg coin n)
      = n * cfg.randomBotAllianceRatio := by
  have hrem : n * cfg.randomBotAllianceRatio
      % (cfg.randomBotAllianceRatio + cfg.randomBotHordeRatio)
      ≤ cfg.randomBotAllianceRatio + cfg.randomBotHordeRatio :=
    Nat.le_of_lt (Nat.mod_lt _ hpos)
  refine ⟨?_, ?_, ?_⟩
  · intro coin hcoin
    refine ⟨?_, allianceQuota_le cfg coin n hpos hwrap⟩
    rw [allianceQuota_value cfg coin n hpos hwrap hprod hcoin]
    by_cases hc : coin ≤ n * cfg.randomBotAllianceRatio
        % (cfg.randomBotAllianceRatio + cfg.randomBotHordeRatio)
    · right; rw [if_pos hc]
    · left; rw [if_neg hc, Nat.add_zero]
  · have e : (Finset.Icc 1 (cfg.randomBotAllianceRatio + cfg.randomBotHordeRatio)).filter
          (fun coin => allianceQuota cfg coin n
            = n * cfg.randomBotAllianceRatio
                / (cfg.randomBotAllianceRatio + cfg.randomBotHordeRatio) + 1)
        = (Finset.Icc 1 (cfg.randomBotAllianceRatio + cfg.randomBotHordeRatio)).filter
          (fun coin => coin ≤ n * cfg.randomBotAllianceRatio
            % (cfg.randomBotAllianceRatio + cfg.randomBotHordeRatio)) := by
      apply Finset.filter_congr
      intro coin hmem
      rw [allianceQuota_value cfg coin n hpos hwrap hprod (Finset.mem_Icc.mp hmem).1]
      by_cases hc : coin ≤ n * cfg.randomBotAllianceRatio
          % (cfg.randomBotAllianceRatio + cfg.randomBotHordeRatio)
      · simp [hc]
      · simp [hc]
    rw [e, Icc_filter_le _ _ hrem, Nat.card_Icc, Nat.add_sub_cancel]
  · have e : (Finset.Icc 1 (cfg.randomBotAllianceRatio + cfg.randomBotHordeRatio)).sum
          (fun coin => allianceQuota cfg coin n)
        = (Finset.Icc 1 (cfg.randomBotAllianceRatio + cfg.randomBotHordeRatio)).sum
          (fun coin => n * cfg.randomBotAllianceRatio
              / (cfg.randomBotAllianceRatio + cfg.randomBotHordeRatio)
            + (if coin ≤ n * cfg.randomBotAllianceRatio
                % (cfg.randomBotAllianceRatio + cfg.randomBotHordeRatio) then 1 else 0)) := by
      apply Finset.sum_congr rfl
      intro coin hmem
      exact allianceQuota_value cfg coin n hpos hwrap hprod (Finset.mem_Icc.mp hmem).1
    rw [e, Finset.sum_add_distrib, Finset.sum_const, Finset.sum_boole,
      Icc_filter_le _ _ hrem, Nat.card_Icc, Nat.card_Icc, Nat.add_sub_cancel,
      Nat.add_sub_cancel, smul_eq_mul, Nat.cast_id, Nat.mul_comm]
    exact Nat.div_add_mod' _ _

theorem allianceQuota_distribution_witness :
    (∀ coin, 1 ≤ coin →
      (allianceQuota ⟨10, 2, 1, false, 1, 60, 120, 31104000, true⟩ coin 10 = 10 * 2 / (2 + 1) ∨
        allianceQuota ⟨10, 2, 1, false, 1, 60, 120, 31104000, true⟩ coin 10
          = 10 * 2 / (2 + 1) + 1) ∧
      allianceQuota ⟨10, 2, 1, false, 1, 60, 120, 31104000, true⟩ coin 10 ≤ 10) ∧
    ((Finset.Icc 1 (2 + 1)).filter
        (fun coin => allianceQuota ⟨10, 2, 1, false, 1, 60, 120, 31104000, true⟩ coin 10
          = 10 * 2 / (2 + 1) + 1)).card = 10 * 2 % (2 + 1) ∧
    (Finset.Icc 1 (2 + 1)).sum
        (fun coin => allianceQuota ⟨10, 2, 1, false, 1, 60, 120, 31104000, true⟩ coin 10)
      = 10 * 2 :=
  allianceQuota_distribution ⟨10, 2, 1, false, 1, 60, 120, 31104000, true⟩ 10 (by decide)
    (by decide) (by decide)

/-! ## Write/read round trip of the event store -/

theorem refreshed_of_live (now : Int) (event : String) (e : CachedEvent)
    (h : now - (e.lastChangeTime : Int) < (e.validIn : Int)) : refreshed now event e = e := by
  unfold refreshed expired
  have hd : decide (now - (e.lastChangeTime : Int) ≥ (e.validIn : Int)) = false := by
    rw [decide_eq_false_iff_not]
    exact Int.not_le.mpr h
  rw [hd]
  rfl

theorem refreshed_of_expired (now : Int) (event : String) (e : CachedEvent)
    (hNo : event ≠ "specNo") (hLink : event ≠ "specLink")
    (h : now - (e.lastChangeTime : Int) ≥ (e.validIn : Int)) :
    (refreshed now event e).value = 0 := by
  unfold refreshed expired neverExpires
  have hd : decide (now - (e.lastChangeTime : Int) ≥ (e.validIn : Int)) = true := by
    rw [decide_eq_true_eq]
    exact h
  rw [hd]
  simp [hNo, hLink]

theorem stamp_of_range (t0 : Int) (h0 : 0 ≤ t0) (h32 : t0 < (U32 : Int)) :
    (((t0 % (U32 : Int)).toNat : Nat) : Int) = t0 := by
  rw [Int.emod_eq_of_lt h0 h32, Int.toNat_of_nonneg h0]

theorem GetEventData_fst (s : Store) (now : Int) (bot : Nat) (event : String) :
    (GetEventData s now bot event).1
      = if (GetEventValue s now bot event).1 ≠ 0 then (cachedEvent s bot event).data
        else "" := by
  unfold GetEventData
  by_cases h : (GetEventValue s now bot event).1 ≠ 0
  · rw [if_pos h, if_pos h]
    show (((GetEventValue s now bot event).2.eventCache bot).at event).data = _
    rw [GetEventValue_cache_self, EventMap.at_set, if_pos rfl, refreshed_data]
  · rw [if_neg h, if_neg h]

/-- C29 (counterexample): a write at clock `2^32 + 5` stores the time truncated to 32 bits
(5), so that the read at the same clock sees an age of `2^32 >= 60` and returns 0, not the
value 1 written with ttl 60. -/
theorem GetEventValue_after_set_truncated_time :
    (4294967301 : Int) - 4294967301 < 60 ∧
    (GetEventValue (SetEventValue ⟨[], fun _ => []⟩ true 4294967301 4294967301 7 "add" 1 60
      "").2 4294967301 7 "add").1 = 0 := by
  decide

/-- C29 (amended): for every store, bot, key, non-zero value `v`, ttl and payload, and
every write time `0 <= t0 < 2^32` (the write stores the time truncated to 32 bits),
whatever the commit outcome: after `SetEventValue(bot, key, v, ttl, payload)` at `t0`,
`GetEventValue(bot, key)` at any time `t >= t0` with `t - t0 < ttl` returns `v` and
`GetEventData(bot, key)` returns the payload; and with `ttl = 0` and a key other than
"specNo" and "specLink" the read returns 0 at every `t >= t0`. -/
theorem SetEventValue_round_trip (s : Store) (commitOk : Bool) (gameTime t0 t : Int)
    (bot : Nat) (event : String) (v ttl : Nat) (payload : String)
    (hv : v ≠ 0) (h0 : 0 ≤ t0) (h32 : t0 < (U32 : Int)) (ht : t0 ≤ t) :
    (t - t0 < (ttl : Int) →
      (GetEventValue (SetEventValue s commitOk gameTime t0 bot event v ttl payload).2
        t bot event).1 = v ∧
      (GetEventData (SetEventValue s commitOk gameTime t0 bot event v ttl payload).2
        t bot event).1 = payload) ∧
    (ttl = 0 → event ≠ "specNo" → event ≠ "specLink" →
      (GetEventValue (SetEventValue s commitOk gameTime t0 bot event v ttl payload).2
        t bot event).1 = 0) := by
  have hc := cachedEvent_after_set s commitOk gameTime t0 bot event v ttl payload
  have hstamp := stamp_of_range t0 h0 h32
  constructor
  · intro hlive
    have hval : (GetEventValue (SetEventValue s commitOk gameTime t0 bot event v ttl
        payload).2 t bot event).1 = v := by
      rw [GetEventValue_fst, hc, refreshed_of_live]
      show t - (((t0 % (U32 : Int)).toNat : Nat) : Int) < (ttl : Int)
      rw [hstamp]
      exact hlive
    refine ⟨hval, ?_⟩
    rw [GetEventData_fst, hval, if_pos hv, hc]
  · intro httl hNo hLink
    rw [GetEventValue_fst, hc]
    apply refreshed_of_expired _ _ _ hNo hLink
    show t - (((t0 % (U32 : Int)).toNat : Nat) : Int) ≥ (ttl : Int)
    rw [hstamp, httl]
    have : (0 : Int) ≤ t - t0 := Int.sub_nonneg.mpr ht
    exact this

theorem SetEventValue_round_trip_witness :
    ((1050 : Int) - 1000 < ((60 : Nat) : Int) →
      (GetEventValue (SetEventValue scenarioStore true 1000 1000 7 "add" 1 60 "x").2
        1050 7 "add").1 = 1 ∧
      (GetEventData (SetEventValue scenarioStore true 1000 1000 7 "add" 1 60 "x").2
        1050 7 "add").1 = "x") ∧
    ((60 : Nat) = 0 → "add" ≠ "specNo" → "add" ≠ "specLink" →
      (GetEventValue (SetEventValue scenarioStore true 1000 1000 7 "add" 1 60 "x").2
        1050 7 "add").1 = 0) :=
  SetEventValue_round_trip scenarioStore true 1000 1000 1050 7 "add" 1 60 "x" (by decide)
    (by decide) (by decide) (by decide)

/-! ## The level chosen by RandomizeFirst -/

theorem firstLevel_eq (cfg : BotConfig) (be : BotEnv) (p : Player) :
    firstLevel cfg be p
      = if cfg.disableRandomLevels then
          (if p.rClass = CLASS_DEATH_KNIGHT then
            max cfg.randombotStartingLevel cfg.startHeroicPlayerLevel
          else cfg.randombotStartingLevel)
        else if cfg.downgradeMaxLevelBot ∧ p.level ≥ cfg.randomBotMaxLevel then
          (if p.rClass = CLASS_DEATH_KNIGHT then cfg.startHeroicPlayerLevel
          else cfg.randomBotMinLevel)
        else rolledLevel cfg be p := rfl

theorem firstMinLevel_death_knight (cfg : BotConfig) (p : Player)
    (hdk : p.rClass = CLASS_DEATH_KNIGHT) :
    cfg.startHeroicPlayerLevel ≤ firstMinLevel cfg p := by
  unfold firstMinLevel
  rw [if_pos hdk]
  exact Nat.le_max_right _ _

theorem firstMaxLevel_death_knight (cfg : BotConfig) (be : BotEnv) (p : Player)
    (hdk : p.rClass = CLASS_DEATH_KNIGHT) :
    cfg.startHeroicPlayerLevel ≤ firstMaxLevel cfg be p := by
  unfold firstMaxLevel
  simp only
  rw [if_pos hdk]
  exact Nat.le_max_right _ _

/-- C28: for every death knight and every configuration (random levels enabled or
disabled, downgrading on or off, level sync on or off) the level `RandomizeFirst` selects
is at least the heroic-class starting level, as are the raised minimum and maximum of the
selection range (a uniform draw being at least the minimum it is given); and for any bot
the level of the roll branch lies between the minimum and the maximum whenever the minimum
is at most the maximum, that level being the one selected unless random levels are
disabled or a bot at the level cap is downgraded. -/
theorem firstLevel_death_knight (cfg : BotConfig) (be : BotEnv) (p : Player) :
    (p.rClass = CLASS_DEATH_KNIGHT → UrandAtLeastMin be.levelDraw →
      cfg.startHeroicPlayerLevel ≤ firstLevel cfg be p ∧
      cfg.startHeroicPlayerLevel ≤ firstMinLevel cfg p ∧
      cfg.startHeroicPlayerLevel ≤ firstMaxLevel cfg be p) ∧
    (UrandContract be.levelDraw → firstMinLevel cfg p ≤ firstMaxLevel cfg be p →
      firstMinLevel cfg p ≤ rolledLevel cfg be p ∧
      rolledLevel cfg be p ≤ firstMaxLevel cfg be p) ∧
    (cfg.disableRandomLevels = false →
      ¬ (cfg.downgradeMaxLevelBot = true ∧ p.level ≥ cfg.randomBotMaxLevel) →
      firstLevel cfg be p = rolledLevel cfg be p) := by
  refine ⟨?_, ?_, ?_⟩
  · intro hdk hlow
    have hmin := firstMinLevel_death_knight cfg p hdk
    have hmax := firstMaxLevel_death_knight cfg be p hdk
    refine ⟨?_, hmin, hmax⟩
    rw [firstLevel_eq]
    by_cases c1 : cfg.disableRandomLevels = true
    · rw [if_pos c1, if_pos hdk]
      exact Nat.le_max_right _ _
    · rw [if_neg c1]
      by_cases c2 : cfg.downgradeMaxLevelBot = true ∧ p.level ≥ cfg.randomBotMaxLevel
      · rw [if_pos c2, if_pos hdk]
      · rw [if_neg c2]
        unfold rolledLevel
        by_cases c3 : cfg.rollIsMaxLevel be.roll = true
        · rw [if_pos c3]
          exact hmax
        · rw [if_neg c3]
          by_cases c4 : cfg.rollIsMinLevel be.roll = true
          · rw [if_pos c4]
            exact hmin
          · rw [if_neg c4]
            exact Nat.le_trans hmin (hlow _ _)
  · intro hc hle
    unfold rolledLevel
    by_cases c3 : cfg.rollIsMaxLevel be.roll = true
    · rw [if_pos c3]
      exact ⟨hle, Nat.le_refl _⟩
    · rw [if_neg c3]
      by_cases c4 : cfg.rollIsMinLevel be.roll = true
      · rw [if_pos c4]
        exact ⟨Nat.le_refl _, hle⟩
      · rw [if_neg c4]
        exact hc _ _ hle
  · intro c1 c2
    rw [firstLevel_eq, c1]
    simp only [Bool.false_eq_true, if_false]
    rw [if_neg c2]

theorem firstLevel_death_knight_witness :
    55 ≤ firstLevel sampleBotConfig sampleBotEnv deathKnight ∧
    55 ≤ firstMinLevel sampleBotConfig deathKnight ∧
    55 ≤ firstMaxLevel sampleBotConfig sampleBotEnv deathKnight :=
  (firstLevel_death_knight sampleBotConfig sampleBotEnv deathKnight).1 rfl
    (fun lo _ => Nat.le_refl lo)

/-! ## The decision step on a dead bot -/

theorem KeepsEvent_of_nonempty (bot : Nat) (event : String) (s : Store)
    (h : (s.eventCache bot).isEmpty = false) : KeepsEvent bot event s s := by
  refine ⟨h, ?_, rfl⟩
  unfold cachedEvent
  rw [loadEvents_of_nonempty s bot h]

theorem KeepsEvent_get_next (bot : Nat) (event event2 : String) (s s1 : Store) (now : Int)
    (h : event2 ≠ event) (hk : KeepsEvent bot event s s1) :
    KeepsEvent bot event s (GetEventValue s1 now bot event2).2 := by
  obtain ⟨h1, h2, h3⟩ := hk
  refine ⟨?_, ?_, ?_⟩
  · rw [GetEventValue_cache_self]
    exact EventMap.set_isEmpty _ _ _
  · rw [GetEventValue_cache_self, EventMap.at_set, if_neg h, loadEvents_of_nonempty s1 bot h1]
    exact h2
  · rw [GetEventValue_table]
    exact h3

theorem SetEventValue_nonempty (s : Store) (commitOk : Bool) (gameTime now : Int) (bot : Nat)
    (event : String) (value validIn : Nat) (data : String) :
    ((SetEventValue s commitOk gameTime now bot event value validIn data).2.eventCache
      bot).isEmpty = false := by
  unfold SetEventValue
  simp only [if_true]
  exact EventMap.set_isEmpty _ _ _

/-- After `SetEventValue(bot, event, 0, ...)`, and whatever is then written to other events
of the bot, a read of the event returns 0 at every clock value. -/
theorem GetEventValue_zero_kept (bot : Nat) (event : String) (s s2 : Store)
    (commitOk : Bool) (gameTime now : Int) (validIn : Nat) (data : String)
    (hk : KeepsEvent bot event
      (SetEventValue s commitOk gameTime now bot event 0 validIn data).2 s2) (t : Int) :
    (GetEventValue s2 t bot event).1 = 0 := by
  rw [GetEventValue_fst, (KeepsEvent_final _ _ _ _ hk).1, cachedEvent_after_set]
  exact refreshed_value_zero _ _ _ rfl

theorem Refresh_actions (p : Player) :
    ∀ a ∈ (Refresh p).2, a = BotAction.refresh ∨ a = BotAction.removeFromGroup := by
  intro a ha
  unfold Refresh at ha
  cases h1 : p.hasAI <;> cases h2 : p.isDead <;> cases h3 : p.inBattleground <;>
    cases h4 : p.group.isSome <;> simp [h1, h2, h3, h4] at ha <;>
    first | exact ha | exact Or.inl ha

theorem Refresh_alive (p : Player) (h : p.hasAI = true) : (Refresh p).1.isDead = false := by
  unfold Refresh
  cases h2 : p.isDead <;> cases h3 : p.inBattleground <;> cases h4 : p.group.isSome <;>
    simp [h, h2, h3, h4]

theorem Revive_actions (be : BotEnv) (s : Store) (p : Player) (level : Nat)
    (incremental : Bool) :
    BotAction.factoryRandomize level incremental ∉ (Revive be s p).actions := by
  unfold Revive
  simp only [List.mem_append, not_or]
  constructor
  · intro hm
    rcases Refresh_actions p _ hm with h | h
    · exact BotAction.noConfusion h
    · exact BotAction.noConfusion h
  · unfold RandomTeleportGrindForLevel
    split
    · simp
    · simp

/-- C27 (counterexample): a dead bot in a battleground queue whose `dead` event is unset:
the step returns false with no action, and `dead` still reads 0 afterwards. -/
theorem ProcessBotPlayer_dead_in_queue :
    (GetEventValue scenarioStore 1000 7 "dead").1 = 0 ∧
    (ProcessBotPlayer sampleBotConfig sampleBotEnv scenarioStore
      { deadPlayer with inBattlegroundQueue := true }).result = false ∧
    (ProcessBotPlayer sampleBotConfig sampleBotEnv scenarioStore
      { deadPlayer with inBattlegroundQueue := true }).actions = [] ∧
    (GetEventValue (ProcessBotPlayer sampleBotConfig sampleBotEnv scenarioStore
      { deadPlayer with inBattlegroundQueue := true }).store 1000 7 "dead").1 = 0 ∧
    (GetEventValue (ProcessBotPlayer sampleBotConfig sampleBotEnv scenarioStore
      { deadPlayer with inBattlegroundQueue := true }).store 1000 7 "revive").1 = 0 := by
  decide

/-- C27 (amended): for every dead bot that is in no battleground and no battleground
queue, idle or not, the decision step handles death and nothing else.  It runs no factory
randomization and leaves the cached `randomize` and `teleport` events and their rows as
they were.  If `dead` reads 0 it returns false with no action on the character and writes
`dead = 1` and `revive = 1`, the latter with the TTL
`urand(minRandomBotReviveTime, maxRandomBotReviveTime)`, which lies in that range when
`minRandomBotReviveTime <= maxRandomBotReviveTime`.  If `dead` is set and `revive` reads 0
it returns true, a character with an AI is alive afterwards, and `dead` and `revive` read
0 at every later clock value.  If both are set it returns false with no action. -/
theorem ProcessBotPlayer_dead (cfg : BotConfig) (be : BotEnv) (s : Store) (p : Player)
    (hbg : p.inBattleground = false) (hq : p.inBattlegroundQueue = false)
    (hdead : p.isDead = true) :
    (∀ level incremental,
      BotAction.factoryRandomize level incremental ∉ (ProcessBotPlayer cfg be s p).actions) ∧
    (∀ event, event = "randomize" ∨ event = "teleport" →
      cachedEvent (ProcessBotPlayer cfg be s p).store p.guid event
        = cachedEvent s p.guid event ∧
      rowsFor (ProcessBotPlayer cfg be s p).store.table p.guid event
        = rowsFor s.table p.guid event) ∧
    ((GetEventValue s be.now p.guid "dead").1 = 0 →
      (ProcessBotPlayer cfg be s p).result = false ∧
      (ProcessBotPlayer cfg be s p).actions = [] ∧
      (ProcessBotPlayer cfg be s p).player = p ∧
      cachedEvent (ProcessBotPlayer cfg be s p).store p.guid "dead"
        = ⟨1, (be.now % (U32 : Int)).toNat, cfg.maxRandomBotInWorldTime, ""⟩ ∧
      cachedEvent (ProcessBotPlayer cfg be s p).store p.guid "revive"
        = ⟨1, (be.now % (U32 : Int)).toNat,
            be.reviveDraw cfg.minRandomBotReviveTime cfg.maxRandomBotReviveTime, ""⟩ ∧
      (UrandContract be.reviveDraw →
        cfg.minRandomBotReviveTime ≤ cfg.maxRandomBotReviveTime →
        cfg.minRandomBotReviveTime
            ≤ be.reviveDraw cfg.minRandomBotReviveTime cfg.maxRandomBotReviveTime ∧
          be.reviveDraw cfg.minRandomBotReviveTime cfg.maxRandomBotReviveTime
            ≤ cfg.maxRandomBotReviveTime)) ∧
    ((GetEventValue s be.now p.guid "dead").1 ≠ 0 →
      (GetEventValue s be.now p.guid "revive").1 = 0 →
      (ProcessBotPlayer cfg be s p).result = true ∧
      (p.hasAI = true → (ProcessBotPlayer cfg be s p).player.isDead = false) ∧
      ∀ t, (GetEventValue (ProcessBotPlayer cfg be s p).store t p.guid "dead").1 = 0 ∧
        (GetEventValue (ProcessBotPlayer cfg be s p).store t p.guid "revive").1 = 0) ∧
    ((GetEventValue s be.now p.guid "dead").1 ≠ 0 →
      (GetEventValue s be.now p.guid "revive").1 ≠ 0 →
      (ProcessBotPlayer cfg be s p).result = false ∧
      (ProcessBotPlayer cfg be s p).actions = []) := by
  have hrev : (GetEventValue (GetEventValue s be.now p.guid "dead").2 be.now p.guid
      "revive").1 = (GetEventValue s be.now p.guid "revive").1 :=
    GetEventValue_after_get _ _ _ _ _ _
  by_cases hd : (GetEventValue s be.now p.guid "dead").1 = 0
  · -- `dead` unset: mark dead and schedule the revive
    have hstep : ProcessBotPlayer cfg be s p
        = ⟨false,
            (SetEventValue
              (SetEventValue (GetEventValue s be.now p.guid "dead").2
                (be.commitOk p.guid "dead") be.gameTime be.now p.guid "dead" 1
                cfg.maxRandomBotInWorldTime "").2
              (be.commitOk p.guid "revive") be.gameTime be.now p.guid "revive" 1
              (be.reviveDraw cfg.minRandomBotReviveTime cfg.maxRandomBotReviveTime) "").2,
            p, []⟩ := by
      unfold ProcessBotPlayer
      simp only [hbg, hq, hdead, hd, Bool.false_eq_true, if_false, if_true]
    rw [hstep]
    refine ⟨fun _ _ hm => absurd hm (List.not_mem_nil _), ?_, ?_,
      fun h _ => absurd hd h, fun h _ => absurd hd h⟩
    · intro event hev
      have h1 : ("dead" : String) ≠ event := by
        rcases hev with h | h <;> rw [h] <;> decide
      have h2 : ("revive" : String) ≠ event := by
        rcases hev with h | h <;> rw [h] <;> decide
      exact KeepsEvent_final _ _ _ _
        (KeepsEvent_set _ _ _ _ _ _ _ _ _ _ _ h2
          (KeepsEvent_set _ _ _ _ _ _ _ _ _ _ _ h1 (KeepsEvent_get _ _ _ _ _ h1)))
    · intro _
      refine ⟨rfl, rfl, rfl, ?_, cachedEvent_after_set _ _ _ _ _ _ _ _ _,
        fun hc hle => hc _ _ hle⟩
      have hk := KeepsEvent_set p.guid "dead" "revive" _ _ (be.commitOk p.guid "revive")
        be.gameTime be.now 1
        (be.reviveDraw cfg.minRandomBotReviveTime cfg.maxRandomBotReviveTime) ""
        (by decide)
        (KeepsEvent_of_nonempty p.guid "dead" _
          (SetEventValue_nonempty (GetEventValue s be.now p.guid "dead").2
            (be.commitOk p.guid "dead") be.gameTime be.now p.guid "dead" 1
            cfg.maxRandomBotInWorldTime ""))
      rw [(KeepsEvent_final _ _ _ _ hk).1]
      exact cachedEvent_after_set _ _ _ _ _ _ _ _ _
  · by_cases hr : (GetEventValue s be.now p.guid "revive").1 = 0
    · -- `dead` set, `revive` expired: revive
      have hstep : ProcessBotPlayer cfg be s p
          = Revive be (GetEventValue (GetEventValue s be.now p.guid "dead").2 be.now p.guid
              "revive").2 p := by
        unfold ProcessBotPlayer
        simp only [hbg, hq, hdead, hd, hrev, hr, Bool.false_eq_true, if_false, if_true]
      rw [hstep]
      refine ⟨fun level incremental => Revive_actions _ _ _ level incremental, ?_,
        fun h => absurd h hd, ?_, fun _ h => absurd hr h⟩
      · intro event hev
        have h1 : ("dead" : String) ≠ event := by
          rcases hev with h | h <;> rw [h] <;> decide
        have h2 : ("revive" : String) ≠ event := by
          rcases hev with h | h <;> rw [h] <;> decide
        exact KeepsEvent_final _ _ _ _
          (KeepsEvent_set _ _ _ _ _ _ _ _ _ _ _ h2
            (KeepsEvent_set _ _ _ _ _ _ _ _ _ _ _ h1
              (KeepsEvent_get_next _ _ _ _ _ _ h2 (KeepsEvent_get _ _ _ _ _ h1))))
      · intro _ _
        refine ⟨rfl, fun hai => Refresh_alive p hai, fun t => ⟨?_, ?_⟩⟩
        · exact GetEventValue_zero_kept p.guid "dead" _ _ (be.commitOk p.guid "dead")
            be.gameTime be.now 0 ""
            (KeepsEvent_set p.guid "dead" "revive" _ _ (be.commitOk p.guid "revive")
              be.gameTime be.now 0 0 "" (by decide)
              (KeepsEvent_of_nonempty p.guid "dead" _ (SetEventValue_nonempty _ _ _ _ _ _ _ _ _)))
            t
        · exact GetEventValue_zero_kept p.guid "revive" _ _ (be.commitOk p.guid "revive")
            be.gameTime be.now 0 ""
            (KeepsEvent_of_nonempty p.guid "revive" _ (SetEventValue_nonempty _ _ _ _ _ _ _ _ _))
            t
    · -- both set: wait
      have hstep : ProcessBotPlayer cfg be s p
          = ⟨false, (GetEventValue (GetEventValue s be.now p.guid "dead").2 be.now p.guid
              "revive").2, p, []⟩ := by
        unfold ProcessBotPlayer
        simp only [hbg, hq, hdead, hd, hrev, hr, Bool.false_eq_true, if_false, if_true]
      rw [hstep]
      refine ⟨fun _ _ hm => absurd hm (List.not_mem_nil _), ?_, fun h => absurd h hd,
        fun _ h => absurd h hr, fun _ _ => ⟨rfl, rfl⟩⟩
      intro event hev
      have h1 : ("dead" : String) ≠ event := by
        rcases hev with h | h <;> rw [h] <;> decide
      have h2 : ("revive" : String) ≠ event := by
        rcases hev with h | h <;> rw [h] <;> decide
      exact KeepsEvent_final _ _ _ _
        (KeepsEvent_get_next _ _ _ _ _ _ h2 (KeepsEvent_get _ _ _ _ _ h1))

theorem ProcessBotPlayer_dead_witness :
    (ProcessBotPlayer sampleBotConfig sampleBotEnv scenarioStore deadPlayer).result = false ∧
    cachedEvent (ProcessBotPlayer sampleBotConfig sampleBotEnv scenarioStore deadPlayer).store
      7 "revive" = ⟨1, 1000, 60, ""⟩ ∧
    (ProcessBotPlayer sampleBotConfig sampleBotEnv reviveStore deadPlayer).result = true ∧
    (ProcessBotPlayer sampleBotConfig sampleBotEnv reviveStore deadPlayer).player.isDead
      = false ∧
    (GetEventValue (ProcessBotPlayer sampleBotConfig sampleBotEnv reviveStore deadPlayer).store
      1000 7 "dead").1 = 0 :=
  ⟨((ProcessBotPlayer_dead sampleBotConfig sampleBotEnv scenarioStore deadPlayer rfl rfl
      rfl).2.2.1 (by decide)).1,
    ((ProcessBotPlayer_dead sampleBotConfig sampleBotEnv scenarioStore deadPlayer rfl rfl
      rfl).2.2.1 (by decide)).2.2.2.2.1,
    ((ProcessBotPlayer_dead sampleBotConfig sampleBotEnv reviveStore deadPlayer rfl rfl
      rfl).2.2.2.1 (by decide) (by decide)).1,
    ((ProcessBotPlayer_dead sampleBotConfig sampleBotEnv reviveStore deadPlayer rfl rfl
      rfl).2.2.2.1 (by decide) (by decide)).2.1 rfl,
    (((ProcessBotPlayer_dead sampleBotConfig sampleBotEnv reviveStore deadPlayer rfl rfl
      rfl).2.2.2.1 (by decide) (by decide)).2.2 1000).1⟩

/-! ## The rate limit of the PHASE 4 diagnostic -/

theorem timer_gap (now timer : Int)
    (h : now - (if timer = 0 then now else timer) ≥ 10) : timer ≠ 0 ∧ timer + 10 ≤ now := by
  by_cases h0 : timer = 0
  · rw [if_pos h0] at h
    omega
  · rw [if_neg h0] at h
    exact ⟨h0, by omega⟩

theorem phase4_timer (host : Host) (env : Env) (p1 p2 p3 : LoginLoop) (r : AddResult)
    (h : phase4 host env p1 p2 p3 = some r) :
    (r.diagnostic.isSome = true →
      p3.maxAllowedBotCount ≠ 0 ∧ p3.mgr.missingBotsTimer ≠ 0 ∧
      p3.mgr.missingBotsTimer + 10 ≤ env.now ∧ r.mgr.missingBotsTimer = 0) ∧
    (r.mgr.missingBotsTimer = 0 ∨ r.mgr.missingBotsTimer = p3.mgr.missingBotsTimer ∨
      r.mgr.missingBotsTimer = env.now) ∧
    (p3.maxAllowedBotCount = 0 → r.diagnostic = none) := by
  unfold phase4 at h
  by_cases h1 : p3.maxAllowedBotCount ≠ 0
  · rw [if_pos h1] at h
    by_cases h2 : env.now - (if p3.mgr.missingBotsTimer = 0 then env.now
        else p3.mgr.missingBotsTimer) ≥ 10
    · simp only [h2, if_true] at h
      by_cases h3 : (host.availableCharsPerAccount % (U32 : Int)).toNat = 0
      · rw [if_pos h3] at h
        exact absurd h (by simp)
      · rw [if_neg h3] at h
        cases h
        have hg := timer_gap _ _ h2
        exact ⟨fun _ => ⟨h1, hg.1, hg.2, rfl⟩, Or.inl rfl, fun h0 => absurd h0 h1⟩
    · simp only [h2, if_false] at h
      cases h
      refine ⟨fun hs => absurd hs (by simp), ?_, fun _ => rfl⟩
      by_cases h0 : p3.mgr.missingBotsTimer = 0
      · right; right
        show (if p3.mgr.missingBotsTimer = 0 then env.now else p3.mgr.missingBotsTimer) = _
        rw [if_pos h0]
      · right; left
        show (if p3.mgr.missingBotsTimer = 0 then env.now else p3.mgr.missingBotsTimer) = _
        rw [if_neg h0]
  · rw [if_neg h1] at h
    cases h
    exact ⟨fun hs => absurd hs (by simp), Or.inl rfl, fun _ => rfl⟩

theorem phases_timer (cfg : Config) (host : Host) (env : Env) (m : Mgr) (n quota : Nat)
    (alliance horde : List CharacterInfo) (p1 p2 p3 : LoginLoop)
    (hp1 : p1 = phase1 cfg host env alliance (loginStart n quota m))
    (hp2 : p2 = phaseUpToMax cfg host env horde p1)
    (hp3 : p3 = phaseUpToMax cfg host env alliance p2) :
    p3.mgr.missingBotsTimer = m.missingBotsTimer := by
  obtain ⟨_, _, _, a3⟩ :=
    phase1_basic cfg host env m alliance (loginStart n quota m)
      (LoopInv_start cfg host env m n quota)
  rw [← hp1] at a3
  obtain ⟨_, _, _, b3⟩ := phaseUpToMax_basic cfg host env m horde p1 a3
  rw [← hp2] at b3
  obtain ⟨_, _, _, c3⟩ := phaseUpToMax_basic cfg host env m alliance p2 b3
  rw [← hp3] at c3
  exact c3.2.2.2

/-- One call and the static timer: the diagnostic is emitted only when the timer was set
at least 10 seconds earlier, and resets it; the timer left is 0, the timer found or the
clock of the call; without phases (population at target) there is no diagnostic. -/
theorem AddRandomBots_timer (cfg : Config) (host : Host) (env : Env) (m : Mgr)
    (r : AddResult) (h : AddRandomBots cfg host env m = some r) :
    (r.diagnostic.isSome = true →
      m.missingBotsTimer ≠ 0 ∧ m.missingBotsTimer + 10 ≤ env.now ∧
      r.mgr.missingBotsTimer = 0) ∧
    (r.mgr.missingBotsTimer = 0 ∨ r.mgr.missingBotsTimer = m.missingBotsTimer ∨
      r.mgr.missingBotsTimer = env.now) ∧
    (r.phases = none → r.diagnostic = none) ∧
    (∀ p1 p2 p3, r.phases = some (p1, p2, p3) → p3.maxAllowedBotCount = 0 →
      r.diagnostic = none) := by
  have horig := h
  unfold AddRandomBots at h
  simp only at h
  split at h
  · split at h
    · exact absurd h (by simp)
    · split at h
      · exact absurd h (by simp)
      · obtain ⟨t1, t2, t3⟩ := phase4_timer _ _ _ _ _ _ h
        obtain ⟨q1, _, _, _⟩ := phase4_some _ _ _ _ _ _ h
        obtain ⟨_, e1, e2, e3, _⟩ := AddRandomBots_phases cfg host env m r _ _ _ horig q1
        have ht : _ = m.missingBotsTimer :=
          phases_timer cfg host env (entryMgr env m) _ _ _ _ _ _ _ e1 e2 e3
        rw [ht] at t1 t2
        refine ⟨fun hs => (t1 hs).2, t2, fun hn => ?_, fun p1 p2 p3 hp h0 => ?_⟩
        · rw [hn] at q1
          exact absurd q1 (by simp)
        · rw [hp] at q1
          simp only [Option.some.injEq, Prod.mk.injEq] at q1
          apply t3
          rw [← q1.2.2]
          exact h0
  · cases h
    exact ⟨fun hs => absurd hs (by simp), Or.inl rfl, fun _ => rfl, fun _ _ _ _ _ => rfl⟩

theorem AddRandomBots_at_target (cfg : Config) (host : Host) (env : Env) (m : Mgr)
    (r : AddResult) (h : AddRandomBots cfg host env m = some r)
    (hfull : botCountTarget env m ≤ m.currentBots.length) : r.phases = none := by
  cases hp : r.phases with
  | none => rfl
  | some p =>
    obtain ⟨p1, p2, p3⟩ := p
    have := (AddRandomBots_phases cfg host env m r p1 p2 p3 h hp).1
    exact absurd this (Nat.not_lt.mpr hfull)

/-- A call that fills its quota, the ratio sum being positive and not wrapping, ends the
phases with the countdown at 0. -/
theorem AddRandomBots_quota_filled (cfg : Config) (host : Host) (env : Env) (m : Mgr)
    (r : AddResult) (p1 p2 p3 : LoginLoop)
    (hpos : 0 < cfg.randomBotAllianceRatio + cfg.randomBotHordeRatio)
    (hwrap : cfg.randomBotAllianceRatio + cfg.randomBotHordeRatio < U32)
    (h : AddRandomBots cfg host env m = some r) (hp : r.phases = some (p1, p2, p3))
    (hfill : p3.admitted.length = shortfall cfg (botCountTarget env m) m) :
    p3.maxAllowedBotCount = 0 := by
  obtain ⟨_, e1, e2, e3, _⟩ := AddRandomBots_phases cfg host env m r p1 p2 p3 h hp
  have hs := (phases_spec cfg host env (entryMgr env m)
    (shortfall cfg (botCountTarget env m) m)
    (allianceQuota cfg env.coin (shortfall cfg (botCountTarget env m) m)) _ _ p1 p2 p3
    (shortfall_lt cfg _ m) (allianceQuota_le cfg env.coin _ hpos hwrap) e1 e2 e3).2.2.2.1
  omega

theorem runAddCalls_cons (c : AddCall) (rest : List AddCall) (timer : Int)
    (trace : List (AddCall × AddResult))
    (h : runAddCalls (c :: rest) timer = some trace) :
    ∃ r tail, AddRandomBots c.cfg c.host c.env { c.mgr with missingBotsTimer := timer } = some r ∧
      runAddCalls rest r.mgr.missingBotsTimer = some tail ∧ trace = (c, r) :: tail := by
  unfold runAddCalls at h
  cases h1 : AddRandomBots c.cfg c.host c.env { c.mgr with missingBotsTimer := timer } with
  | none => simp [h1] at h
  | some r =>
    simp only [h1] at h
    cases h2 : runAddCalls rest r.mgr.missingBotsTimer with
    | none => simp [h2] at h
    | some tail =>
      simp only [h2, Option.some.injEq] at h
      exact ⟨r, tail, rfl, h2, h.symm⟩

theorem bound_step (l t t2 now : Int) (ht : t = 0 ∨ l ≤ t) (hn : l ≤ now)
    (h2 : t2 = 0 ∨ t2 = t ∨ t2 = now) : t2 = 0 ∨ l ≤ t2 := by
  omega

theorem bound_emit (l t now : Int) (ht : t = 0 ∨ l ≤ t) (h0 : t ≠ 0) (h10 : t + 10 ≤ now) :
    l + 10 ≤ now := by
  omega

/-- While the timer is 0 or not before `l`, and no call is before `l`, every diagnostic of
the run is at least 10 seconds after `l`. -/
theorem runAddCalls_after (calls : List AddCall) :
    ∀ (timer l : Int) (trace : List (AddCall × AddResult)),
      runAddCalls calls timer = some trace → (timer = 0 ∨ l ≤ timer) →
      (∀ c ∈ calls, l ≤ c.env.now) →
      ∀ x ∈ trace, x.2.diagnostic.isSome = true → l + 10 ≤ x.1.env.now := by
  induction calls with
  | nil =>
    intro timer l trace h _ _ x hx
    simp only [runAddCalls, Option.some.injEq] at h
    rw [← h] at hx
    exact absurd hx (List.not_mem_nil _)
  | cons c rest ih =>
    intro timer l trace h ht hl x hx hs
    obtain ⟨r, tail, h1, h2, e⟩ := runAddCalls_cons c rest timer trace h
    obtain ⟨t1, t2, _, _⟩ := AddRandomBots_timer _ _ _ _ _ h1
    rw [e] at hx
    rcases List.mem_cons.mp hx with hx | hx
    · rw [hx] at hs ⊢
      exact bound_emit l timer c.env.now ht (t1 hs).1 (t1 hs).2.1
    · exact ih r.mgr.missingBotsTimer l tail h2
        (bound_step l timer _ c.env.now ht (hl c (List.mem_cons_self _ _)) t2)
        (fun c2 hc2 => hl c2 (List.mem_cons_of_mem _ hc2)) x hx hs

/-- C25 (counterexample): the ratio sum wraps (`4294967295 + 2`), the capped shortfall is
1 and the call admits three characters, more than its quota; the countdown has wrapped
to a non-zero value, and with the timer set 20 seconds earlier the diagnostic is
emitted. -/
theorem AddRandomBots_diagnostic_after_filling :
    shortfall (wrapConfig 1) (botCountTarget sampleEnv (sampleMgr 1)) (sampleMgr 1) = 1 ∧
    (AddRandomBots (wrapConfig 1) humanHost sampleEnv
        { sampleMgr 1 with missingBotsTimer := 980 }).map
      (fun r => (r.mgr.currentBots, r.diagnostic.isSome)) = some ([10, 11, 12], true) := by
  decide

/-- C25 (amended): under a non-decreasing clock, for every sequence of defined calls of
`AddRandomBots` and every initial value of the timer, any two emissions of the diagnostic
are at least 10 seconds apart; no emission happens in a call that finds the population at
its target, nor, when the ratio sum is positive and does not wrap 32 bits, in a call that
fills its quota. -/
theorem runAddCalls_diagnostic_spacing (calls : List AddCall) :
    ∀ (timer : Int) (trace : List (AddCall × AddResult)),
      calls.Pairwise (fun a b => a.env.now ≤ b.env.now) →
      runAddCalls calls timer = some trace →
      trace.Pairwise (fun a b => a.2.diagnostic.isSome = true → b.2.diagnostic.isSome = true →
        a.1.env.now + 10 ≤ b.1.env.now) ∧
      ∀ x ∈ trace,
        (botCountTarget x.1.env x.1.mgr ≤ x.1.mgr.currentBots.length →
          x.2.diagnostic = none) ∧
        (0 < x.1.cfg.randomBotAllianceRatio + x.1.cfg.randomBotHordeRatio →
          x.1.cfg.randomBotAllianceRatio + x.1.cfg.randomBotHordeRatio < U32 →
          ∀ p1 p2 p3, x.2.phases = some (p1, p2, p3) →
            p3.admitted.length
              = shortfall x.1.cfg (botCountTarget x.1.env x.1.mgr) x.1.mgr →
            x.2.diagnostic = none) := by
  induction calls with
  | nil =>
    intro timer trace _ h
    simp only [runAddCalls, Option.some.injEq] at h
    rw [← h]
    exact ⟨List.Pairwise.nil, fun x hx => absurd hx (List.not_mem_nil _)⟩
  | cons c rest ih =>
    intro timer trace hclock h
    obtain ⟨r, tail, h1, h2, e⟩ := runAddCalls_cons c rest timer trace h
    obtain ⟨t1, _, t3, t4⟩ := AddRandomBots_timer _ _ _ _ _ h1
    obtain ⟨hc1, hc2⟩ := List.pairwise_cons.mp hclock
    obtain ⟨i1, i2⟩ := ih r.mgr.missingBotsTimer tail hc2 h2
    rw [e]
    constructor
    · refine List.pairwise_cons.mpr ⟨fun b hb hsa hsb => ?_, i1⟩
      exact runAddCalls_after rest r.mgr.missingBotsTimer c.env.now tail h2
        (Or.inl (t1 hsa).2.2) hc1 b hb hsb
    · intro x hx
      rcases List.mem_cons.mp hx with hx | hx
      · rw [hx]
        constructor
        · intro hfull
          exact t3 (AddRandomBots_at_target _ _ _ _ _ h1 hfull)
        · intro hpos hwrap p1 p2 p3 hp hfill
          exact t4 p1 p2 p3 hp
            (AddRandomBots_quota_filled c.cfg c.host c.env _ r p1 p2 p3 hpos hwrap h1 hp hfill)
      · exact i2 x hx

theorem runAddCalls_diagnostic_spacing_witness :
    ∃ trace, runAddCalls starvedCalls 0 = some trace ∧
      trace.map (fun x => (x.1.env.now, x.2.diagnostic)) =
        [(1000, none), (1004, none), (1012, some 1)] ∧
      trace.Pairwise (fun a b => a.2.diagnostic.isSome = true → b.2.diagnostic.isSome = true →
        a.1.env.now + 10 ≤ b.1.env.now) :=
  ⟨_, rfl, by decide,
    (runAddCalls_diagnostic_spacing starvedCalls 0 _ (by decide) rfl).1⟩

/-! ## Dispatch of the per-bot console commands -/

/-- C22 (the code at the failing input): the handlers are tried in key order, and `level`
is a key that comes before `levelup`: the command "levelup Bob" is taken by the handler of
`level` with the name pattern "p Bob", which selects no bot, and "levelup" alone gets the
pattern "p" instead of "%"; "init Bob" is dispatched as claimed. -/
theorem perBotCommand_levelup_shadowed :
    consoleHandlers.map (fun h => h.1)
      = ["change_strategy", "clear", "grind", "init", "level", "levelup", "refresh",
          "revive", "teleport"] ∧
    perBotCommand consoleHost [10, 11] "levelup Bob"
      = some ⟨"level", ConsoleAction.IncreaseLevel, "p Bob", [], [], false⟩ ∧
    perBotCommand consoleHost [10, 11] "levelup"
      = some ⟨"level", ConsoleAction.IncreaseLevel, "p", [], [], false⟩ ∧
    perBotCommand consoleHost [10, 11] "init Bob"
      = some ⟨"init", ConsoleAction.RandomizeFirst, "Bob", [10],
          [(ConsoleAction.RandomizeFirst, 10)], true⟩ ∧
    perBotCommand consoleHost [10, 11] "init"
      = some ⟨"init", ConsoleAction.RandomizeFirst, "%", [10, 11],
          [(ConsoleAction.RandomizeFirst, 10), (ConsoleAction.RandomizeFirst, 11)], true⟩ := by
  decide

/-! ## ProcessBot(uint32): the log-out of a bot whose `add` event lapsed -/

theorem eraseBot_not_mem (l : List Nat) (bot : Nat) : bot ∉ eraseBot l bot := by
  unfold eraseBot
  intro h
  have h2 := (List.mem_filter.mp h).2
  simp at h2

theorem eraseBot_nodup (l : List Nat) (bot : Nat) (h : l.Nodup) : (eraseBot l bot).Nodup :=
  List.Nodup.filter _ h

/-- A read of `event2` and then a write of `event2` leave what a read of another event of
the bot returns, at every clock value. -/
theorem GetEventValue_after_get_set (s : Store) (bot : Nat) (event event2 : String)
    (commitOk : Bool) (gameTime now : Int) (value validIn : Nat) (data : String)
    (h : event2 ≠ event) (t : Int) :
    (GetEventValue (SetEventValue (GetEventValue s now bot event2).2 commitOk gameTime now
        bot event2 value validIn data).2 t bot event).1
      = (GetEventValue s t bot event).1 := by
  have hk := KeepsEvent_set bot event event2 s _ commitOk gameTime now value validIn data h
    (KeepsEvent_get bot event event2 s now h)
  rw [GetEventValue_fst, GetEventValue_fst, (KeepsEvent_final _ _ _ _ hk).1]

/-- The manager `ProcessBot(uint32)` leaves when `add` reads 0 and the character is absent
or in no group. -/
theorem ProcessBot_invalid (cfg : BotConfig) (pe : ProcessEnv) (w : BotWorld) (m : Mgr)
    (bot : Nat) (hadd : (GetEventValue m.store pe.now bot "add").1 = 0)
    (hg : (w.player.isNone || w.player.any (fun p => p.group.isNone)) = true) :
    ProcessBot cfg pe w m bot
      = ⟨false,
          { m with
            store := (SetEventValue (GetEventValue m.store pe.now bot "add").2
              (pe.commitOk bot "add") pe.gameTime pe.now bot "add" 0 0 "").2,
            currentBots := eraseBot m.currentBots bot },
          w.player, if w.player.isSome then [HostCall.logoutPlayerBot bot] else []⟩ := by
  unfold ProcessBot
  simp only
  rw [if_pos hadd, if_pos hg]

/-- With a live `add` event the only branch that calls `LogoutPlayerBot` needs `add` to
read 0: no such call is made. -/
theorem ProcessBot_valid_no_logout (cfg : BotConfig) (pe : ProcessEnv) (w : BotWorld)
    (m : Mgr) (bot b : Nat) (hadd : (GetEventValue m.store pe.now bot "add").1 ≠ 0) :
    HostCall.logoutPlayerBot b ∉ (ProcessBot cfg pe w m bot).calls ∧
    (ProcessBot cfg pe w m bot).mgr.currentBots = m.currentBots := by
  unfold ProcessBot
  simp only
  rw [if_neg hadd]
  cases hw : w.player with
  | none => simp
  | some player =>
    simp only
    by_cases h1 : (!w.isInWorld) = true
    · rw [if_pos h1]
      simp
    · rw [if_neg h1]
      by_cases h2 : (player.group.isSome || w.inFlight) = true
      · rw [if_pos h2]
        simp
      · rw [if_neg h2]
        split
        · refine ⟨?_, rfl⟩
          intro hmem
          rcases List.mem_append.mp hmem with h | h
          · split at h <;> simp at h
          · simp at h
        · have hno : ¬ ((GetEventValue (GetEventValue (GetEventValue m.store pe.now bot
              "add").2 pe.now bot "update").2 pe.now bot "logout").1 = 0 ∧
              (GetEventValue m.store pe.now bot "add").1 = 0) := fun hh => hadd hh.2
          rw [if_neg hno]
          simp

/-- C23 (what the code does at the claimed inputs): for a logged-in bot in no group whose
`add` event reads 0, `ProcessBot(botId)` calls `LogoutPlayerBot`, erases the bot from
`currentBots` and returns false; and in no call that logs a bot out is the `logout` event
written: a read of `logout` returns afterwards what it returned before, 0 if it was
unset. -/
theorem ProcessBot_logout_not_scheduled (cfg : BotConfig) (pe : ProcessEnv) (w : BotWorld)
    (m : Mgr) (bot : Nat) :
    (∀ p, w.player = some p → p.group = none →
      (GetEventValue m.store pe.now bot "add").1 = 0 →
      (ProcessBot cfg pe w m bot).result = false ∧
      (ProcessBot cfg pe w m bot).calls = [HostCall.logoutPlayerBot bot] ∧
      (ProcessBot cfg pe w m bot).mgr.currentBots = eraseBot m.currentBots bot) ∧
    (HostCall.logoutPlayerBot bot ∈ (ProcessBot cfg pe w m bot).calls →
      ∀ t, (GetEventValue (ProcessBot cfg pe w m bot).mgr.store t bot "logout").1
            = (GetEventValue m.store t bot "logout").1) := by
  refine ⟨?_, ?_⟩
  · intro p hp hgrp hadd
    have hg : (w.player.isNone || w.player.any (fun p => p.group.isNone)) = true := by
      rw [hp]
      simp [hgrp]
    rw [ProcessBot_invalid cfg pe w m bot hadd hg, hp]
    exact ⟨rfl, rfl, rfl⟩
  · intro hmem t
    by_cases hadd : (GetEventValue m.store pe.now bot "add").1 = 0
    · by_cases hg : (w.player.isNone || w.player.any (fun p => p.group.isNone)) = true
      · rw [ProcessBot_invalid cfg pe w m bot hadd hg]
        exact GetEventValue_after_get_set m.store bot "logout" "add" _ _ _ 0 0 "" (by decide) t
      · exfalso
        unfold ProcessBot at hmem
        simp only at hmem
        rw [if_pos hadd, if_neg hg] at hmem
        simp at hmem
    · exact absurd hmem (ProcessBot_valid_no_logout cfg pe w m bot bot hadd).1

theorem ProcessBot_logout_not_scheduled_witness :
    (ProcessBot sampleBotConfig sampleProcessEnv onlineWorld expiredAddMgr 7).result = false ∧
    (ProcessBot sampleBotConfig sampleProcessEnv onlineWorld expiredAddMgr 7).calls
      = [HostCall.logoutPlayerBot 7] ∧
    (ProcessBot sampleBotConfig sampleProcessEnv onlineWorld expiredAddMgr 7).mgr.currentBots
      = [9] ∧
    (GetEventValue
      (ProcessBot sampleBotConfig sampleProcessEnv onlineWorld expiredAddMgr 7).mgr.store
      1000 7 "logout").1 = 0 :=
  ⟨((ProcessBot_logout_not_scheduled sampleBotConfig sampleProcessEnv onlineWorld
      expiredAddMgr 7).1 idlePlayer rfl rfl (by decide)).1,
   by decide, by decide, by decide⟩

/-! ## The lifecycle states of a bot -/

/-- C24: at every store, clock value and host state a bot is in exactly one of the states
Offline, LoggingIn, Active and PendingLogout (no two of them hold together), and each state
selects its own branch of `ProcessBot(uint32)`: an Offline bot is only erased, a LoggingIn
bot is handed to `AddPlayerBot`, an Active bot is neither logged in nor logged out, and a
PendingLogout bot is logged out unless it is in a group. -/
theorem lifecycle_exclusive (cfg : BotConfig) (pe : ProcessEnv) (w : BotWorld) (m : Mgr)
    (bot : Nat) :
    (Offline m.store pe.now w bot ∨ LoggingIn m.store pe.now w bot ∨
      Active m.store pe.now w bot ∨ PendingLogout m.store pe.now w bot) ∧
    ¬ (Offline m.store pe.now w bot ∧ LoggingIn m.store pe.now w bot) ∧
    ¬ (Offline m.store pe.now w bot ∧ Active m.store pe.now w bot) ∧
    ¬ (Offline m.store pe.now w bot ∧ PendingLogout m.store pe.now w bot) ∧
    ¬ (LoggingIn m.store pe.now w bot ∧ Active m.store pe.now w bot) ∧
    ¬ (LoggingIn m.store pe.now w bot ∧ PendingLogout m.store pe.now w bot) ∧
    ¬ (Active m.store pe.now w bot ∧ PendingLogout m.store pe.now w bot) ∧
    (Offline m.store pe.now w bot →
      (ProcessBot cfg pe w m bot).calls = [] ∧
      (ProcessBot cfg pe w m bot).mgr.currentBots = eraseBot m.currentBots bot) ∧
    (LoggingIn m.store pe.now w bot →
      (ProcessBot cfg pe w m bot).calls = [HostCall.addPlayerBot bot] ∧
      (ProcessBot cfg pe w m bot).mgr.currentBots = m.currentBots) ∧
    (Active m.store pe.now w bot →
      (∀ b, HostCall.logoutPlayerBot b ∉ (ProcessBot cfg pe w m bot).calls ∧
        HostCall.addPlayerBot b ∉ (ProcessBot cfg pe w m bot).calls) ∧
      (ProcessBot cfg pe w m bot).mgr.currentBots = m.currentBots) ∧
    (PendingLogout m.store pe.now w bot →
      ∀ p, w.player = some p →
        (p.group = none →
          (ProcessBot cfg pe w m bot).calls = [HostCall.logoutPlayerBot bot] ∧
          (ProcessBot cfg pe w m bot).mgr.currentBots = eraseBot m.currentBots bot) ∧
        (p.group ≠ none →
          (ProcessBot cfg pe w m bot).calls = [] ∧
          (ProcessBot cfg pe w m bot).mgr.currentBots = m.currentBots)) := by
  unfold Offline LoggingIn Active PendingLogout
  refine ⟨?_, ?_, ?_, ?_, ?_, ?_, ?_, ?_, ?_, ?_, ?_⟩
  · by_cases h1 : (GetEventValue m.store pe.now bot "add").1 = 0 <;>
      by_cases h2 : w.player = none <;> simp [h1, h2]
  · exact fun h => h.2.1 h.1.1
  · exact fun h => h.2.1 h.1.1
  · exact fun h => h.2.2 h.1.2
  · exact fun h => h.2.2 h.1.2
  · exact fun h => h.1.1 h.2.1
  · exact fun h => h.1.1 h.2.1
  · rintro ⟨hadd, hp⟩
    have hg : (w.player.isNone || w.player.any (fun p => p.group.isNone)) = true := by
      rw [hp]
      rfl
    rw [ProcessBot_invalid cfg pe w m bot hadd hg, hp]
    exact ⟨rfl, rfl⟩
  · rintro ⟨hadd, hp⟩
    unfold ProcessBot
    simp only
    rw [if_neg hadd, hp]
    exact ⟨rfl, rfl⟩
  · rintro ⟨hadd, hp⟩
    refine ⟨fun b => ⟨(ProcessBot_valid_no_logout cfg pe w m bot b hadd).1, ?_⟩,
      (ProcessBot_valid_no_logout cfg pe w m bot bot hadd).2⟩
    obtain ⟨player, hw⟩ := Option.ne_none_iff_exists'.mp hp
    unfold ProcessBot
    simp only
    rw [if_neg hadd, hw]
    simp only
    by_cases h1 : (!w.isInWorld) = true
    · rw [if_pos h1]
      simp
    · rw [if_neg h1]
      by_cases h2 : (player.group.isSome || w.inFlight) = true
      · rw [if_pos h2]
        simp
      · rw [if_neg h2]
        split
        · intro hmem
          rcases List.mem_append.mp hmem with h | h
          · split at h <;> simp at h
          · simp at h
        · split <;> simp
  · rintro ⟨hadd, _⟩ p hp
    refine ⟨fun hgrp => ?_, fun hgrp => ?_⟩
    · have hg : (w.player.isNone || w.player.any (fun p => p.group.isNone)) = true := by
        rw [hp]
        simp [hgrp]
      rw [ProcessBot_invalid cfg pe w m bot hadd hg, hp]
      exact ⟨rfl, rfl⟩
    · have hg : ¬ (w.player.isNone || w.player.any (fun p => p.group.isNone)) = true := by
        rw [hp]
        cases hq : p.group with
        | none => exact absurd hq hgrp
        | some g => simp [hq]
      unfold ProcessBot
      simp only
      rw [if_pos hadd, if_neg hg]
      exact ⟨rfl, rfl⟩

theorem lifecycle_exclusive_witness :
    PendingLogout expiredAddMgr.store 1000 onlineWorld 7 ∧
    (ProcessBot sampleBotConfig sampleProcessEnv onlineWorld expiredAddMgr 7).calls
      = [HostCall.logoutPlayerBot 7] ∧
    (ProcessBot sampleBotConfig sampleProcessEnv onlineWorld expiredAddMgr 7).mgr.currentBots
      = eraseBot [7, 9] 7 :=
  ⟨⟨by decide, by decide⟩,
   ((lifecycle_exclusive sampleBotConfig sampleProcessEnv onlineWorld expiredAddMgr
      7).2.2.2.2.2.2.2.2.2.2 ⟨by decide, by decide⟩ idlePlayer rfl).1 rfl⟩

/-! ## `currentBots` holds no id twice -/

theorem tryLoginBot_nodup (cfg : Config) (host : Host) (env : Env) (m : Mgr)
    (c : CharacterInfo) (h : m.currentBots.Nodup) :
    (tryLoginBot cfg host env m c).2.currentBots.Nodup := by
  cases ht : (tryLoginBot cfg host env m c).1 with
  | false =>
    rw [(tryLoginBot_rejected cfg host env m c ht).1]
    exact h
  | true =>
    rw [(tryLoginBot_admitted cfg host env m c ht).1]
    have he := (tryLoginBot_true_iff cfg host env m c).mp ht
    exact List.Nodup.append h (List.nodup_singleton _)
      (List.disjoint_singleton.mpr he.2.2.2.1)

theorem phase1_nodup (cfg : Config) (host : Host) (env : Env) :
    ∀ (l : List CharacterInfo) (st : LoginLoop), st.mgr.currentBots.Nodup →
      (phase1 cfg host env l st).mgr.currentBots.Nodup := by
  intro l
  induction l with
  | nil => exact fun st h => h
  | cons c rest ih =>
    intro st h
    unfold phase1
    by_cases h0 : st.allowedAllianceCount = 0
    · rw [if_pos h0]
      exact h
    · rw [if_neg h0]
      simp only
      split
      · exact ih _ (tryLoginBot_nodup cfg host env st.mgr c h)
      · exact ih _ (tryLoginBot_nodup cfg host env st.mgr c h)

theorem phaseUpToMax_nodup (cfg : Config) (host : Host) (env : Env) :
    ∀ (l : List CharacterInfo) (st : LoginLoop), st.mgr.currentBots.Nodup →
      (phaseUpToMax cfg host env l st).mgr.currentBots.Nodup := by
  intro l
  induction l with
  | nil => exact fun st h => h
  | cons c rest ih =>
    intro st h
    unfold phaseUpToMax
    by_cases h0 : st.maxAllowedBotCount = 0
    · rw [if_pos h0]
      exact h
    · rw [if_neg h0]
      simp only
      split
      · exact ih _ (tryLoginBot_nodup cfg host env st.mgr c h)
      · exact ih _ (tryLoginBot_nodup cfg host env st.mgr c h)

theorem AddRandomBots_nodup (cfg : Config) (host : Host) (env : Env) (m : Mgr)
    (r : AddResult) (h : AddRandomBots cfg host env m = some r) (hnd : m.currentBots.Nodup) :
    r.mgr.currentBots.Nodup := by
  cases hp : r.phases with
  | none =>
    rw [AddRandomBots_no_phases cfg host env m r h hp]
    exact hnd
  | some ps =>
    obtain ⟨p1, p2, p3⟩ := ps
    obtain ⟨_, e1, e2, e3, e4⟩ := AddRandomBots_phases cfg host env m r p1 p2 p3 h hp
    rw [e4, e3, e2, e1]
    exact phaseUpToMax_nodup cfg host env _ _
      (phaseUpToMax_nodup cfg host env _ _ (phase1_nodup cfg host env _ _ hnd))

theorem UniqueRows_tail (r : EventRow) (t : List EventRow) (h : UniqueRows (r :: t)) :
    UniqueRows t := by
  intro bot event
  have h1 := h bot event
  unfold rowsFor at h1 ⊢
  rw [List.filter_cons] at h1
  split at h1
  · exact Nat.le_of_succ_le (by simpa using h1)
  · exact h1

/-- A table whose rows of owner 0 differ pairwise in `(bot, event)` satisfies the table
invariant. -/
theorem UniqueRows_of_nodup (table : List EventRow)
    (h : ((table.filter (fun r => decide (r.owner = 0))).map
      (fun r => (r.bot, r.event))).Nodup) : UniqueRows table := by
  intro bot event
  unfold rowsFor
  induction table with
  | nil => simp
  | cons r t ih =>
    rw [List.filter_cons] at h
    by_cases h0 : r.owner = 0
    · rw [if_pos (by simpa using h0), List.map_cons, List.nodup_cons] at h
      rw [List.filter_cons]
      by_cases hk : r.bot = bot ∧ r.event = event
      · rw [if_pos (by simp [h0, hk.1, hk.2])]
        have hnil : t.filter
            (fun r => decide (r.owner = 0 ∧ r.bot = bot ∧ r.event = event)) = [] := by
          rw [List.filter_eq_nil_iff]
          intro r2 hr2 hq
          have hq2 : r2.owner = 0 ∧ r2.bot = bot ∧ r2.event = event := by simpa using hq
          apply h.1
          refine List.mem_map.mpr ⟨r2, List.mem_filter.mpr ⟨hr2, by simp [hq2.1]⟩, ?_⟩
          rw [hq2.2.1, hq2.2.2, hk.1, hk.2]
        rw [hnil]
        simp
      · have hq : ¬ (decide (r.owner = 0 ∧ r.bot = bot ∧ r.event = event) = true) := by
          intro hh
          have hh2 : r.owner = 0 ∧ r.bot = bot ∧ r.event = event := by simpa using hh
          exact hk hh2.2
        rw [if_neg hq]
        exact ih h.2
    · rw [if_neg (by simpa using h0)] at h
      have hq : ¬ (decide (r.owner = 0 ∧ r.bot = bot ∧ r.event = event) = true) := by
        intro hh
        have hh2 : r.owner = 0 ∧ r.bot = bot ∧ r.event = event := by simpa using hh
        exact h0 hh2.1
      rw [List.filter_cons, if_neg hq]
      exact ih h

theorem selByOwnerAndEvent_nodup (event : String) :
    ∀ table : List EventRow, UniqueRows table → (selByOwnerAndEvent table event).Nodup := by
  intro table
  induction table with
  | nil => exact fun _ => List.nodup_nil
  | cons r t ih =>
    intro h
    have iht := ih (UniqueRows_tail r t h)
    unfold selByOwnerAndEvent at iht ⊢
    rw [List.filter_cons]
    split
    · rename_i hr
      rw [List.map_cons, List.nodup_cons]
      refine ⟨?_, iht⟩
      intro hmem
      obtain ⟨r2, hr2, hb⟩ := List.mem_map.mp hmem
      obtain ⟨hr2t, hr2p⟩ := List.mem_filter.mp hr2
      have hr1 : r.owner = 0 ∧ r.event = event := by simpa using hr
      have hr3 : r2.owner = 0 ∧ r2.event = event := by simpa using hr2p
      have h1 := h r.bot event
      unfold rowsFor at h1
      rw [List.filter_cons, if_pos (by simp [hr1.1, hr1.2])] at h1
      have hin : r2 ∈ t.filter
          (fun x => decide (x.owner = 0 ∧ x.bot = r.bot ∧ x.event = event)) :=
        List.mem_filter.mpr ⟨hr2t, by simp [hr3.1, hr3.2, hb]⟩
      have hpos := List.length_pos_of_mem hin
      rw [List.length_cons] at h1
      exact absurd h1 (by
        intro hle
        exact Nat.lt_irrefl _ (Nat.lt_of_lt_of_le hpos (Nat.le_of_succ_le_succ hle)))
    · exact iht

theorem getBotsLoop_nodup (now : Int) (maxAllowedBotCount : Nat) :
    ∀ (bots : List Nat) (m : Mgr), bots.Nodup → m.currentBots.Nodup →
      (∀ b ∈ bots, b ∉ m.currentBots) →
      (getBotsLoop now maxAllowedBotCount bots m).currentBots.Nodup := by
  intro bots
  induction bots with
  | nil => exact fun m _ h _ => h
  | cons bot rest ih =>
    intro m hb hm hdis
    obtain ⟨hnot, hrest⟩ := List.nodup_cons.mp hb
    have hbot : bot ∉ m.currentBots := hdis bot (List.mem_cons_self _ _)
    have hstep : (if (GetEventValue m.store now bot "add").1 ≠ 0 then m.currentBots ++ [bot]
        else m.currentBots).Nodup := by
      split
      · exact List.Nodup.append hm (List.nodup_singleton _) (List.disjoint_singleton.mpr hbot)
      · exact hm
    have hdis2 : ∀ b ∈ rest, b ∉ (if (GetEventValue m.store now bot "add").1 ≠ 0 then
        m.currentBots ++ [bot] else m.currentBots) := by
      intro b hbr
      have h1 : b ∉ m.currentBots := hdis b (List.mem_cons_of_mem _ hbr)
      have h2 : b ≠ bot := fun e => hnot (e ▸ hbr)
      split
      · intro hmem
        rcases List.mem_append.mp hmem with h | h
        · exact h1 h
        · exact h2 (List.mem_singleton.mp h)
      · exact h1
    unfold getBotsLoop
    simp only
    by_cases hv : (GetEventValue m.store now bot "add").1 ≠ 0
    · rw [if_pos hv] at hstep hdis2
      rw [if_pos hv]
      split
      · exact hstep
      · exact ih _ hrest hstep hdis2
    · rw [if_neg hv] at hstep hdis2
      rw [if_neg hv]
      split
      · exact hstep
      · exact ih _ hrest hstep hdis2

theorem GetBots_nodup (now : Int) (m : Mgr) (hnd : m.currentBots.Nodup)
    (hu : UniqueRows m.store.table) : (GetBots now m).currentBots.Nodup := by
  unfold GetBots
  by_cases h : m.currentBots ≠ []
  · rw [if_pos h]
    exact hnd
  · rw [if_neg h]
    have he : m.currentBots = [] := by simpa using h
    simp only
    refine getBotsLoop_nodup now _ _ _ ?_ ?_ ?_
    · rw [GetEventValue_table]
      exact selByOwnerAndEvent_nodup "add" _ hu
    · show m.currentBots.Nodup
      exact hnd
    · intro b _
      show b ∉ m.currentBots
      rw [he]
      exact List.not_mem_nil _

theorem ProcessBot_currentBots (cfg : BotConfig) (pe : ProcessEnv) (w : BotWorld) (m : Mgr)
    (bot : Nat) :
    (ProcessBot cfg pe w m bot).mgr.currentBots = m.currentBots ∨
    (ProcessBot cfg pe w m bot).mgr.currentBots = eraseBot m.currentBots bot := by
  by_cases hadd : (GetEventValue m.store pe.now bot "add").1 = 0
  · by_cases hg : (w.player.isNone || w.player.any (fun p => p.group.isNone)) = true
    · rw [ProcessBot_invalid cfg pe w m bot hadd hg]
      exact Or.inr rfl
    · unfold ProcessBot
      simp only
      rw [if_pos hadd, if_neg hg]
      exact Or.inl rfl
  · exact Or.inl (ProcessBot_valid_no_logout cfg pe w m bot bot hadd).2

/-- C30: `currentBots` never holds an id twice.  From a duplicate-free list, `GetBots`
(the table holding at most one row per bot and event), `AddRandomBots` (through
`tryLoginBot`), `ProcessBot(uint32)` and `OnPlayerLoginError` leave a duplicate-free list;
and the two removals, that of `ProcessBot` finalizing a log-out (the `add` event reads 0
and the character is absent or in no group) and that of `OnPlayerLoginError`, leave no
occurrence of the bot. -/
theorem currentBots_nodup (cfg : Config) (host : Host) (env : Env) (bcfg : BotConfig)
    (pe : ProcessEnv) (w : BotWorld) (commitOk : Bool) (gameTime now : Int) (m : Mgr)
    (bot : Nat) (hnd : m.currentBots.Nodup) :
    (UniqueRows m.store.table → (GetBots now m).currentBots.Nodup) ∧
    (∀ r, AddRandomBots cfg host env m = some r → r.mgr.currentBots.Nodup) ∧
    (∀ c, (tryLoginBot cfg host env m c).2.currentBots.Nodup) ∧
    (ProcessBot bcfg pe w m bot).mgr.currentBots.Nodup ∧
    ((GetEventValue m.store pe.now bot "add").1 = 0 →
      (w.player.isNone || w.player.any (fun p => p.group.isNone)) = true →
      bot ∉ (ProcessBot bcfg pe w m bot).mgr.currentBots) ∧
    (OnPlayerLoginError commitOk gameTime now m bot).currentBots.Nodup ∧
    bot ∉ (OnPlayerLoginError commitOk gameTime now m bot).currentBots := by
  refine ⟨GetBots_nodup now m hnd, fun r h => AddRandomBots_nodup cfg host env m r h hnd,
    fun c => tryLoginBot_nodup cfg host env m c hnd, ?_, ?_, eraseBot_nodup _ _ hnd,
    eraseBot_not_mem _ _⟩
  · rcases ProcessBot_currentBots bcfg pe w m bot with h | h
    · rw [h]
      exact hnd
    · rw [h]
      exact eraseBot_nodup _ _ hnd
  · intro hadd hg
    rw [ProcessBot_invalid bcfg pe w m bot hadd hg]
    exact eraseBot_not_mem _ _

theorem currentBots_nodup_witness :
    (GetBots 1000 persistedMgr).currentBots.Nodup ∧
    (GetBots 1000 persistedMgr).currentBots = [7, 9] ∧
    (∀ r, AddRandomBots sampleConfig humanHost sampleEnv persistedMgr = some r →
      r.mgr.currentBots.Nodup) :=
  ⟨(currentBots_nodup sampleConfig humanHost sampleEnv sampleBotConfig sampleProcessEnv
      onlineWorld true 1000 1000 persistedMgr 7 List.nodup_nil).1
      (UniqueRows_of_nodup _ (by decide)),
   by decide,
   (currentBots_nodup sampleConfig humanHost sampleEnv sampleBotConfig sampleProcessEnv
      onlineWorld true 1000 1000 persistedMgr 7 List.nodup_nil).2.1⟩

/-! ## CheckBgQueue: the minimum-instance-count policies -/

theorem flagged_idem (info : BattlegroundInfo) (minCount : Nat) :
    flagged (flagged info minCount) minCount = flagged info minCount := by
  by_cases h : info.activeBgQueue = 0 ∧ info.bgInstanceCount < minCount ∧
      info.bgInstances.length < minCount
  · simp [flagged, h]
  · simp [flagged, h]

theorem flagged_counts (info : BattlegroundInfo) (minCount : Nat) :
    (flagged info minCount).bgInstanceCount = info.bgInstanceCount ∧
    (flagged info minCount).bgInstances = info.bgInstances := by
  unfold flagged
  split <;> exact ⟨rfl, rfl⟩

theorem flagged_active (info : BattlegroundInfo) (minCount : Nat)
    (hc : info.bgInstanceCount = info.bgInstances.length) :
    (info.bgInstanceCount < minCount → info.activeBgQueue = 0 →
      (flagged info minCount).activeBgQueue = 1) ∧
    (minCount ≤ info.bgInstanceCount →
      (flagged info minCount).activeBgQueue = info.activeBgQueue) := by
  refine ⟨fun hlt h0 => ?_, fun hge => ?_⟩
  · have h : info.activeBgQueue = 0 ∧ info.bgInstanceCount < minCount ∧
        info.bgInstances.length < minCount := ⟨h0, hlt, hc ▸ hlt⟩
    unfold flagged
    rw [if_pos h]
  · have h : ¬ (info.activeBgQueue = 0 ∧ info.bgInstanceCount < minCount ∧
        info.bgInstances.length < minCount) := fun hh => Nat.lt_irrefl _
          (Nat.lt_of_lt_of_le hh.2.1 hge)
    unfold flagged
    rw [if_neg h]

theorem updateBG_step_apply (d : BgData) (queueType minCount bracket q b : Nat) :
    (if (d queueType bracket).activeBgQueue = 0 ∧
          (d queueType bracket).bgInstanceCount < minCount ∧
          (d queueType bracket).bgInstances.length < minCount then
        d.set queueType bracket { d queueType bracket with activeBgQueue := 1 }
      else d) q b
      = if q = queueType ∧ b = bracket then flagged (d q b) minCount else d q b := by
  by_cases hkey : q = queueType ∧ b = bracket
  · obtain ⟨hq, hb⟩ := hkey
    subst hq
    subst hb
    unfold flagged BgData.set
    split <;> simp
  · rw [if_neg hkey]
    unfold BgData.set
    split
    · simp only
      rw [if_neg hkey]
    · rfl

/-- The loop of `updateBGInstanceCount`, entry by entry: the entries of the queue type at
the listed brackets get the flag by the test, every other entry is left as it is. -/
theorem updateBGInstanceCount_apply (queueType minCount : Nat) :
    ∀ (brackets : List Nat) (d : BgData) (q b : Nat),
      updateBGInstanceCount queueType minCount brackets d q b
        = if q = queueType ∧ b ∈ brackets then flagged (d q b) minCount else d q b := by
  intro brackets
  induction brackets with
  | nil =>
    intro d q b
    simp [updateBGInstanceCount]
  | cons b0 rest ih =>
    intro d q b
    unfold updateBGInstanceCount
    rw [ih, updateBG_step_apply]
    by_cases hq : q = queueType
    · by_cases hb : b = b0
      · by_cases hr : b ∈ rest
        · simp [hq, hb, hr, flagged_idem]
        · simp [hq, hb, flagged_idem]
      · by_cases hr : b ∈ rest
        · simp [hq, hb, hr]
        · simp [hq, hb, hr]
    · simp [hq]

theorem updateRated_bg (d : BgData) (queueType bracket minCount q b : Nat) :
    (updateRatedArenaInstanceCount d queueType bracket minCount q b).activeBgQueue
      = (d q b).activeBgQueue ∧
    (updateRatedArenaInstanceCount d queueType bracket minCount q b).bgInstanceCount
      = (d q b).bgInstanceCount ∧
    (updateRatedArenaInstanceCount d queueType bracket minCount q b).bgInstances
      = (d q b).bgInstances := by
  unfold updateRatedArenaInstanceCount
  split
  · unfold BgData.set
    by_cases hkey : q = queueType ∧ b = bracket
    · obtain ⟨hq, hb⟩ := hkey
      subst hq
      subst hb
      simp
    · simp only
      rw [if_neg hkey]
      exact ⟨rfl, rfl, rfl⟩
  · exact ⟨rfl, rfl, rfl⟩

/-- The block of the policies, entry by entry, when the five queue types differ: an entry
of a policy at one of its brackets is the aggregated entry with the flag set by the test
(the arena updates change neither the flag nor the instance count), and in every entry the
instance count and the instance vector are those aggregated. -/
theorem autoJoinQueues_apply (k : BgEnums) (cfg : BgConfig) (d : BgData)
    (henum : [k.BATTLEGROUND_QUEUE_IC, k.BATTLEGROUND_QUEUE_EY, k.BATTLEGROUND_QUEUE_AV,
      k.BATTLEGROUND_QUEUE_AB, k.BATTLEGROUND_QUEUE_WS].Nodup) :
    (∀ p ∈ bgPolicies k cfg, ∀ b ∈ p.2.2,
      (autoJoinQueues k cfg d p.1 b).activeBgQueue = (flagged (d p.1 b) p.2.1).activeBgQueue) ∧
    (∀ q b, (autoJoinQueues k cfg d q b).bgInstanceCount = (d q b).bgInstanceCount ∧
      (autoJoinQueues k cfg d q b).bgInstances = (d q b).bgInstances) := by
  have hfl : ∀ (x y : BattlegroundInfo) (n : Nat), x.activeBgQueue = y.activeBgQueue →
      x.bgInstanceCount = y.bgInstanceCount → x.bgInstances = y.bgInstances →
      (flagged x n).activeBgQueue = (flagged y n).activeBgQueue := by
    intro x y n h1 h2 h3
    unfold flagged
    rw [h1, h2, h3]
    split <;> simp [h1]
  have hr3 : ∀ q b,
      ((updateRatedArenaInstanceCount (updateRatedArenaInstanceCount
        (updateRatedArenaInstanceCount d k.BATTLEGROUND_QUEUE_2v2
          cfg.randomBotAutoJoinArenaBracket cfg.randomBotAutoJoinBGRatedArena2v2Count)
        k.BATTLEGROUND_QUEUE_3v3 cfg.randomBotAutoJoinArenaBracket
          cfg.randomBotAutoJoinBGRatedArena3v3Count)
        k.BATTLEGROUND_QUEUE_5v5 cfg.randomBotAutoJoinArenaBracket
          cfg.randomBotAutoJoinBGRatedArena5v5Count) q b).activeBgQueue
        = (d q b).activeBgQueue ∧
      ((updateRatedArenaInstanceCount (updateRatedArenaInstanceCount
        (updateRatedArenaInstanceCount d k.BATTLEGROUND_QUEUE_2v2
          cfg.randomBotAutoJoinArenaBracket cfg.randomBotAutoJoinBGRatedArena2v2Count)
        k.BATTLEGROUND_QUEUE_3v3 cfg.randomBotAutoJoinArenaBracket
          cfg.randomBotAutoJoinBGRatedArena3v3Count)
        k.BATTLEGROUND_QUEUE_5v5 cfg.randomBotAutoJoinArenaBracket
          cfg.randomBotAutoJoinBGRatedArena5v5Count) q b).bgInstanceCount
        = (d q b).bgInstanceCount ∧
      ((updateRatedArenaInstanceCount (updateRatedArenaInstanceCount
        (updateRatedArenaInstanceCount d k.BATTLEGROUND_QUEUE_2v2
          cfg.randomBotAutoJoinArenaBracket cfg.randomBotAutoJoinBGRatedArena2v2Count)
        k.BATTLEGROUND_QUEUE_3v3 cfg.randomBotAutoJoinArenaBracket
          cfg.randomBotAutoJoinBGRatedArena3v3Count)
        k.BATTLEGROUND_QUEUE_5v5 cfg.randomBotAutoJoinArenaBracket
          cfg.randomBotAutoJoinBGRatedArena5v5Count) q b).bgInstances
        = (d q b).bgInstances := by
    intro q b
    obtain ⟨a1, a2, a3⟩ := updateRated_bg d k.BATTLEGROUND_QUEUE_2v2
      cfg.randomBotAutoJoinArenaBracket cfg.randomBotAutoJoinBGRatedArena2v2Count q b
    obtain ⟨b1, b2, b3⟩ := updateRated_bg
      (updateRatedArenaInstanceCount d k.BATTLEGROUND_QUEUE_2v2
        cfg.randomBotAutoJoinArenaBracket cfg.randomBotAutoJoinBGRatedArena2v2Count)
      k.BATTLEGROUND_QUEUE_3v3 cfg.randomBotAutoJoinArenaBracket
      cfg.randomBotAutoJoinBGRatedArena3v3Count q b
    obtain ⟨c1, c2, c3⟩ := updateRated_bg
      (updateRatedArenaInstanceCount (updateRatedArenaInstanceCount d
        k.BATTLEGROUND_QUEUE_2v2 cfg.randomBotAutoJoinArenaBracket
        cfg.randomBotAutoJoinBGRatedArena2v2Count)
        k.BATTLEGROUND_QUEUE_3v3 cfg.randomBotAutoJoinArenaBracket
        cfg.randomBotAutoJoinBGRatedArena3v3Count)
      k.BATTLEGROUND_QUEUE_5v5 cfg.randomBotAutoJoinArenaBracket
      cfg.randomBotAutoJoinBGRatedArena5v5Count q b
    exact ⟨c1.trans (b1.trans a1), c2.trans (b2.trans a2), c3.trans (b3.trans a3)⟩
  simp only [List.nodup_cons, List.mem_cons, List.mem_singleton, not_or, List.not_mem_nil,
    not_false_eq_true, List.nodup_nil, and_true] at henum
  obtain ⟨⟨h12, h13, h14, h15⟩, ⟨h23, h24, h25⟩, ⟨h34, h35⟩, h45⟩ := henum
  refine ⟨?_, ?_⟩
  · intro p hp b hb
    unfold bgPolicies at hp
    simp only [List.mem_cons, List.mem_singleton, List.not_mem_nil, or_false] at hp
    unfold autoJoinQueues
    simp only [updateBGInstanceCount_apply]
    rcases hp with hp | hp | hp | hp | hp
    · subst hp
      simp only at hb ⊢
      rw [if_neg (fun hh => h15 hh.1), if_neg (fun hh => h14 hh.1),
        if_neg (fun hh => h13 hh.1), if_neg (fun hh => h12 hh.1), if_pos ⟨trivial, hb⟩]
      exact hfl _ _ _ (hr3 _ _).1 (hr3 _ _).2.1 (hr3 _ _).2.2
    · subst hp
      simp only at hb ⊢
      rw [if_neg (fun hh => h25 hh.1), if_neg (fun hh => h24 hh.1),
        if_neg (fun hh => h23 hh.1), if_pos ⟨trivial, hb⟩,
        if_neg (fun hh => h12 hh.1.symm)]
      exact hfl _ _ _ (hr3 _ _).1 (hr3 _ _).2.1 (hr3 _ _).2.2
    · subst hp
      simp only at hb ⊢
      rw [if_neg (fun hh => h35 hh.1), if_neg (fun hh => h34 hh.1), if_pos ⟨trivial, hb⟩,
        if_neg (fun hh => h23 hh.1.symm), if_neg (fun hh => h13 hh.1.symm)]
      exact hfl _ _ _ (hr3 _ _).1 (hr3 _ _).2.1 (hr3 _ _).2.2
    · subst hp
      simp only at hb ⊢
      rw [if_neg (fun hh => h45 hh.1), if_pos ⟨trivial, hb⟩, if_neg (fun hh => h34 hh.1.symm),
        if_neg (fun hh => h24 hh.1.symm), if_neg (fun hh => h14 hh.1.symm)]
      exact hfl _ _ _ (hr3 _ _).1 (hr3 _ _).2.1 (hr3 _ _).2.2
    · subst hp
      simp only at hb ⊢
      rw [if_pos ⟨trivial, hb⟩, if_neg (fun hh => h45 hh.1.symm),
        if_neg (fun hh => h35 hh.1.symm), if_neg (fun hh => h25 hh.1.symm),
        if_neg (fun hh => h15 hh.1.symm)]
      exact hfl _ _ _ (hr3 _ _).1 (hr3 _ _).2.1 (hr3 _ _).2.2
  · intro q b
    have hstep : ∀ (qt mc : Nat) (bs : List Nat) (x : BgData),
        (updateBGInstanceCount qt mc bs x q b).bgInstanceCount = (x q b).bgInstanceCount ∧
        (updateBGInstanceCount qt mc bs x q b).bgInstances = (x q b).bgInstances := by
      intro qt mc bs x
      rw [updateBGInstanceCount_apply]
      split
      · exact flagged_counts _ _
      · exact ⟨rfl, rfl⟩
    unfold autoJoinQueues
    refine ⟨?_, ?_⟩
    · rw [(hstep _ _ _ _).1, (hstep _ _ _ _).1, (hstep _ _ _ _).1, (hstep _ _ _ _).1,
        (hstep _ _ _ _).1]
      exact (hr3 q b).2.1
    · rw [(hstep _ _ _ _).2, (hstep _ _ _ _).2, (hstep _ _ _ _).2, (hstep _ _ _ _).2,
        (hstep _ _ _ _).2]
      exact (hr3 q b).2.2

/-! ## CheckBgQueue: the aggregation -/

theorem pushInstance_length_eq (info : BattlegroundInfo) (ids : List Nat)
    (h : info.bgInstanceCount = ids.length) (h2 : info.bgInstances = ids) :
    info.bgInstanceCount = info.bgInstances.length := by
  rw [h, h2]

theorem playerSlotInfo_counts (c : BgCharacter) (sl : QueueSlot) (diff : BracketEntry)
    (info info2 : BattlegroundInfo) (h : playerSlotInfo c sl diff info = some info2)
    (hc : info.bgInstanceCount = info.bgInstances.length) :
    info2.bgInstanceCount = info2.bgInstances.length := by
  unfold playerSlotInfo at h
  simp only at h
  by_cases ha : sl.arenaType ≠ 0
  · rw [if_pos ha] at h
    cases hr : slotIsRated c sl with
    | none =>
      rw [hr] at h
      exact absurd h (by simp)
    | some isRated =>
      rw [hr] at h
      simp only at h
      cases isRated <;> cases hf : (!c.invitedForInstance && !c.inBattleground) <;>
        simp [hf] at h <;> subst h <;> exact hc
  · rw [if_neg ha] at h
    cases hin : c.inBattleground with
    | false =>
      simp only [hin, Bool.false_eq_true, if_false] at h
      cases hal : c.isAlliance <;> cases hiv : c.invitedForInstance <;>
        simp [hal, hiv] at h <;> subst h <;> exact hc
    | true =>
      simp only [hin, if_true] at h
      cases hbg : c.battleground with
      | none =>
        rw [hbg] at h
        exact absurd h (by simp)
      | some bg =>
        rw [hbg] at h
        cases hal : c.isAlliance <;> simp [hal] at h <;> subst h <;> rfl

theorem botSlotInfo_counts (c : BgCharacter) (sl : QueueSlot) (diff : BracketEntry)
    (info info2 : BattlegroundInfo) (h : botSlotInfo c sl diff info = some info2)
    (hc : info.bgInstanceCount = info.bgInstances.length) :
    info2.bgInstanceCount = info2.bgInstances.length := by
  unfold botSlotInfo at h
  simp only at h
  split at h
  · exact absurd h (by simp)
  · rename_i i3 hi3
    have h3 : i3.bgInstanceCount = i3.bgInstances.length := by
      by_cases ha : sl.arenaType ≠ 0
      · rw [if_pos ha] at hi3
        cases hr : slotIsRated c sl with
        | none =>
          rw [hr] at hi3
          exact absurd hi3 (by simp)
        | some isRated =>
          rw [hr] at hi3
          cases isRated <;> simp at hi3 <;> subst hi3 <;> exact hc
      · rw [if_neg ha] at hi3
        cases hal : c.isAlliance <;> simp [hal] at hi3 <;> subst hi3 <;> exact hc
    cases hin : c.inBattleground with
    | false =>
      simp only [hin, Bool.false_eq_true, if_false, Option.some.injEq] at h
      subst h
      exact h3
    | true =>
      simp only [hin, if_true] at h
      cases hbg : c.battleground with
      | none =>
        rw [hbg] at h
        exact absurd h (by simp)
      | some bg =>
        rw [hbg] at h
        cases har : c.inArena <;> cases hra : bg.isRated <;> simp [har, hra] at h <;>
          subst h <;> first | exact h3 | rfl

theorem slotStep_counts (k : BgEnums)
    (body : QueueSlot → BracketEntry → BattlegroundInfo → Option BattlegroundInfo)
    (hbody : ∀ sl diff info info2, body sl diff info = some info2 →
      info.bgInstanceCount = info.bgInstances.length →
      info2.bgInstanceCount = info2.bgInstances.length)
    (d d2 : BgData) (sl : QueueSlot) (h : slotStep k body d sl = some d2)
    (hc : CountsInstances d) : CountsInstances d2 := by
  unfold slotStep at h
  split at h
  · cases h
    exact hc
  · split at h
    · cases h
      exact hc
    · rename_i diff _
      split at h
      · exact absurd h (by simp)
      · rename_i info hinfo
        cases h
        intro q b
        unfold BgData.set
        split
        · exact hbody sl diff _ info hinfo (hc _ _)
        · exact hc q b

theorem loopOver_counts {α : Type} (step : BgData → α → Option BgData)
    (hstep : ∀ d x d2, step d x = some d2 → CountsInstances d → CountsInstances d2) :
    ∀ (l : List α) (d d2 : BgData), loopOver step l d = some d2 → CountsInstances d →
      CountsInstances d2 := by
  intro l
  induction l with
  | nil =>
    intro d d2 h hc
    unfold loopOver at h
    cases h
    exact hc
  | cons x rest ih =>
    intro d d2 h hc
    unfold loopOver at h
    split at h
    · exact absurd h (by simp)
    · rename_i d1 hd1
      exact ih d1 d2 h (hstep d x d1 hd1 hc)

theorem aggregate_counts (k : BgEnums) (w : BgWorld) (d agg : BgData)
    (h : aggregate k w d = some agg) (hc : CountsInstances d) : CountsInstances agg := by
  unfold aggregate at h
  split at h
  · exact absurd h (by simp)
  · rename_i d1 hd1
    have hreset : CountsInstances (resetData k d) := by
      intro q b
      unfold resetData
      split
      · rfl
      · exact hc q b
    have h1 : CountsInstances d1 := by
      refine loopOver_counts (playerStep k) ?_ w.players _ d1 hd1 hreset
      intro x c x2 hx hcx
      unfold playerStep at hx
      split at hx
      · cases hx
        exact hcx
      · split at hx
        · cases hx
          exact hcx
        · exact loopOver_counts (slotStep k (playerSlotInfo c))
            (fun y sl y2 hy => slotStep_counts k _ (playerSlotInfo_counts c) y y2 sl hy)
            c.slots x x2 hx hcx
    refine loopOver_counts (botStep k) ?_ w.playerBots d1 agg h h1
    intro x bot x2 hx hcx
    unfold botStep at hx
    split at hx
    · cases hx
      exact hcx
    · rename_i c
      split at hx
      · cases hx
        exact hcx
      · split at hx
        · cases hx
          exact hcx
        · exact loopOver_counts (slotStep k (botSlotInfo c))
            (fun y sl y2 hy => slotStep_counts k _ (botSlotInfo_counts c) y y2 sl hy)
            c.slots x x2 hx hcx

theorem slotIsRated_some (c : BgCharacter) (sl : QueueSlot) (h : hasBattleground c = true) :
    ∃ r, slotIsRated c sl = some r := by
  unfold slotIsRated
  simp only
  split
  · exact ⟨_, rfl⟩
  · split
    · rename_i har
      cases hbg : c.battleground with
      | none =>
        unfold hasBattleground at h
        simp [har, hbg] at h
      | some bg => exact ⟨_, rfl⟩
    · exact ⟨_, rfl⟩

theorem playerSlotInfo_some (c : BgCharacter) (sl : QueueSlot) (diff : BracketEntry)
    (info : BattlegroundInfo) (h : hasBattleground c = true) :
    ∃ i, playerSlotInfo c sl diff info = some i := by
  unfold playerSlotInfo
  simp only
  by_cases ha : sl.arenaType ≠ 0
  · rw [if_pos ha]
    obtain ⟨r, hr⟩ := slotIsRated_some c sl h
    rw [hr]
    simp only
    split
    · split <;> exact ⟨_, rfl⟩
    · exact ⟨_, rfl⟩
  · rw [if_neg ha]
    cases hin : c.inBattleground with
    | false =>
      simp only [Bool.false_eq_true, if_false]
      split <;> exact ⟨_, rfl⟩
    | true =>
      simp only [if_true]
      cases hbg : c.battleground with
      | none =>
        unfold hasBattleground at h
        simp [hin, hbg] at h
      | some bg =>
        simp only
        split <;> exact ⟨_, rfl⟩

theorem botSlotInfo_some (c : BgCharacter) (sl : QueueSlot) (diff : BracketEntry)
    (info : BattlegroundInfo) (h : hasBattleground c = true) :
    ∃ i, botSlotInfo c sl diff info = some i := by
  have h2 : ∃ i3, (if sl.arenaType ≠ 0 then
        match slotIsRated c sl with
        | none => none
        | some isRated =>
          if isRated then
            some { ({ info with minLevel := diff.minLevel, maxLevel := diff.maxLevel } :
              BattlegroundInfo) with ratedArenaBotCount := info.ratedArenaBotCount + 1 }
          else
            some { ({ info with minLevel := diff.minLevel, maxLevel := diff.maxLevel } :
              BattlegroundInfo) with skirmishArenaBotCount := info.skirmishArenaBotCount + 1 }
      else if c.isAlliance then
        some { ({ info with minLevel := diff.minLevel, maxLevel := diff.maxLevel } :
          BattlegroundInfo) with bgAllianceBotCount := info.bgAllianceBotCount + 1 }
      else
        some { ({ info with minLevel := diff.minLevel, maxLevel := diff.maxLevel } :
          BattlegroundInfo) with bgHordeBotCount := info.bgHordeBotCount + 1 }) = some i3 := by
    by_cases ha : sl.arenaType ≠ 0
    · rw [if_pos ha]
      obtain ⟨r, hr⟩ := slotIsRated_some c sl h
      rw [hr]
      simp only
      split <;> exact ⟨_, rfl⟩
    · rw [if_neg ha]
      split <;> exact ⟨_, rfl⟩
  obtain ⟨i3, hi3⟩ := h2
  unfold botSlotInfo
  simp only
  rw [hi3]
  simp only
  cases hin : c.inBattleground with
  | false =>
    simp only [Bool.false_eq_true, if_false]
    exact ⟨_, rfl⟩
  | true =>
    simp only [if_true]
    cases hbg : c.battleground with
    | none =>
      unfold hasBattleground at h
      simp [hin, hbg] at h
    | some bg =>
      simp only
      split
      · split <;> exact ⟨_, rfl⟩
      · exact ⟨_, rfl⟩

theorem loopOver_some {α : Type} (step : BgData → α → Option BgData) :
    ∀ (l : List α) (d : BgData), (∀ x ∈ l, ∀ y, ∃ y2, step y x = some y2) →
      ∃ d2, loopOver step l d = some d2 := by
  intro l
  induction l with
  | nil => exact fun d _ => ⟨d, rfl⟩
  | cons x rest ih =>
    intro d h
    obtain ⟨d1, hd1⟩ := h x (List.mem_cons_self _ _) d
    obtain ⟨d2, hd2⟩ := ih d1 (fun y hy => h y (List.mem_cons_of_mem _ hy))
    refine ⟨d2, ?_⟩
    unfold loopOver
    rw [hd1]
    exact hd2

theorem slotStep_some (k : BgEnums)
    (body : QueueSlot → BracketEntry → BattlegroundInfo → Option BattlegroundInfo)
    (hbody : ∀ sl diff info, ∃ i, body sl diff info = some i) (d : BgData) (sl : QueueSlot) :
    ∃ d2, slotStep k body d sl = some d2 := by
  unfold slotStep
  split
  · exact ⟨_, rfl⟩
  · split
    · exact ⟨_, rfl⟩
    · rename_i diff _
      obtain ⟨i, hi⟩ := hbody sl diff (d sl.queueTypeId diff.bracketId)
      rw [hi]
      exact ⟨_, rfl⟩

theorem aggregate_some (k : BgEnums) (w : BgWorld) (d : BgData)
    (h : noNullBattleground w = true) : ∃ agg, aggregate k w d = some agg := by
  unfold noNullBattleground at h
  rw [Bool.and_eq_true, List.all_eq_true, List.all_eq_true] at h
  obtain ⟨hp, hb⟩ := h
  obtain ⟨d1, hd1⟩ := loopOver_some (playerStep k) w.players (resetData k d) (by
    intro c hc y
    unfold playerStep
    split
    · exact ⟨_, rfl⟩
    · split
      · exact ⟨_, rfl⟩
      · exact loopOver_some _ _ _ (fun sl _ z =>
          slotStep_some k _ (fun sl2 diff info =>
            playerSlotInfo_some c sl2 diff info (hp c hc)) z sl))
  obtain ⟨d2, hd2⟩ := loopOver_some (botStep k) w.playerBots d1 (by
    intro bot hbot y
    unfold botStep
    split
    · exact ⟨_, rfl⟩
    · rename_i c
      split
      · exact ⟨_, rfl⟩
      · split
        · exact ⟨_, rfl⟩
        · exact loopOver_some _ _ _ (fun sl _ z =>
            slotStep_some k _ (fun sl2 diff info =>
              botSlotInfo_some c sl2 diff info (hb (some c) hbot)) z sl))
  refine ⟨d2, ?_⟩
  unfold aggregate
  rw [hd1]
  exact hd2

/-- C21: a run of `CheckBgQueue` that passes the timer, with auto-join enabled and at
least as many entries in `playerBots` as the target, returns (no null battleground being
dereferenced) and, in data whose instance counts are the sizes of the instance vectors,
it leaves for each of the five battleground policies and every bracket configured for
it: the aggregated instance count; `activeBgQueue = 1` if the aggregated count is below
the floor and no queue was flagged active by the aggregation; and the aggregated flag if
the count is at or above the floor. -/
theorem CheckBgQueue_flags_below_floor (k : BgEnums) (cfg : BgConfig) (w : BgWorld)
    (now : Int) (m : BgMgr)
    (henum : [k.BATTLEGROUND_QUEUE_IC, k.BATTLEGROUND_QUEUE_EY, k.BATTLEGROUND_QUEUE_AV,
      k.BATTLEGROUND_QUEUE_AB, k.BATTLEGROUND_QUEUE_WS].Nodup)
    (htimer : m.BgCheckTimer ≠ 0) (hnow : m.BgCheckTimer ≤ now)
    (hjoin : cfg.randomBotAutoJoinBG = true)
    (honline : (GetEventValue m.store now 0 "bot_count").1 ≤ w.playerBots.length)
    (hcons : CountsInstances m.BattlegroundData)
    (hwell : noNullBattleground w = true) :
    ∃ agg r, aggregate k w m.BattlegroundData = some agg ∧
      CheckBgQueue k cfg w now m = some r ∧
      r.BgCheckTimer = now ∧
      CountsInstances agg ∧ CountsInstances r.BattlegroundData ∧
      ∀ p ∈ bgPolicies k cfg, ∀ b ∈ p.2.2,
        (r.BattlegroundData p.1 b).bgInstanceCount = (agg p.1 b).bgInstanceCount ∧
        ((agg p.1 b).bgInstanceCount < p.2.1 → (agg p.1 b).activeBgQueue = 0 →
          (r.BattlegroundData p.1 b).activeBgQueue = 1) ∧
        (p.2.1 ≤ (agg p.1 b).bgInstanceCount →
          (r.BattlegroundData p.1 b).activeBgQueue = (agg p.1 b).activeBgQueue) := by
  obtain ⟨agg, hagg⟩ := aggregate_some k w m.BattlegroundData hwell
  have hca := aggregate_counts k w _ agg hagg hcons
  obtain ⟨hact, hcnt⟩ := autoJoinQueues_apply k cfg agg henum
  refine ⟨agg, ⟨now, autoJoinQueues k cfg agg, (GetEventValue m.store now 0 "bot_count").2⟩,
    hagg, ?_, rfl, hca, ?_, ?_⟩
  · unfold CheckBgQueue
    rw [if_neg htimer, if_neg (not_lt.mpr hnow), hagg]
    simp only
    rw [if_pos hjoin, if_pos honline]
  · intro q b
    show (autoJoinQueues k cfg agg q b).bgInstanceCount
      = (autoJoinQueues k cfg agg q b).bgInstances.length
    rw [(hcnt q b).1, (hcnt q b).2]
    exact hca q b
  · intro p hp b hb
    show (autoJoinQueues k cfg agg p.1 b).bgInstanceCount = _ ∧
      (_ → _ → (autoJoinQueues k cfg agg p.1 b).activeBgQueue = 1) ∧
      (_ → (autoJoinQueues k cfg agg p.1 b).activeBgQueue = _)
    rw [hact p hp b hb]
    exact ⟨(hcnt p.1 b).1, (flagged_active _ _ (hca p.1 b)).1,
      (flagged_active _ _ (hca p.1 b)).2⟩

theorem CheckBgQueue_flags_below_floor_witness :
    ∃ agg r, aggregate sampleEnums sampleBgWorld sampleBgMgr.BattlegroundData = some agg ∧
      CheckBgQueue sampleEnums sampleBgConfig sampleBgWorld 1000 sampleBgMgr = some r ∧
      ((agg 2 3).bgInstanceCount, (agg 2 3).activeBgQueue) = (1, 0) ∧
      ((r.BattlegroundData 2 3).bgInstanceCount, (r.BattlegroundData 2 3).activeBgQueue)
        = (1, 1) ∧
      ((agg 3 3).bgInstanceCount, (agg 3 3).activeBgQueue) = (1, 0) ∧
      ((r.BattlegroundData 3 3).bgInstanceCount, (r.BattlegroundData 3 3).activeBgQueue)
        = (1, 0) := by
  obtain ⟨agg, r, h1, h2, _, _, _, h6⟩ :=
    CheckBgQueue_flags_below_floor sampleEnums sampleBgConfig sampleBgWorld 1000 sampleBgMgr
      (by decide) (by decide) (by decide) rfl (by decide) (fun _ _ => rfl) (by decide)
  have e1 : (aggregate sampleEnums sampleBgWorld sampleBgMgr.BattlegroundData).map
      (fun a => ((a 2 3).bgInstanceCount, (a 2 3).activeBgQueue,
        (a 3 3).bgInstanceCount, (a 3 3).activeBgQueue)) = some (1, 0, 1, 0) := by decide
  rw [h1] at e1
  simp only [Option.map_some', Option.some.injEq, Prod.mk.injEq] at e1
  obtain ⟨a1, a2, a3, a4⟩ := e1
  obtain ⟨w1, w2, _⟩ := h6 (2, 2, [3]) (by decide) 3 (by decide)
  obtain ⟨x1, _, x3⟩ := h6 (3, 1, [3]) (by decide) 3 (by decide)
  refine ⟨agg, r, h1, h2, ?_, ?_, ?_, ?_⟩
  · rw [a1, a2]
  · rw [w1, a1, w2 (by rw [a1]; decide) a2]
  · rw [a3, a4]
  · rw [x1, a3, x3 (by rw [a3]), a4]

end RandomPlayerbotMgr
